import Mathlib

/-! # RealisticProjectileComponent: trajectory engine and hit resolution

A shallow embedding of `RealisticProjectileComponent.h` / `.cpp`.

* `float` is an arbitrary linearly ordered field `α`; the theorems instantiate it with `ℝ`
  (exact arithmetic) and evaluate concrete inputs over `ℝ` or `ℚ`.
* `sqrtf`, `acosf` and the rotation helpers of the engine are passed in as functions, so every
  definition stays executable; theorems about square roots use `Real.sqrt`.
* Engine types (`FVector`, `FRotator`, `FHitResult`, `FRandomStream`) carry the fields the
  component reads, with the engine's documented arithmetic.
-/

set_option autoImplicit false

/-! ## Engine vector math -/

/-- The engine's three-component vector. -/
@[ext]
structure FVector (α : Type) where
  X : α
  Y : α
  Z : α
deriving DecidableEq

/-- The engine's rotator (degrees). -/
@[ext]
structure FRotator (α : Type) where
  Pitch : α
  Yaw : α
  Roll : α
deriving DecidableEq

namespace FVector

variable {α : Type} [LinearOrderedField α]

/-- `FVector::ZeroVector`. -/
def ZeroVector : FVector α := ⟨0, 0, 0⟩

instance : Add (FVector α) := ⟨fun a b => ⟨a.X + b.X, a.Y + b.Y, a.Z + b.Z⟩⟩

instance : Sub (FVector α) := ⟨fun a b => ⟨a.X - b.X, a.Y - b.Y, a.Z - b.Z⟩⟩

instance : Neg (FVector α) := ⟨fun a => ⟨-a.X, -a.Y, -a.Z⟩⟩

/-- Component-wise product, `FVector::operator*(const FVector&)`. -/
instance : Mul (FVector α) := ⟨fun a b => ⟨a.X * b.X, a.Y * b.Y, a.Z * b.Z⟩⟩

/-- Scaling, `FVector::operator*(float)` and `operator*(float, const FVector&)`. -/
instance : SMul α (FVector α) := ⟨fun s a => ⟨a.X * s, a.Y * s, a.Z * s⟩⟩

/-- Division by a scalar, `FVector::operator/(float)`: multiplies by the reciprocal. -/
instance : HDiv (FVector α) α (FVector α) :=
  ⟨fun a s => ⟨a.X * (1 / s), a.Y * (1 / s), a.Z * (1 / s)⟩⟩

/-- `FVector::DotProduct`, also `operator|`. -/
def DotProduct (a b : FVector α) : α := a.X * b.X + a.Y * b.Y + a.Z * b.Z

/-- `FVector::SizeSquared`. -/
def SizeSquared (a : FVector α) : α := a.X * a.X + a.Y * a.Y + a.Z * a.Z

/-- `FVector::Size`. -/
def Size (sqrt : α → α) (a : FVector α) : α := sqrt (a.X * a.X + a.Y * a.Y + a.Z * a.Z)

/-- `FMath::FloatSelect(Comparand, ValueGEZero, ValueLTZero)`. -/
def FloatSelect (Comparand ValueGEZero ValueLTZero : α) : α :=
  if Comparand ≥ 0 then ValueGEZero else ValueLTZero

/-- `FVector::GetSignVector`: each component is `1` when non-negative, else `-1`. -/
def GetSignVector (a : FVector α) : FVector α :=
  ⟨FloatSelect a.X 1 (-1), FloatSelect a.Y 1 (-1), FloatSelect a.Z 1 (-1)⟩

/-- The engine constant `SMALL_NUMBER` (1.e-8f). -/
def SMALL_NUMBER : α := 1 / 100000000

/-- The engine constant `KINDA_SMALL_NUMBER` (1.e-4f). -/
def KINDA_SMALL_NUMBER : α := 1 / 10000

/-- `FVector::ToDirectionAndLength(OutDir, OutLength)`: the length is `Size()`, the direction is
the vector scaled by the reciprocal length when the length exceeds `SMALL_NUMBER`, and the zero
vector otherwise. -/
def ToDirectionAndLength (sqrt : α → α) (a : FVector α) : FVector α × α :=
  let OutLength := Size sqrt a
  if OutLength > SMALL_NUMBER then
    let OneOverLength := 1 / OutLength
    (⟨a.X * OneOverLength, a.Y * OneOverLength, a.Z * OneOverLength⟩, OutLength)
  else
    (ZeroVector, OutLength)

/-- `FVector::GetSafeNormal(Tolerance = SMALL_NUMBER)`. -/
def GetSafeNormal (sqrt : α → α) (a : FVector α) : FVector α :=
  let SquareSum := a.X * a.X + a.Y * a.Y + a.Z * a.Z
  if SquareSum = 1 then a
  else if SquareSum < SMALL_NUMBER then ZeroVector
  else
    let Scale := 1 / sqrt SquareSum
    ⟨a.X * Scale, a.Y * Scale, a.Z * Scale⟩

/-- `FVector::GetClampedToMaxSize(MaxSize)`. -/
def GetClampedToMaxSize (sqrt : α → α) (a : FVector α) (MaxSize : α) : FVector α :=
  if MaxSize < KINDA_SMALL_NUMBER then ZeroVector
  else
    let VSq := SizeSquared a
    if VSq > MaxSize * MaxSize then
      let Scale := MaxSize * (1 / sqrt VSq)
      ⟨a.X * Scale, a.Y * Scale, a.Z * Scale⟩
    else a

/-- `FVector::MirrorByVector(MirrorNormal)`: `*this - MirrorNormal * (2 * (*this | MirrorNormal))`. -/
def MirrorByVector (a MirrorNormal : FVector α) : FVector α :=
  a - (2 * DotProduct a MirrorNormal) • MirrorNormal

/-- `FVector::VectorPlaneProject(V, PlaneNormal)`: `V - V.ProjectOnToNormal(PlaneNormal)`. -/
def VectorPlaneProject (V PlaneNormal : FVector α) : FVector α :=
  V - (DotProduct V PlaneNormal) • PlaneNormal

/-- `FVector::IsNearlyZero(Tolerance)`. -/
def IsNearlyZero (a : FVector α) (Tolerance : α) : Bool :=
  decide (|a.X| ≤ Tolerance) && decide (|a.Y| ≤ Tolerance) && decide (|a.Z| ≤ Tolerance)

end FVector

namespace FRotator

variable {α : Type} [LinearOrderedField α]

/-- `FRotator::ZeroRotator`. -/
def ZeroRotator : FRotator α := ⟨0, 0, 0⟩

instance : Add (FRotator α) := ⟨fun a b => ⟨a.Pitch + b.Pitch, a.Yaw + b.Yaw, a.Roll + b.Roll⟩⟩

/-- Scaling, `FRotator::operator*(float)`. -/
instance : SMul α (FRotator α) := ⟨fun s a => ⟨a.Pitch * s, a.Yaw * s, a.Roll * s⟩⟩

end FRotator

/-- `FMath::Clamp(X, Min, Max)`: `X < Min ? Min : X < Max ? X : Max`. -/
def FMath.Clamp {α : Type} [LinearOrderedField α] (X Min Max : α) : α :=
  if X < Min then Min else if X < Max then X else Max

/-- `FMath::GetMappedRangeValueClamped(InputRange, OutputRange, Value)` with the ranges given by
their two ends: the clamped percentage of `Value` along the input range, interpolated along the
output range. -/
def FMath.GetMappedRangeValueClamped {α : Type} [LinearOrderedField α]
    (InX InY OutX OutY Value : α) : α :=
  let ClampedPct := FMath.Clamp ((Value - InX) / (InY - InX)) 0 1
  OutX + ClampedPct * (OutY - OutX)

/-! ## Engine records read by the component -/

/-- The fields of the engine's `FHitResult` that the component reads. `Actor`, `Component` and
`PhysMaterial` are weak references: `none` is the null reference. -/
structure FHitResult (α : Type) where
  Time : α
  Location : FVector α
  ImpactPoint : FVector α
  ImpactNormal : FVector α
  Actor : Option Nat
  Component : Option Nat
  PhysMaterial : Option String
  BoneName : String
  bStartPenetrating : Bool

/-- The constructor `FHitResult(float InTime)`: everything zeroed, `Time` set. -/
def FHitResult.Init {α : Type} [LinearOrderedField α] (InTime : α) : FHitResult α :=
  ⟨InTime, FVector.ZeroVector, FVector.ZeroVector, FVector.ZeroVector, none, none, none, "", false⟩

/-- The engine's `FRandomStream`; `Seed` is the 32-bit pattern of the current seed. -/
structure FRandomStream where
  InitialSeed : Nat
  Seed : Nat
deriving DecidableEq

/-- `FRandomStream::MutateSeed`: `Seed = Seed * 196314165 + 907633515` in 32 bits. -/
def FRandomStream.MutateSeed (s : FRandomStream) : FRandomStream :=
  { s with Seed := (s.Seed * 196314165 + 907633515) % 4294967296 }

/-- `FRandomStream::FRand`: mutates the seed and returns the fraction made of its low 23 bits,
a sample in `[0, 1)`. Returns the sample and the advanced stream. -/
def FRandomStream.FRand {α : Type} [LinearOrderedField α] (s : FRandomStream) :
    α × FRandomStream :=
  let s' := s.MutateSeed
  (((s'.Seed % 8388608 : Nat) : α) / 8388608, s')

/-- `FMaterialProperties`: a row of the material table. The default row has toughness `1`. -/
structure FMaterialProperties (α : Type) where
  Toughness : α

/-- `DEFAULT_TOUGHNESS` of the header. -/
def DEFAULT_TOUGHNESS {α : Type} [LinearOrderedField α] : α := 5000

/-- `EProjectileBehavior`. -/
inductive EProjectileBehavior where
  | PB_Bounce_Only
  | PB_Penetrate_Only
  | PB_Bounce_And_Penetrate
deriving DecidableEq

/-- `ECollisionResponse`, ordered `ECR_Ignore < ECR_Overlap < ECR_Block`. -/
inductive ECollisionResponse where
  | ECR_Ignore
  | ECR_Overlap
  | ECR_Block
deriving DecidableEq

/-- `ECollisionResponse` as the integer the engine compares with `<`. -/
def ECollisionResponse.rank : ECollisionResponse → Nat
  | .ECR_Ignore => 0
  | .ECR_Overlap => 1
  | .ECR_Block => 2

/-- The engine math the component calls: `sqrtf`, `acosf`, `FVector::Rotation` and
`FRotator::RotateVector`. -/
structure FEngineMath (α : Type) where
  sqrt : α → α
  acos : α → α
  Rotation : FVector α → FRotator α
  RotateVector : FRotator α → FVector α → FVector α

/-- The world the component queries: the shape sweep `ComponentSweepMulti(Start, End, Rot)` of
the updated primitive (initial overlaps included, the primitive itself ignored) and the
collision response of the updated primitive to another component. -/
structure UWorld (α : Type) where
  ComponentSweepMulti : FVector α → FVector α → FRotator α → List (FHitResult α)
  GetCollisionResponseToComponent : Option Nat → ECollisionResponse

/-! ## Trajectory initial conditions -/

/-- `FTrajectoryInitialConditions`: the frozen snapshot a trajectory is computed from. -/
structure FTrajectoryInitialConditions (α : Type) where
  InitialVelocity : FVector α
  InitialWorldLocation : FVector α
  InitialRotation : FRotator α
  t0 : α
  v0direction : FVector α
  v0length : α
  PenRestDeltaTime : α
  PenRestLocation : FVector α
  PenDeceleration : α

/-- The five-argument constructor
`FTrajectoryInitialConditions(v0, Loc0, GameTime, Rotation, PenetrationDeceleration)`. -/
def FTrajectoryInitialConditions.Init {α : Type} [LinearOrderedField α] (sqrt : α → α)
    (v0 Loc0 : FVector α) (GameTime : α) (Rotation : FRotator α)
    (PenetrationDeceleration : α) : FTrajectoryInitialConditions α :=
  let dl := FVector.ToDirectionAndLength sqrt v0
  let v0direction := dl.1
  let v0length := dl.2
  let PenRestDeltaTime := (0.01 * v0length) / -PenetrationDeceleration
  let xt := (((0.5 * (PenetrationDeceleration * PenRestDeltaTime)) * PenRestDeltaTime)
      • v0direction) + (PenRestDeltaTime • (v0 / (100 : α)))
  { InitialVelocity := v0
    InitialWorldLocation := Loc0
    InitialRotation := Rotation
    t0 := GameTime
    v0direction := v0direction
    v0length := v0length
    PenRestDeltaTime := PenRestDeltaTime
    PenRestLocation := Loc0 + xt
    PenDeceleration := PenetrationDeceleration }

/-! ## The component -/

/-- What the component broadcasts through its delegates, and the impulses it applies to other
bodies, in the order they happen. -/
inductive FProjectileEvent (α : Type) where
  | OnProjectileAnyHit (HitDetails : FHitResult α) (ImpactVelocity : FVector α)
  | OnProjectileBounce (ImpactResult : FHitResult α) (ImpactVelocity : FVector α)
  | OnProjectilePenetrate (ImpactResult : FHitResult α) (ImpactVelocity : FVector α)
  | OnPenetrationExit (ExitHit : FHitResult α) (ExitVelocity : FVector α)
  | OnProjectileStop (ImpactResult : FHitResult α)
  | OnProjectileEmbed (HitResult : FHitResult α) (ImpactVelocity : α)
  | OnComponentBeginOverlap (HitResult : FHitResult α) (TrajectoryNum : Int)
      (StartTime EndTime : α)
  | ApplyImpulse (Hit : FHitResult α) (ImpactVelocity : FVector α)

/-- The body the component moves (`UpdatedComponent` / `UpdatedPrimitive` and its owner actor),
as far as the component reads and writes it. -/
structure FUpdatedBody (α : Type) where
  Location : FVector α
  Rotation : FRotator α
  ComponentVelocity : FVector α
  bCollisionEnabled : Bool
  bSimulatePhysics : Bool
  PhysicsLinearVelocity : FVector α
  AttachParent : Option (Nat × String)
  bOwnerPendingKill : Bool

/-- The state of `URealisticProjectileComponent`: its configuration properties, its simulation
state, the body it moves and the events it has broadcast. `UpdatedComponentIsNull` is the test
`UpdatedComponent == NULL` of `HasStoppedSimulation`. -/
structure URealisticProjectileComponent (α : Type) where
  MaterialPropertiesTable : Option (String → Option (FMaterialProperties α))
  InitialConditions : FTrajectoryInitialConditions α
  InitialConditionHistory : List (FTrajectoryInitialConditions α)
  TrajectoryNumber : Int
  CurrentPenetrationDeceleration : α
  AngularVelocity : FRotator α
  ObjectsPenetrated : List (FHitResult α)
  TerminalVelocity : α
  CurrentGravity : α
  EmbedDepth : α
  ImpulseScale : α
  InitialSpeed : α
  MaxSpeed : α
  PenetrationModifier : α
  bRotationFollowsVelocity : Bool
  ProjectileBehavior : EProjectileBehavior
  Bounciness : α
  Friction : α
  RandStream : FRandomStream
  k : α
  Vinf : FVector α
  Velocity : FVector α
  bConstrainToPlane : Bool
  PlaneConstraintNormal : FVector α
  OverlappedComponents : List (Option Nat)
  Body : FUpdatedBody α
  UpdatedComponentIsNull : Bool
  Events : List (FProjectileEvent α)

namespace URealisticProjectileComponent

variable {α : Type} [LinearOrderedField α]

/-- `MIN_TICK_TIME`. -/
def MIN_TICK_TIME : α := 0.0002

/-- `GetGravityZ`. -/
def GetGravityZ (c : URealisticProjectileComponent α) : α := c.CurrentGravity

/-- `GetMaxSpeed`. -/
def GetMaxSpeed (c : URealisticProjectileComponent α) : α := c.MaxSpeed

/-- `HasStoppedSimulation`. -/
def HasStoppedSimulation (c : URealisticProjectileComponent α) : Bool := c.UpdatedComponentIsNull

/-- The two assignments `TickComponent` makes before its loop (lines 169-170):
`k = 0.5f * -GetGravityZ() / TerminalVelocity` and `Vinf = FVector(0, 0, -TerminalVelocity)`. -/
@[simps]
def SetTickConstants (c : URealisticProjectileComponent α) : URealisticProjectileComponent α :=
  { c with
    k := 0.5 * -c.GetGravityZ / c.TerminalVelocity
    Vinf := ⟨0, 0, -c.TerminalVelocity⟩ }

/-- The engine's `UMovementComponent::ConstrainDirectionToPlane`. -/
def ConstrainDirectionToPlane (c : URealisticProjectileComponent α) (Direction : FVector α) :
    FVector α :=
  if c.bConstrainToPlane then FVector.VectorPlaneProject Direction c.PlaneConstraintNormal
  else Direction

/-- `LimitVelocity`. -/
def LimitVelocity (sqrt : α → α) (c : URealisticProjectileComponent α) (NewVelocity : FVector α) :
    FVector α :=
  let CurrentMaxSpeed := c.GetMaxSpeed
  let NewVelocity :=
    if CurrentMaxSpeed > 0 then FVector.GetClampedToMaxSize sqrt NewVelocity CurrentMaxSpeed
    else NewVelocity
  c.ConstrainDirectionToPlane NewVelocity

/-- `ComputeVelocity(DeltaTime)`. -/
def ComputeVelocity (sqrt : α → α) (c : URealisticProjectileComponent α) (DeltaTime : α) :
    FVector α :=
  if c.ObjectsPenetrated.length > 0 then
    let NewSpeed_SI := (c.CurrentPenetrationDeceleration * DeltaTime)
      + (c.InitialConditions.v0length / 100)
    let NewSpeed_SI := if NewSpeed_SI < 0 then 0 else NewSpeed_SI
    let ratio := 100 * NewSpeed_SI / c.InitialConditions.v0length
    let NewVelocity := ratio • c.InitialConditions.InitialVelocity
    LimitVelocity sqrt c NewVelocity
  else
    let denominator := 1 + c.k * DeltaTime
    let denominator := denominator * denominator
    let numerator := c.InitialConditions.InitialVelocity
      + (c.k * DeltaTime * (2 + c.k * DeltaTime)) • c.Vinf
    let NewVelocity := numerator / denominator
    NewVelocity

/-- `ComputeNewLocation(TIC, DeltaTime)`. -/
def ComputeNewLocation (c : URealisticProjectileComponent α)
    (TIC : FTrajectoryInitialConditions α) (DeltaTime : α) : FVector α :=
  if TIC.PenDeceleration > 0 then
    let denominator := 1 + c.k * DeltaTime
    let numerator := DeltaTime • (TIC.InitialVelocity + (c.k * DeltaTime) • c.Vinf)
    let result1 := (numerator / denominator) + TIC.InitialWorldLocation
    result1
  else
    let xt := (((0.5 * (TIC.PenDeceleration * DeltaTime)) * DeltaTime) • TIC.v0direction)
      + (DeltaTime • (TIC.InitialVelocity / (100 : α)))
    ((100 : α) • xt) + TIC.InitialWorldLocation

/-- `ComputeTimeOfFlight(HitLocation)`. -/
def ComputeTimeOfFlight (sqrt : α → α) (c : URealisticProjectileComponent α)
    (HitLocation : FVector α) : α :=
  let deltaLoc := HitLocation - c.InitialConditions.InitialWorldLocation
  if c.ObjectsPenetrated.length = 0 then
    let AbsDeltaLoc := deltaLoc * deltaLoc.GetSignVector
    let AxisToUse : FVector α :=
      if AbsDeltaLoc.X > AbsDeltaLoc.Y ∧ AbsDeltaLoc.X > AbsDeltaLoc.Z then ⟨1, 0, 0⟩
      else if AbsDeltaLoc.Y > AbsDeltaLoc.Z ∧ AbsDeltaLoc.Y > AbsDeltaLoc.Z then ⟨0, 1, 0⟩
      else ⟨0, 0, 1⟩
    let pVec := deltaLoc * AxisToUse
    let p := pVec.X + pVec.Y + pVec.Z
    let v0Vec := c.InitialConditions.InitialVelocity * AxisToUse
    let v0 := v0Vec.X + v0Vec.Y + v0Vec.Z
    if AxisToUse.Z < 0.5 then
      p / (v0 - c.k * p)
    else
      let a2 := 2 * c.k * -c.TerminalVelocity
      let b := v0 - p * c.k
      let c' := -p
      let t1 := (-b + sqrt (b * b - 2 * a2 * c')) / a2
      let t2 := (-b - sqrt (b * b - 2 * a2 * c')) / a2
      if t1 < 0 then t2
      else if t2 < 0 then t1
      else if c.GetGravityZ < 0 then
        if p > 0 then (if t1 < t2 then t1 else t2)
        else (if t1 < t2 then t2 else t1)
      else
        if p < 0 then (if t1 < t2 then t1 else t2)
        else (if t1 < t2 then t2 else t1)
  else
    let p := FVector.Size sqrt deltaLoc / 100
    let v0 := FVector.Size sqrt c.InitialConditions.InitialVelocity / 100
    let accel := -c.CurrentPenetrationDeceleration
    let numerator := -v0 + sqrt (v0 * v0 - 2 * accel * -p)
    numerator / accel

/-- The vertical-axis branch of `ComputeTimeOfFlight` (the `else` of `AxisToUse.Z < 0.5f`),
restated as a function of the drag constant, the terminal velocity, gravity, the signed
displacement `p` and the initial velocity component `v0`. `ComputeTimeOfFlight` does not call
it; the lemma `ComputeTimeOfFlight_air` shows the two agree. -/
def VerticalTimeOfFlight (sqrt : α → α) (k TerminalVelocity GravityZ p v0 : α) : α :=
  let a2 := 2 * k * -TerminalVelocity
  let b := v0 - p * k
  let c' := -p
  let t1 := (-b + sqrt (b * b - 2 * a2 * c')) / a2
  let t2 := (-b - sqrt (b * b - 2 * a2 * c')) / a2
  if t1 < 0 then t2
  else if t2 < 0 then t1
  else if GravityZ < 0 then
    if p > 0 then (if t1 < t2 then t1 else t2)
    else (if t1 < t2 then t2 else t1)
  else
    if p < 0 then (if t1 < t2 then t1 else t2)
    else (if t1 < t2 then t2 else t1)

/-- `SetInitialConditions`: builds the record, makes it the active one and appends it to the
history. -/
@[simps]
def SetInitialConditions (sqrt : α → α) (c : URealisticProjectileComponent α)
    (v0 Loc0 : FVector α) (GameTime : α) (Rotation : FRotator α) (CurrentPenDeceleration : α) :
    URealisticProjectileComponent α :=
  { c with
    InitialConditions := FTrajectoryInitialConditions.Init sqrt v0 Loc0 GameTime Rotation
      CurrentPenDeceleration
    InitialConditionHistory := c.InitialConditionHistory
      ++ [FTrajectoryInitialConditions.Init sqrt v0 Loc0 GameTime Rotation
        CurrentPenDeceleration] }

/-- The property defaults of the header and of the C++ constructor, for a body at `Loc0` with
velocity `Velocity`, before `InitializeComponent` has set any initial conditions. -/
def Construct (sqrt : α → α) (Velocity Loc0 : FVector α) : URealisticProjectileComponent α :=
  { MaterialPropertiesTable := none
    InitialConditions := FTrajectoryInitialConditions.Init sqrt Velocity Loc0 0
      FRotator.ZeroRotator 1
    InitialConditionHistory := []
    TrajectoryNumber := 0
    CurrentPenetrationDeceleration := DEFAULT_TOUGHNESS * -1
    AngularVelocity := FRotator.ZeroRotator
    ObjectsPenetrated := []
    TerminalVelocity := 9000
    CurrentGravity := -981
    EmbedDepth := -1
    ImpulseScale := 1
    InitialSpeed := 0
    MaxSpeed := 0
    PenetrationModifier := 1
    bRotationFollowsVelocity := false
    ProjectileBehavior := EProjectileBehavior.PB_Bounce_Only
    Bounciness := 0.6
    Friction := 0.2
    RandStream := ⟨0, 0⟩
    k := 0
    Vinf := ⟨0, 0, -9000⟩
    Velocity := Velocity
    bConstrainToPlane := false
    PlaneConstraintNormal := FVector.ZeroVector
    OverlappedComponents := []
    Body := ⟨Loc0, FRotator.ZeroRotator, FVector.ZeroVector, true, false, FVector.ZeroVector,
      none, false⟩
    UpdatedComponentIsNull := false
    Events := [] }

/-- A projectile launched in free medium: the defaults, with the launch record made active at
game time `GameTime` as `InitializeComponent` does (`SetInitialConditions(..., 1.f)`). -/
def Launched (sqrt : α → α) (Velocity Loc0 : FVector α) (GameTime : α) :
    URealisticProjectileComponent α :=
  SetInitialConditions sqrt (Construct sqrt Velocity Loc0) Velocity Loc0 GameTime
    FRotator.ZeroRotator 1

/-- A projectile inside one solid: it entered `Hit` at `Loc0` with velocity `Velocity` at game
time `GameTime`, and decelerates at `Deceleration`. -/
def InsideSolid (sqrt : α → α) (Velocity Loc0 : FVector α) (GameTime Deceleration : α)
    (Hit : FHitResult α) : URealisticProjectileComponent α :=
  SetInitialConditions sqrt
    { Construct sqrt Velocity Loc0 with
      ObjectsPenetrated := [Hit]
      CurrentPenetrationDeceleration := Deceleration }
    Velocity Loc0 GameTime FRotator.ZeroRotator Deceleration

/-- The penetration probability `DecideBouncePenetrate` computes in bounce-and-penetrate mode
(`ChanceOfPenetration`, lines 847-874), restated on its own. `DecideBouncePenetrate` does not
call it; the lemma `DecideBouncePenetrate_both` shows the two agree. -/
def ChanceOfPenetration (sqrt acos : α → α) (c : URealisticProjectileComponent α)
    (Hit : FHitResult α) : α :=
  let dotp := FVector.DotProduct (FVector.GetSafeNormal sqrt c.Velocity)
    ((-1 : α) • Hit.ImpactNormal)
  let AngleR := acos dotp
  let VelSize := FVector.Size sqrt c.Velocity
  let Toughness : α :=
    match c.MaterialPropertiesTable with
    | none => 2000
    | some Table =>
      match Hit.PhysMaterial with
      | none => 2000
      | some PhysMat =>
        match Table PhysMat with
        | none => 2000
        | some MP => MP.Toughness
  let AngleMultiplier := FMath.GetMappedRangeValueClamped 0.3 1.27 1.0 0 AngleR
  let VelMultiplier := FMath.GetMappedRangeValueClamped 0.1 1.0 0.0 1 (VelSize / Toughness)
  AngleMultiplier * VelMultiplier

/-- `DecideBouncePenetrate(Hit)`: `true` for bounce. Returns the decision and the random stream
after the call (the stream is advanced only when a sample is drawn). -/
def DecideBouncePenetrate (sqrt acos : α → α) (c : URealisticProjectileComponent α)
    (Hit : FHitResult α) : Bool × FRandomStream :=
  if c.ProjectileBehavior = EProjectileBehavior.PB_Bounce_Only then (true, c.RandStream)
  else if c.ProjectileBehavior = EProjectileBehavior.PB_Penetrate_Only then
    (false, c.RandStream)
  else
    let dotp := FVector.DotProduct (FVector.GetSafeNormal sqrt c.Velocity)
      ((-1 : α) • Hit.ImpactNormal)
    let AngleR := acos dotp
    let VelSize := FVector.Size sqrt c.Velocity
    let Toughness : α :=
      match c.MaterialPropertiesTable with
      | none => 2000
      | some Table =>
        match Hit.PhysMaterial with
        | none => 2000
        | some PhysMat =>
          match Table PhysMat with
          | none => 2000
          | some MP => MP.Toughness
    let AngleMultiplier := FMath.GetMappedRangeValueClamped 0.3 1.27 1.0 0 AngleR
    let VelMultiplier := FMath.GetMappedRangeValueClamped 0.1 1.0 0.0 1 (VelSize / Toughness)
    let ChanceOfPenetration := AngleMultiplier * VelMultiplier
    let Sample : α × FRandomStream := c.RandStream.FRand
    let Roll := Sample.1
    (decide (Roll ≥ ChanceOfPenetration), Sample.2)

/-- Squared distance of a hit's location to `OrigLocation`, the sort key of `GetFirstHit`. -/
def HitDistSquared (OrigLocation : FVector α) (A : FHitResult α) : α :=
  FVector.SizeSquared (A.Location - OrigLocation)

/-- `GetFirstHit(MoveEntryHits, MoveExitHits, OrigLocation, OutIsEntryHit)`: the hit returned
and the value written to `OutIsEntryHit`; `none` when an empty array is indexed. `TArray::Sort`
with the squared-distance predicate is an insertion sort by that predicate. -/
def GetFirstHit (MoveEntryHits MoveExitHits : List (FHitResult α)) (OrigLocation : FVector α) :
    Option (FHitResult α × Bool) :=
  if MoveExitHits.length = 0 then
    match MoveEntryHits.head? with
    | none => none
    | some HitToDealWith => some (HitToDealWith, true)
  else if MoveEntryHits.length = 0 then
    match MoveExitHits.getLast? with
    | none => none
    | some HitToDealWith => some (HitToDealWith, false)
  else
    let SortedEntryHits := MoveEntryHits.insertionSort
      (fun A B => HitDistSquared OrigLocation A < HitDistSquared OrigLocation B)
    let SortedExitHits := MoveExitHits.insertionSort
      (fun A B => HitDistSquared OrigLocation A < HitDistSquared OrigLocation B)
    match SortedEntryHits.head?, SortedExitHits.head? with
    | some EntryHit, some ExitHit =>
      let entrysq := HitDistSquared OrigLocation EntryHit
      let exitsq := HitDistSquared OrigLocation ExitHit
      some (if entrysq < exitsq then EntryHit else ExitHit, decide (entrysq < exitsq))
    | _, _ => none

/-- Appends an event to the log of what the component has broadcast. -/
@[simps]
def Broadcast (c : URealisticProjectileComponent α) (e : FProjectileEvent α) :
    URealisticProjectileComponent α :=
  { c with Events := c.Events ++ [e] }

/-- The assignment `Velocity = NewVelocity`. -/
@[simps]
def SetVelocity (c : URealisticProjectileComponent α) (NewVelocity : FVector α) :
    URealisticProjectileComponent α :=
  { c with Velocity := NewVelocity }

/-- The state of `RandStream` after samples were drawn from it. -/
@[simps]
def SetRandStream (c : URealisticProjectileComponent α) (NewStream : FRandomStream) :
    URealisticProjectileComponent α :=
  { c with RandStream := NewStream }

/-- The array `ObjectsPenetrated` after an `Emplace` or `RemoveAt`. -/
@[simps]
def SetObjectsPenetrated (c : URealisticProjectileComponent α) (NewStack : List (FHitResult α)) :
    URealisticProjectileComponent α :=
  { c with ObjectsPenetrated := NewStack }

/-- The assignment `CurrentPenetrationDeceleration = NewDeceleration`. -/
@[simps]
def SetCurrentPenetrationDeceleration (c : URealisticProjectileComponent α)
    (NewDeceleration : α) : URealisticProjectileComponent α :=
  { c with CurrentPenetrationDeceleration := NewDeceleration }

/-- The result of the overlap scan: the begin-overlap broadcasts appended and
`OverlappedComponents` rebuilt. -/
@[simps]
def SetOverlaps (c : URealisticProjectileComponent α) (NewEvents : List (FProjectileEvent α))
    (NewOverlapped : List (Option Nat)) : URealisticProjectileComponent α :=
  { c with
    Events := c.Events ++ NewEvents
    OverlappedComponents := NewOverlapped }

/-- `ActorMove(NewLocation, NewRotation)`: teleports the owner when the updated component and
its owner are valid, and does nothing otherwise. -/
@[simps]
def ActorMove (c : URealisticProjectileComponent α) (NewLocation : FVector α)
    (NewRotation : FRotator α) : URealisticProjectileComponent α :=
  { c with
    Body :=
      if c.UpdatedComponentIsNull then c.Body
      else if c.Body.bOwnerPendingKill then c.Body
      else { c.Body with Location := NewLocation, Rotation := NewRotation } }

/-- `StopSimulating(HitResult)`: clears `UpdatedComponent` and broadcasts the stop event. -/
@[simps]
def StopSimulating (c : URealisticProjectileComponent α) (HitResult : FHitResult α) :
    URealisticProjectileComponent α :=
  { c with
    UpdatedComponentIsNull := true
    Events := c.Events ++ [FProjectileEvent.OnProjectileStop HitResult] }

/-- The engine's `UpdateComponentVelocity`: copies `Velocity` to the updated component, when
there is one. -/
@[simps]
def UpdateComponentVelocity (c : URealisticProjectileComponent α) :
    URealisticProjectileComponent α :=
  { c with
    Body :=
      if c.UpdatedComponentIsNull then c.Body
      else { c.Body with ComponentVelocity := c.Velocity } }

/-- `GetNewPenetrationDeceleration(Hit)`; `none` when the hit has no physical material and the
stack is non-empty (the material pointer is dereferenced unchecked). -/
def GetNewPenetrationDeceleration (c : URealisticProjectileComponent α) (Hit : FHitResult α) :
    Option α :=
  if c.ObjectsPenetrated.length = 0 then some 1
  else
    match Hit.PhysMaterial with
    | none => none
    | some hitmaterial =>
      match c.MaterialPropertiesTable with
      | none => some (DEFAULT_TOUGHNESS * -1000 / c.PenetrationModifier)
      | some Table =>
        match Table hitmaterial with
        | some LookupRow => some (LookupRow.Toughness * -1000 / c.PenetrationModifier)
        | none => some (DEFAULT_TOUGHNESS * -1000 / c.PenetrationModifier)

/-- `AdjustDirection(inVelocity, ImpactNormal)`: the adjusted velocity and the random stream
after the three samples. -/
def AdjustDirection (M : FEngineMath α) (c : URealisticProjectileComponent α)
    (inVelocity ImpactNormal : FVector α) : FVector α × FRandomStream :=
  let max_anglechange := 2 * FMath.GetMappedRangeValueClamped 1000 99900 0 10
    (FVector.Size M.sqrt c.Velocity)
  let s1 : α × FRandomStream := c.RandStream.FRand
  let pitch := (s1.1 - 0.5) * max_anglechange
  let s2 : α × FRandomStream := s1.2.FRand
  let yaw := (s2.1 - 0.5) * max_anglechange
  let s3 : α × FRandomStream := s2.2.FRand
  let roll := (s3.1 - 0.5) * max_anglechange
  let rot : FRotator α := ⟨pitch, yaw, roll⟩
  let PossibleAnswer := M.RotateVector rot inVelocity
  let dotp := FVector.DotProduct PossibleAnswer (-ImpactNormal)
  if dotp ≥ 0 then (FVector.MirrorByVector PossibleAnswer ImpactNormal, s3.2)
  else (PossibleAnswer, s3.2)

/-- The embed branch of `TryEmbed` on the updated body: collision is disabled and the body is
attached to the hit component when that component is valid. -/
@[simps]
def EmbedBody (c : URealisticProjectileComponent α) (LastHit : FHitResult α) :
    URealisticProjectileComponent α :=
  { c with
    Body :=
      if c.UpdatedComponentIsNull then c.Body
      else
        { c.Body with
          bCollisionEnabled := false
          AttachParent :=
            match LastHit.Component with
            | some HitComponent => some (HitComponent, LastHit.BoneName)
            | none => c.Body.AttachParent } }

/-- The bounce-free branch of `TryEmbed` on the updated body: rotation no longer follows the
velocity, and the body is handed to regular physics with the current velocity. -/
@[simps]
def ReleaseToPhysics (c : URealisticProjectileComponent α) : URealisticProjectileComponent α :=
  { c with
    bRotationFollowsVelocity := false
    Body := { c.Body with bSimulatePhysics := true, PhysicsLinearVelocity := c.Velocity } }

/-- `TryEmbed(LastHit, RestLocation)`. The call of `ApplyImpulse` is logged as an event. -/
def TryEmbed (M : FEngineMath α) (c : URealisticProjectileComponent α) (LastHit : FHitResult α)
    (_RestLocation : FVector α) : URealisticProjectileComponent α :=
  let TotalPenetrationVector := LastHit.Location - c.InitialConditions.PenRestLocation
  let PenDistance := FVector.Size M.sqrt TotalPenetrationVector
  let SI_ImpactSpeed := M.sqrt (-0.02 * c.CurrentPenetrationDeceleration * PenDistance)
  let ImpactSpeed := 100 * SI_ImpactSpeed
  let ImpactVelocity := ImpactSpeed • c.InitialConditions.v0direction
  if PenDistance > c.EmbedDepth then
    let c := Broadcast c (FProjectileEvent.OnProjectileEmbed LastHit ImpactSpeed)
    let c := EmbedBody c LastHit
    Broadcast c (FProjectileEvent.ApplyImpulse LastHit c.Velocity)
  else
    let c := SetVelocity c
      (c.Bounciness • FVector.MirrorByVector ImpactVelocity LastHit.ImpactNormal)
    let one_minus_bounciness := max (1 - c.Bounciness) 1
    let c := Broadcast c (FProjectileEvent.ApplyImpulse LastHit (one_minus_bounciness • c.Velocity))
    let WorldLocation := LastHit.Location + (3 : α) • LastHit.ImpactNormal
    let Rot := c.Body.Rotation
    let c := ActorMove c WorldLocation Rot
    let c := ReleaseToPhysics c
    Broadcast c (FProjectileEvent.OnProjectileBounce LastHit c.Velocity)

/-- `DoSweep(StartLocation, EndLocation, Rot, OutHits, World, KeepOverlaps)`: the hits left in
`OutHits` (which the caller has reset before the call). -/
def DoSweep (W : UWorld α) (c : URealisticProjectileComponent α)
    (StartLocation EndLocation : FVector α) (Rot : FRotator α) (KeepOverlaps : Bool) :
    List (FHitResult α) :=
  if c.UpdatedComponentIsNull then []
  else
    let OutHits := W.ComponentSweepMulti StartLocation EndLocation Rot
    if KeepOverlaps then OutHits
    else OutHits.filter (fun h =>
      ¬ ((W.GetCollisionResponseToComponent h.Component).rank
          < ECollisionResponse.ECR_Block.rank))

/-- The defaults (velocity `(1, 0, 0)` at the origin) switched to bounce-and-penetrate mode. -/
def BounceAndPenetrate (sqrt : α → α) : URealisticProjectileComponent α :=
  { Construct sqrt ⟨1, 0, 0⟩ ⟨0, 0, 0⟩ with
    ProjectileBehavior := EProjectileBehavior.PB_Bounce_And_Penetrate }

/-- A blocking hit on actor `Actor` at `Location`, with impact normal `(-1, 0, 0)`. -/
def HitAt (Location : FVector α) (Actor : Nat) : FHitResult α :=
  { Time := 0
    Location := Location
    ImpactPoint := Location
    ImpactNormal := ⟨-1, 0, 0⟩
    Actor := some Actor
    Component := some Actor
    PhysMaterial := some "DefaultPhysicalMaterial"
    BoneName := ""
    bStartPenetrating := false }

/-- The overlap scan of `TickComponent` (lines 219-250) over the forward sweep results, visited
from the last hit to the first as the source loop does: every hit whose collision response is
below `ECR_Block` is recorded as beginning (with an `OnComponentBeginOverlap` broadcast) or as
continuing an overlap, and is removed from the entry hits; then `OverlappedComponents` is
rebuilt. Returns the component and the remaining entry hits. -/
def ProcessOverlaps (W : UWorld α) (c : URealisticProjectileComponent α)
    (GameTime LaunchDeltaTime : α) (MoveEntryHits : List (FHitResult α)) :
    URealisticProjectileComponent α × List (FHitResult α) :=
  let IsOverlap := fun (h : FHitResult α) =>
    decide ((W.GetCollisionResponseToComponent h.Component).rank
      < ECollisionResponse.ECR_Block.rank)
  let Visited := (MoveEntryHits.filter IsOverlap).reverse
  let BeginHits := Visited.filter (fun h => ¬ (h.Component ∈ c.OverlappedComponents))
  let StillHits := Visited.filter (fun h => h.Component ∈ c.OverlappedComponents)
  let NewEvents := BeginHits.map (fun h =>
    FProjectileEvent.OnComponentBeginOverlap h ((c.InitialConditionHistory.length : Int) - 1)
      (GameTime - c.InitialConditions.t0) LaunchDeltaTime)
  (SetOverlaps c NewEvents
      (BeginHits.map (fun h => h.Component) ++ StillHits.map (fun h => h.Component)),
    MoveEntryHits.filter (fun h => ¬ IsOverlap h))

/-- The loop-carried state of `TickComponent`: the component, `TickRemainingTime`,
`Iterations`, and whether the `return` inside the loop was taken. -/
structure FTickLoopState (α : Type) where
  Component : URealisticProjectileComponent α
  TickRemainingTime : α
  Iterations : Nat
  bReturned : Bool

/-- Entry hit while penetrating (lines 275-302). `none` when the hit has no physical
material. Returns the component and `TickRemainingTime`. -/
def ResolveEntryWhilePenetrating (M : FEngineMath α) (c : URealisticProjectileComponent α)
    (TickRemainingTime LaunchDeltaTime : α) (NewRotation NewRelativeRotation : FRotator α)
    (HitToDealWith : FHitResult α) : Option (URealisticProjectileComponent α × α) :=
  let ActualNewLocation := HitToDealWith.Location - HitToDealWith.ImpactNormal
  let c := ActorMove c ActualNewLocation NewRotation
  let FlightTime := ComputeTimeOfFlight M.sqrt c HitToDealWith.Location
  let SubTickTimeRemaining := LaunchDeltaTime - FlightTime + 0.0001
  let TickRemainingTime := TickRemainingTime + (SubTickTimeRemaining + 0.0001)
  let c := SetVelocity c (ComputeVelocity M.sqrt c FlightTime)
  let c := Broadcast c (FProjectileEvent.OnProjectileAnyHit HitToDealWith c.Velocity)
  let c := Broadcast c (FProjectileEvent.OnProjectilePenetrate HitToDealWith c.Velocity)
  let c := SetObjectsPenetrated c (c.ObjectsPenetrated ++ [HitToDealWith])
  match GetNewPenetrationDeceleration c HitToDealWith with
  | none => none
  | some NewDeceleration =>
    let c := SetCurrentPenetrationDeceleration c NewDeceleration
    let c := SetInitialConditions M.sqrt c c.Velocity ActualNewLocation
      (c.InitialConditions.t0 + FlightTime) NewRelativeRotation c.CurrentPenetrationDeceleration
    some (c, TickRemainingTime)

/-- The removal loop of an exit (lines 318-324): `Index` runs from `Num() - 1` down to `0` and
`RemoveAt(Index)` is applied when the actor of `ObjectsPenetrated[Index]` is the exit hit's.
The first argument is the number of indices still to visit, so the index visited is one less;
the loop starts with `Num()`. -/
def RemoveMatchingEntries (HitToDealWith : FHitResult α) :
    Nat → List (FHitResult α) → List (FHitResult α)
  | 0, ObjectsPenetrated => ObjectsPenetrated
  | Index + 1, ObjectsPenetrated =>
    match ObjectsPenetrated[Index]? with
    | some Entry =>
      if HitToDealWith.Actor = Entry.Actor then
        RemoveMatchingEntries HitToDealWith Index (ObjectsPenetrated.eraseIdx Index)
      else RemoveMatchingEntries HitToDealWith Index ObjectsPenetrated
    | none => RemoveMatchingEntries HitToDealWith Index ObjectsPenetrated

/-- The exit velocity perturbation and the reset of the deceleration that an exit applies when
it leaves the stack empty (lines 325-329). -/
def ResetAfterLastExit (M : FEngineMath α) (c : URealisticProjectileComponent α)
    (Hit : FHitResult α) : URealisticProjectileComponent α :=
  if c.ObjectsPenetrated.length = 0 then
    let Adjusted := AdjustDirection M c c.Velocity Hit.ImpactNormal
    SetCurrentPenetrationDeceleration (SetRandStream (SetVelocity c Adjusted.1) Adjusted.2) 1
  else c

/-- Exit hit (lines 303-333). `Hit` is the sub-step's placeholder `FHitResult Hit(1.f)`, whose
impact normal is what `AdjustDirection` receives. Returns the component and
`TickRemainingTime`. -/
def ResolveExit (M : FEngineMath α) (c : URealisticProjectileComponent α)
    (TickRemainingTime LaunchDeltaTime : α) (NewRotation NewRelativeRotation : FRotator α)
    (Hit HitToDealWith : FHitResult α) : URealisticProjectileComponent α × α :=
  let ActualNewLocation := HitToDealWith.Location + HitToDealWith.ImpactNormal
  let c := ActorMove c ActualNewLocation NewRotation
  let FlightTime := ComputeTimeOfFlight M.sqrt c HitToDealWith.Location
  let SubTickTimeRemaining := LaunchDeltaTime - FlightTime
  let TickRemainingTime := TickRemainingTime + SubTickTimeRemaining
  let c := SetVelocity c (ComputeVelocity M.sqrt c FlightTime)
  let c := Broadcast c (FProjectileEvent.OnProjectileAnyHit HitToDealWith c.Velocity)
  let c := Broadcast c (FProjectileEvent.OnPenetrationExit HitToDealWith c.Velocity)
  let c := SetObjectsPenetrated c
    (RemoveMatchingEntries HitToDealWith c.ObjectsPenetrated.length c.ObjectsPenetrated)
  let c := ResetAfterLastExit M c Hit
  let c := SetInitialConditions M.sqrt c c.Velocity ActualNewLocation
    (c.InitialConditions.t0 + FlightTime) NewRelativeRotation c.CurrentPenetrationDeceleration
  (c, TickRemainingTime)

/-- Bounce in free medium (lines 363-384). Returns the component and `TickRemainingTime`. -/
def ResolveBounce (M : FEngineMath α) (c : URealisticProjectileComponent α)
    (TickRemainingTime LaunchDeltaTime : α) (NewRotation NewRelativeRotation : FRotator α)
    (Hit : FHitResult α) : URealisticProjectileComponent α × α :=
  let ActualNewLocation := Hit.Location + Hit.ImpactNormal
  let c := ActorMove c ActualNewLocation NewRotation
  let FlightTime := ComputeTimeOfFlight M.sqrt c Hit.Location
  let TickRemainingTime := TickRemainingTime + (LaunchDeltaTime - FlightTime)
  let c := SetVelocity c (ComputeVelocity M.sqrt c FlightTime)
  let c := Broadcast c (FProjectileEvent.OnProjectileAnyHit Hit c.Velocity)
  let c := Broadcast c (FProjectileEvent.OnProjectileBounce Hit c.Velocity)
  let NormalVelocity := (FVector.DotProduct c.Velocity Hit.ImpactNormal) • Hit.ImpactNormal
  let PlaneVel := c.Velocity - NormalVelocity
  let c := SetVelocity c (PlaneVel - c.Bounciness • NormalVelocity)
  let Adjusted := AdjustDirection M c c.Velocity Hit.ImpactNormal
  let c := SetRandStream (SetVelocity c Adjusted.1) Adjusted.2
  let c := SetInitialConditions M.sqrt c c.Velocity ActualNewLocation
    (c.InitialConditions.t0 + FlightTime) NewRelativeRotation 1
  let c := if FVector.Size M.sqrt c.Velocity < 500 then StopSimulating c Hit else c
  (c, TickRemainingTime)

/-- Penetration entry from free medium (lines 385-407). `none` when the hit has no physical
material. Returns the component and `TickRemainingTime`. -/
def ResolvePenetrate (M : FEngineMath α) (c : URealisticProjectileComponent α)
    (TickRemainingTime LaunchDeltaTime : α) (NewRotation NewRelativeRotation : FRotator α)
    (Hit : FHitResult α) : Option (URealisticProjectileComponent α × α) :=
  let ActualNewLocation := Hit.Location - Hit.ImpactNormal
  let c := ActorMove c ActualNewLocation NewRotation
  let FlightTime := ComputeTimeOfFlight M.sqrt c Hit.Location
  let TickRemainingTime := TickRemainingTime + (LaunchDeltaTime - FlightTime)
  let c := SetVelocity c (ComputeVelocity M.sqrt c FlightTime)
  let c := Broadcast c (FProjectileEvent.OnProjectileAnyHit Hit c.Velocity)
  let c := Broadcast c (FProjectileEvent.OnProjectilePenetrate Hit c.Velocity)
  let c := SetObjectsPenetrated c (c.ObjectsPenetrated ++ [Hit])
  match GetNewPenetrationDeceleration c Hit with
  | none => none
  | some NewDeceleration =>
    let c := SetCurrentPenetrationDeceleration c NewDeceleration
    let c := SetInitialConditions M.sqrt c c.Velocity ActualNewLocation
      (c.InitialConditions.t0 + FlightTime) NewRelativeRotation c.CurrentPenetrationDeceleration
    some (c, TickRemainingTime)

/-- The elapsed time since the active record's `t0` that a sub-step computes (line 184), from
the remaining time after `TickRemainingTime -= TimeTick`. -/
def LaunchDeltaTimeOf (c : URealisticProjectileComponent α) (DeltaTime GameTime : α)
    (TickRemainingTime : α) : α :=
  (GameTime + DeltaTime - TickRemainingTime) - c.InitialConditions.t0

/-- One iteration of the `while` loop of `TickComponent` (lines 176-417). `none` when the
iteration dereferences a missing physical material or indexes an empty array. -/
def TickSubStep (M : FEngineMath α) (W : UWorld α) (DeltaTime GameTime : α)
    (s : FTickLoopState α) : Option (FTickLoopState α) :=
  let c := s.Component
  let Iterations := s.Iterations + 1
  let TimeTick := DeltaTime
  let TickRemainingTime := s.TickRemainingTime - TimeTick
  let Hit : FHitResult α := FHitResult.Init 1
  let OldVelocity := c.Velocity
  let LaunchDeltaTime := LaunchDeltaTimeOf c DeltaTime GameTime TickRemainingTime
  if LaunchDeltaTime < 0 then some ⟨c, TickRemainingTime, Iterations, true⟩
  else
    let OrigLocation := c.Body.Location
    let bPastRest := decide (c.ObjectsPenetrated.length > 0
      ∧ LaunchDeltaTime > c.InitialConditions.PenRestDeltaTime)
    let TickRemainingTime :=
      if bPastRest then
        TickRemainingTime + (LaunchDeltaTime - c.InitialConditions.PenRestDeltaTime)
      else TickRemainingTime
    let LaunchDeltaTime :=
      if bPastRest then c.InitialConditions.PenRestDeltaTime else LaunchDeltaTime
    let NewLocation := ComputeNewLocation c c.InitialConditions LaunchDeltaTime
    let NewRelativeRotation := c.InitialConditions.InitialRotation
      + LaunchDeltaTime • c.AngularVelocity
    let NewRotation :=
      if c.bRotationFollowsVelocity ∧ ¬ (FVector.IsNearlyZero OldVelocity 0.01) then
        M.Rotation OldVelocity + NewRelativeRotation
      else c.Body.Rotation
    let SweptEntryHits := DoSweep W c OrigLocation NewLocation NewRotation true
    let Scanned := ProcessOverlaps W c GameTime LaunchDeltaTime SweptEntryHits
    let c := Scanned.1
    let MoveEntryHits := Scanned.2.filter (fun h => ¬ h.bStartPenetrating)
    let Resolved : Option (URealisticProjectileComponent α × α) :=
      if c.ObjectsPenetrated.length > 0 then
        let MoveExitHits := DoSweep W c NewLocation OrigLocation NewRotation false
        if MoveEntryHits.length > 0 ∨ MoveExitHits.length > 0 then
          match GetFirstHit MoveEntryHits MoveExitHits OrigLocation with
          | none => none
          | some (HitToDealWith, IsEntryHit) =>
            if IsEntryHit then
              ResolveEntryWhilePenetrating M c TickRemainingTime LaunchDeltaTime NewRotation
                NewRelativeRotation HitToDealWith
            else
              some (ResolveExit M c TickRemainingTime LaunchDeltaTime NewRotation
                NewRelativeRotation Hit HitToDealWith)
        else if |LaunchDeltaTime - c.InitialConditions.PenRestDeltaTime| < 0.01 then
          match c.ObjectsPenetrated.head? with
          | none => none
          | some RestHit =>
            let c := TryEmbed M c RestHit NewLocation
            let c := StopSimulating c RestHit
            some (c, -1000)
        else some (ActorMove c NewLocation NewRotation, TickRemainingTime)
      else
        match MoveEntryHits.head? with
        | some FirstHit =>
          let Decision := DecideBouncePenetrate M.sqrt M.acos c FirstHit
          let c := SetRandStream c Decision.2
          if Decision.1 then
            some (ResolveBounce M c TickRemainingTime LaunchDeltaTime NewRotation
              NewRelativeRotation FirstHit)
          else
            ResolvePenetrate M c TickRemainingTime LaunchDeltaTime NewRotation
              NewRelativeRotation FirstHit
        | none =>
          let c := SetVelocity c (ComputeVelocity M.sqrt c LaunchDeltaTime)
          some (ActorMove c NewLocation NewRotation, TickRemainingTime)
    match Resolved with
    | none => none
    | some (c, TickRemainingTime) =>
      some ⟨UpdateComponentVelocity c, TickRemainingTime, Iterations, false⟩

/-- The condition of the `while` loop of `TickComponent` (line 174). -/
def TickLoopCondition (s : FTickLoopState α) : Bool :=
  decide (s.TickRemainingTime > 0) && !s.Component.Body.bOwnerPendingKill
    && !s.Component.HasStoppedSimulation && decide (s.Iterations < 500)

/-- The `while` loop of `TickComponent`, unrolled at most `Fuel` times; 500 is enough, since
every iteration increments `Iterations` and the loop stops at 500. -/
def TickLoop (M : FEngineMath α) (W : UWorld α) (DeltaTime GameTime : α) :
    Nat → FTickLoopState α → Option (FTickLoopState α)
  | 0, s => some s
  | Fuel + 1, s =>
    if TickLoopCondition s then
      match TickSubStep M W DeltaTime GameTime s with
      | none => none
      | some s' => if s'.bReturned then some s' else TickLoop M W DeltaTime GameTime Fuel s'
    else some s

/-- `TickComponent(DeltaTime, ...)` at world time `GameTime`, for a component whose body, owner
and world are valid and inside the world bounds (the guards of lines 139-163 other than the two
modelled here pass). Returns the loop state at the end of the tick, `none` when the tick
dereferences a missing physical material or indexes an empty array. -/
def TickComponent (M : FEngineMath α) (W : UWorld α) (DeltaTime GameTime : α)
    (c : URealisticProjectileComponent α) : Option (FTickLoopState α) :=
  if c.HasStoppedSimulation then some ⟨c, DeltaTime, 0, true⟩
  else if c.Body.bSimulatePhysics then some ⟨c, DeltaTime, 0, true⟩
  else TickLoop M W DeltaTime GameTime 500 ⟨c.SetTickConstants, DeltaTime, 0, false⟩

/-- A world with one wall: the sweep that starts at the origin reports a single blocking hit
at `HitLocation` (actor 1, impact normal `(-1, 0, 0)`), every other sweep reports nothing, and
every component blocks. -/
def WallWorld (HitLocation : FVector α) : UWorld α :=
  { ComponentSweepMulti := fun Start _ _ =>
      if Start = ⟨0, 0, 0⟩ then [HitAt HitLocation 1] else []
    GetCollisionResponseToComponent := fun _ => ECollisionResponse.ECR_Block }

/-- The velocity a bounce stores in the new record, and the random stream after it (lines
369-379 of `TickComponent`), restated as a function of the component before the sub-step, the
hit and the flight time. `ResolveBounce` does not call it; the lemma `ResolveBounce_Velocity`
shows the two agree. -/
def BounceVelocity (M : FEngineMath α) (c : URealisticProjectileComponent α) (Hit : FHitResult α)
    (FlightTime : α) : FVector α × FRandomStream :=
  let ImpactVelocity := ComputeVelocity M.sqrt c FlightTime
  let NormalVelocity := (FVector.DotProduct ImpactVelocity Hit.ImpactNormal) • Hit.ImpactNormal
  let PlaneVel := ImpactVelocity - NormalVelocity
  let Bounced := PlaneVel - c.Bounciness • NormalVelocity
  AdjustDirection M (SetVelocity c Bounced) Bounced Hit.ImpactNormal

/-- Scenario A of the specification inside a tick: default terminal velocity 9000 and gravity
-981, horizontal launch at 5000 units/s from the origin at game time 0. -/
def ScenarioA (sqrt : α → α) : URealisticProjectileComponent α :=
  (Launched sqrt ⟨5000, 0, 0⟩ ⟨0, 0, 0⟩ 0).SetTickConstants

/-- A shot straight up at 981 units/s from the origin at game time 0, with the default terminal
velocity and gravity, inside a tick. -/
def VerticalShot (sqrt : α → α) : URealisticProjectileComponent α :=
  (Launched sqrt ⟨0, 0, 981⟩ ⟨0, 0, 0⟩ 0).SetTickConstants

/-- The point the trajectory of `WallShot` reaches `1/20` s after launch, where `WallWorld`
places the wall. -/
def WallLocation : FVector α := ⟨1800000 / 40109, 0, -49050 / 40109⟩

/-- A horizontal launch at 900 units/s from the origin at game time 0, with the defaults
(bounce only, bounciness 0.6, terminal velocity 9000, gravity -981). -/
def WallShot (sqrt : α → α) : URealisticProjectileComponent α :=
  Launched sqrt ⟨900, 0, 0⟩ ⟨0, 0, 0⟩ 0

/-- The axis `ComputeTimeOfFlight` selects in free medium for the displacement `deltaLoc` from
the initial location (`AxisToUse`, lines 604-609), restated on its own. `ComputeTimeOfFlight`
does not call it; the lemma `ComputeTimeOfFlight_on_axis` shows that the value it returns is the
one of the branch this axis names. -/
def AxisToUse (deltaLoc : FVector α) : FVector α :=
  let AbsDeltaLoc := deltaLoc * deltaLoc.GetSignVector
  if AbsDeltaLoc.X > AbsDeltaLoc.Y ∧ AbsDeltaLoc.X > AbsDeltaLoc.Z then ⟨1, 0, 0⟩
  else if AbsDeltaLoc.Y > AbsDeltaLoc.Z ∧ AbsDeltaLoc.Y > AbsDeltaLoc.Z then ⟨0, 1, 0⟩
  else ⟨0, 0, 1⟩

/-- The candidate time `t1` of the vertical branch of `ComputeTimeOfFlight` (line 630). -/
def VerticalRootPlus (sqrt : α → α) (k TerminalVelocity p v0 : α) : α :=
  let a2 := 2 * k * -TerminalVelocity
  let b := v0 - p * k
  let c' := -p
  (-b + sqrt (b * b - 2 * a2 * c')) / a2

/-- The candidate time `t2` of the vertical branch of `ComputeTimeOfFlight` (line 631). -/
def VerticalRootMinus (sqrt : α → α) (k TerminalVelocity p v0 : α) : α :=
  let a2 := 2 * k * -TerminalVelocity
  let b := v0 - p * k
  let c' := -p
  (-b - sqrt (b * b - 2 * a2 * c')) / a2

/-- The regime consistency the specification asks for: the penetration stack is empty exactly
when the active record's `PenDeceleration` is positive, so that the test of `ComputeNewLocation`
(on `PenDeceleration`) and the tests of `ComputeVelocity` and `ComputeTimeOfFlight` (on the
stack) select the same regime. -/
def RegimeConsistent (c : URealisticProjectileComponent α) : Prop :=
  c.ObjectsPenetrated = [] ↔ 0 < c.InitialConditions.PenDeceleration

/-- The inductive form of `RegimeConsistent`: moreover, while the stack is not empty the current
deceleration is negative. -/
def RegimeInvariant (c : URealisticProjectileComponent α) : Prop :=
  RegimeConsistent c ∧ (c.ObjectsPenetrated ≠ [] → c.CurrentPenetrationDeceleration < 0)

/-- The configuration the regime invariant is stated for: a positive penetration modifier and
positive toughness in every row of the material table. -/
def ToughnessPositive (c : URealisticProjectileComponent α) : Prop :=
  0 < c.PenetrationModifier
  ∧ ∀ Table, c.MaterialPropertiesTable = some Table →
      ∀ Material Row, Table Material = some Row → 0 < Row.Toughness

/-- A world without obstacles: no sweep reports a hit. -/
def OpenWorld : UWorld α :=
  { ComponentSweepMulti := fun _ _ _ => []
    GetCollisionResponseToComponent := fun _ => ECollisionResponse.ECR_Block }

/-- One entry or exit resolution of a sub-step: whether the hit is an entry hit, the hit, and
the values the sub-step passes to the resolution. -/
structure FResolution (α : Type) where
  IsEntryHit : Bool
  HitToDealWith : FHitResult α
  TickRemainingTime : α
  LaunchDeltaTime : α
  NewRotation : FRotator α
  NewRelativeRotation : FRotator α

/-- The resolution `TickSubStep` applies to a hit: for an entry hit, `ResolvePenetrate` when the
stack is empty and `ResolveEntryWhilePenetrating` otherwise; for an exit hit, `ResolveExit`
with the sub-step's placeholder hit `FHitResult(1.f)`. `none` when the entry hit has no
physical material. -/
def Resolve (M : FEngineMath α) (c : URealisticProjectileComponent α) (e : FResolution α) :
    Option (URealisticProjectileComponent α) :=
  if e.IsEntryHit then
    if c.ObjectsPenetrated.length > 0 then
      (ResolveEntryWhilePenetrating M c e.TickRemainingTime e.LaunchDeltaTime e.NewRotation
        e.NewRelativeRotation e.HitToDealWith).map Prod.fst
    else
      (ResolvePenetrate M c e.TickRemainingTime e.LaunchDeltaTime e.NewRotation
        e.NewRelativeRotation e.HitToDealWith).map Prod.fst
  else
    some (ResolveExit M c e.TickRemainingTime e.LaunchDeltaTime e.NewRotation
      e.NewRelativeRotation (FHitResult.Init 1) e.HitToDealWith).1

/-- A component with the count of the entries pushed on its stack and of the exits that
matched an entry of the stack by actor. -/
structure FStackCount (α : Type) where
  Component : URealisticProjectileComponent α
  Pushed : Nat
  Matched : Nat

/-- Whether an exit hit matches an entry of the stack (the test of line 320). -/
def ExitMatches (c : URealisticProjectileComponent α) (HitToDealWith : FHitResult α) : Bool :=
  c.ObjectsPenetrated.any (fun h => decide (HitToDealWith.Actor = h.Actor))

/-- A sequence of resolutions applied in order, with the two counts kept alongside. `none` when
one of the resolutions is. -/
def ResolveAll (M : FEngineMath α) :
    List (FResolution α) → FStackCount α → Option (FStackCount α)
  | [], s => some s
  | e :: es, s =>
    match Resolve M s.Component e with
    | none => none
    | some c =>
      ResolveAll M es
        { Component := c
          Pushed := if e.IsEntryHit then s.Pushed + 1 else s.Pushed
          Matched :=
            if !e.IsEntryHit && ExitMatches s.Component e.HitToDealWith then s.Matched + 1
            else s.Matched }

/-- The horizontal shot `WallShot` with a material table that gives every material the
toughness 5000. -/
def TableShot (sqrt : α → α) : URealisticProjectileComponent α :=
  SetInitialConditions sqrt
    { Construct sqrt ⟨900, 0, 0⟩ ⟨0, 0, 0⟩ with
      MaterialPropertiesTable := some (fun _ => some ⟨5000⟩) }
    ⟨900, 0, 0⟩ ⟨0, 0, 0⟩ 0 FRotator.ZeroRotator 1

/-- The bounce response of lines 372-374, restated on its own: the normal part
`NormalVelocity = (v . n) * n` of the impact velocity is removed and put back reversed and
scaled by `Bounciness`. `ResolveBounce` does not call it; the claim C30 shows that the velocity
`ResolveBounce` hands to `AdjustDirection` is this one. -/
def BounceResponse (Bounciness : α) (ImpactVelocity ImpactNormal : FVector α) : FVector α :=
  let NormalVelocity := (FVector.DotProduct ImpactVelocity ImpactNormal) • ImpactNormal
  let PlaneVel := ImpactVelocity - NormalVelocity
  PlaneVel - Bounciness • NormalVelocity

/-- The active record is the last entry of the history. -/
def HistoryTracksActive (c : URealisticProjectileComponent α) : Prop :=
  c.InitialConditionHistory.getLast? = some c.InitialConditions

/-- The end of `InitializeComponent` (lines 106-116): `Loc0` is the owner's location when the
owner is valid (`OwnerLocation`) and the zero vector otherwise,
`CurrentPenetrationDeceleration` is divided by `PenetrationModifier`, and the record is either
assigned directly from the four-argument constructor (no world: `WorldTime = none`; the
constructor's default `PenetrationDeceleration` is 1), or set by `SetInitialConditions` at the
world's time. -/
def InitializeTrajectory (sqrt : α → α) (c : URealisticProjectileComponent α)
    (OwnerLocation : Option (FVector α)) (WorldTime : Option α) :
    URealisticProjectileComponent α :=
  let Loc0 :=
    match OwnerLocation with
    | some Location => Location
    | none => FVector.ZeroVector
  let c := SetCurrentPenetrationDeceleration c
    (c.CurrentPenetrationDeceleration / c.PenetrationModifier)
  match WorldTime with
  | none =>
    { c with
      InitialConditions := FTrajectoryInitialConditions.Init sqrt c.Velocity Loc0 0
        FRotator.ZeroRotator 1 }
  | some GameTime =>
    SetInitialConditions sqrt c c.Velocity Loc0 GameTime FRotator.ZeroRotator 1

/-- `GetSimulationTimeStep(RemainingTime, Iterations)`. -/
def GetSimulationTimeStep (RemainingTime : α) (_Iterations : Nat) : α :=
  max MIN_TICK_TIME RemainingTime

/-- The contract of the engine's sweep that the flight times rely on: the location of every
hit a sweep reports (the place of the swept shape at the time of the hit) lies on the segment
from the start to the end of the sweep. -/
def SweepOnSegment (W : UWorld α) : Prop :=
  ∀ Start End Rot, ∀ h ∈ W.ComponentSweepMulti Start End Rot,
    ∃ w : α, 0 ≤ w ∧ w ≤ 1 ∧ h.Location = Start + w • (End - Start)

/-- A world with a wall in the plane `X = WallX`: a sweep that crosses the plane in the
direction of growing `X` reports one blocking hit (actor 1), located where the segment from the
start to the end of the sweep meets the plane; every other sweep reports nothing. -/
def PlaneWorld (WallX : α) : UWorld α :=
  { ComponentSweepMulti := fun Start End _ =>
      if Start.X ≤ WallX ∧ WallX < End.X then
        [HitAt (Start + ((WallX - Start.X) / (End.X - Start.X)) • (End - Start)) 1]
      else []
    GetCollisionResponseToComponent := fun _ => ECollisionResponse.ECR_Block }

/-- The records of the history are in the order of their start times: each `t0` is at most the
`t0` of the record appended after it. -/
def RecordsInTimeOrder (c : URealisticProjectileComponent α) : Prop :=
  List.Chain' (fun a b => a.t0 ≤ b.t0) c.InitialConditionHistory

/-- The local `Toughness` of `DecideBouncePenetrate` (lines 854-869): 2000, replaced by the
toughness of the row of the hit's physical material when the table is valid, the hit has a
physical material and the table has a row for it. `DecideBouncePenetrate` does not call it;
the lemma `ChanceOfPenetration_eq` shows that the probability is computed from it. -/
def HitToughness (c : URealisticProjectileComponent α) (Hit : FHitResult α) : α :=
  match c.MaterialPropertiesTable with
  | none => 2000
  | some Table =>
    match Hit.PhysMaterial with
    | none => 2000
    | some PhysMat =>
      match Table PhysMat with
      | none => 2000
      | some MP => MP.Toughness

/-- The order in which the forward sweep of a sub-step, from the origin towards the new
location, reports its hits: by distance from the origin, nearest first. -/
def ForwardSweepOrder (OrigLocation : FVector α) (Hits : List (FHitResult α)) : Prop :=
  Hits.Pairwise (fun A B => HitDistSquared OrigLocation A ≤ HitDistSquared OrigLocation B)

/-- The order in which the backward sweep of a sub-step, from the new location towards the
origin, reports its hits: the hit nearest to the origin comes last. -/
def BackwardSweepOrder (OrigLocation : FVector α) (Hits : List (FHitResult α)) : Prop :=
  Hits.Pairwise (fun A B => HitDistSquared OrigLocation B ≤ HitDistSquared OrigLocation A)

/-- A world whose every sweep reports one blocking hit (actor 1), located on the swept segment
at the fraction `Fraction` of the way from the start to the end. -/
def SegmentWorld (Fraction : α) : UWorld α :=
  { ComponentSweepMulti := fun Start End _ => [HitAt (Start + Fraction • (End - Start)) 1]
    GetCollisionResponseToComponent := fun _ => ECollisionResponse.ECR_Block }

/-- A horizontal launch at 1000 units/s from the origin at game time 0, with the defaults
except for the properties `CurrentGravity`, set to 200 (pointing up), and `TerminalVelocity`,
set to 100; the tick then sets `k = 0.5 * -200 / 100 = -1`. -/
def UpwardGravityShot (sqrt : α → α) : URealisticProjectileComponent α :=
  { Launched sqrt ⟨1000, 0, 0⟩ ⟨0, 0, 0⟩ 0 with
    CurrentGravity := 200
    TerminalVelocity := 100 }

end URealisticProjectileComponent

/-! ## Theorems -/

namespace FVector

variable {α : Type} [LinearOrderedField α]

@[simp] theorem add_X (a b : FVector α) : (a + b).X = a.X + b.X := rfl

@[simp] theorem add_Y (a b : FVector α) : (a + b).Y = a.Y + b.Y := rfl

@[simp] theorem add_Z (a b : FVector α) : (a + b).Z = a.Z + b.Z := rfl

@[simp] theorem sub_X (a b : FVector α) : (a - b).X = a.X - b.X := rfl

@[simp] theorem sub_Y (a b : FVector α) : (a - b).Y = a.Y - b.Y := rfl

@[simp] theorem sub_Z (a b : FVector α) : (a - b).Z = a.Z - b.Z := rfl

@[simp] theorem mul_X (a b : FVector α) : (a * b).X = a.X * b.X := rfl

@[simp] theorem mul_Y (a b : FVector α) : (a * b).Y = a.Y * b.Y := rfl

@[simp] theorem mul_Z (a b : FVector α) : (a * b).Z = a.Z * b.Z := rfl

@[simp] theorem smul_X (s : α) (a : FVector α) : (s • a).X = a.X * s := rfl

@[simp] theorem smul_Y (s : α) (a : FVector α) : (s • a).Y = a.Y * s := rfl

@[simp] theorem smul_Z (s : α) (a : FVector α) : (s • a).Z = a.Z * s := rfl

@[simp] theorem div_X (a : FVector α) (s : α) : (a / s).X = a.X * (1 / s) := rfl

@[simp] theorem div_Y (a : FVector α) (s : α) : (a / s).Y = a.Y * (1 / s) := rfl

@[simp] theorem div_Z (a : FVector α) (s : α) : (a / s).Z = a.Z * (1 / s) := rfl

end FVector

namespace URealisticProjectileComponent

open Filter

/-- The reciprocal of the drag denominator `(1 + k dt)^2` vanishes as `dt` grows. -/
theorem tendsto_inv_drag_denominator (k : ℝ) (hk : 0 < k) :
    Tendsto (fun dt : ℝ => 1 / ((1 + k * dt) * (1 + k * dt))) atTop (nhds 0) := by
  have hlin : Tendsto (fun dt : ℝ => 1 + k * dt) atTop atTop :=
    tendsto_atTop_add_const_left _ _ (Tendsto.const_mul_atTop hk tendsto_id)
  have hsq : Tendsto (fun dt : ℝ => (1 + k * dt) * (1 + k * dt)) atTop atTop :=
    hlin.atTop_mul_atTop hlin
  have h := hsq.inv_tendsto_atTop
  simp only [one_div]
  exact h

/-- The free-medium velocity components in closed form, after the tick constants are set. -/
theorem ComputeVelocity_air (sqrt : ℝ → ℝ) (c : URealisticProjectileComponent ℝ)
    (hair : c.ObjectsPenetrated = []) (dt : ℝ) :
    ComputeVelocity sqrt c dt =
      ⟨(c.InitialConditions.InitialVelocity.X + c.Vinf.X * (c.k * dt * (2 + c.k * dt)))
          * (1 / ((1 + c.k * dt) * (1 + c.k * dt))),
        (c.InitialConditions.InitialVelocity.Y + c.Vinf.Y * (c.k * dt * (2 + c.k * dt)))
          * (1 / ((1 + c.k * dt) * (1 + c.k * dt))),
        (c.InitialConditions.InitialVelocity.Z + c.Vinf.Z * (c.k * dt * (2 + c.k * dt)))
          * (1 / ((1 + c.k * dt) * (1 + c.k * dt)))⟩ := by
  unfold ComputeVelocity
  simp only [hair, List.length_nil, lt_self_iff_false, if_false]
  rfl

/-- C3. Asymptotic terminal velocity: in free medium (empty penetration stack), with
`TerminalVelocity > 0` and gravity pointing down, so that the tick sets
`k = 0.5 * g / TerminalVelocity > 0` and `Vinf = (0, 0, -TerminalVelocity)`, the velocity
`ComputeVelocity(dt)` converges component by component to `(0, 0, -TerminalVelocity)` as `dt`
grows, whatever the launch velocity, and its distance to `Vinf` tends to zero. -/
theorem C3_ComputeVelocity_tendsto_Vinf (c : URealisticProjectileComponent ℝ)
    (hair : c.ObjectsPenetrated = []) (hTV : 0 < c.TerminalVelocity)
    (hg : c.CurrentGravity < 0) :
    Tendsto (fun dt => (ComputeVelocity Real.sqrt c.SetTickConstants dt).X) atTop (nhds 0)
    ∧ Tendsto (fun dt => (ComputeVelocity Real.sqrt c.SetTickConstants dt).Y) atTop (nhds 0)
    ∧ Tendsto (fun dt => (ComputeVelocity Real.sqrt c.SetTickConstants dt).Z) atTop
        (nhds (-c.TerminalVelocity))
    ∧ Tendsto (fun dt => FVector.Size Real.sqrt
        (ComputeVelocity Real.sqrt c.SetTickConstants dt - c.SetTickConstants.Vinf))
        atTop (nhds 0) := by
  have hk : 0 < 0.5 * -c.CurrentGravity / c.TerminalVelocity := by
    apply div_pos _ hTV
    linarith
  have hinv := tendsto_inv_drag_denominator _ hk
  have hair' : c.SetTickConstants.ObjectsPenetrated = [] := hair
  have hX : Tendsto (fun dt => (ComputeVelocity Real.sqrt c.SetTickConstants dt).X) atTop
      (nhds 0) := by
    have h := hinv.const_mul c.InitialConditions.InitialVelocity.X
    simp only [mul_zero] at h
    refine h.congr (fun dt => ?_)
    rw [ComputeVelocity_air _ _ hair']
    simp [SetTickConstants, GetGravityZ]
  have hY : Tendsto (fun dt => (ComputeVelocity Real.sqrt c.SetTickConstants dt).Y) atTop
      (nhds 0) := by
    have h := hinv.const_mul c.InitialConditions.InitialVelocity.Y
    simp only [mul_zero] at h
    refine h.congr (fun dt => ?_)
    rw [ComputeVelocity_air _ _ hair']
    simp [SetTickConstants, GetGravityZ]
  have hZ : Tendsto (fun dt => (ComputeVelocity Real.sqrt c.SetTickConstants dt).Z) atTop
      (nhds (-c.TerminalVelocity)) := by
    have h := (hinv.const_mul
      (c.InitialConditions.InitialVelocity.Z + c.TerminalVelocity)).const_add
      (-c.TerminalVelocity)
    simp only [mul_zero, add_zero] at h
    refine h.congr' ?_
    filter_upwards [eventually_gt_atTop (0 : ℝ)] with dt hdt
    rw [ComputeVelocity_air _ _ hair']
    simp only [SetTickConstants, GetGravityZ]
    generalize 0.5 * -c.CurrentGravity / c.TerminalVelocity = κ at hk
    have hne : 1 + κ * dt ≠ 0 := by positivity
    field_simp
    ring
  refine ⟨hX, hY, hZ, ?_⟩
  have hdX : Tendsto (fun dt => (ComputeVelocity Real.sqrt c.SetTickConstants dt
      - c.SetTickConstants.Vinf).X) atTop (nhds 0) := by
    simpa [SetTickConstants] using hX
  have hdY : Tendsto (fun dt => (ComputeVelocity Real.sqrt c.SetTickConstants dt
      - c.SetTickConstants.Vinf).Y) atTop (nhds 0) := by
    simpa [SetTickConstants] using hY
  have hdZ : Tendsto (fun dt => (ComputeVelocity Real.sqrt c.SetTickConstants dt
      - c.SetTickConstants.Vinf).Z) atTop (nhds 0) := by
    have h := hZ.sub_const (-c.TerminalVelocity)
    simpa [SetTickConstants] using h
  have hsum := ((hdX.mul hdX).add (hdY.mul hdY)).add (hdZ.mul hdZ)
  have hsqrt := (Real.continuous_sqrt.tendsto _).comp hsum
  simpa [FVector.Size, Function.comp] using hsqrt

end URealisticProjectileComponent

namespace URealisticProjectileComponent

open Filter

/-- Scenario A of C3: terminal velocity 9000, gravity magnitude 981, horizontal launch at
5000 units/s: the velocity converges to `(0, 0, -9000)`. -/
theorem C3_ScenarioA_witness :
    (Launched Real.sqrt ⟨5000, 0, 0⟩ ⟨0, 0, 0⟩ 0).ObjectsPenetrated = []
    ∧ (Launched Real.sqrt ⟨5000, 0, 0⟩ ⟨0, 0, 0⟩ 0).TerminalVelocity = 9000
    ∧ (Launched Real.sqrt ⟨5000, 0, 0⟩ ⟨0, 0, 0⟩ 0).CurrentGravity = -981
    ∧ (Launched Real.sqrt ⟨5000, 0, 0⟩ ⟨0, 0, 0⟩ 0).InitialConditions.InitialVelocity
        = ⟨5000, 0, 0⟩
    ∧ Tendsto (fun dt => (ComputeVelocity Real.sqrt
        (Launched Real.sqrt ⟨5000, 0, 0⟩ ⟨0, 0, 0⟩ 0).SetTickConstants dt).X) atTop (nhds 0)
    ∧ Tendsto (fun dt => (ComputeVelocity Real.sqrt
        (Launched Real.sqrt ⟨5000, 0, 0⟩ ⟨0, 0, 0⟩ 0).SetTickConstants dt).Y) atTop (nhds 0)
    ∧ Tendsto (fun dt => (ComputeVelocity Real.sqrt
        (Launched Real.sqrt ⟨5000, 0, 0⟩ ⟨0, 0, 0⟩ 0).SetTickConstants dt).Z) atTop
        (nhds (-9000)) := by
  have h := C3_ComputeVelocity_tendsto_Vinf (Launched Real.sqrt ⟨5000, 0, 0⟩ ⟨0, 0, 0⟩ 0) rfl
    (by norm_num [Launched, SetInitialConditions, Construct])
    (by norm_num [Launched, SetInitialConditions, Construct])
  exact ⟨rfl, rfl, rfl, rfl, h.1, h.2.1, h.2.2.1⟩

/-- A non-zero vector has positive length. -/
theorem Size_pos_of_ne_zero (v : FVector ℝ) (hv : v ≠ FVector.ZeroVector) :
    0 < FVector.Size Real.sqrt v := by
  unfold FVector.Size
  apply Real.sqrt_pos.mpr
  by_contra hle
  have hX := mul_self_nonneg v.X
  have hY := mul_self_nonneg v.Y
  have hZ := mul_self_nonneg v.Z
  have h0 : v.X * v.X = 0 ∧ v.Y * v.Y = 0 ∧ v.Z * v.Z = 0 := by
    refine ⟨?_, ?_, ?_⟩ <;> linarith
  apply hv
  ext
  · exact mul_self_eq_zero.mp h0.1
  · exact mul_self_eq_zero.mp h0.2.1
  · exact mul_self_eq_zero.mp h0.2.2

/-- Scaling a vector by a non-negative factor scales its length. -/
theorem Size_smul_of_nonneg (r : ℝ) (hr : 0 ≤ r) (v : FVector ℝ) :
    FVector.Size Real.sqrt (r • v) = r * FVector.Size Real.sqrt v := by
  unfold FVector.Size
  simp only [FVector.smul_X, FVector.smul_Y, FVector.smul_Z]
  have h : v.X * r * (v.X * r) + v.Y * r * (v.Y * r) + v.Z * r * (v.Z * r)
      = r ^ 2 * (v.X * v.X + v.Y * v.Y + v.Z * v.Z) := by ring
  rw [h, Real.sqrt_mul (sq_nonneg r), Real.sqrt_sq hr]

/-- The fields the five-argument constructor derives. -/
theorem Init_fields (sqrt : ℝ → ℝ) (v0 Loc0 : FVector ℝ) (t : ℝ) (Rotation : FRotator ℝ)
    (a : ℝ) :
    (FTrajectoryInitialConditions.Init sqrt v0 Loc0 t Rotation a).InitialVelocity = v0
    ∧ (FTrajectoryInitialConditions.Init sqrt v0 Loc0 t Rotation a).InitialWorldLocation = Loc0
    ∧ (FTrajectoryInitialConditions.Init sqrt v0 Loc0 t Rotation a).v0length
        = FVector.Size sqrt v0
    ∧ (FTrajectoryInitialConditions.Init sqrt v0 Loc0 t Rotation a).PenDeceleration = a
    ∧ (FTrajectoryInitialConditions.Init sqrt v0 Loc0 t Rotation a).PenRestDeltaTime
        = 0.01 * FVector.Size sqrt v0 / -a := by
  refine ⟨rfl, rfl, ?_, rfl, ?_⟩
  · unfold FTrajectoryInitialConditions.Init FVector.ToDirectionAndLength
    simp only []
    split_ifs <;> rfl
  · unfold FTrajectoryInitialConditions.Init FVector.ToDirectionAndLength
    simp only []
    split_ifs <;> rfl

/-- Inside a solid, without speed clamp or plane constraint, the speed is
`max 0 (100 a dt + v0length)`. -/
theorem Size_ComputeVelocity_solid (c : URealisticProjectileComponent ℝ)
    (v0 Loc0 : FVector ℝ) (t : ℝ) (Rotation : FRotator ℝ) (a : ℝ)
    (hstack : c.ObjectsPenetrated ≠ [])
    (hIC : c.InitialConditions = FTrajectoryInitialConditions.Init Real.sqrt v0 Loc0 t Rotation a)
    (hcur : c.CurrentPenetrationDeceleration = a)
    (hv0 : v0 ≠ FVector.ZeroVector)
    (hmax : c.MaxSpeed = 0) (hplane : c.bConstrainToPlane = false) (dt : ℝ) :
    FVector.Size Real.sqrt (ComputeVelocity Real.sqrt c dt)
      = max 0 (100 * a * dt + FVector.Size Real.sqrt v0) := by
  have hL := Size_pos_of_ne_zero v0 hv0
  obtain ⟨hf1, -, hf3, -, -⟩ := Init_fields Real.sqrt v0 Loc0 t Rotation a
  have hlen : 0 < c.ObjectsPenetrated.length := List.length_pos.mpr hstack
  unfold ComputeVelocity LimitVelocity ConstrainDirectionToPlane GetMaxSpeed
  simp only [hlen, gt_iff_lt, if_true, hmax, lt_self_iff_false, if_false, hplane,
    Bool.false_eq_true, hIC, hf1, hf3, hcur]
  by_cases hneg : a * dt + FVector.Size Real.sqrt v0 / 100 < 0
  · simp only [hneg, if_true, mul_zero, zero_div]
    rw [Size_smul_of_nonneg 0 le_rfl, zero_mul, max_eq_left]
    linarith
  · simp only [hneg, if_false]
    have hr : 0 ≤ 100 * (a * dt + FVector.Size Real.sqrt v0 / 100) / FVector.Size Real.sqrt v0 :=
      div_nonneg (by linarith) hL.le
    rw [Size_smul_of_nonneg _ hr, div_mul_cancel₀ _ hL.ne', max_eq_right]
    · ring
    · linarith

/-- C4. Monotonic deceleration inside a solid: with a non-empty stack, a negative deceleration
equal to the active record's `PenDeceleration`, a non-zero initial velocity, no max-speed clamp
and no plane constraint, the speed `|ComputeVelocity(dt)|` equals
`max 0 (100 a dt + v0length)`, so it is never negative, it is non-increasing in `dt >= 0`, and
it is exactly zero at `dt = PenRestDeltaTime = 0.01 * v0length / (-PenDeceleration)`. -/
theorem C4_speed_inside_solid_monotone (c : URealisticProjectileComponent ℝ)
    (v0 Loc0 : FVector ℝ) (t : ℝ) (Rotation : FRotator ℝ) (a : ℝ)
    (hstack : c.ObjectsPenetrated ≠ [])
    (hIC : c.InitialConditions = FTrajectoryInitialConditions.Init Real.sqrt v0 Loc0 t Rotation a)
    (hcur : c.CurrentPenetrationDeceleration = c.InitialConditions.PenDeceleration)
    (ha : c.InitialConditions.PenDeceleration < 0)
    (hv0 : v0 ≠ FVector.ZeroVector)
    (hmax : c.MaxSpeed = 0) (hplane : c.bConstrainToPlane = false) :
    (∀ dt, 0 ≤ FVector.Size Real.sqrt (ComputeVelocity Real.sqrt c dt))
    ∧ (∀ dt, FVector.Size Real.sqrt (ComputeVelocity Real.sqrt c dt)
        = max 0 (100 * c.InitialConditions.PenDeceleration * dt
            + c.InitialConditions.v0length))
    ∧ (∀ dt1 dt2, 0 ≤ dt1 → dt1 ≤ dt2 →
        FVector.Size Real.sqrt (ComputeVelocity Real.sqrt c dt2)
          ≤ FVector.Size Real.sqrt (ComputeVelocity Real.sqrt c dt1))
    ∧ c.InitialConditions.PenRestDeltaTime
        = 0.01 * c.InitialConditions.v0length / -c.InitialConditions.PenDeceleration
    ∧ FVector.Size Real.sqrt (ComputeVelocity Real.sqrt c c.InitialConditions.PenRestDeltaTime)
        = 0 := by
  obtain ⟨-, -, hf3, hf4, hf5⟩ := Init_fields Real.sqrt v0 Loc0 t Rotation a
  have hdec : c.InitialConditions.PenDeceleration = a := by rw [hIC, hf4]
  have hlen : c.InitialConditions.v0length = FVector.Size Real.sqrt v0 := by rw [hIC, hf3]
  have hrest : c.InitialConditions.PenRestDeltaTime = 0.01 * FVector.Size Real.sqrt v0 / -a := by
    rw [hIC, hf5]
  rw [hdec] at hcur ha
  have hsize := Size_ComputeVelocity_solid c v0 Loc0 t Rotation a hstack hIC hcur hv0 hmax hplane
  refine ⟨fun dt => ?_, fun dt => ?_, fun dt1 dt2 _ h12 => ?_, ?_, ?_⟩
  · rw [hsize]
    exact le_max_left _ _
  · rw [hsize, hdec, hlen]
  · rw [hsize, hsize]
    apply max_le_max le_rfl
    nlinarith
  · rw [hrest, hdec, hlen]
  · rw [hsize, hrest]
    have hne : -a ≠ 0 := by linarith
    have : 100 * a * (0.01 * FVector.Size Real.sqrt v0 / -a) + FVector.Size Real.sqrt v0 = 0 := by
      field_simp
      ring
    rw [this, max_self]

end URealisticProjectileComponent

namespace URealisticProjectileComponent

/-- Length of a vector along the X axis. -/
theorem Size_axis_X (x : ℝ) (hx : 0 ≤ x) : FVector.Size Real.sqrt ⟨x, 0, 0⟩ = x := by
  unfold FVector.Size
  simp only [mul_zero, add_zero]
  exact Real.sqrt_mul_self hx

/-- The record the constructor builds for a velocity along the X axis whose speed exceeds
`SMALL_NUMBER`. -/
theorem Init_axis_X (x : ℝ) (hx : 1 / 100000000 < x) (Loc0 : FVector ℝ) (t : ℝ)
    (Rotation : FRotator ℝ) (a : ℝ) :
    FTrajectoryInitialConditions.Init Real.sqrt ⟨x, 0, 0⟩ Loc0 t Rotation a =
      { InitialVelocity := ⟨x, 0, 0⟩
        InitialWorldLocation := Loc0
        InitialRotation := Rotation
        t0 := t
        v0direction := ⟨1, 0, 0⟩
        v0length := x
        PenRestDeltaTime := 0.01 * x / -a
        PenRestLocation := Loc0 + ((((0.5 * (a * (0.01 * x / -a))) * (0.01 * x / -a))
          • (⟨1, 0, 0⟩ : FVector ℝ)) + ((0.01 * x / -a) • ((⟨x, 0, 0⟩ : FVector ℝ) / (100 : ℝ))))
        PenDeceleration := a } := by
  have hx0 : 0 < x := lt_trans (by norm_num) hx
  unfold FTrajectoryInitialConditions.Init FVector.ToDirectionAndLength
  simp only [Size_axis_X x hx0.le, FVector.SMALL_NUMBER, gt_iff_lt, hx, if_true]
  have h1 : x * (1 / x) = 1 := by field_simp
  simp only [h1, zero_mul]

/-- C4 at a concrete input: a projectile that entered a solid at 500 m/s (50000 units/s) with
deceleration -5000000 m/s^2 slows monotonically and has speed zero at its rest time. -/
theorem C4_witness :
    (InsideSolid Real.sqrt ⟨50000, 0, 0⟩ ⟨0, 0, 0⟩ 0 (-5000000)
        (FHitResult.Init 1)).ObjectsPenetrated ≠ []
    ∧ (InsideSolid Real.sqrt ⟨50000, 0, 0⟩ ⟨0, 0, 0⟩ 0 (-5000000)
        (FHitResult.Init 1)).InitialConditions.PenDeceleration < 0
    ∧ (∀ dt1 dt2 : ℝ, 0 ≤ dt1 → dt1 ≤ dt2 →
        FVector.Size Real.sqrt (ComputeVelocity Real.sqrt (InsideSolid Real.sqrt ⟨50000, 0, 0⟩
          ⟨0, 0, 0⟩ 0 (-5000000) (FHitResult.Init 1)) dt2)
        ≤ FVector.Size Real.sqrt (ComputeVelocity Real.sqrt (InsideSolid Real.sqrt ⟨50000, 0, 0⟩
          ⟨0, 0, 0⟩ 0 (-5000000) (FHitResult.Init 1)) dt1))
    ∧ FVector.Size Real.sqrt (ComputeVelocity Real.sqrt (InsideSolid Real.sqrt ⟨50000, 0, 0⟩
          ⟨0, 0, 0⟩ 0 (-5000000) (FHitResult.Init 1))
        (InsideSolid Real.sqrt ⟨50000, 0, 0⟩ ⟨0, 0, 0⟩ 0 (-5000000)
          (FHitResult.Init 1)).InitialConditions.PenRestDeltaTime) = 0 := by
  have hstack : (InsideSolid Real.sqrt ⟨50000, 0, 0⟩ ⟨0, 0, 0⟩ 0 (-5000000)
      (FHitResult.Init 1)).ObjectsPenetrated ≠ [] := by
    simp [InsideSolid, SetInitialConditions]
  have ha : (InsideSolid Real.sqrt ⟨50000, 0, 0⟩ ⟨0, 0, 0⟩ 0 (-5000000)
      (FHitResult.Init 1)).InitialConditions.PenDeceleration < 0 := by
    show (-5000000 : ℝ) < 0
    norm_num
  have hv0 : (⟨50000, 0, 0⟩ : FVector ℝ) ≠ FVector.ZeroVector := by
    intro h
    have hX := congrArg FVector.X h
    norm_num [FVector.ZeroVector] at hX
  have h := C4_speed_inside_solid_monotone (InsideSolid Real.sqrt ⟨50000, 0, 0⟩ ⟨0, 0, 0⟩ 0
    (-5000000) (FHitResult.Init 1)) ⟨50000, 0, 0⟩ ⟨0, 0, 0⟩ 0 FRotator.ZeroRotator (-5000000)
    hstack rfl rfl ha hv0 rfl rfl
  exact ⟨hstack, ha, h.2.2.1, h.2.2.2.2⟩

/-- C5 (code defect). For the record built for a projectile entering a solid at 50000 units/s
along X at the origin with deceleration -5000000, the rest time is 1/10000 s and
`ComputeNewLocation` at the rest time is `(2.5, 0, 0)`, but the stored `PenRestLocation` is
`(0.025, 0, 0)`: the constructor adds the displacement in metres to a location in centimetres,
leaving out the factor 100 that `ComputeNewLocation` applies. -/
theorem C5_PenRestLocation_differs_from_location_at_rest_time (c : URealisticProjectileComponent ℝ) :
    (FTrajectoryInitialConditions.Init Real.sqrt ⟨50000, 0, 0⟩ ⟨0, 0, 0⟩ 0
        FRotator.ZeroRotator (-5000000)).PenRestDeltaTime = 1 / 10000
    ∧ (FTrajectoryInitialConditions.Init Real.sqrt ⟨50000, 0, 0⟩ ⟨0, 0, 0⟩ 0
        FRotator.ZeroRotator (-5000000)).PenRestLocation = ⟨1 / 40, 0, 0⟩
    ∧ ComputeNewLocation c (FTrajectoryInitialConditions.Init Real.sqrt ⟨50000, 0, 0⟩ ⟨0, 0, 0⟩ 0
        FRotator.ZeroRotator (-5000000)) (1 / 10000) = ⟨5 / 2, 0, 0⟩
    ∧ (FTrajectoryInitialConditions.Init Real.sqrt ⟨50000, 0, 0⟩ ⟨0, 0, 0⟩ 0
        FRotator.ZeroRotator (-5000000)).PenRestLocation
      ≠ ComputeNewLocation c (FTrajectoryInitialConditions.Init Real.sqrt ⟨50000, 0, 0⟩
          ⟨0, 0, 0⟩ 0 FRotator.ZeroRotator (-5000000))
        (FTrajectoryInitialConditions.Init Real.sqrt ⟨50000, 0, 0⟩ ⟨0, 0, 0⟩ 0
          FRotator.ZeroRotator (-5000000)).PenRestDeltaTime := by
  rw [Init_axis_X 50000 (by norm_num)]
  refine ⟨?_, ?_, ?_, ?_⟩
  · norm_num
  · ext <;> norm_num
  · unfold ComputeNewLocation
    ext <;> norm_num
  · intro h
    have hX := congrArg FVector.X h
    unfold ComputeNewLocation at hX
    norm_num at hX

end URealisticProjectileComponent

namespace URealisticProjectileComponent

/-- C2 (code defect). A projectile entered a solid at the origin at 50000 units/s along X with
deceleration -5000000 (rest time 1/10000 s). At the elapsed time 1/12500 s, within the rest
time, `ComputeNewLocation` gives `(2.4, 0, 0)`, and `ComputeTimeOfFlight` applied to that
location returns 1/25000 s, not 1/12500 s: the solver negates the deceleration and then solves
`0 = 0.5 a t^2 + v0 t - p` as if the projectile were accelerating. -/
theorem C2_inside_solid_round_trip_fails :
    (InsideSolid Real.sqrt ⟨50000, 0, 0⟩ ⟨0, 0, 0⟩ 0 (-5000000)
        (FHitResult.Init 1)).ObjectsPenetrated ≠ []
    ∧ (InsideSolid Real.sqrt ⟨50000, 0, 0⟩ ⟨0, 0, 0⟩ 0 (-5000000)
        (FHitResult.Init 1)).CurrentPenetrationDeceleration
      = (InsideSolid Real.sqrt ⟨50000, 0, 0⟩ ⟨0, 0, 0⟩ 0 (-5000000)
        (FHitResult.Init 1)).InitialConditions.PenDeceleration
    ∧ (InsideSolid Real.sqrt ⟨50000, 0, 0⟩ ⟨0, 0, 0⟩ 0 (-5000000)
        (FHitResult.Init 1)).InitialConditions.PenRestDeltaTime = 1 / 10000
    ∧ ComputeNewLocation (InsideSolid Real.sqrt ⟨50000, 0, 0⟩ ⟨0, 0, 0⟩ 0 (-5000000)
          (FHitResult.Init 1))
        (InsideSolid Real.sqrt ⟨50000, 0, 0⟩ ⟨0, 0, 0⟩ 0 (-5000000)
          (FHitResult.Init 1)).InitialConditions (1 / 12500) = ⟨12 / 5, 0, 0⟩
    ∧ ComputeTimeOfFlight Real.sqrt (InsideSolid Real.sqrt ⟨50000, 0, 0⟩ ⟨0, 0, 0⟩ 0 (-5000000)
          (FHitResult.Init 1))
        (ComputeNewLocation (InsideSolid Real.sqrt ⟨50000, 0, 0⟩ ⟨0, 0, 0⟩ 0 (-5000000)
          (FHitResult.Init 1))
        (InsideSolid Real.sqrt ⟨50000, 0, 0⟩ ⟨0, 0, 0⟩ 0 (-5000000)
          (FHitResult.Init 1)).InitialConditions (1 / 12500)) = 1 / 25000 := by
  have hIC : (InsideSolid Real.sqrt ⟨50000, 0, 0⟩ ⟨0, 0, 0⟩ 0 (-5000000)
      (FHitResult.Init 1)).InitialConditions
      = FTrajectoryInitialConditions.Init Real.sqrt ⟨50000, 0, 0⟩ ⟨0, 0, 0⟩ 0
        FRotator.ZeroRotator (-5000000) := rfl
  have hstack : (InsideSolid Real.sqrt ⟨50000, 0, 0⟩ ⟨0, 0, 0⟩ 0 (-5000000)
      (FHitResult.Init 1)).ObjectsPenetrated = [FHitResult.Init 1] := rfl
  have hcur : (InsideSolid Real.sqrt ⟨50000, 0, 0⟩ ⟨0, 0, 0⟩ 0 (-5000000)
      (FHitResult.Init 1)).CurrentPenetrationDeceleration = -5000000 := rfl
  have hloc : ComputeNewLocation (InsideSolid Real.sqrt ⟨50000, 0, 0⟩ ⟨0, 0, 0⟩ 0 (-5000000)
          (FHitResult.Init 1))
        (InsideSolid Real.sqrt ⟨50000, 0, 0⟩ ⟨0, 0, 0⟩ 0 (-5000000)
          (FHitResult.Init 1)).InitialConditions (1 / 12500) = ⟨12 / 5, 0, 0⟩ := by
    rw [hIC, Init_axis_X 50000 (by norm_num)]
    unfold ComputeNewLocation
    ext <;> norm_num
  refine ⟨by rw [hstack]; simp, rfl, ?_, hloc, ?_⟩
  · rw [hIC, Init_axis_X 50000 (by norm_num)]
    norm_num
  · rw [hloc]
    unfold ComputeTimeOfFlight
    rw [hIC, hstack, hcur, Init_axis_X 50000 (by norm_num)]
    have hd : ((⟨12 / 5, 0, 0⟩ : FVector ℝ) - ⟨0, 0, 0⟩) = ⟨12 / 5, 0, 0⟩ := by
      ext <;> norm_num
    have h700 : Real.sqrt 490000 = 700 := by
      rw [show (490000 : ℝ) = 700 * 700 by norm_num]
      exact Real.sqrt_mul_self (by norm_num)
    simp only [List.length_singleton, one_ne_zero, if_false, hd,
      Size_axis_X (12 / 5) (by norm_num), Size_axis_X 50000 (by norm_num)]
    norm_num [h700]

end URealisticProjectileComponent

namespace URealisticProjectileComponent

/-- `deltaLoc * deltaLoc.GetSignVector` is the component-wise absolute value. -/
theorem mul_FloatSelect_eq_abs (x : ℝ) : x * FVector.FloatSelect x 1 (-1) = |x| := by
  unfold FVector.FloatSelect
  split_ifs with h
  · rw [mul_one, abs_of_nonneg h]
  · rw [mul_neg, mul_one, abs_of_neg (not_le.mp h)]

/-- In free medium `ComputeTimeOfFlight` picks the axis of largest absolute displacement and
inverts the position equation along it. -/
theorem ComputeTimeOfFlight_air (sqrt : ℝ → ℝ) (c : URealisticProjectileComponent ℝ)
    (hair : c.ObjectsPenetrated = []) (HitLocation : FVector ℝ) :
    ComputeTimeOfFlight sqrt c HitLocation =
      if |(HitLocation - c.InitialConditions.InitialWorldLocation).X|
            > |(HitLocation - c.InitialConditions.InitialWorldLocation).Y|
          ∧ |(HitLocation - c.InitialConditions.InitialWorldLocation).X|
            > |(HitLocation - c.InitialConditions.InitialWorldLocation).Z| then
        (HitLocation - c.InitialConditions.InitialWorldLocation).X
          / (c.InitialConditions.InitialVelocity.X
              - c.k * (HitLocation - c.InitialConditions.InitialWorldLocation).X)
      else if |(HitLocation - c.InitialConditions.InitialWorldLocation).Y|
            > |(HitLocation - c.InitialConditions.InitialWorldLocation).Z| then
        (HitLocation - c.InitialConditions.InitialWorldLocation).Y
          / (c.InitialConditions.InitialVelocity.Y
              - c.k * (HitLocation - c.InitialConditions.InitialWorldLocation).Y)
      else
        VerticalTimeOfFlight sqrt c.k c.TerminalVelocity c.GetGravityZ
          (HitLocation - c.InitialConditions.InitialWorldLocation).Z
          c.InitialConditions.InitialVelocity.Z := by
  unfold ComputeTimeOfFlight
  generalize HitLocation - c.InitialConditions.InitialWorldLocation = d
  have hsel : ∀ A : FVector ℝ, (d * A).X + (d * A).Y + (d * A).Z
      = d.X * A.X + d.Y * A.Y + d.Z * A.Z := fun A => rfl
  have hv : ∀ A : FVector ℝ, (c.InitialConditions.InitialVelocity * A).X
      + (c.InitialConditions.InitialVelocity * A).Y + (c.InitialConditions.InitialVelocity * A).Z
      = c.InitialConditions.InitialVelocity.X * A.X + c.InitialConditions.InitialVelocity.Y * A.Y
        + c.InitialConditions.InitialVelocity.Z * A.Z := fun A => rfl
  simp only [hair, List.length_nil, if_true, FVector.mul_X, FVector.mul_Y, FVector.mul_Z,
    FVector.GetSignVector, mul_FloatSelect_eq_abs, and_self]
  by_cases h1 : |d.X| > |d.Y| ∧ |d.X| > |d.Z|
  · simp only [h1, and_self, if_true]
    norm_num
  · by_cases h2 : |d.Y| > |d.Z|
    · simp only [h1, h2, if_true, if_false]
      norm_num
    · simp only [h1, h2, if_false]
      norm_num [VerticalTimeOfFlight]

end URealisticProjectileComponent

namespace URealisticProjectileComponent

/-- The two candidate times of the vertical solver when `dt` solves the position equation. -/
theorem vertical_roots (k TV v0 p dt : ℝ)
    (hp : p * (1 + k * dt) = (v0 - k * TV * dt) * dt) :
    Real.sqrt ((v0 - p * k) * (v0 - p * k) - 2 * (2 * k * -TV) * -p)
      = |2 * k * -TV * dt + (v0 - p * k)| := by
  have h : (v0 - p * k) * (v0 - p * k) - 2 * (2 * k * -TV) * -p
      = (2 * k * -TV * dt + (v0 - p * k)) ^ 2 := by
    linear_combination (2 * (2 * k * -TV)) * hp
  rw [h, Real.sqrt_sq_eq_abs]

/-- When `dt >= 0` solves the vertical position equation for the displacement `p`, the vertical
solver returns `dt` exactly when the hit is not above the launch height on the way down, and
not at the launch instant of an upward shot. -/
theorem VerticalTimeOfFlight_eq_iff (k TV g v0 p dt : ℝ) (hk : 0 < k) (hTV : 0 < TV)
    (hg : g < 0) (hdt : 0 ≤ dt) (hp : p * (1 + k * dt) = (v0 - k * TV * dt) * dt) :
    VerticalTimeOfFlight Real.sqrt k TV g p v0 = dt
      ↔ ((0 < p → 0 ≤ v0 - k * dt * (2 + k * dt) * TV) ∧ (dt = 0 → v0 ≤ 0)) := by
  have hs := vertical_roots k TV v0 p dt hp
  have hkTV : 0 < k * TV := mul_pos hk hTV
  have ha2 : 2 * k * -TV ≠ 0 := by nlinarith
  have hden : 0 < 1 + k * dt := by positivity
  -- the velocity numerator has the sign of w
  have hN : (2 * k * -TV * dt + (v0 - p * k)) * (1 + k * dt)
      = v0 - k * dt * (2 + k * dt) * TV := by
    linear_combination (-k) * hp
  unfold VerticalTimeOfFlight
  simp only [hs, hg, if_true]
  -- Vieta: the product of the two candidate times
  have hVieta : (k * TV * dt + (2 * k * -TV * dt + (v0 - p * k))) * dt = p := by
    linear_combination (-1 : ℝ) * hp
  generalize hwdef : 2 * k * -TV * dt + (v0 - p * k) = w at hN hVieta
  have e1 : (-(v0 - p * k) + w) / (2 * k * -TV) = dt := by
    rw [← hwdef]
    field_simp
    ring
  have e2 : (-(v0 - p * k) - w) / (2 * k * -TV) = dt + w / (k * TV) := by
    rw [← hwdef]
    field_simp
    ring
  rcases le_or_lt 0 w with hw | hw
  · rw [abs_of_nonneg hw, e1, e2]
    have hq : 0 ≤ w / (k * TV) := div_nonneg hw hkTV.le
    have hN0 : 0 ≤ v0 - k * dt * (2 + k * dt) * TV := by
      rw [← hN]
      exact mul_nonneg hw hden.le
    rw [if_neg (not_lt.mpr hdt), if_neg (not_lt.mpr (by linarith))]
    by_cases hp0 : 0 < p
    · rw [if_pos hp0]
      have hL : (if dt < dt + w / (k * TV) then dt else dt + w / (k * TV)) = dt := by
        split_ifs with h
        · rfl
        · linarith
      rw [hL]
      refine ⟨fun _ => ⟨fun _ => hN0, fun h0 => ?_⟩, fun _ => rfl⟩
      rw [h0] at hp
      simp at hp
      linarith
    · rw [if_neg hp0]
      have hdt0 : dt = 0 := by
        by_contra hne
        have hpos : 0 < dt := lt_of_le_of_ne hdt (Ne.symm hne)
        have h1 : 0 < (v0 - k * TV * dt) * dt := by
          apply mul_pos _ hpos
          nlinarith [mul_pos hkTV hpos, mul_pos (mul_pos hkTV hpos) (mul_pos hk hpos)]
        rw [← hp] at h1
        exact hp0 (pos_of_mul_pos_left h1 hden.le)
      subst hdt0
      have hp' : p = 0 := by simpa using hp
      subst hp'
      have hwv : w = v0 := by rw [← hwdef]; ring
      subst hwv
      rw [zero_add]
      constructor
      · intro h
        refine ⟨fun h0 => absurd h0 (lt_irrefl _), fun _ => ?_⟩
        split_ifs at h with h2
        · linarith
        · by_contra hv
          exact h2 (div_pos (not_le.mp hv) hkTV)
      · rintro ⟨-, h⟩
        have hv := h rfl
        rw [if_neg]
        exact not_lt.mpr (div_nonpos_of_nonpos_of_nonneg hv hkTV.le)
  · rw [abs_of_neg hw, sub_neg_eq_add, e1, ← sub_eq_add_neg, e2]
    have hN0 : v0 - k * dt * (2 + k * dt) * TV < 0 := by
      rw [← hN]
      exact mul_neg_of_neg_of_pos hw hden
    have hq : w / (k * TV) < 0 := div_neg_of_neg_of_pos hw hkTV
    have hR' : (dt + w / (k * TV)) * (k * TV) = k * TV * dt + w := by
      field_simp
      ring
    have hR : (dt + w / (k * TV)) * dt * (k * TV) = p := by
      rw [← hVieta, ← hR']
      ring
    by_cases hR0 : dt + w / (k * TV) < 0
    · rw [if_pos hR0]
      refine ⟨fun _ => ⟨fun h0 => ?_, fun h0 => ?_⟩, fun _ => rfl⟩
      · exfalso
        have : p ≤ 0 := by
          rw [← hR]
          exact mul_nonpos_of_nonpos_of_nonneg
            (mul_nonpos_of_nonpos_of_nonneg hR0.le hdt) hkTV.le
        linarith
      · subst h0
        have hp' : p = 0 := by simpa using hp
        subst hp'
        have hwv : w = v0 := by rw [← hwdef]; ring
        linarith
    · rw [if_neg hR0, if_neg (not_lt.mpr hdt)]
      have hlt : dt + w / (k * TV) < dt := by linarith
      by_cases hp0 : 0 < p
      · rw [if_pos hp0, if_pos hlt]
        constructor
        · intro h
          linarith
        · rintro ⟨h, -⟩
          have := h hp0
          linarith
      · rw [if_neg hp0, if_pos hlt]
        refine ⟨fun _ => ⟨fun h0 => absurd h0 hp0, fun h0 => ?_⟩, fun _ => rfl⟩
        exfalso
        subst h0
        exact hR0 hlt

/-- The displacement `ComputeNewLocation` produces in free medium. -/
theorem deltaLoc_air (c : URealisticProjectileComponent ℝ) (TIC : FTrajectoryInitialConditions ℝ)
    (dt : ℝ) (hpen : 0 < TIC.PenDeceleration)
    (hVinf : c.Vinf = ⟨0, 0, -c.TerminalVelocity⟩) :
    ComputeNewLocation c TIC dt - TIC.InitialWorldLocation
      = ⟨TIC.InitialVelocity.X * dt / (1 + c.k * dt),
         TIC.InitialVelocity.Y * dt / (1 + c.k * dt),
         (TIC.InitialVelocity.Z - c.k * c.TerminalVelocity * dt) * dt / (1 + c.k * dt)⟩ := by
  unfold ComputeNewLocation
  simp only [gt_iff_lt, hpen, if_true, hVinf]
  ext
  · simp only [FVector.sub_X, FVector.add_X, FVector.div_X, FVector.smul_X]
    ring
  · simp only [FVector.sub_Y, FVector.add_Y, FVector.div_Y, FVector.smul_Y]
    ring
  · simp only [FVector.sub_Z, FVector.add_Z, FVector.div_Z, FVector.smul_Z]
    ring

/-- Inverting the horizontal position equation. -/
theorem horizontal_inverse (k v dt : ℝ) (hden : 0 < 1 + k * dt)
    (hp0 : v * dt / (1 + k * dt) ≠ 0) :
    v * dt / (1 + k * dt) / (v - k * (v * dt / (1 + k * dt))) = dt := by
  have hv : v ≠ 0 := by
    rintro rfl
    simp at hp0
  have hd : v - k * (v * dt / (1 + k * dt)) = v / (1 + k * dt) := by
    field_simp
    ring
  rw [hd]
  field_simp

end URealisticProjectileComponent

namespace URealisticProjectileComponent

/-- The vertical free-medium velocity has the sign of `v0 - k dt (2 + k dt) TerminalVelocity`. -/
theorem ComputeVelocity_air_Z_nonneg_iff (c : URealisticProjectileComponent ℝ) (dt : ℝ)
    (hair : c.ObjectsPenetrated = []) (hVinf : c.Vinf = ⟨0, 0, -c.TerminalVelocity⟩)
    (hk : 0 < c.k) (hdt : 0 ≤ dt) :
    0 ≤ (ComputeVelocity Real.sqrt c dt).Z
      ↔ 0 ≤ c.InitialConditions.InitialVelocity.Z
          - c.k * dt * (2 + c.k * dt) * c.TerminalVelocity := by
  rw [ComputeVelocity_air _ _ hair, hVinf]
  have hden : 0 < 1 + c.k * dt := by positivity
  have hpos : 0 < 1 / ((1 + c.k * dt) * (1 + c.k * dt)) := by positivity
  simp only []
  rw [mul_nonneg_iff_of_pos_right hpos]
  constructor <;> intro h <;> nlinarith

/-- C1 (amended). Free-medium round trip. For a free-medium record (empty stack,
`PenDeceleration > 0`), with the tick constants `k = 0.5 * -gravity / TerminalVelocity > 0`,
`Vinf = (0, 0, -TerminalVelocity)`, `TerminalVelocity > 0`, and every `dt >= 0`,
`ComputeTimeOfFlight(ComputeNewLocation(InitialConditions, dt))` returns `dt` if and only if
either a horizontal axis is selected, or the vertical axis is selected and the location is not
above the launch height while the projectile is descending (displacement `> 0` implies vertical
velocity `>= 0` at `dt`) and, at `dt = 0`, the launch velocity does not point up. -/
theorem C1_free_medium_round_trip (c : URealisticProjectileComponent ℝ) (dt : ℝ)
    (hair : c.ObjectsPenetrated = [])
    (hpen : 0 < c.InitialConditions.PenDeceleration)
    (hkdef : c.k = 0.5 * -c.GetGravityZ / c.TerminalVelocity)
    (hVinf : c.Vinf = ⟨0, 0, -c.TerminalVelocity⟩)
    (hk : 0 < c.k) (hTV : 0 < c.TerminalVelocity) (hdt : 0 ≤ dt) :
    ComputeTimeOfFlight Real.sqrt c (ComputeNewLocation c c.InitialConditions dt) = dt
      ↔ (¬ (|(ComputeNewLocation c c.InitialConditions dt
                - c.InitialConditions.InitialWorldLocation).X|
              > |(ComputeNewLocation c c.InitialConditions dt
                - c.InitialConditions.InitialWorldLocation).Y|
            ∧ |(ComputeNewLocation c c.InitialConditions dt
                - c.InitialConditions.InitialWorldLocation).X|
              > |(ComputeNewLocation c c.InitialConditions dt
                - c.InitialConditions.InitialWorldLocation).Z|) →
         ¬ (|(ComputeNewLocation c c.InitialConditions dt
                - c.InitialConditions.InitialWorldLocation).Y|
              > |(ComputeNewLocation c c.InitialConditions dt
                - c.InitialConditions.InitialWorldLocation).Z|) →
         ((0 < (ComputeNewLocation c c.InitialConditions dt
                - c.InitialConditions.InitialWorldLocation).Z →
              0 ≤ (ComputeVelocity Real.sqrt c dt).Z)
          ∧ (dt = 0 → c.InitialConditions.InitialVelocity.Z ≤ 0))) := by
  have hden : 0 < 1 + c.k * dt := by positivity
  have hg : c.GetGravityZ < 0 := by
    by_contra hge
    have hnn : 0.5 * -c.GetGravityZ / c.TerminalVelocity ≤ 0 :=
      div_nonpos_of_nonpos_of_nonneg (by linarith) hTV.le
    linarith
  rw [ComputeTimeOfFlight_air _ _ hair, deltaLoc_air c _ dt hpen hVinf,
    ComputeVelocity_air_Z_nonneg_iff c dt hair hVinf hk hdt]
  simp only []
  by_cases h1 : |c.InitialConditions.InitialVelocity.X * dt / (1 + c.k * dt)|
        > |c.InitialConditions.InitialVelocity.Y * dt / (1 + c.k * dt)|
      ∧ |c.InitialConditions.InitialVelocity.X * dt / (1 + c.k * dt)|
        > |(c.InitialConditions.InitialVelocity.Z - c.k * c.TerminalVelocity * dt) * dt
            / (1 + c.k * dt)|
  · rw [if_pos h1]
    have hne : c.InitialConditions.InitialVelocity.X * dt / (1 + c.k * dt) ≠ 0 := by
      intro h0
      rw [h0, abs_zero] at h1
      exact absurd h1.1 (not_lt.mpr (abs_nonneg _))
    exact ⟨fun _ hn => absurd h1 hn, fun _ => horizontal_inverse _ _ _ hden hne⟩
  · rw [if_neg h1]
    by_cases h2 : |c.InitialConditions.InitialVelocity.Y * dt / (1 + c.k * dt)|
        > |(c.InitialConditions.InitialVelocity.Z - c.k * c.TerminalVelocity * dt) * dt
            / (1 + c.k * dt)|
    · rw [if_pos h2]
      have hne : c.InitialConditions.InitialVelocity.Y * dt / (1 + c.k * dt) ≠ 0 := by
        intro h0
        rw [h0, abs_zero] at h2
        exact absurd h2 (not_lt.mpr (abs_nonneg _))
      exact ⟨fun _ _ hn => absurd h2 hn, fun _ => horizontal_inverse _ _ _ hden hne⟩
    · rw [if_neg h2]
      have hp : (c.InitialConditions.InitialVelocity.Z - c.k * c.TerminalVelocity * dt) * dt
            / (1 + c.k * dt) * (1 + c.k * dt)
          = (c.InitialConditions.InitialVelocity.Z - c.k * c.TerminalVelocity * dt) * dt :=
        div_mul_cancel₀ _ hden.ne'
      rw [VerticalTimeOfFlight_eq_iff _ _ _ _ _ dt hk hTV hg hdt hp]
      exact ⟨fun h _ _ => h, fun h => h h1 h2⟩

end URealisticProjectileComponent

namespace URealisticProjectileComponent


/-- The state of `ScenarioA` and `VerticalShot` that the round-trip lemmas read. -/
theorem Launched_tick_facts (v0 : FVector ℝ) :
    ((Launched Real.sqrt v0 ⟨0, 0, 0⟩ 0).SetTickConstants).ObjectsPenetrated = []
    ∧ ((Launched Real.sqrt v0 ⟨0, 0, 0⟩ 0).SetTickConstants).InitialConditions.PenDeceleration = 1
    ∧ ((Launched Real.sqrt v0 ⟨0, 0, 0⟩ 0).SetTickConstants).k = 109 / 2000
    ∧ ((Launched Real.sqrt v0 ⟨0, 0, 0⟩ 0).SetTickConstants).TerminalVelocity = 9000
    ∧ ((Launched Real.sqrt v0 ⟨0, 0, 0⟩ 0).SetTickConstants).GetGravityZ = -981
    ∧ ((Launched Real.sqrt v0 ⟨0, 0, 0⟩ 0).SetTickConstants).Vinf = ⟨0, 0, -9000⟩
    ∧ ((Launched Real.sqrt v0 ⟨0, 0, 0⟩ 0).SetTickConstants).InitialConditions.InitialVelocity
        = v0
    ∧ ((Launched Real.sqrt v0 ⟨0, 0, 0⟩ 0).SetTickConstants).InitialConditions.InitialWorldLocation
        = ⟨0, 0, 0⟩ := by
  refine ⟨rfl, rfl, ?_, rfl, rfl, rfl, rfl, rfl⟩
  show (0.5 * -(-981 : ℝ) / 9000) = 109 / 2000
  norm_num

/-- C1 at a concrete input: in Scenario A (horizontal launch at 5000 units/s, defaults) the
X axis is selected and the round trip at `dt = 1` returns `1`. -/
theorem C1_witness :
    (ScenarioA Real.sqrt).ObjectsPenetrated = []
    ∧ 0 < (ScenarioA Real.sqrt).InitialConditions.PenDeceleration
    ∧ 0 < (ScenarioA Real.sqrt).k
    ∧ 0 < (ScenarioA Real.sqrt).TerminalVelocity
    ∧ ComputeTimeOfFlight Real.sqrt (ScenarioA Real.sqrt)
        (ComputeNewLocation (ScenarioA Real.sqrt) (ScenarioA Real.sqrt).InitialConditions 1)
      = 1 := by
  obtain ⟨f1, f2, f3, f4, f5, f6, f7, f8⟩ := Launched_tick_facts ⟨5000, 0, 0⟩
  have hpen : 0 < (ScenarioA Real.sqrt).InitialConditions.PenDeceleration := by
    unfold ScenarioA
    rw [f2]
    norm_num
  have hk : 0 < (ScenarioA Real.sqrt).k := by
    unfold ScenarioA
    rw [f3]
    norm_num
  have hTV : 0 < (ScenarioA Real.sqrt).TerminalVelocity := by
    unfold ScenarioA
    rw [f4]
    norm_num
  have hVinf : (ScenarioA Real.sqrt).Vinf = ⟨0, 0, -(ScenarioA Real.sqrt).TerminalVelocity⟩ := rfl
  refine ⟨rfl, hpen, hk, hTV, ?_⟩
  refine (C1_free_medium_round_trip (ScenarioA Real.sqrt) 1 rfl hpen rfl hVinf hk hTV
    (by norm_num)).mpr (fun hn => absurd ?_ hn)
  rw [deltaLoc_air _ _ _ hpen hVinf]
  unfold ScenarioA
  rw [f3, f4, f7]
  norm_num [abs_of_pos, abs_of_neg]

/-- C1 fails at a concrete input: a shot straight up at 981 units/s with the default terminal
velocity 9000 and gravity -981 (`k = 109/2000`). After `dt = 1` s the projectile has passed its
apex and is still above the launch height; `ComputeTimeOfFlight` applied to
`ComputeNewLocation(InitialConditions, 1)` returns the earlier root `2000/2109`, not `1`. -/
theorem C1_counterexample :
    (VerticalShot Real.sqrt).ObjectsPenetrated = []
    ∧ 0 < (VerticalShot Real.sqrt).InitialConditions.PenDeceleration
    ∧ 0 < (VerticalShot Real.sqrt).k
    ∧ 0 < (VerticalShot Real.sqrt).TerminalVelocity
    ∧ (0 : ℝ) ≤ 1
    ∧ ComputeTimeOfFlight Real.sqrt (VerticalShot Real.sqrt)
        (ComputeNewLocation (VerticalShot Real.sqrt) (VerticalShot Real.sqrt).InitialConditions 1)
      = 2000 / 2109
    ∧ ComputeTimeOfFlight Real.sqrt (VerticalShot Real.sqrt)
        (ComputeNewLocation (VerticalShot Real.sqrt) (VerticalShot Real.sqrt).InitialConditions 1)
      ≠ 1 := by
  obtain ⟨f1, f2, f3, f4, f5, f6, f7, f8⟩ := Launched_tick_facts ⟨0, 0, 981⟩
  have hpen : 0 < (VerticalShot Real.sqrt).InitialConditions.PenDeceleration := by
    unfold VerticalShot
    rw [f2]
    norm_num
  have hk : 0 < (VerticalShot Real.sqrt).k := by
    unfold VerticalShot
    rw [f3]
    norm_num
  have hTV : 0 < (VerticalShot Real.sqrt).TerminalVelocity := by
    unfold VerticalShot
    rw [f4]
    norm_num
  have hVinf : (VerticalShot Real.sqrt).Vinf
      = ⟨0, 0, -(VerticalShot Real.sqrt).TerminalVelocity⟩ := rfl
  have hval : ComputeTimeOfFlight Real.sqrt (VerticalShot Real.sqrt)
      (ComputeNewLocation (VerticalShot Real.sqrt) (VerticalShot Real.sqrt).InitialConditions 1)
      = 2000 / 2109 := by
    rw [ComputeTimeOfFlight_air _ _ rfl, deltaLoc_air _ _ _ hpen hVinf]
    unfold VerticalShot
    rw [f3, f4, f5, f7]
    have hp : ((981 : ℝ) - 109 / 2000 * 9000 * 1) * 1 / (1 + 109 / 2000 * 1)
        * (1 + 109 / 2000 * 1) = (981 - 109 / 2000 * 9000 * 1) * 1 := by norm_num
    have hs := vertical_roots (109 / 2000) 9000 981
      (((981 : ℝ) - 109 / 2000 * 9000 * 1) * 1 / (1 + 109 / 2000 * 1)) 1 hp
    unfold VerticalTimeOfFlight
    simp only [hs]
    norm_num [abs_of_pos, abs_of_neg]
  refine ⟨rfl, hpen, hk, hTV, by norm_num, hval, ?_⟩
  rw [hval]
  norm_num

end URealisticProjectileComponent

namespace URealisticProjectileComponent

section Decision

variable {α : Type} [LinearOrderedField α]

/-- In bounce-and-penetrate mode the decision compares the sample with `ChanceOfPenetration`. -/
theorem DecideBouncePenetrate_both (sqrt acos : α → α) (c : URealisticProjectileComponent α)
    (Hit : FHitResult α)
    (hmode : c.ProjectileBehavior = EProjectileBehavior.PB_Bounce_And_Penetrate) :
    DecideBouncePenetrate sqrt acos c Hit
      = (decide ((c.RandStream.FRand : α × FRandomStream).1
            ≥ ChanceOfPenetration sqrt acos c Hit),
          (c.RandStream.FRand : α × FRandomStream).2) := by
  unfold DecideBouncePenetrate ChanceOfPenetration
  simp [hmode]

/-- C6 (amended). In bounce-and-penetrate mode `DecideBouncePenetrate` draws one sample and
returns bounce (`true`) exactly when the sample is not below the computed penetration
probability (sample >= probability); it chooses penetrate (`false`) exactly when the sample is
below the probability. -/
theorem C6_decision_compares_sample (sqrt acos : α → α) (c : URealisticProjectileComponent α)
    (Hit : FHitResult α)
    (hmode : c.ProjectileBehavior = EProjectileBehavior.PB_Bounce_And_Penetrate) :
    ((DecideBouncePenetrate sqrt acos c Hit).1 = true
        ↔ (c.RandStream.FRand : α × FRandomStream).1 ≥ ChanceOfPenetration sqrt acos c Hit)
    ∧ ((DecideBouncePenetrate sqrt acos c Hit).1 = false
        ↔ (c.RandStream.FRand : α × FRandomStream).1 < ChanceOfPenetration sqrt acos c Hit)
    ∧ (DecideBouncePenetrate sqrt acos c Hit).2 = (c.RandStream.FRand : α × FRandomStream).2 := by
  rw [DecideBouncePenetrate_both sqrt acos c Hit hmode]
  refine ⟨?_, ?_, rfl⟩
  · simp
  · simp

/-- C7. With bounce-only mode `DecideBouncePenetrate` returns bounce (`true`) and with
penetrate-only mode it returns penetrate (`false`), for every hit, velocity, material table and
random-stream state, and the random stream is returned unchanged (no sample is drawn). -/
theorem C7_behavior_mode_determinism (sqrt acos : α → α) (c : URealisticProjectileComponent α)
    (Hit : FHitResult α) :
    (c.ProjectileBehavior = EProjectileBehavior.PB_Bounce_Only →
        DecideBouncePenetrate sqrt acos c Hit = (true, c.RandStream))
    ∧ (c.ProjectileBehavior = EProjectileBehavior.PB_Penetrate_Only →
        DecideBouncePenetrate sqrt acos c Hit = (false, c.RandStream)) := by
  constructor
  · intro h
    unfold DecideBouncePenetrate
    rw [if_pos h]
  · intro h
    unfold DecideBouncePenetrate
    rw [if_neg (by rw [h]; decide), if_pos h]

end Decision

/-- The penetration probability of the default projectile (speed 1, default toughness 2000) is
zero, whatever the impact angle. -/
theorem ChanceOfPenetration_BounceAndPenetrate (Hit : FHitResult ℝ) :
    ChanceOfPenetration Real.sqrt Real.arccos (BounceAndPenetrate Real.sqrt) Hit = 0 := by
  unfold ChanceOfPenetration
  have hv : (BounceAndPenetrate Real.sqrt).Velocity = ⟨1, 0, 0⟩ := rfl
  have ht : (BounceAndPenetrate Real.sqrt).MaterialPropertiesTable = none := rfl
  rw [hv, ht]
  simp only [Size_axis_X 1 zero_le_one]
  have hz : FMath.GetMappedRangeValueClamped (0.1 : ℝ) 1.0 0.0 1 (1 / 2000) = 0 := by
    unfold FMath.GetMappedRangeValueClamped FMath.Clamp
    norm_num
  rw [hz, mul_zero]

/-- C6 at a concrete input: the default projectile in bounce-and-penetrate mode. -/
theorem C6_witness :
    (BounceAndPenetrate Real.sqrt).ProjectileBehavior
      = EProjectileBehavior.PB_Bounce_And_Penetrate
    ∧ ((DecideBouncePenetrate Real.sqrt Real.arccos (BounceAndPenetrate Real.sqrt)
          (HitAt ⟨100, 0, 0⟩ 7)).1 = false
        ↔ ((BounceAndPenetrate Real.sqrt).RandStream.FRand : ℝ × FRandomStream).1
            < ChanceOfPenetration Real.sqrt Real.arccos (BounceAndPenetrate Real.sqrt)
                (HitAt ⟨100, 0, 0⟩ 7)) :=
  ⟨rfl, (C6_decision_compares_sample Real.sqrt Real.arccos (BounceAndPenetrate Real.sqrt)
    (HitAt ⟨100, 0, 0⟩ 7) rfl).2.1⟩

/-- C6 fails as stated: for the default projectile in bounce-and-penetrate mode (speed 1,
toughness 2000, seed 0) the penetration probability is 0 and the sample is 1663851/8388608,
which is not below the probability, yet `DecideBouncePenetrate` returns `true`, bounce, where
the claim says penetrate. -/
theorem C6_counterexample :
    (BounceAndPenetrate Real.sqrt).ProjectileBehavior
      = EProjectileBehavior.PB_Bounce_And_Penetrate
    ∧ ChanceOfPenetration Real.sqrt Real.arccos (BounceAndPenetrate Real.sqrt)
        (HitAt ⟨100, 0, 0⟩ 7) = 0
    ∧ ((BounceAndPenetrate Real.sqrt).RandStream.FRand : ℝ × FRandomStream).1
        = 1663851 / 8388608
    ∧ ((BounceAndPenetrate Real.sqrt).RandStream.FRand : ℝ × FRandomStream).1
        ≥ ChanceOfPenetration Real.sqrt Real.arccos (BounceAndPenetrate Real.sqrt)
            (HitAt ⟨100, 0, 0⟩ 7)
    ∧ (DecideBouncePenetrate Real.sqrt Real.arccos (BounceAndPenetrate Real.sqrt)
        (HitAt ⟨100, 0, 0⟩ 7)).1 = true := by
  have hs : ((BounceAndPenetrate Real.sqrt).RandStream.FRand : ℝ × FRandomStream).1
      = 1663851 / 8388608 := by
    show (((907633515 % 4294967296 % 8388608 : ℕ) : ℝ) / 8388608) = 1663851 / 8388608
    norm_num
  have hc := ChanceOfPenetration_BounceAndPenetrate (HitAt ⟨100, 0, 0⟩ 7)
  have hge : ((BounceAndPenetrate Real.sqrt).RandStream.FRand : ℝ × FRandomStream).1
      ≥ ChanceOfPenetration Real.sqrt Real.arccos (BounceAndPenetrate Real.sqrt)
          (HitAt ⟨100, 0, 0⟩ 7) := by
    rw [hs, hc]
    norm_num
  refine ⟨rfl, hc, hs, hge, ?_⟩
  rw [DecideBouncePenetrate_both _ _ _ _ rfl]
  simpa using hge

/-- C7 at a concrete input: the defaults are in bounce-only mode; the decision is bounce and the
stream is untouched. -/
theorem C7_witness :
    (Construct Real.sqrt ⟨1, 0, 0⟩ ⟨0, 0, 0⟩).ProjectileBehavior
      = EProjectileBehavior.PB_Bounce_Only
    ∧ DecideBouncePenetrate Real.sqrt Real.arccos (Construct Real.sqrt ⟨1, 0, 0⟩ ⟨0, 0, 0⟩)
        (HitAt ⟨100, 0, 0⟩ 7)
      = (true, (Construct Real.sqrt ⟨1, 0, 0⟩ ⟨0, 0, 0⟩).RandStream) :=
  ⟨rfl, (C7_behavior_mode_determinism Real.sqrt Real.arccos
    (Construct Real.sqrt ⟨1, 0, 0⟩ ⟨0, 0, 0⟩) (HitAt ⟨100, 0, 0⟩ 7)).1 rfl⟩

end URealisticProjectileComponent

namespace URealisticProjectileComponent

section FirstHit

variable {α : Type} [LinearOrderedField α]

/-- Sorting by the strict predicate "key is smaller" puts an element of minimal key first. -/
theorem head_insertionSort_min {β : Type} (key : β → α) (l : List β) (hl : l ≠ []) :
    ∃ h, (l.insertionSort (fun A B => key A < key B)).head? = some h
      ∧ h ∈ l ∧ ∀ x ∈ l, key h ≤ key x := by
  induction l with
  | nil => exact absurd rfl hl
  | cons a l ih =>
    by_cases hnil : l = []
    · subst hnil
      exact ⟨a, by simp, by simp, by simp⟩
    · obtain ⟨h, hh, hmem, hmin⟩ := ih hnil
      rw [List.insertionSort]
      cases hs : l.insertionSort (fun A B => key A < key B) with
      | nil =>
        rw [hs] at hh
        simp at hh
      | cons b t =>
        rw [hs] at hh
        simp only [List.head?_cons, Option.some.injEq] at hh
        subst hh
        rw [List.orderedInsert]
        by_cases hab : key a < key b
        · rw [if_pos hab]
          refine ⟨a, by simp, by simp, ?_⟩
          intro x hx
          rcases List.mem_cons.mp hx with rfl | hx
          · exact le_rfl
          · exact hab.le.trans (hmin x hx)
        · rw [if_neg hab]
          refine ⟨b, by simp, List.mem_cons_of_mem _ hmem, ?_⟩
          intro x hx
          rcases List.mem_cons.mp hx with rfl | hx
          · exact not_lt.mp hab
          · exact hmin x hx

/-- What `GetFirstHit` returns when both lists are non-empty: a nearest entry hit `e` and a
nearest exit hit `x`, compared with a strict `<`. -/
theorem GetFirstHit_both (MoveEntryHits MoveExitHits : List (FHitResult α))
    (OrigLocation : FVector α) (hE : MoveEntryHits ≠ []) (hX : MoveExitHits ≠ []) :
    ∃ e x, e ∈ MoveEntryHits ∧ x ∈ MoveExitHits
      ∧ (∀ y ∈ MoveEntryHits, HitDistSquared OrigLocation e ≤ HitDistSquared OrigLocation y)
      ∧ (∀ y ∈ MoveExitHits, HitDistSquared OrigLocation x ≤ HitDistSquared OrigLocation y)
      ∧ GetFirstHit MoveEntryHits MoveExitHits OrigLocation
        = some (if HitDistSquared OrigLocation e < HitDistSquared OrigLocation x then e else x,
            decide (HitDistSquared OrigLocation e < HitDistSquared OrigLocation x)) := by
  obtain ⟨e, he, hem, hemin⟩ := head_insertionSort_min (HitDistSquared OrigLocation)
    MoveEntryHits hE
  obtain ⟨x, hx, hxm, hxmin⟩ := head_insertionSort_min (HitDistSquared OrigLocation)
    MoveExitHits hX
  refine ⟨e, x, hem, hxm, hemin, hxmin, ?_⟩
  unfold GetFirstHit
  have hEl : ¬ MoveEntryHits.length = 0 := fun h => hE (List.length_eq_zero.mp h)
  have hXl : ¬ MoveExitHits.length = 0 := fun h => hX (List.length_eq_zero.mp h)
  simp only [hEl, hXl, if_false, he, hx]

/-- The three cases of `GetFirstHit`. When both candidate lists are non-empty it returns a hit
whose squared distance to the sub-step origin is minimal among all hits of both lists, and
`OutIsEntryHit` tells which list it came from. When only the entry list is non-empty it returns
that list's first element as the sweep reported it, and when only the exit list is non-empty
that list's last element, without comparing distances. -/
theorem GetFirstHit_cases (MoveEntryHits MoveExitHits : List (FHitResult α))
    (OrigLocation : FVector α) :
    (MoveEntryHits ≠ [] → MoveExitHits ≠ [] →
      ∃ h b, GetFirstHit MoveEntryHits MoveExitHits OrigLocation = some (h, b)
        ∧ (∀ y ∈ MoveEntryHits ++ MoveExitHits,
            HitDistSquared OrigLocation h ≤ HitDistSquared OrigLocation y)
        ∧ (b = true → h ∈ MoveEntryHits) ∧ (b = false → h ∈ MoveExitHits))
    ∧ (∀ e es, MoveEntryHits = e :: es → MoveExitHits = [] →
        GetFirstHit MoveEntryHits MoveExitHits OrigLocation = some (e, true))
    ∧ (∀ hX : MoveExitHits ≠ [], MoveEntryHits = [] →
        GetFirstHit MoveEntryHits MoveExitHits OrigLocation
          = some (MoveExitHits.getLast hX, false)) := by
  refine ⟨fun hE hX => ?_, fun e es hE hX => ?_, fun hX hE => ?_⟩
  · obtain ⟨e, x, hem, hxm, hemin, hxmin, hres⟩ :=
      GetFirstHit_both MoveEntryHits MoveExitHits OrigLocation hE hX
    refine ⟨_, _, hres, ?_, ?_, ?_⟩
    · intro y hy
      by_cases hlt : HitDistSquared OrigLocation e < HitDistSquared OrigLocation x
      · rw [if_pos hlt]
        rcases List.mem_append.mp hy with hy | hy
        · exact hemin y hy
        · exact hlt.le.trans (hxmin y hy)
      · rw [if_neg hlt]
        rcases List.mem_append.mp hy with hy | hy
        · exact (not_lt.mp hlt).trans (hemin y hy)
        · exact hxmin y hy
    · intro hb
      rw [if_pos (of_decide_eq_true hb)]
      exact hem
    · intro hb
      rw [if_neg (of_decide_eq_false hb)]
      exact hxm
  · subst hE hX
    simp [GetFirstHit]
  · subst hE
    unfold GetFirstHit
    have hXl : ¬ MoveExitHits.length = 0 := fun h => hX (List.length_eq_zero.mp h)
    simp only [hXl, if_false, List.length_nil, if_true, List.getLast?_eq_getLast _ hX]

/-- C9 (amended). Exit wins ties: when both candidate lists are non-empty and the nearest entry
candidate and the nearest exit candidate are at equal squared distance from the origin,
`GetFirstHit` returns an exit hit at that distance and sets `OutIsEntryHit` to false. -/
theorem C9_exit_wins_ties (MoveEntryHits MoveExitHits : List (FHitResult α))
    (OrigLocation : FVector α) (e x : FHitResult α)
    (he : e ∈ MoveEntryHits) (hx : x ∈ MoveExitHits)
    (hemin : ∀ y ∈ MoveEntryHits, HitDistSquared OrigLocation e ≤ HitDistSquared OrigLocation y)
    (hxmin : ∀ y ∈ MoveExitHits, HitDistSquared OrigLocation x ≤ HitDistSquared OrigLocation y)
    (htie : HitDistSquared OrigLocation e = HitDistSquared OrigLocation x) :
    ∃ h, GetFirstHit MoveEntryHits MoveExitHits OrigLocation = some (h, false)
      ∧ h ∈ MoveExitHits
      ∧ HitDistSquared OrigLocation h = HitDistSquared OrigLocation x := by
  have hE : MoveEntryHits ≠ [] := List.ne_nil_of_mem he
  have hX : MoveExitHits ≠ [] := List.ne_nil_of_mem hx
  obtain ⟨e', x', hem', hxm', hemin', hxmin', hres⟩ :=
    GetFirstHit_both MoveEntryHits MoveExitHits OrigLocation hE hX
  have h1 : HitDistSquared OrigLocation e' = HitDistSquared OrigLocation e :=
    le_antisymm (hemin' e he) (hemin e' hem')
  have h2 : HitDistSquared OrigLocation x' = HitDistSquared OrigLocation x :=
    le_antisymm (hxmin' x hx) (hxmin x' hxm')
  have hnlt : ¬ HitDistSquared OrigLocation e' < HitDistSquared OrigLocation x' := by
    rw [h1, h2, htie]
    exact lt_irrefl _
  rw [if_neg hnlt, decide_eq_false hnlt] at hres
  exact ⟨x', hres, hxm', h2⟩

end FirstHit

end URealisticProjectileComponent

namespace URealisticProjectileComponent

/-- Squared distance from the origin of a hit on the X axis. -/
theorem HitDistSquared_HitAt (x : ℝ) (Actor : Nat) :
    HitDistSquared ⟨0, 0, 0⟩ (HitAt ⟨x, 0, 0⟩ Actor) = x * x := by
  simp [HitDistSquared, HitAt, FVector.SizeSquared]

/-- Without an exit candidate `GetFirstHit` relies on the order of the entry candidates: for
the list of a hit at distance 200 followed by a hit at distance 100, which is not in the order
of a forward sweep, it returns the first listed hit, at distance 200. -/
theorem GetFirstHit_first_listed :
    GetFirstHit [HitAt ⟨200, 0, 0⟩ 1, HitAt ⟨100, 0, 0⟩ 2] [] (⟨0, 0, 0⟩ : FVector ℝ)
      = some (HitAt ⟨200, 0, 0⟩ 1, true)
    ∧ HitAt (⟨100, 0, 0⟩ : FVector ℝ) 2 ∈ [HitAt ⟨200, 0, 0⟩ 1, HitAt ⟨100, 0, 0⟩ 2]
    ∧ HitDistSquared (⟨0, 0, 0⟩ : FVector ℝ) (HitAt ⟨100, 0, 0⟩ 2)
      < HitDistSquared ⟨0, 0, 0⟩ (HitAt ⟨200, 0, 0⟩ 1) := by
  refine ⟨by simp [GetFirstHit], by simp, ?_⟩
  rw [HitDistSquared_HitAt, HitDistSquared_HitAt]
  norm_num

/-- C9 at a concrete input: one entry hit and one exit hit, both at distance 100. -/
theorem C9_witness :
    ∃ h, GetFirstHit [HitAt ⟨100, 0, 0⟩ 1] [HitAt ⟨-100, 0, 0⟩ 2] (⟨0, 0, 0⟩ : FVector ℝ)
        = some (h, false)
      ∧ h ∈ [HitAt (⟨-100, 0, 0⟩ : FVector ℝ) 2]
      ∧ HitDistSquared (⟨0, 0, 0⟩ : FVector ℝ) h
        = HitDistSquared ⟨0, 0, 0⟩ (HitAt ⟨-100, 0, 0⟩ 2) :=
  C9_exit_wins_ties [HitAt ⟨100, 0, 0⟩ 1] [HitAt ⟨-100, 0, 0⟩ 2] (⟨0, 0, 0⟩ : FVector ℝ)
    (HitAt ⟨100, 0, 0⟩ 1) (HitAt ⟨-100, 0, 0⟩ 2) (by simp) (by simp)
    (by simp) (by simp)
    (by rw [HitDistSquared_HitAt, HitDistSquared_HitAt]; norm_num)

/-- C9 fails as stated: with one entry hit at `(100, 0, 0)` and one exit hit at `(-100, 0, 0)`,
both at squared distance 10000 from the origin, `GetFirstHit` returns the exit hit and sets
`OutIsEntryHit` to false. -/
theorem C9_counterexample :
    HitDistSquared (⟨0, 0, 0⟩ : FVector ℝ) (HitAt ⟨100, 0, 0⟩ 1)
      = HitDistSquared ⟨0, 0, 0⟩ (HitAt ⟨-100, 0, 0⟩ 2)
    ∧ GetFirstHit [HitAt ⟨100, 0, 0⟩ 1] [HitAt ⟨-100, 0, 0⟩ 2] (⟨0, 0, 0⟩ : FVector ℝ)
      = some (HitAt ⟨-100, 0, 0⟩ 2, false) := by
  have htie : HitDistSquared (⟨0, 0, 0⟩ : FVector ℝ) (HitAt ⟨100, 0, 0⟩ 1)
      = HitDistSquared ⟨0, 0, 0⟩ (HitAt ⟨-100, 0, 0⟩ 2) := by
    rw [HitDistSquared_HitAt, HitDistSquared_HitAt]
    norm_num
  refine ⟨htie, ?_⟩
  unfold GetFirstHit
  simp [htie]

end URealisticProjectileComponent

namespace FVector

/-- The X component of a negated vector. -/
theorem neg_X (a : FVector ℝ) : (-a).X = -a.X := rfl

/-- The Y component of a negated vector. -/
theorem neg_Y (a : FVector ℝ) : (-a).Y = -a.Y := rfl

/-- The Z component of a negated vector. -/
theorem neg_Z (a : FVector ℝ) : (-a).Z = -a.Z := rfl

end FVector

/-! ## The sub-steps of a tick -/

namespace URealisticProjectileComponent



/-- The overlap scan of an empty sweep result. -/
theorem ProcessOverlaps_nil (W : UWorld ℝ) (c : URealisticProjectileComponent ℝ) (G L : ℝ) :
    ProcessOverlaps W c G L [] = (SetOverlaps c [] [], []) := rfl

/-- A sub-step in free medium whose forward sweep reports nothing. -/
theorem TickSubStep_air_nohit (M : FEngineMath ℝ) (W : UWorld ℝ) (D G : ℝ)
    (s : FTickLoopState ℝ)
    (hL : 0 ≤ LaunchDeltaTimeOf s.Component D G (s.TickRemainingTime - D))
    (hair : s.Component.ObjectsPenetrated = [])
    (hsweep : DoSweep W s.Component s.Component.Body.Location
      (ComputeNewLocation s.Component s.Component.InitialConditions
        (LaunchDeltaTimeOf s.Component D G (s.TickRemainingTime - D)))
      (if s.Component.bRotationFollowsVelocity
          ∧ ¬ (FVector.IsNearlyZero s.Component.Velocity 0.01) then
        M.Rotation s.Component.Velocity + (s.Component.InitialConditions.InitialRotation
          + LaunchDeltaTimeOf s.Component D G (s.TickRemainingTime - D)
            • s.Component.AngularVelocity)
      else s.Component.Body.Rotation) true = []) :
    TickSubStep M W D G s
      = some ⟨UpdateComponentVelocity (ActorMove
          (SetVelocity (SetOverlaps s.Component [] [])
            (ComputeVelocity M.sqrt (SetOverlaps s.Component [] [])
              (LaunchDeltaTimeOf s.Component D G (s.TickRemainingTime - D))))
          (ComputeNewLocation s.Component s.Component.InitialConditions
            (LaunchDeltaTimeOf s.Component D G (s.TickRemainingTime - D)))
          (if s.Component.bRotationFollowsVelocity
              ∧ ¬ (FVector.IsNearlyZero s.Component.Velocity 0.01) then
            M.Rotation s.Component.Velocity + (s.Component.InitialConditions.InitialRotation
              + LaunchDeltaTimeOf s.Component D G (s.TickRemainingTime - D)
                • s.Component.AngularVelocity)
          else s.Component.Body.Rotation)),
        s.TickRemainingTime - D, s.Iterations + 1, false⟩ := by
  unfold TickSubStep
  simp only [not_lt.mpr hL, if_false, hair, List.length_nil, gt_iff_lt, lt_self_iff_false,
    false_and, decide_False, Bool.false_eq_true, hsweep, ProcessOverlaps_nil, List.filter_nil,
    List.head?_nil, SetOverlaps_ObjectsPenetrated]



/-- The overlap scan of a single blocking hit keeps the hit. -/
theorem ProcessOverlaps_blocking (W : UWorld ℝ) (c : URealisticProjectileComponent ℝ) (G L : ℝ)
    (Hit : FHitResult ℝ)
    (hblock : W.GetCollisionResponseToComponent Hit.Component = ECollisionResponse.ECR_Block) :
    ProcessOverlaps W c G L [Hit] = (SetOverlaps c [] [], [Hit]) := by
  simp [ProcessOverlaps, hblock]

/-- A sub-step in free medium of a bounce-only projectile whose forward sweep reports one
blocking hit. -/
theorem TickSubStep_air_bounce (M : FEngineMath ℝ) (W : UWorld ℝ) (D G : ℝ)
    (s : FTickLoopState ℝ) (Hit : FHitResult ℝ)
    (hL : 0 ≤ LaunchDeltaTimeOf s.Component D G (s.TickRemainingTime - D))
    (hair : s.Component.ObjectsPenetrated = [])
    (hmode : s.Component.ProjectileBehavior = EProjectileBehavior.PB_Bounce_Only)
    (hblock : W.GetCollisionResponseToComponent Hit.Component = ECollisionResponse.ECR_Block)
    (hstart : Hit.bStartPenetrating = false)
    (hsweep : DoSweep W s.Component s.Component.Body.Location
      (ComputeNewLocation s.Component s.Component.InitialConditions
        (LaunchDeltaTimeOf s.Component D G (s.TickRemainingTime - D)))
      (if s.Component.bRotationFollowsVelocity
          ∧ ¬ (FVector.IsNearlyZero s.Component.Velocity 0.01) then
        M.Rotation s.Component.Velocity + (s.Component.InitialConditions.InitialRotation
          + LaunchDeltaTimeOf s.Component D G (s.TickRemainingTime - D)
            • s.Component.AngularVelocity)
      else s.Component.Body.Rotation) true = [Hit]) :
    TickSubStep M W D G s
      = some ⟨UpdateComponentVelocity (ResolveBounce M
          (SetRandStream (SetOverlaps s.Component [] []) s.Component.RandStream)
          (s.TickRemainingTime - D)
          (LaunchDeltaTimeOf s.Component D G (s.TickRemainingTime - D))
          (if s.Component.bRotationFollowsVelocity
              ∧ ¬ (FVector.IsNearlyZero s.Component.Velocity 0.01) then
            M.Rotation s.Component.Velocity + (s.Component.InitialConditions.InitialRotation
              + LaunchDeltaTimeOf s.Component D G (s.TickRemainingTime - D)
                • s.Component.AngularVelocity)
          else s.Component.Body.Rotation)
          (s.Component.InitialConditions.InitialRotation
              + LaunchDeltaTimeOf s.Component D G (s.TickRemainingTime - D)
                • s.Component.AngularVelocity)
          Hit).1,
        (ResolveBounce M
          (SetRandStream (SetOverlaps s.Component [] []) s.Component.RandStream)
          (s.TickRemainingTime - D)
          (LaunchDeltaTimeOf s.Component D G (s.TickRemainingTime - D))
          (if s.Component.bRotationFollowsVelocity
              ∧ ¬ (FVector.IsNearlyZero s.Component.Velocity 0.01) then
            M.Rotation s.Component.Velocity + (s.Component.InitialConditions.InitialRotation
              + LaunchDeltaTimeOf s.Component D G (s.TickRemainingTime - D)
                • s.Component.AngularVelocity)
          else s.Component.Body.Rotation)
          (s.Component.InitialConditions.InitialRotation
              + LaunchDeltaTimeOf s.Component D G (s.TickRemainingTime - D)
                • s.Component.AngularVelocity)
          Hit).2, s.Iterations + 1, false⟩ := by
  have hdec : ∀ c' : URealisticProjectileComponent ℝ,
      c'.ProjectileBehavior = EProjectileBehavior.PB_Bounce_Only →
      DecideBouncePenetrate M.sqrt M.acos c' Hit = (true, c'.RandStream) := by
    intro c' h
    unfold DecideBouncePenetrate
    rw [if_pos h]
  unfold TickSubStep
  simp only [not_lt.mpr hL, if_false, hair, List.length_nil, gt_iff_lt, lt_self_iff_false,
    false_and, decide_False, Bool.false_eq_true, hsweep, ProcessOverlaps_blocking _ _ _ _ _ hblock,
    List.filter_cons, List.filter_nil, hstart, not_false_eq_true, decide_True, if_true,
    List.head?_cons, SetOverlaps_ObjectsPenetrated,
    hdec _ (show (SetOverlaps s.Component [] []).ProjectileBehavior
      = EProjectileBehavior.PB_Bounce_Only from hmode)]
  rfl



/-- `ComputeTimeOfFlight` reads only the active record, the stack, `k`, the terminal velocity,
the gravity and the current deceleration. -/
theorem ComputeTimeOfFlight_congr (sqrt : ℝ → ℝ) (c c' : URealisticProjectileComponent ℝ)
    (h1 : c'.InitialConditions = c.InitialConditions)
    (h2 : c'.ObjectsPenetrated = c.ObjectsPenetrated) (h3 : c'.k = c.k)
    (h4 : c'.TerminalVelocity = c.TerminalVelocity)
    (h5 : c'.CurrentGravity = c.CurrentGravity)
    (h6 : c'.CurrentPenetrationDeceleration = c.CurrentPenetrationDeceleration)
    (loc : FVector ℝ) :
    ComputeTimeOfFlight sqrt c' loc = ComputeTimeOfFlight sqrt c loc := by
  unfold ComputeTimeOfFlight GetGravityZ
  rw [h1, h2, h3, h4, h5, h6]

/-- In free medium `ComputeVelocity` reads only the active record, `k` and `Vinf`. -/
theorem ComputeVelocity_air_congr (sqrt : ℝ → ℝ) (c c' : URealisticProjectileComponent ℝ)
    (h1 : c'.InitialConditions = c.InitialConditions)
    (h2 : c'.ObjectsPenetrated = []) (h2' : c.ObjectsPenetrated = []) (h3 : c'.k = c.k)
    (h4 : c'.Vinf = c.Vinf) (dt : ℝ) :
    ComputeVelocity sqrt c' dt = ComputeVelocity sqrt c dt := by
  rw [ComputeVelocity_air sqrt c' h2, ComputeVelocity_air sqrt c h2', h1, h3, h4]

/-- `AdjustDirection` reads only `Velocity` and `RandStream`. -/
theorem AdjustDirection_congr (M : FEngineMath ℝ) (c c' : URealisticProjectileComponent ℝ)
    (h1 : c'.Velocity = c.Velocity) (h2 : c'.RandStream = c.RandStream)
    (inV n : FVector ℝ) :
    AdjustDirection M c' inV n = AdjustDirection M c inV n := by
  unfold AdjustDirection
  rw [h1, h2]

/-- The velocity after a bounce is `BounceVelocity`. -/
theorem ResolveBounce_Velocity (M : FEngineMath ℝ) (c : URealisticProjectileComponent ℝ)
    (TRT L : ℝ) (r rr : FRotator ℝ) (Hit : FHitResult ℝ) (hair : c.ObjectsPenetrated = []) :
    (ResolveBounce M c TRT L r rr Hit).1.Velocity
      = (BounceVelocity M c Hit (ComputeTimeOfFlight M.sqrt c Hit.Location)).1 := by
  have hF : ComputeTimeOfFlight M.sqrt (ActorMove c (Hit.Location + Hit.ImpactNormal) r)
      Hit.Location = ComputeTimeOfFlight M.sqrt c Hit.Location :=
    ComputeTimeOfFlight_congr M.sqrt c (ActorMove c (Hit.Location + Hit.ImpactNormal) r)
      rfl rfl rfl rfl rfl rfl Hit.Location
  have hV : ∀ t, ComputeVelocity M.sqrt (ActorMove c (Hit.Location + Hit.ImpactNormal) r) t
      = ComputeVelocity M.sqrt c t :=
    fun t => ComputeVelocity_air_congr M.sqrt c (ActorMove c (Hit.Location + Hit.ImpactNormal) r)
      rfl hair hair rfl rfl t
  unfold ResolveBounce BounceVelocity
  simp only [hF, hV]
  generalize ComputeVelocity M.sqrt c (ComputeTimeOfFlight M.sqrt c Hit.Location) = V
  simp only [apply_ite Prod.fst, apply_ite URealisticProjectileComponent.Velocity,
    StopSimulating_Velocity, SetInitialConditions_Velocity, SetRandStream_Velocity,
    SetVelocity_Velocity, Broadcast_Velocity, ite_self]
  have hB : ∀ (X : URealisticProjectileComponent ℝ) e, (Broadcast X e).Bounciness = X.Bounciness :=
    fun _ _ => rfl
  have hB2 : ∀ (X : URealisticProjectileComponent ℝ) e, (SetVelocity X e).Bounciness = X.Bounciness :=
    fun _ _ => rfl
  have hB3 : ∀ (X : URealisticProjectileComponent ℝ) a r, (ActorMove X a r).Bounciness = X.Bounciness :=
    fun _ _ _ => rfl
  rw [hB, hB, hB2, hB3]
  refine congrArg Prod.fst (AdjustDirection_congr M _ _ ?_ ?_ _ _)
  · simp only [SetVelocity_Velocity]
  · simp only [SetVelocity_RandStream, Broadcast_RandStream, ActorMove_RandStream]

/-- What a bounce that leaves the projectile faster than 500 makes of the component. -/
theorem ResolveBounce_fast (M : FEngineMath ℝ) (c : URealisticProjectileComponent ℝ)
    (TRT L : ℝ) (r rr : FRotator ℝ) (Hit : FHitResult ℝ) (hair : c.ObjectsPenetrated = [])
    (hfast : ¬ FVector.Size M.sqrt
      (BounceVelocity M c Hit (ComputeTimeOfFlight M.sqrt c Hit.Location)).1 < 500) :
    (ResolveBounce M c TRT L r rr Hit).2 = TRT + (L - ComputeTimeOfFlight M.sqrt c Hit.Location)
    ∧ (ResolveBounce M c TRT L r rr Hit).1.InitialConditions.t0
        = c.InitialConditions.t0 + ComputeTimeOfFlight M.sqrt c Hit.Location
    ∧ (ResolveBounce M c TRT L r rr Hit).1.ObjectsPenetrated = c.ObjectsPenetrated
    ∧ (ResolveBounce M c TRT L r rr Hit).1.UpdatedComponentIsNull = c.UpdatedComponentIsNull
    ∧ (ResolveBounce M c TRT L r rr Hit).1.Body
        = (ActorMove c (Hit.Location + Hit.ImpactNormal) r).Body := by
  have hF : ComputeTimeOfFlight M.sqrt (ActorMove c (Hit.Location + Hit.ImpactNormal) r)
      Hit.Location = ComputeTimeOfFlight M.sqrt c Hit.Location :=
    ComputeTimeOfFlight_congr M.sqrt c (ActorMove c (Hit.Location + Hit.ImpactNormal) r)
      rfl rfl rfl rfl rfl rfl Hit.Location
  have hfast' := hfast
  rw [← ResolveBounce_Velocity M c TRT L r rr Hit hair] at hfast'
  unfold ResolveBounce at hfast' ⊢
  simp only [hF] at hfast' ⊢
  generalize ComputeTimeOfFlight M.sqrt c Hit.Location = F at hfast' ⊢
  simp only [apply_ite Prod.fst, apply_ite URealisticProjectileComponent.Velocity,
    StopSimulating_Velocity, ite_self] at hfast'
  simp only [if_neg hfast']
  clear hfast'
  refine ⟨trivial, ?_, ?_, ?_, ?_⟩
  · simp only [SetInitialConditions_InitialConditions, SetRandStream_InitialConditions,
      SetVelocity_InitialConditions, Broadcast_InitialConditions, ActorMove_InitialConditions]
    rfl
  · simp only [SetInitialConditions_ObjectsPenetrated, SetRandStream_ObjectsPenetrated,
      SetVelocity_ObjectsPenetrated, Broadcast_ObjectsPenetrated, ActorMove_ObjectsPenetrated]
  · simp only [SetInitialConditions_UpdatedComponentIsNull,
      SetRandStream_UpdatedComponentIsNull, SetVelocity_UpdatedComponentIsNull,
      Broadcast_UpdatedComponentIsNull, ActorMove_UpdatedComponentIsNull]
  · simp only [SetInitialConditions_Body, SetRandStream_Body, SetVelocity_Body,
      Broadcast_Body]


/-- The record a bounce makes active, and the tick constants it keeps. -/
theorem ResolveBounce_record (M : FEngineMath ℝ) (c : URealisticProjectileComponent ℝ)
    (TRT L : ℝ) (r rr : FRotator ℝ) (Hit : FHitResult ℝ) :
    (ResolveBounce M c TRT L r rr Hit).1.InitialConditions
        = FTrajectoryInitialConditions.Init M.sqrt (ResolveBounce M c TRT L r rr Hit).1.Velocity
            (Hit.Location + Hit.ImpactNormal)
            (c.InitialConditions.t0 + ComputeTimeOfFlight M.sqrt c Hit.Location) rr 1
    ∧ (ResolveBounce M c TRT L r rr Hit).1.k = c.k
    ∧ (ResolveBounce M c TRT L r rr Hit).1.Vinf = c.Vinf := by
  have hF : ComputeTimeOfFlight M.sqrt (ActorMove c (Hit.Location + Hit.ImpactNormal) r)
      Hit.Location = ComputeTimeOfFlight M.sqrt c Hit.Location :=
    ComputeTimeOfFlight_congr M.sqrt c (ActorMove c (Hit.Location + Hit.ImpactNormal) r)
      rfl rfl rfl rfl rfl rfl Hit.Location
  unfold ResolveBounce
  simp only [hF]
  generalize ComputeTimeOfFlight M.sqrt c Hit.Location = F
  refine ⟨?_, ?_, ?_⟩
  · simp only [apply_ite Prod.fst, apply_ite URealisticProjectileComponent.InitialConditions,
      apply_ite URealisticProjectileComponent.Velocity, StopSimulating_InitialConditions,
      StopSimulating_Velocity, ite_self, SetInitialConditions_InitialConditions,
      SetInitialConditions_Velocity, SetRandStream_InitialConditions,
      SetVelocity_InitialConditions, Broadcast_InitialConditions, ActorMove_InitialConditions]
  · split_ifs <;>
      simp only [StopSimulating_k, SetInitialConditions_k, SetRandStream_k, SetVelocity_k,
        Broadcast_k, ActorMove_k]
  · split_ifs <;>
      simp only [StopSimulating_Vinf, SetInitialConditions_Vinf, SetRandStream_Vinf,
        SetVelocity_Vinf, Broadcast_Vinf, ActorMove_Vinf]


/-- With a valid updated component and `KeepOverlaps`, `DoSweep` returns the sweep result. -/
theorem DoSweep_keep (W : UWorld ℝ) (c : URealisticProjectileComponent ℝ)
    (a b : FVector ℝ) (r : FRotator ℝ) (hvalid : c.UpdatedComponentIsNull = false) :
    DoSweep W c a b r true = W.ComponentSweepMulti a b r := by
  simp [DoSweep, hvalid]

/-- `ComputeNewLocation` reads only `k` and `Vinf` of the component. -/
theorem ComputeNewLocation_congr (c c' : URealisticProjectileComponent ℝ)
    (h1 : c'.k = c.k) (h2 : c'.Vinf = c.Vinf) (TIC : FTrajectoryInitialConditions ℝ) (dt : ℝ) :
    ComputeNewLocation c' TIC dt = ComputeNewLocation c TIC dt := by
  unfold ComputeNewLocation
  rw [h1, h2]

/-- A sub-step in free medium whose forward sweep reports nothing: the body is moved to the
location the active record gives at the elapsed time the sub-step computes. -/
theorem TickSubStep_free_flight (M : FEngineMath ℝ) (W : UWorld ℝ) (D G : ℝ)
    (s : FTickLoopState ℝ)
    (hL : 0 ≤ LaunchDeltaTimeOf s.Component D G (s.TickRemainingTime - D))
    (hair : s.Component.ObjectsPenetrated = [])
    (hvalid : s.Component.UpdatedComponentIsNull = false)
    (hkill : s.Component.Body.bOwnerPendingKill = false)
    (hsweep : ∀ End Rot, W.ComponentSweepMulti s.Component.Body.Location End Rot = []) :
    ∃ s', TickSubStep M W D G s = some s'
      ∧ s'.TickRemainingTime = s.TickRemainingTime - D
      ∧ s'.Iterations = s.Iterations + 1
      ∧ s'.bReturned = false
      ∧ s'.Component.InitialConditions = s.Component.InitialConditions
      ∧ s'.Component.k = s.Component.k
      ∧ s'.Component.Vinf = s.Component.Vinf
      ∧ s'.Component.Body.Location
          = ComputeNewLocation s'.Component s'.Component.InitialConditions
              (LaunchDeltaTimeOf s.Component D G (s.TickRemainingTime - D)) := by
  refine ⟨_, TickSubStep_air_nohit M W D G s hL hair ?_, rfl, rfl, rfl, ?_, ?_, ?_, ?_⟩
  · rw [DoSweep_keep _ _ _ _ _ hvalid]
    exact hsweep _ _
  · simp only [UpdateComponentVelocity_InitialConditions, ActorMove_InitialConditions,
      SetVelocity_InitialConditions, SetOverlaps_InitialConditions]
  · simp only [UpdateComponentVelocity_k, ActorMove_k, SetVelocity_k, SetOverlaps_k]
  · simp only [UpdateComponentVelocity_Vinf, ActorMove_Vinf, SetVelocity_Vinf,
      SetOverlaps_Vinf]
  · simp only [UpdateComponentVelocity_Body, ActorMove_UpdatedComponentIsNull,
      SetVelocity_UpdatedComponentIsNull, SetOverlaps_UpdatedComponentIsNull, hvalid,
      Bool.false_eq_true, if_false, ActorMove_Body, SetVelocity_Body, SetOverlaps_Body, hkill,
      UpdateComponentVelocity_InitialConditions, ActorMove_InitialConditions,
      SetVelocity_InitialConditions, SetOverlaps_InitialConditions]
    refine (ComputeNewLocation_congr s.Component _ ?_ ?_ _ _).symm
    · simp only [UpdateComponentVelocity_k, ActorMove_k, SetVelocity_k, SetOverlaps_k]
    · simp only [UpdateComponentVelocity_Vinf, ActorMove_Vinf, SetVelocity_Vinf,
        SetOverlaps_Vinf]

/-- A sub-step in free medium of a bounce-only projectile whose forward sweep reports one
blocking hit, when the bounce leaves the projectile faster than 500: the time between the flight
time to the hit and the candidate elapsed time is added to the remaining time, and the new
record starts at the hit time. -/
theorem TickSubStep_bounce (M : FEngineMath ℝ) (W : UWorld ℝ) (D G : ℝ)
    (s : FTickLoopState ℝ) (Hit : FHitResult ℝ)
    (hL : 0 ≤ LaunchDeltaTimeOf s.Component D G (s.TickRemainingTime - D))
    (hair : s.Component.ObjectsPenetrated = [])
    (hvalid : s.Component.UpdatedComponentIsNull = false)
    (hkill : s.Component.Body.bOwnerPendingKill = false)
    (hmode : s.Component.ProjectileBehavior = EProjectileBehavior.PB_Bounce_Only)
    (hblock : W.GetCollisionResponseToComponent Hit.Component = ECollisionResponse.ECR_Block)
    (hstart : Hit.bStartPenetrating = false)
    (hsweep : ∀ End Rot, W.ComponentSweepMulti s.Component.Body.Location End Rot = [Hit])
    (hfast : ¬ FVector.Size M.sqrt (BounceVelocity M s.Component Hit
      (ComputeTimeOfFlight M.sqrt s.Component Hit.Location)).1 < 500) :
    ∃ s', TickSubStep M W D G s = some s'
      ∧ s'.TickRemainingTime = s.TickRemainingTime - D
          + (LaunchDeltaTimeOf s.Component D G (s.TickRemainingTime - D)
            - ComputeTimeOfFlight M.sqrt s.Component Hit.Location)
      ∧ s'.Iterations = s.Iterations + 1
      ∧ s'.bReturned = false
      ∧ s'.Component.InitialConditions
          = FTrajectoryInitialConditions.Init M.sqrt
              (BounceVelocity M s.Component Hit
                (ComputeTimeOfFlight M.sqrt s.Component Hit.Location)).1
              (Hit.Location + Hit.ImpactNormal)
              (s.Component.InitialConditions.t0
                + ComputeTimeOfFlight M.sqrt s.Component Hit.Location)
              (s.Component.InitialConditions.InitialRotation
                + LaunchDeltaTimeOf s.Component D G (s.TickRemainingTime - D)
                  • s.Component.AngularVelocity) 1
      ∧ s'.Component.k = s.Component.k
      ∧ s'.Component.Vinf = s.Component.Vinf
      ∧ s'.Component.ObjectsPenetrated = []
      ∧ s'.Component.UpdatedComponentIsNull = false
      ∧ s'.Component.Body.bOwnerPendingKill = false
      ∧ s'.Component.Body.Location = Hit.Location + Hit.ImpactNormal := by
  have hF : ComputeTimeOfFlight M.sqrt
      (SetRandStream (SetOverlaps s.Component [] []) s.Component.RandStream) Hit.Location
      = ComputeTimeOfFlight M.sqrt s.Component Hit.Location :=
    ComputeTimeOfFlight_congr M.sqrt s.Component
      (SetRandStream (SetOverlaps s.Component [] []) s.Component.RandStream)
      rfl rfl rfl rfl rfl rfl Hit.Location
  have hB : BounceVelocity M
      (SetRandStream (SetOverlaps s.Component [] []) s.Component.RandStream) Hit
        (ComputeTimeOfFlight M.sqrt s.Component Hit.Location)
      = BounceVelocity M s.Component Hit
        (ComputeTimeOfFlight M.sqrt s.Component Hit.Location) := by
    unfold BounceVelocity
    rw [ComputeVelocity_air_congr M.sqrt s.Component
      (SetRandStream (SetOverlaps s.Component [] []) s.Component.RandStream) rfl hair hair
      rfl rfl]
    exact AdjustDirection_congr M _ _ rfl rfl _ _
  have hfast' : ¬ FVector.Size M.sqrt (BounceVelocity M
      (SetRandStream (SetOverlaps s.Component [] []) s.Component.RandStream) Hit
      (ComputeTimeOfFlight M.sqrt
        (SetRandStream (SetOverlaps s.Component [] []) s.Component.RandStream)
        Hit.Location)).1 < 500 := by
    rw [hF, hB]
    exact hfast
  obtain ⟨h2, _, hobj, hnull, hbody⟩ := ResolveBounce_fast M
    (SetRandStream (SetOverlaps s.Component [] []) s.Component.RandStream)
    (s.TickRemainingTime - D) (LaunchDeltaTimeOf s.Component D G (s.TickRemainingTime - D))
    (if s.Component.bRotationFollowsVelocity
          ∧ ¬ (FVector.IsNearlyZero s.Component.Velocity 0.01) then
        M.Rotation s.Component.Velocity + (s.Component.InitialConditions.InitialRotation
          + LaunchDeltaTimeOf s.Component D G (s.TickRemainingTime - D)
            • s.Component.AngularVelocity)
      else s.Component.Body.Rotation)
    (s.Component.InitialConditions.InitialRotation
          + LaunchDeltaTimeOf s.Component D G (s.TickRemainingTime - D)
            • s.Component.AngularVelocity)
    Hit hair hfast'
  obtain ⟨hrec, hk, hVinf⟩ := ResolveBounce_record M
    (SetRandStream (SetOverlaps s.Component [] []) s.Component.RandStream)
    (s.TickRemainingTime - D) (LaunchDeltaTimeOf s.Component D G (s.TickRemainingTime - D))
    (if s.Component.bRotationFollowsVelocity
          ∧ ¬ (FVector.IsNearlyZero s.Component.Velocity 0.01) then
        M.Rotation s.Component.Velocity + (s.Component.InitialConditions.InitialRotation
          + LaunchDeltaTimeOf s.Component D G (s.TickRemainingTime - D)
            • s.Component.AngularVelocity)
      else s.Component.Body.Rotation)
    (s.Component.InitialConditions.InitialRotation
          + LaunchDeltaTimeOf s.Component D G (s.TickRemainingTime - D)
            • s.Component.AngularVelocity)
    Hit
  have hair' : (SetRandStream (SetOverlaps s.Component [] [])
      s.Component.RandStream).ObjectsPenetrated = [] := hair
  rw [ResolveBounce_Velocity M _ _ _ _ _ Hit hair', hF, hB] at hrec
  simp only [SetRandStream_InitialConditions, SetOverlaps_InitialConditions] at hrec
  rw [hF] at h2
  refine ⟨_, TickSubStep_air_bounce M W D G s Hit hL hair hmode hblock hstart ?_,
    h2, rfl, rfl, ?_, ?_, ?_, ?_, ?_, ?_, ?_⟩
  · rw [DoSweep_keep _ _ _ _ _ hvalid]
    exact hsweep _ _
  · simp only [UpdateComponentVelocity_InitialConditions]
    exact hrec
  · simp only [UpdateComponentVelocity_k]
    exact hk
  · simp only [UpdateComponentVelocity_Vinf]
    exact hVinf
  · simp only [UpdateComponentVelocity_ObjectsPenetrated]
    rw [hobj]
    exact hair
  · simp only [UpdateComponentVelocity_UpdatedComponentIsNull]
    rw [hnull]
    exact hvalid
  · simp only [UpdateComponentVelocity_Body, hnull]
    rw [hbody]
    simp [ActorMove_Body, hvalid, hkill]
  · simp only [UpdateComponentVelocity_Body, hnull]
    rw [hbody]
    simp [ActorMove_Body, hvalid, hkill]


/-- The loop runs on after a sub-step that did not return. -/
theorem TickLoop_continue (M : FEngineMath ℝ) (W : UWorld ℝ) (D G : ℝ) (Fuel : Nat)
    (s s' : FTickLoopState ℝ) (hcond : TickLoopCondition s = true)
    (hstep : TickSubStep M W D G s = some s') (hret : s'.bReturned = false) :
    TickLoop M W D G (Fuel + 1) s = TickLoop M W D G Fuel s' := by
  rw [TickLoop, if_pos hcond, hstep]
  simp only [hret, Bool.false_eq_true, if_false]

/-- The loop stops when no time remains. -/
theorem TickLoop_stop (M : FEngineMath ℝ) (W : UWorld ℝ) (D G : ℝ) (Fuel : Nat)
    (s : FTickLoopState ℝ) (hT : s.TickRemainingTime ≤ 0) :
    TickLoop M W D G (Fuel + 1) s = some s := by
  rw [TickLoop, if_neg]
  simp [TickLoopCondition, not_lt.mpr hT]

/-- The loop condition holds while time remains for a valid, simulating component. -/
theorem TickLoopCondition_true (s : FTickLoopState ℝ) (hT : 0 < s.TickRemainingTime)
    (hkill : s.Component.Body.bOwnerPendingKill = false)
    (hvalid : s.Component.UpdatedComponentIsNull = false) (hI : s.Iterations < 500) :
    TickLoopCondition s = true := by
  simp [TickLoopCondition, HasStoppedSimulation, hT, hkill, hvalid, hI]

/-- The angle range `AdjustDirection` maps the speed to is `0` up to a speed of 1000. -/
theorem GetMappedRangeValueClamped_slow (Value : ℝ) (hslow : Value ≤ 1000) :
    FMath.GetMappedRangeValueClamped 1000 99900 0 10 Value = 0 := by
  unfold FMath.GetMappedRangeValueClamped FMath.Clamp
  have h : (Value - 1000) / (99900 - 1000) ≤ 0 :=
    div_nonpos_of_nonpos_of_nonneg (by linarith) (by norm_num)
  rcases h.lt_or_eq with h' | h'
  · simp only [if_pos h']
    norm_num
  · simp only [h']
    norm_num

/-- Up to a speed of 1000 the rotator `AdjustDirection` builds is zero; when the engine leaves
a vector rotated by the zero rotator unchanged, `AdjustDirection` then returns a vector that
points away from the surface as it is. -/
theorem AdjustDirection_slow (M : FEngineMath ℝ)
    (hrot : ∀ v, M.RotateVector ⟨0, 0, 0⟩ v = v) (c : URealisticProjectileComponent ℝ)
    (inV n : FVector ℝ) (hslow : FVector.Size M.sqrt c.Velocity ≤ 1000)
    (hdot : FVector.DotProduct inV (-n) < 0) :
    (AdjustDirection M c inV n).1 = inV := by
  unfold AdjustDirection
  simp only [GetMappedRangeValueClamped_slow _ hslow, mul_zero, hrot, ge_iff_le,
    not_le.mpr hdot, if_false]

/-- The bounce of the wall shot: flight time `1/20` to the wall, and the velocity after the
bounce, about `(-537.07, 0, -48.85)`; its size is below 1000, so `AdjustDirection` rotates by
the zero rotator. -/
theorem WallShot_bounce :
    ComputeTimeOfFlight Real.sqrt (WallShot Real.sqrt).SetTickConstants WallLocation = 1 / 20
    ∧ (BounceVelocity ⟨Real.sqrt, Real.arccos, fun _ => ⟨0, 0, 0⟩, fun _ v => v⟩
        (WallShot Real.sqrt).SetTickConstants (HitAt WallLocation 1) (1 / 20)).1
      = ⟨-864000000000 / 1608731881, 0, -78586929000 / 1608731881⟩ := by
  obtain ⟨f1, f2, f3, f4, f5, f6, f7, f8⟩ := Launched_tick_facts ⟨900, 0, 0⟩
  have hV : ComputeVelocity Real.sqrt (WallShot Real.sqrt).SetTickConstants (1 / 20)
      = ⟨1440000000000 / 1608731881, 0, -78586929000 / 1608731881⟩ := by
    unfold WallShot
    rw [ComputeVelocity_air _ _ f1, f3, f6, f7]
    norm_num
  have hb : (WallShot Real.sqrt).SetTickConstants.Bounciness = (3 / 5 : ℝ) := by
    show ((0.6 : ℝ)) = 3 / 5
    norm_num
  constructor
  · unfold WallShot WallLocation
    rw [ComputeTimeOfFlight_air _ _ f1, f3, f7, f8]
    norm_num [abs_of_pos, abs_of_neg]
  · unfold BounceVelocity
    simp only [hV, hb]
    rw [AdjustDirection_slow _ (fun _ => rfl)]
    · simp only [HitAt, FVector.DotProduct]
      ext
      · simp
        norm_num
      · simp
      · simp
    · simp only [SetVelocity_Velocity, FVector.Size, HitAt, FVector.DotProduct, FVector.sub_X,
        FVector.sub_Y, FVector.sub_Z, FVector.smul_X, FVector.smul_Y, FVector.smul_Z]
      rw [Real.sqrt_le_iff]
      norm_num
    · simp only [HitAt, FVector.DotProduct, FVector.neg_X, FVector.neg_Y, FVector.neg_Z,
        FVector.sub_X, FVector.sub_Y, FVector.sub_Z, FVector.smul_X, FVector.smul_Y,
        FVector.smul_Z]
      norm_num

/-- The location a free-medium record built by `SetInitialConditions(..., 1.f)` gives. -/
theorem ComputeNewLocation_Init_air (sqrt : ℝ → ℝ) (c : URealisticProjectileComponent ℝ)
    (v Loc0 : FVector ℝ) (t : ℝ) (Rotation : FRotator ℝ) (dt : ℝ) :
    ComputeNewLocation c (FTrajectoryInitialConditions.Init sqrt v Loc0 t Rotation 1) dt
      = ⟨v.X * dt / (1 + c.k * dt) + c.Vinf.X * (c.k * dt) * dt / (1 + c.k * dt) + Loc0.X,
         v.Y * dt / (1 + c.k * dt) + c.Vinf.Y * (c.k * dt) * dt / (1 + c.k * dt) + Loc0.Y,
         v.Z * dt / (1 + c.k * dt) + c.Vinf.Z * (c.k * dt) * dt / (1 + c.k * dt) + Loc0.Z⟩ := by
  obtain ⟨h1, h2, -, h4, -⟩ := Init_fields sqrt v Loc0 t Rotation 1
  unfold ComputeNewLocation
  rw [h1, h2, h4, if_pos one_pos]
  ext <;> simp <;> ring

/-- C10: a tick of frame time `D` at game time `G` on a valid bounce-only projectile in free
medium whose first sweep reports one blocking hit, reached after a flight time `F` from the
active record with `G - t0 ≤ F < G + D - t0`, and whose sweep after the bounce (which leaves it
faster than 500) reports nothing. The tick runs two sub-steps. The first adds the unconsumed
time `G + D - t0 - F` to the remaining time and makes a new record active that starts at the
hit, at time `t0 + F`. The second moves the body to where the new record is after an elapsed
time of the whole frame time `D`, not of the unconsumed time, so the tick ends at simulation
time `t0 + F + D`, which is `G + D` only when `F = G - t0`. -/
theorem C10_next_substep_simulates_whole_frame_time (M : FEngineMath ℝ) (W : UWorld ℝ)
    (D G : ℝ) (c : URealisticProjectileComponent ℝ) (Hit : FHitResult ℝ)
    (hD : 0 < D) (hG : c.InitialConditions.t0 ≤ G)
    (hvalid : c.UpdatedComponentIsNull = false)
    (hkill : c.Body.bOwnerPendingKill = false)
    (hphys : c.Body.bSimulatePhysics = false)
    (hair : c.ObjectsPenetrated = [])
    (hmode : c.ProjectileBehavior = EProjectileBehavior.PB_Bounce_Only)
    (hblock : W.GetCollisionResponseToComponent Hit.Component = ECollisionResponse.ECR_Block)
    (hstart : Hit.bStartPenetrating = false)
    (hsweep : ∀ End Rot, W.ComponentSweepMulti c.Body.Location End Rot = [Hit])
    (hsweep' : ∀ End Rot,
      W.ComponentSweepMulti (Hit.Location + Hit.ImpactNormal) End Rot = [])
    (hF : G - c.InitialConditions.t0
      ≤ ComputeTimeOfFlight M.sqrt c.SetTickConstants Hit.Location)
    (hF' : ComputeTimeOfFlight M.sqrt c.SetTickConstants Hit.Location
      < G + D - c.InitialConditions.t0)
    (hfast : ¬ FVector.Size M.sqrt (BounceVelocity M c.SetTickConstants Hit
      (ComputeTimeOfFlight M.sqrt c.SetTickConstants Hit.Location)).1 < 500) :
    ∃ s, TickComponent M W D G c = some s
      ∧ s.Iterations = 2
      ∧ s.bReturned = false
      ∧ s.TickRemainingTime = G + D - c.InitialConditions.t0
          - ComputeTimeOfFlight M.sqrt c.SetTickConstants Hit.Location - D
      ∧ s.Component.InitialConditions
          = FTrajectoryInitialConditions.Init M.sqrt
              (BounceVelocity M c.SetTickConstants Hit
                (ComputeTimeOfFlight M.sqrt c.SetTickConstants Hit.Location)).1
              (Hit.Location + Hit.ImpactNormal)
              (c.InitialConditions.t0
                + ComputeTimeOfFlight M.sqrt c.SetTickConstants Hit.Location)
              (c.InitialConditions.InitialRotation
                + (G + D - c.InitialConditions.t0) • c.AngularVelocity) 1
      ∧ s.Component.Body.Location
          = ComputeNewLocation c.SetTickConstants s.Component.InitialConditions D
      ∧ (s.Component.InitialConditions.t0 + D = G + D
          ↔ ComputeTimeOfFlight M.sqrt c.SetTickConstants Hit.Location
            = G - c.InitialConditions.t0) := by
  have hL0 : LaunchDeltaTimeOf c.SetTickConstants D G (D - D)
      = G + D - c.InitialConditions.t0 := by
    simp only [LaunchDeltaTimeOf, SetTickConstants_InitialConditions]
    ring
  obtain ⟨s1, hs1, hT1, hI1, hR1, hrec1, hk1, hVinf1, hobj1, hnull1, hkill1, hloc1⟩ :=
    TickSubStep_bounce M W D G ⟨c.SetTickConstants, D, 0, false⟩ Hit
      (by rw [hL0]; linarith) hair hvalid hkill hmode hblock hstart hsweep hfast
  simp only [hL0, SetTickConstants_InitialConditions, SetTickConstants_AngularVelocity]
    at hT1 hrec1
  have ht1 : s1.Component.InitialConditions.t0 = c.InitialConditions.t0
      + ComputeTimeOfFlight M.sqrt c.SetTickConstants Hit.Location := by
    rw [hrec1]
    rfl
  have hT1' : s1.TickRemainingTime = G + D - c.InitialConditions.t0
      - ComputeTimeOfFlight M.sqrt c.SetTickConstants Hit.Location := by
    rw [hT1]
    ring
  have hL1 : LaunchDeltaTimeOf s1.Component D G (s1.TickRemainingTime - D) = D := by
    simp only [LaunchDeltaTimeOf, ht1, hT1']
    ring
  obtain ⟨s2, hs2, hT2, hI2, hR2, hIC2, hk2, hVinf2, hloc2⟩ :=
    TickSubStep_free_flight M W D G s1 (by rw [hL1]; exact hD.le) hobj1 hnull1 hkill1
      (by rw [hloc1]; exact hsweep')
  rw [hL1, ComputeNewLocation_congr c.SetTickConstants s2.Component (hk2.trans hk1)
    (hVinf2.trans hVinf1)] at hloc2
  have ht2 : s2.Component.InitialConditions.t0 = c.InitialConditions.t0
      + ComputeTimeOfFlight M.sqrt c.SetTickConstants Hit.Location := by
    rw [hIC2, ht1]
  refine ⟨s2, ?_, ?_, hR2, ?_, hIC2.trans hrec1, hloc2, ?_⟩
  · unfold TickComponent
    rw [if_neg (by simp [HasStoppedSimulation, hvalid]), if_neg (by simp [hphys])]
    rw [TickLoop_continue M W D G 499 _ s1
        (TickLoopCondition_true _ hD hkill hvalid (by norm_num)) hs1 hR1,
      TickLoop_continue M W D G 498 s1 s2
        (TickLoopCondition_true _ (by rw [hT1']; linarith) hkill1 hnull1
          (by rw [hI1]; norm_num)) hs2 hR2,
      TickLoop_stop M W D G 497 s2 (by rw [hT2, hT1']; linarith)]
  · rw [hI2, hI1]
  · rw [hT2, hT1']
  · rw [ht2]
    constructor <;> intro h <;> linarith

/-- C10 at a concrete input: the wall shot (launched at 900 units/s along X from the origin at
game time 0) ticked once with frame time `1/10`, a wall being hit after a flight time of
`1/20`. The engine math is the real square root and arc cosine, with a `RotateVector` that
leaves vectors unchanged; the only rotation the tick asks for is by the zero rotator. The tick
runs two sub-steps and ends with remaining time `-1/20`; the record made at the bounce starts
at `1/20`, and the body ends where that record is after `1/10`, near `(-9.54, 0, -10.96)`, not
where it is after the unconsumed `1/20`, near `(17.10, 0, -4.88)`. -/
theorem C10_witness :
    ∃ s, TickComponent ⟨Real.sqrt, Real.arccos, fun _ => ⟨0, 0, 0⟩, fun _ v => v⟩
          (WallWorld WallLocation) (1 / 10) 0 (WallShot Real.sqrt) = some s
      ∧ s.Iterations = 2
      ∧ s.TickRemainingTime = -(1 / 20)
      ∧ s.Component.InitialConditions.t0 = 1 / 20
      ∧ s.Component.Body.Location
          = ⟨-102852201198343 / 10783329798343, 0, -118183941763050 / 10783329798343⟩
      ∧ ComputeNewLocation (WallShot Real.sqrt).SetTickConstants
          s.Component.InitialConditions (1 / 20)
          = ⟨1103192758784971 / 64524627015029, 0, -314990455526100 / 64524627015029⟩ := by
  obtain ⟨hTOF, hV⟩ := WallShot_bounce
  obtain ⟨-, -, f3, -, -, f6, -, -⟩ := Launched_tick_facts ⟨900, 0, 0⟩
  have ht0 : (WallShot Real.sqrt).InitialConditions.t0 = 0 := rfl
  obtain ⟨s, hs, hI, -, hT, hrec, hloc, -⟩ :=
    C10_next_substep_simulates_whole_frame_time
      ⟨Real.sqrt, Real.arccos, fun _ => ⟨0, 0, 0⟩, fun _ v => v⟩
      (WallWorld WallLocation) (1 / 10) 0 (WallShot Real.sqrt) (HitAt WallLocation 1)
      (by norm_num) (le_of_eq ht0) rfl rfl rfl rfl rfl rfl rfl
      (by
        intro End Rot
        show (WallWorld WallLocation).ComponentSweepMulti ⟨0, 0, 0⟩ End Rot = _
        simp [WallWorld])
      (by
        intro End Rot
        have hne : (HitAt WallLocation 1).Location + (HitAt WallLocation 1).ImpactNormal
            ≠ (⟨0, 0, 0⟩ : FVector ℝ) := by
          intro h
          have hX := congrArg FVector.X h
          simp only [HitAt, WallLocation, FVector.add_X] at hX
          norm_num at hX
        simp [WallWorld, hne])
      (by
        show 0 - (WallShot Real.sqrt).InitialConditions.t0
          ≤ ComputeTimeOfFlight Real.sqrt (WallShot Real.sqrt).SetTickConstants WallLocation
        rw [hTOF, ht0]
        norm_num)
      (by
        show ComputeTimeOfFlight Real.sqrt (WallShot Real.sqrt).SetTickConstants WallLocation
          < 0 + 1 / 10 - (WallShot Real.sqrt).InitialConditions.t0
        rw [hTOF, ht0]
        norm_num)
      (by
        show ¬ FVector.Size Real.sqrt (BounceVelocity
          ⟨Real.sqrt, Real.arccos, fun _ => ⟨0, 0, 0⟩, fun _ v => v⟩
          (WallShot Real.sqrt).SetTickConstants (HitAt WallLocation 1)
          (ComputeTimeOfFlight Real.sqrt (WallShot Real.sqrt).SetTickConstants
            WallLocation)).1 < 500
        rw [hTOF, hV, not_lt]
        unfold FVector.Size
        rw [Real.le_sqrt' (by norm_num)]
        norm_num)
  have hTOF' : ComputeTimeOfFlight
      (⟨Real.sqrt, Real.arccos, fun _ => ⟨0, 0, 0⟩, fun _ v => v⟩ : FEngineMath ℝ).sqrt
      (WallShot Real.sqrt).SetTickConstants (HitAt WallLocation 1).Location = 1 / 20 := hTOF
  rw [hTOF'] at hT hrec
  rw [hV] at hrec
  refine ⟨s, hs, hI, ?_, ?_, ?_, ?_⟩
  · rw [hT, ht0]
    norm_num
  · rw [hrec]
    show (WallShot Real.sqrt).InitialConditions.t0 + 1 / 20 = 1 / 20
    rw [ht0]
    norm_num
  · rw [hloc, hrec, ComputeNewLocation_Init_air]
    unfold WallShot
    rw [f3, f6]
    simp only [HitAt, WallLocation, FVector.add_X, FVector.add_Y, FVector.add_Z]
    norm_num
  · rw [hrec, ComputeNewLocation_Init_air]
    unfold WallShot
    rw [f3, f6]
    simp only [HitAt, WallLocation, FVector.add_X, FVector.add_Y, FVector.add_Z]
    norm_num

end URealisticProjectileComponent

/-! ## Closed forms: location, axis, roots and speed limit -/

namespace URealisticProjectileComponent

/-- C20: `ComputeNewLocation` is the reference position. With a positive `PenDeceleration` (free
medium) it returns `x0 + (v0 + k*dt*Vinf)*dt / (1 + k*dt)`; otherwise (inside a solid) it returns
`x0 + 100*(0.5*a*dt^2)*v0direction + v0*dt`, component by component. -/
theorem C20_ComputeNewLocation_reference_position (c : URealisticProjectileComponent ℝ)
    (TIC : FTrajectoryInitialConditions ℝ) (dt : ℝ) :
    (0 < TIC.PenDeceleration →
      ComputeNewLocation c TIC dt
        = ⟨TIC.InitialWorldLocation.X
              + (TIC.InitialVelocity.X + c.k * dt * c.Vinf.X) * dt / (1 + c.k * dt),
            TIC.InitialWorldLocation.Y
              + (TIC.InitialVelocity.Y + c.k * dt * c.Vinf.Y) * dt / (1 + c.k * dt),
            TIC.InitialWorldLocation.Z
              + (TIC.InitialVelocity.Z + c.k * dt * c.Vinf.Z) * dt / (1 + c.k * dt)⟩)
    ∧ (¬ 0 < TIC.PenDeceleration →
      ComputeNewLocation c TIC dt
        = ⟨TIC.InitialWorldLocation.X
              + 100 * (0.5 * TIC.PenDeceleration * dt ^ 2) * TIC.v0direction.X
              + TIC.InitialVelocity.X * dt,
            TIC.InitialWorldLocation.Y
              + 100 * (0.5 * TIC.PenDeceleration * dt ^ 2) * TIC.v0direction.Y
              + TIC.InitialVelocity.Y * dt,
            TIC.InitialWorldLocation.Z
              + 100 * (0.5 * TIC.PenDeceleration * dt ^ 2) * TIC.v0direction.Z
              + TIC.InitialVelocity.Z * dt⟩) := by
  constructor
  · intro hpen
    unfold ComputeNewLocation
    rw [if_pos hpen]
    ext <;> simp <;> ring
  · intro hpen
    unfold ComputeNewLocation
    rw [if_neg hpen]
    ext <;> simp <;> ring

/-- The axis selected for a displacement, by the absolute values of its components. -/
theorem AxisToUse_eq (d : FVector ℝ) :
    AxisToUse d
      = if |d.X| > |d.Y| ∧ |d.X| > |d.Z| then ⟨1, 0, 0⟩
        else if |d.Y| > |d.Z| then ⟨0, 1, 0⟩
        else ⟨0, 0, 1⟩ := by
  unfold AxisToUse
  simp only [FVector.mul_X, FVector.mul_Y, FVector.mul_Z, FVector.GetSignVector,
    mul_FloatSelect_eq_abs, and_self]

/-- In free medium `ComputeTimeOfFlight` returns the value of the branch that `AxisToUse`
names. -/
theorem ComputeTimeOfFlight_on_axis (sqrt : ℝ → ℝ) (c : URealisticProjectileComponent ℝ)
    (hair : c.ObjectsPenetrated = []) (HitLocation : FVector ℝ) :
    (AxisToUse (HitLocation - c.InitialConditions.InitialWorldLocation) = ⟨1, 0, 0⟩ →
      ComputeTimeOfFlight sqrt c HitLocation
        = (HitLocation - c.InitialConditions.InitialWorldLocation).X
          / (c.InitialConditions.InitialVelocity.X
              - c.k * (HitLocation - c.InitialConditions.InitialWorldLocation).X))
    ∧ (AxisToUse (HitLocation - c.InitialConditions.InitialWorldLocation) = ⟨0, 1, 0⟩ →
      ComputeTimeOfFlight sqrt c HitLocation
        = (HitLocation - c.InitialConditions.InitialWorldLocation).Y
          / (c.InitialConditions.InitialVelocity.Y
              - c.k * (HitLocation - c.InitialConditions.InitialWorldLocation).Y))
    ∧ (AxisToUse (HitLocation - c.InitialConditions.InitialWorldLocation) = ⟨0, 0, 1⟩ →
      ComputeTimeOfFlight sqrt c HitLocation
        = VerticalTimeOfFlight sqrt c.k c.TerminalVelocity c.GetGravityZ
            (HitLocation - c.InitialConditions.InitialWorldLocation).Z
            c.InitialConditions.InitialVelocity.Z) := by
  rw [ComputeTimeOfFlight_air sqrt c hair, AxisToUse_eq]
  generalize HitLocation - c.InitialConditions.InitialWorldLocation = d
  by_cases h1 : |d.X| > |d.Y| ∧ |d.X| > |d.Z|
  · simp only [if_pos h1]
    refine ⟨fun _ => trivial, fun h => ?_, fun h => ?_⟩
    · have hX := congrArg FVector.X h
      norm_num at hX
    · have hX := congrArg FVector.X h
      norm_num at hX
  · by_cases h2 : |d.Y| > |d.Z|
    · simp only [if_neg h1, if_pos h2]
      refine ⟨fun h => ?_, fun _ => trivial, fun h => ?_⟩
      · have hX := congrArg FVector.X h
        norm_num at hX
      · have hY := congrArg FVector.Y h
        norm_num at hY
    · simp only [if_neg h1, if_neg h2]
      refine ⟨fun h => ?_, fun h => ?_, fun _ => trivial⟩
      · have hX := congrArg FVector.X h
        norm_num at hX
      · have hY := congrArg FVector.Y h
        norm_num at hY

/-- C17: in free medium, for every hit location, the axis `ComputeTimeOfFlight` uses is one of
the three coordinate axes, `ComputeTimeOfFlight` returns the value of that axis's branch, the
absolute displacement along it is the largest of the three, and ties go to Z over Y over X: X
is used only when its absolute displacement is strictly the largest, Y only when it is strictly
larger than Z's (and at least X's), and Z in every other case. -/
theorem C17_axis_has_largest_displacement (c : URealisticProjectileComponent ℝ)
    (HitLocation : FVector ℝ) (hair : c.ObjectsPenetrated = []) :
    (AxisToUse (HitLocation - c.InitialConditions.InitialWorldLocation) = ⟨1, 0, 0⟩
        ∧ ComputeTimeOfFlight Real.sqrt c HitLocation
          = (HitLocation - c.InitialConditions.InitialWorldLocation).X
            / (c.InitialConditions.InitialVelocity.X
                - c.k * (HitLocation - c.InitialConditions.InitialWorldLocation).X)
        ∧ |(HitLocation - c.InitialConditions.InitialWorldLocation).Y|
            < |(HitLocation - c.InitialConditions.InitialWorldLocation).X|
        ∧ |(HitLocation - c.InitialConditions.InitialWorldLocation).Z|
            < |(HitLocation - c.InitialConditions.InitialWorldLocation).X|)
    ∨ (AxisToUse (HitLocation - c.InitialConditions.InitialWorldLocation) = ⟨0, 1, 0⟩
        ∧ ComputeTimeOfFlight Real.sqrt c HitLocation
          = (HitLocation - c.InitialConditions.InitialWorldLocation).Y
            / (c.InitialConditions.InitialVelocity.Y
                - c.k * (HitLocation - c.InitialConditions.InitialWorldLocation).Y)
        ∧ |(HitLocation - c.InitialConditions.InitialWorldLocation).X|
            ≤ |(HitLocation - c.InitialConditions.InitialWorldLocation).Y|
        ∧ |(HitLocation - c.InitialConditions.InitialWorldLocation).Z|
            < |(HitLocation - c.InitialConditions.InitialWorldLocation).Y|)
    ∨ (AxisToUse (HitLocation - c.InitialConditions.InitialWorldLocation) = ⟨0, 0, 1⟩
        ∧ ComputeTimeOfFlight Real.sqrt c HitLocation
          = VerticalTimeOfFlight Real.sqrt c.k c.TerminalVelocity c.GetGravityZ
              (HitLocation - c.InitialConditions.InitialWorldLocation).Z
              c.InitialConditions.InitialVelocity.Z
        ∧ |(HitLocation - c.InitialConditions.InitialWorldLocation).X|
            ≤ |(HitLocation - c.InitialConditions.InitialWorldLocation).Z|
        ∧ |(HitLocation - c.InitialConditions.InitialWorldLocation).Y|
            ≤ |(HitLocation - c.InitialConditions.InitialWorldLocation).Z|) := by
  obtain ⟨hX, hY, hZ⟩ := ComputeTimeOfFlight_on_axis Real.sqrt c hair HitLocation
  have hA := AxisToUse_eq (HitLocation - c.InitialConditions.InitialWorldLocation)
  revert hX hY hZ hA
  generalize HitLocation - c.InitialConditions.InitialWorldLocation = d
  intro hX hY hZ hA
  by_cases h1 : |d.X| > |d.Y| ∧ |d.X| > |d.Z|
  · rw [if_pos h1] at hA
    exact Or.inl ⟨hA, hX hA, h1.1, h1.2⟩
  · by_cases h2 : |d.Y| > |d.Z|
    · rw [if_neg h1, if_pos h2] at hA
      refine Or.inr (Or.inl ⟨hA, hY hA, ?_, h2⟩)
      by_contra hlt
      push_neg at hlt
      exact h1 ⟨hlt, lt_trans h2 hlt⟩
    · rw [if_neg h1, if_neg h2] at hA
      refine Or.inr (Or.inr ⟨hA, hZ hA, ?_, not_lt.mp h2⟩)
      by_contra hlt
      push_neg at hlt
      exact h1 ⟨lt_of_le_of_lt (not_lt.mp h2) hlt, hlt⟩

/-- C17 at a concrete input: in Scenario A, a hit at `(3, 3, 3)` from the launch point at the
origin has three equal absolute displacements; the Z axis is used. -/
theorem C17_witness :
    (ScenarioA Real.sqrt).ObjectsPenetrated = []
    ∧ AxisToUse ((⟨3, 3, 3⟩ : FVector ℝ)
        - (ScenarioA Real.sqrt).InitialConditions.InitialWorldLocation) = ⟨0, 0, 1⟩
    ∧ ComputeTimeOfFlight Real.sqrt (ScenarioA Real.sqrt) ⟨3, 3, 3⟩
      = VerticalTimeOfFlight Real.sqrt (ScenarioA Real.sqrt).k
          (ScenarioA Real.sqrt).TerminalVelocity (ScenarioA Real.sqrt).GetGravityZ
          ((⟨3, 3, 3⟩ : FVector ℝ)
            - (ScenarioA Real.sqrt).InitialConditions.InitialWorldLocation).Z
          (ScenarioA Real.sqrt).InitialConditions.InitialVelocity.Z := by
  have hloc : (ScenarioA Real.sqrt).InitialConditions.InitialWorldLocation = ⟨0, 0, 0⟩ := rfl
  have hA : AxisToUse ((⟨3, 3, 3⟩ : FVector ℝ)
      - (ScenarioA Real.sqrt).InitialConditions.InitialWorldLocation) = ⟨0, 0, 1⟩ := by
    rw [AxisToUse_eq, hloc]
    norm_num
  refine ⟨rfl, hA, ?_⟩
  rcases C17_axis_has_largest_displacement (ScenarioA Real.sqrt) ⟨3, 3, 3⟩ rfl
    with h | h | h
  · rw [hA] at h
    have hX := congrArg FVector.X h.1
    norm_num at hX
  · rw [hA] at h
    have hY := congrArg FVector.Y h.1
    norm_num at hY
  · exact h.2.1

/-- The vertical branch of `ComputeTimeOfFlight` in terms of its two candidate times. -/
theorem VerticalTimeOfFlight_eq_roots (sqrt : ℝ → ℝ) (k TV g p v0 : ℝ) :
    VerticalTimeOfFlight sqrt k TV g p v0
      = if VerticalRootPlus sqrt k TV p v0 < 0 then VerticalRootMinus sqrt k TV p v0
        else if VerticalRootMinus sqrt k TV p v0 < 0 then VerticalRootPlus sqrt k TV p v0
        else if g < 0 then
          if p > 0 then
            (if VerticalRootPlus sqrt k TV p v0 < VerticalRootMinus sqrt k TV p v0 then
              VerticalRootPlus sqrt k TV p v0 else VerticalRootMinus sqrt k TV p v0)
          else
            (if VerticalRootPlus sqrt k TV p v0 < VerticalRootMinus sqrt k TV p v0 then
              VerticalRootMinus sqrt k TV p v0 else VerticalRootPlus sqrt k TV p v0)
        else
          if p < 0 then
            (if VerticalRootPlus sqrt k TV p v0 < VerticalRootMinus sqrt k TV p v0 then
              VerticalRootPlus sqrt k TV p v0 else VerticalRootMinus sqrt k TV p v0)
          else
            (if VerticalRootPlus sqrt k TV p v0 < VerticalRootMinus sqrt k TV p v0 then
              VerticalRootMinus sqrt k TV p v0 else VerticalRootPlus sqrt k TV p v0) := rfl

/-- The two candidate times of the vertical branch are the roots of
`k*Vinf_z*t^2 + (v0 - k*p)*t - p = 0` with `Vinf_z = -TerminalVelocity`, when the discriminant
is non-negative and `k * TerminalVelocity` is not zero. -/
theorem vertical_candidates_are_roots (k TV p v0 t : ℝ) (hkTV : k * TV ≠ 0)
    (hdisc : 0 ≤ (v0 - p * k) * (v0 - p * k) - 2 * (2 * k * -TV) * -p) :
    k * (-TV) * t ^ 2 + (v0 - k * p) * t - p = 0
      ↔ t = VerticalRootPlus Real.sqrt k TV p v0 ∨ t = VerticalRootMinus Real.sqrt k TV p v0 := by
  unfold VerticalRootPlus VerticalRootMinus
  simp only []
  have ha : 2 * k * -TV ≠ 0 := by
    intro h
    apply hkTV
    linarith
  have hs := Real.mul_self_sqrt hdisc
  generalize Real.sqrt ((v0 - p * k) * (v0 - p * k) - 2 * (2 * k * -TV) * -p) = s at hs
  have hfac : 2 * (2 * k * -TV) * (k * (-TV) * t ^ 2 + (v0 - k * p) * t - p)
      = (2 * k * -TV * t - (-(v0 - p * k) + s)) * (2 * k * -TV * t - (-(v0 - p * k) - s)) := by
    linear_combination hs
  constructor
  · intro h
    rw [h, mul_zero] at hfac
    rcases mul_eq_zero.mp hfac.symm with h1 | h1
    · left
      rw [eq_div_iff ha]
      linarith
    · right
      rw [eq_div_iff ha]
      linarith
  · intro h
    have h2 : (2 * k * -TV * t - (-(v0 - p * k) + s)) * (2 * k * -TV * t - (-(v0 - p * k) - s))
        = 0 := by
      rcases h with h | h
      · rw [eq_div_iff ha] at h
        have : 2 * k * -TV * t - (-(v0 - p * k) + s) = 0 := by linarith
        rw [this, zero_mul]
      · rw [eq_div_iff ha] at h
        have : 2 * k * -TV * t - (-(v0 - p * k) - s) = 0 := by linarith
        rw [this, mul_zero]
    rw [← hfac] at h2
    rcases mul_eq_zero.mp h2 with h3 | h3
    · exfalso
      apply ha
      linarith
    · exact h3

/-- C18: in free medium, when the vertical axis is used, with `p` the vertical displacement,
`v0` the vertical launch velocity and `t1`, `t2` the two candidate times (the real roots of
`k*Vinf_z*t^2 + (v0 - k*p)*t - p = 0` when the discriminant is non-negative and
`k * TerminalVelocity` is not zero), `ComputeTimeOfFlight` returns `t2` when `t1` is negative
and `t1` when only `t2` is negative, so never a negative candidate when the other one is
non-negative; when both are non-negative it returns the earlier one if gravity is negative and
`p > 0`, or gravity is non-negative and `p < 0`, and the later one otherwise. -/
theorem C18_vertical_root_selection (c : URealisticProjectileComponent ℝ)
    (HitLocation : FVector ℝ) (hair : c.ObjectsPenetrated = [])
    (haxis : AxisToUse (HitLocation - c.InitialConditions.InitialWorldLocation) = ⟨0, 0, 1⟩) :
    (VerticalRootPlus Real.sqrt c.k c.TerminalVelocity
          (HitLocation - c.InitialConditions.InitialWorldLocation).Z
          c.InitialConditions.InitialVelocity.Z < 0 →
        ComputeTimeOfFlight Real.sqrt c HitLocation
          = VerticalRootMinus Real.sqrt c.k c.TerminalVelocity
              (HitLocation - c.InitialConditions.InitialWorldLocation).Z
              c.InitialConditions.InitialVelocity.Z)
    ∧ (0 ≤ VerticalRootPlus Real.sqrt c.k c.TerminalVelocity
          (HitLocation - c.InitialConditions.InitialWorldLocation).Z
          c.InitialConditions.InitialVelocity.Z →
        VerticalRootMinus Real.sqrt c.k c.TerminalVelocity
          (HitLocation - c.InitialConditions.InitialWorldLocation).Z
          c.InitialConditions.InitialVelocity.Z < 0 →
        ComputeTimeOfFlight Real.sqrt c HitLocation
          = VerticalRootPlus Real.sqrt c.k c.TerminalVelocity
              (HitLocation - c.InitialConditions.InitialWorldLocation).Z
              c.InitialConditions.InitialVelocity.Z)
    ∧ (0 ≤ VerticalRootPlus Real.sqrt c.k c.TerminalVelocity
          (HitLocation - c.InitialConditions.InitialWorldLocation).Z
          c.InitialConditions.InitialVelocity.Z →
        0 ≤ VerticalRootMinus Real.sqrt c.k c.TerminalVelocity
          (HitLocation - c.InitialConditions.InitialWorldLocation).Z
          c.InitialConditions.InitialVelocity.Z →
        ((c.GetGravityZ < 0 ∧ 0 < (HitLocation - c.InitialConditions.InitialWorldLocation).Z)
          ∨ (0 ≤ c.GetGravityZ
            ∧ (HitLocation - c.InitialConditions.InitialWorldLocation).Z < 0)) →
        ComputeTimeOfFlight Real.sqrt c HitLocation
          = min (VerticalRootPlus Real.sqrt c.k c.TerminalVelocity
                (HitLocation - c.InitialConditions.InitialWorldLocation).Z
                c.InitialConditions.InitialVelocity.Z)
              (VerticalRootMinus Real.sqrt c.k c.TerminalVelocity
                (HitLocation - c.InitialConditions.InitialWorldLocation).Z
                c.InitialConditions.InitialVelocity.Z))
    ∧ (0 ≤ VerticalRootPlus Real.sqrt c.k c.TerminalVelocity
          (HitLocation - c.InitialConditions.InitialWorldLocation).Z
          c.InitialConditions.InitialVelocity.Z →
        0 ≤ VerticalRootMinus Real.sqrt c.k c.TerminalVelocity
          (HitLocation - c.InitialConditions.InitialWorldLocation).Z
          c.InitialConditions.InitialVelocity.Z →
        ¬ ((c.GetGravityZ < 0 ∧ 0 < (HitLocation - c.InitialConditions.InitialWorldLocation).Z)
          ∨ (0 ≤ c.GetGravityZ
            ∧ (HitLocation - c.InitialConditions.InitialWorldLocation).Z < 0)) →
        ComputeTimeOfFlight Real.sqrt c HitLocation
          = max (VerticalRootPlus Real.sqrt c.k c.TerminalVelocity
                (HitLocation - c.InitialConditions.InitialWorldLocation).Z
                c.InitialConditions.InitialVelocity.Z)
              (VerticalRootMinus Real.sqrt c.k c.TerminalVelocity
                (HitLocation - c.InitialConditions.InitialWorldLocation).Z
                c.InitialConditions.InitialVelocity.Z))
    ∧ (c.k * c.TerminalVelocity ≠ 0 →
        0 ≤ (c.InitialConditions.InitialVelocity.Z
              - (HitLocation - c.InitialConditions.InitialWorldLocation).Z * c.k)
            * (c.InitialConditions.InitialVelocity.Z
              - (HitLocation - c.InitialConditions.InitialWorldLocation).Z * c.k)
            - 2 * (2 * c.k * -c.TerminalVelocity)
              * -(HitLocation - c.InitialConditions.InitialWorldLocation).Z →
        ∀ t : ℝ, c.k * (-c.TerminalVelocity) * t ^ 2
              + (c.InitialConditions.InitialVelocity.Z
                  - c.k * (HitLocation - c.InitialConditions.InitialWorldLocation).Z) * t
              - (HitLocation - c.InitialConditions.InitialWorldLocation).Z = 0
            ↔ t = VerticalRootPlus Real.sqrt c.k c.TerminalVelocity
                  (HitLocation - c.InitialConditions.InitialWorldLocation).Z
                  c.InitialConditions.InitialVelocity.Z
              ∨ t = VerticalRootMinus Real.sqrt c.k c.TerminalVelocity
                  (HitLocation - c.InitialConditions.InitialWorldLocation).Z
                  c.InitialConditions.InitialVelocity.Z) := by
  rw [(ComputeTimeOfFlight_on_axis Real.sqrt c hair HitLocation).2.2 haxis,
    VerticalTimeOfFlight_eq_roots]
  refine ⟨?_, ?_, ?_, ?_, fun hk hd t => vertical_candidates_are_roots _ _ _ _ t hk hd⟩
  all_goals
    generalize (HitLocation - c.InitialConditions.InitialWorldLocation).Z = p
    generalize c.InitialConditions.InitialVelocity.Z = v0
    generalize VerticalRootPlus Real.sqrt c.k c.TerminalVelocity p v0 = t1
    generalize VerticalRootMinus Real.sqrt c.k c.TerminalVelocity p v0 = t2
  · intro h1
    rw [if_pos h1]
  · intro h1 h2
    rw [if_neg (not_lt.mpr h1), if_pos h2]
  · intro h1 h2 hsel
    rw [if_neg (not_lt.mpr h1), if_neg (not_lt.mpr h2)]
    rcases hsel with ⟨hg, hp⟩ | ⟨hg, hp⟩
    · rw [if_pos hg, if_pos hp]
      rcases lt_or_le t1 t2 with h | h
      · rw [if_pos h, min_eq_left h.le]
      · rw [if_neg (not_lt.mpr h), min_eq_right h]
    · rw [if_neg (not_lt.mpr hg), if_pos hp]
      rcases lt_or_le t1 t2 with h | h
      · rw [if_pos h, min_eq_left h.le]
      · rw [if_neg (not_lt.mpr h), min_eq_right h]
  · intro h1 h2 hsel
    rw [if_neg (not_lt.mpr h1), if_neg (not_lt.mpr h2)]
    push_neg at hsel
    by_cases hg : c.GetGravityZ < 0
    · have hp : ¬ p > 0 := not_lt.mpr (hsel.1 hg)
      rw [if_pos hg, if_neg hp]
      rcases lt_or_le t1 t2 with h | h
      · rw [if_pos h, max_eq_right h.le]
      · rw [if_neg (not_lt.mpr h), max_eq_left h]
    · have hp : ¬ p < 0 := not_lt.mpr (hsel.2 (not_lt.mp hg))
      rw [if_neg hg, if_neg hp]
      rcases lt_or_le t1 t2 with h | h
      · rw [if_pos h, max_eq_right h.le]
      · rw [if_neg (not_lt.mpr h), max_eq_left h]

/-- C18 at a concrete input: the shot straight up at 981 units/s, asked for the time of flight
to its launch point. The vertical axis is used, the candidate times are `0` and `2`, gravity is
negative and the displacement is not positive, so the later time `2` is returned. -/
theorem C18_witness :
    (VerticalShot Real.sqrt).ObjectsPenetrated = []
    ∧ AxisToUse ((⟨0, 0, 0⟩ : FVector ℝ)
        - (VerticalShot Real.sqrt).InitialConditions.InitialWorldLocation) = ⟨0, 0, 1⟩
    ∧ VerticalRootPlus Real.sqrt (VerticalShot Real.sqrt).k
        (VerticalShot Real.sqrt).TerminalVelocity
        ((⟨0, 0, 0⟩ : FVector ℝ)
          - (VerticalShot Real.sqrt).InitialConditions.InitialWorldLocation).Z
        (VerticalShot Real.sqrt).InitialConditions.InitialVelocity.Z = 0
    ∧ VerticalRootMinus Real.sqrt (VerticalShot Real.sqrt).k
        (VerticalShot Real.sqrt).TerminalVelocity
        ((⟨0, 0, 0⟩ : FVector ℝ)
          - (VerticalShot Real.sqrt).InitialConditions.InitialWorldLocation).Z
        (VerticalShot Real.sqrt).InitialConditions.InitialVelocity.Z = 2
    ∧ ComputeTimeOfFlight Real.sqrt (VerticalShot Real.sqrt) ⟨0, 0, 0⟩ = 2 := by
  obtain ⟨-, -, f3, f4, f5, -, f7, f8⟩ := Launched_tick_facts ⟨0, 0, 981⟩
  have hA : AxisToUse ((⟨0, 0, 0⟩ : FVector ℝ)
      - (VerticalShot Real.sqrt).InitialConditions.InitialWorldLocation) = ⟨0, 0, 1⟩ := by
    unfold VerticalShot
    rw [AxisToUse_eq, f8]
    norm_num
  have hs : Real.sqrt (981 * 981) = 981 := Real.sqrt_mul_self (by norm_num)
  have h1 : VerticalRootPlus Real.sqrt (VerticalShot Real.sqrt).k
      (VerticalShot Real.sqrt).TerminalVelocity
      ((⟨0, 0, 0⟩ : FVector ℝ)
        - (VerticalShot Real.sqrt).InitialConditions.InitialWorldLocation).Z
      (VerticalShot Real.sqrt).InitialConditions.InitialVelocity.Z = 0 := by
    unfold VerticalShot VerticalRootPlus
    rw [f3, f4, f7, f8]
    simp only [FVector.sub_Z, sub_zero, zero_mul, neg_zero, mul_zero, hs]
    norm_num
  have h2 : VerticalRootMinus Real.sqrt (VerticalShot Real.sqrt).k
      (VerticalShot Real.sqrt).TerminalVelocity
      ((⟨0, 0, 0⟩ : FVector ℝ)
        - (VerticalShot Real.sqrt).InitialConditions.InitialWorldLocation).Z
      (VerticalShot Real.sqrt).InitialConditions.InitialVelocity.Z = 2 := by
    unfold VerticalShot VerticalRootMinus
    rw [f3, f4, f7, f8]
    simp only [FVector.sub_Z, sub_zero, zero_mul, neg_zero, mul_zero, hs]
    norm_num
  refine ⟨rfl, hA, h1, h2, ?_⟩
  rw [(C18_vertical_root_selection (VerticalShot Real.sqrt) ⟨0, 0, 0⟩ rfl hA).2.2.2.1
    (by rw [h1]) (by rw [h2]; norm_num) ?_, h1, h2]
  · norm_num
  · unfold VerticalShot
    rw [f5, f8]
    norm_num

/-- Inside a solid `ComputeTimeOfFlight` is the quadratic formula with the `+` sign. -/
theorem ComputeTimeOfFlight_solid (sqrt : ℝ → ℝ) (c : URealisticProjectileComponent ℝ)
    (hsolid : c.ObjectsPenetrated ≠ []) (HitLocation : FVector ℝ) :
    ComputeTimeOfFlight sqrt c HitLocation
      = (-(FVector.Size sqrt c.InitialConditions.InitialVelocity / 100)
          + sqrt (FVector.Size sqrt c.InitialConditions.InitialVelocity / 100
              * (FVector.Size sqrt c.InitialConditions.InitialVelocity / 100)
            - 2 * -c.CurrentPenetrationDeceleration
              * -(FVector.Size sqrt (HitLocation - c.InitialConditions.InitialWorldLocation)
                  / 100)))
        / -c.CurrentPenetrationDeceleration := by
  unfold ComputeTimeOfFlight
  have h : ¬ c.ObjectsPenetrated.length = 0 := by
    rw [List.length_eq_zero]
    exact hsolid
  simp only [if_neg h]

/-- C19: inside a solid, with `p = |hit location - initial location| / 100`,
`v0 = |InitialVelocity| / 100` and `a = -CurrentPenetrationDeceleration > 0`, the time
`ComputeTimeOfFlight` returns is non-negative, solves `0 = 0.5*a*t^2 + v0*t - p`, and is the
only non-negative solution. -/
theorem C19_inside_solid_time_is_nonnegative_root (c : URealisticProjectileComponent ℝ)
    (HitLocation : FVector ℝ) (hsolid : c.ObjectsPenetrated ≠ [])
    (ha : 0 < -c.CurrentPenetrationDeceleration) :
    0 ≤ ComputeTimeOfFlight Real.sqrt c HitLocation
    ∧ 0.5 * -c.CurrentPenetrationDeceleration * ComputeTimeOfFlight Real.sqrt c HitLocation ^ 2
        + FVector.Size Real.sqrt c.InitialConditions.InitialVelocity / 100
          * ComputeTimeOfFlight Real.sqrt c HitLocation
        - FVector.Size Real.sqrt (HitLocation - c.InitialConditions.InitialWorldLocation) / 100
      = 0
    ∧ ∀ t : ℝ, 0 ≤ t →
        0.5 * -c.CurrentPenetrationDeceleration * t ^ 2
          + FVector.Size Real.sqrt c.InitialConditions.InitialVelocity / 100 * t
          - FVector.Size Real.sqrt (HitLocation - c.InitialConditions.InitialWorldLocation) / 100
        = 0 →
        t = ComputeTimeOfFlight Real.sqrt c HitLocation := by
  rw [ComputeTimeOfFlight_solid Real.sqrt c hsolid]
  have hv : 0 ≤ FVector.Size Real.sqrt c.InitialConditions.InitialVelocity / 100 :=
    div_nonneg (Real.sqrt_nonneg _) (by norm_num)
  have hp : 0 ≤ FVector.Size Real.sqrt
      (HitLocation - c.InitialConditions.InitialWorldLocation) / 100 :=
    div_nonneg (Real.sqrt_nonneg _) (by norm_num)
  generalize FVector.Size Real.sqrt c.InitialConditions.InitialVelocity / 100 = v0 at hv
  generalize FVector.Size Real.sqrt (HitLocation - c.InitialConditions.InitialWorldLocation)
    / 100 = p at hp
  generalize -c.CurrentPenetrationDeceleration = a at ha
  have hd : 0 ≤ v0 * v0 - 2 * a * -p := by nlinarith
  have hs := Real.mul_self_sqrt hd
  have hs0 := Real.sqrt_nonneg (v0 * v0 - 2 * a * -p)
  generalize Real.sqrt (v0 * v0 - 2 * a * -p) = s at hs hs0
  have hsv : v0 ≤ s := by nlinarith
  have hr : 0 ≤ (-v0 + s) / a := div_nonneg (by linarith) ha.le
  refine ⟨hr, ?_, ?_⟩
  · field_simp
    nlinarith
  · intro t ht heq
    rw [eq_div_iff ha.ne']
    have hfac : (a * t - (-v0 + s)) * (a * t + v0 + s) = 0 := by nlinarith
    rcases mul_eq_zero.mp hfac with h | h
    · linarith
    · have h1 : 0 ≤ a * t := mul_nonneg ha.le ht
      have h2 : a * t = 0 := by linarith
      have h3 : v0 + s = 0 := by linarith
      linarith

/-- C19 at a concrete input: inside a solid entered at 50000 units/s with deceleration
`-5000000`, the time of flight to `(12/5, 0, 0)` is `1/25000`, the non-negative solution of
`0 = 0.5 * 5000000 * t^2 + 500 * t - 0.024`. -/
theorem C19_witness :
    (InsideSolid Real.sqrt ⟨50000, 0, 0⟩ ⟨0, 0, 0⟩ 0 (-5000000)
        (FHitResult.Init 1)).ObjectsPenetrated ≠ []
    ∧ 0 < -(InsideSolid Real.sqrt ⟨50000, 0, 0⟩ ⟨0, 0, 0⟩ 0 (-5000000)
        (FHitResult.Init 1)).CurrentPenetrationDeceleration
    ∧ ComputeTimeOfFlight Real.sqrt (InsideSolid Real.sqrt ⟨50000, 0, 0⟩ ⟨0, 0, 0⟩ 0 (-5000000)
        (FHitResult.Init 1)) ⟨12 / 5, 0, 0⟩ = 1 / 25000 := by
  have hstack : (InsideSolid Real.sqrt ⟨50000, 0, 0⟩ ⟨0, 0, 0⟩ 0 (-5000000)
      (FHitResult.Init 1)).ObjectsPenetrated ≠ [] := by
    show [FHitResult.Init 1] ≠ []
    simp
  have hcur : (InsideSolid Real.sqrt ⟨50000, 0, 0⟩ ⟨0, 0, 0⟩ 0 (-5000000)
      (FHitResult.Init 1)).CurrentPenetrationDeceleration = -5000000 := rfl
  have hv : (InsideSolid Real.sqrt ⟨50000, 0, 0⟩ ⟨0, 0, 0⟩ 0 (-5000000)
      (FHitResult.Init 1)).InitialConditions.InitialVelocity = ⟨50000, 0, 0⟩ := rfl
  have hl : (InsideSolid Real.sqrt ⟨50000, 0, 0⟩ ⟨0, 0, 0⟩ 0 (-5000000)
      (FHitResult.Init 1)).InitialConditions.InitialWorldLocation = ⟨0, 0, 0⟩ := rfl
  have ha : 0 < -(InsideSolid Real.sqrt ⟨50000, 0, 0⟩ ⟨0, 0, 0⟩ 0 (-5000000)
      (FHitResult.Init 1)).CurrentPenetrationDeceleration := by
    rw [hcur]
    norm_num
  have hd : ((⟨12 / 5, 0, 0⟩ : FVector ℝ) - ⟨0, 0, 0⟩) = ⟨12 / 5, 0, 0⟩ := by
    ext <;> norm_num
  refine ⟨hstack, ha, ?_⟩
  refine ((C19_inside_solid_time_is_nonnegative_root _ ⟨12 / 5, 0, 0⟩ hstack ha).2.2
    (1 / 25000) (by norm_num) ?_).symm
  rw [hcur, hv, hl, hd, Size_axis_X 50000 (by norm_num), Size_axis_X (12 / 5) (by norm_num)]
  norm_num

/-- A vector clamped to a positive maximum size is at most that long. -/
theorem Size_GetClampedToMaxSize_le (a : FVector ℝ) (MaxSize : ℝ) (hM : 0 < MaxSize) :
    FVector.Size Real.sqrt (FVector.GetClampedToMaxSize Real.sqrt a MaxSize) ≤ MaxSize := by
  unfold FVector.GetClampedToMaxSize
  simp only []
  split_ifs with h1 h2
  · unfold FVector.Size FVector.ZeroVector
    simp only [mul_zero, add_zero, Real.sqrt_zero]
    exact hM.le
  · unfold FVector.SizeSquared at h2
    have hpos : 0 < a.X * a.X + a.Y * a.Y + a.Z * a.Z :=
      lt_of_le_of_lt (mul_self_nonneg MaxSize) h2
    have hs := Real.mul_self_sqrt hpos.le
    have hs0 : 0 < Real.sqrt (a.X * a.X + a.Y * a.Y + a.Z * a.Z) := Real.sqrt_pos.mpr hpos
    unfold FVector.Size FVector.SizeSquared
    simp only []
    generalize Real.sqrt (a.X * a.X + a.Y * a.Y + a.Z * a.Z) = s at hs hs0
    have hsq : a.X * (MaxSize * (1 / s)) * (a.X * (MaxSize * (1 / s)))
        + a.Y * (MaxSize * (1 / s)) * (a.Y * (MaxSize * (1 / s)))
        + a.Z * (MaxSize * (1 / s)) * (a.Z * (MaxSize * (1 / s))) = MaxSize * MaxSize := by
      have h3 : a.X * (MaxSize * (1 / s)) * (a.X * (MaxSize * (1 / s)))
          + a.Y * (MaxSize * (1 / s)) * (a.Y * (MaxSize * (1 / s)))
          + a.Z * (MaxSize * (1 / s)) * (a.Z * (MaxSize * (1 / s)))
          = (a.X * a.X + a.Y * a.Y + a.Z * a.Z) * (MaxSize * MaxSize) / (s * s) := by
        field_simp
        ring
      rw [h3, ← hs]
      field_simp
    rw [hsq, Real.sqrt_mul_self hM.le]
  · unfold FVector.SizeSquared at h2
    unfold FVector.Size
    rw [Real.sqrt_le_left hM.le]
    calc a.X * a.X + a.Y * a.Y + a.Z * a.Z ≤ MaxSize * MaxSize := not_lt.mp h2
      _ = MaxSize ^ 2 := by ring

/-- C16: the maximum-speed clamp is applied inside a solid only. Inside a solid (no plane
constraint) the velocity `ComputeVelocity` returns is no longer than a positive `MaxSpeed`, and
with `MaxSpeed = 0` it is the unclamped velocity. In free medium `ComputeVelocity` does not read
`MaxSpeed` at all: whenever the launch speed exceeds a positive `MaxSpeed`, the velocity at
elapsed time 0 is longer than `MaxSpeed`. -/
theorem C16_max_speed_clamp_only_inside_solid (c : URealisticProjectileComponent ℝ) (dt : ℝ) :
    (c.ObjectsPenetrated ≠ [] → c.bConstrainToPlane = false → 0 < c.MaxSpeed →
      FVector.Size Real.sqrt (ComputeVelocity Real.sqrt c dt) ≤ c.MaxSpeed)
    ∧ (c.ObjectsPenetrated ≠ [] → c.bConstrainToPlane = false → c.MaxSpeed = 0 →
      ComputeVelocity Real.sqrt c dt
        = (100 * (if c.CurrentPenetrationDeceleration * dt + c.InitialConditions.v0length / 100
              < 0 then 0
            else c.CurrentPenetrationDeceleration * dt + c.InitialConditions.v0length / 100)
          / c.InitialConditions.v0length) • c.InitialConditions.InitialVelocity)
    ∧ (c.ObjectsPenetrated = [] →
      ∀ m : ℝ, ComputeVelocity Real.sqrt { c with MaxSpeed := m } dt
        = ComputeVelocity Real.sqrt c dt)
    ∧ (c.ObjectsPenetrated = [] → 0 < c.MaxSpeed →
      c.MaxSpeed < FVector.Size Real.sqrt c.InitialConditions.InitialVelocity →
      c.MaxSpeed < FVector.Size Real.sqrt (ComputeVelocity Real.sqrt c 0)) := by
  refine ⟨?_, ?_, ?_, ?_⟩
  · intro hsolid hplane hmax
    have hlen : c.ObjectsPenetrated.length > 0 := List.length_pos.mpr hsolid
    unfold ComputeVelocity LimitVelocity ConstrainDirectionToPlane GetMaxSpeed
    simp only [if_pos hlen, hplane, Bool.false_eq_true, if_false, gt_iff_lt, if_pos hmax]
    exact Size_GetClampedToMaxSize_le _ _ hmax
  · intro hsolid hplane hmax
    have hlen : c.ObjectsPenetrated.length > 0 := List.length_pos.mpr hsolid
    unfold ComputeVelocity LimitVelocity ConstrainDirectionToPlane GetMaxSpeed
    simp only [if_pos hlen, hplane, Bool.false_eq_true, if_false, gt_iff_lt, hmax,
      lt_self_iff_false]
  · intro hair m
    exact ComputeVelocity_air_congr Real.sqrt c { c with MaxSpeed := m } rfl hair hair rfl rfl dt
  · intro hair _ hlt
    rw [ComputeVelocity_air Real.sqrt c hair]
    have h : (⟨(c.InitialConditions.InitialVelocity.X + c.Vinf.X * (c.k * 0 * (2 + c.k * 0)))
          * (1 / ((1 + c.k * 0) * (1 + c.k * 0))),
        (c.InitialConditions.InitialVelocity.Y + c.Vinf.Y * (c.k * 0 * (2 + c.k * 0)))
          * (1 / ((1 + c.k * 0) * (1 + c.k * 0))),
        (c.InitialConditions.InitialVelocity.Z + c.Vinf.Z * (c.k * 0 * (2 + c.k * 0)))
          * (1 / ((1 + c.k * 0) * (1 + c.k * 0)))⟩ : FVector ℝ)
        = c.InitialConditions.InitialVelocity := by
      ext <;> simp
    rw [h]
    exact hlt

/-- C16 at a concrete input: Scenario A (launch at 5000 units/s in free medium) with `MaxSpeed`
set to 100. At elapsed time 0 `ComputeVelocity` returns the launch velocity, whose size 5000
exceeds the maximum. -/
theorem C16_witness :
    ({ ScenarioA Real.sqrt with MaxSpeed := 100 } : URealisticProjectileComponent ℝ).ObjectsPenetrated
      = []
    ∧ ComputeVelocity Real.sqrt { ScenarioA Real.sqrt with MaxSpeed := 100 } 0 = ⟨5000, 0, 0⟩
    ∧ (100 : ℝ) < FVector.Size Real.sqrt
        (ComputeVelocity Real.sqrt { ScenarioA Real.sqrt with MaxSpeed := 100 } 0) := by
  have hv : ({ ScenarioA Real.sqrt with MaxSpeed := 100 }
      : URealisticProjectileComponent ℝ).InitialConditions.InitialVelocity = ⟨5000, 0, 0⟩ := rfl
  refine ⟨rfl, ?_, ?_⟩
  · rw [ComputeVelocity_air Real.sqrt _ rfl, hv]
    ext <;> simp
  · refine (C16_max_speed_clamp_only_inside_solid
      { ScenarioA Real.sqrt with MaxSpeed := 100 } 0).2.2.2 rfl ?_ ?_
    · show (0 : ℝ) < 100
      norm_num
    · rw [hv, Size_axis_X 5000 (by norm_num)]
      show (100 : ℝ) < 5000
      norm_num

end URealisticProjectileComponent

/-! ## Free flight, the regime invariant, the penetration stack and the embed threshold -/

namespace URealisticProjectileComponent

/-- The removal loop, run over the first `pre.length` indices, filters `pre` and keeps the
rest. -/
theorem RemoveMatchingEntries_append (E : FHitResult ℝ) (pre : List (FHitResult ℝ)) :
    ∀ post : List (FHitResult ℝ),
      RemoveMatchingEntries E pre.length (pre ++ post)
        = pre.filter (fun h => ¬ (E.Actor = h.Actor)) ++ post := by
  induction pre using List.reverseRecOn with
  | nil =>
    intro post
    rfl
  | append_singleton pre h ih =>
    intro post
    have hlen : (pre ++ [h]).length = pre.length + 1 := by simp
    have hget : (pre ++ [h] ++ post)[pre.length]? = some h := by
      rw [List.append_assoc, List.getElem?_append_right (le_refl _), Nat.sub_self]
      simp
    have herase : (pre ++ [h] ++ post).eraseIdx pre.length = pre ++ post := by
      rw [List.append_assoc, List.eraseIdx_append_of_length_le (le_refl _)]
      simp
    rw [hlen, RemoveMatchingEntries, hget]
    simp only []
    split_ifs with hA
    · rw [herase, ih post, List.filter_append]
      simp [hA]
    · rw [List.append_assoc, ih ([h] ++ post), List.filter_append]
      simp [hA]

/-- The removal loop of an exit keeps exactly the entries whose actor is not the exit hit's, in
their order. -/
theorem RemoveMatchingEntries_eq_filter (E : FHitResult ℝ) (Stack : List (FHitResult ℝ)) :
    RemoveMatchingEntries E Stack.length Stack
      = Stack.filter (fun h => ¬ (E.Actor = h.Actor)) := by
  have h := RemoveMatchingEntries_append E Stack []
  rw [List.append_nil, List.append_nil] at h
  exact h

/-- `GetNewPenetrationDeceleration` reads only the stack, the material table and the
penetration modifier. -/
theorem GetNewPenetrationDeceleration_congr (c c' : URealisticProjectileComponent ℝ)
    (h1 : c'.ObjectsPenetrated = c.ObjectsPenetrated)
    (h2 : c'.MaterialPropertiesTable = c.MaterialPropertiesTable)
    (h3 : c'.PenetrationModifier = c.PenetrationModifier) (Hit : FHitResult ℝ) :
    GetNewPenetrationDeceleration c' Hit = GetNewPenetrationDeceleration c Hit := by
  unfold GetNewPenetrationDeceleration
  rw [h1, h2, h3]

/-- What the reset after the last exit changes: the velocity, the random stream and, when the
stack is empty, the current deceleration. -/
theorem ResetAfterLastExit_regime (M : FEngineMath ℝ) (c : URealisticProjectileComponent ℝ)
    (Hit : FHitResult ℝ) :
    (ResetAfterLastExit M c Hit).ObjectsPenetrated = c.ObjectsPenetrated
    ∧ (ResetAfterLastExit M c Hit).CurrentPenetrationDeceleration
        = (if c.ObjectsPenetrated.length = 0 then 1 else c.CurrentPenetrationDeceleration)
    ∧ (ResetAfterLastExit M c Hit).InitialConditions = c.InitialConditions
    ∧ (ResetAfterLastExit M c Hit).InitialConditionHistory = c.InitialConditionHistory
    ∧ (ResetAfterLastExit M c Hit).MaterialPropertiesTable = c.MaterialPropertiesTable
    ∧ (ResetAfterLastExit M c Hit).PenetrationModifier = c.PenetrationModifier := by
  unfold ResetAfterLastExit
  refine ⟨?_, ?_, ?_, ?_, ?_, ?_⟩ <;> split_ifs <;> simp

/-- What an exit resolution makes of the stack, the current deceleration and the active
record's deceleration, and what it keeps of the configuration. -/
theorem ResolveExit_regime (M : FEngineMath ℝ) (c : URealisticProjectileComponent ℝ)
    (TRT L : ℝ) (r rr : FRotator ℝ) (Hit HitToDealWith : FHitResult ℝ) :
    (ResolveExit M c TRT L r rr Hit HitToDealWith).1.ObjectsPenetrated
        = c.ObjectsPenetrated.filter (fun h => ¬ (HitToDealWith.Actor = h.Actor))
    ∧ (ResolveExit M c TRT L r rr Hit HitToDealWith).1.CurrentPenetrationDeceleration
        = (if (c.ObjectsPenetrated.filter
              (fun h => ¬ (HitToDealWith.Actor = h.Actor))).length = 0 then 1
          else c.CurrentPenetrationDeceleration)
    ∧ (ResolveExit M c TRT L r rr Hit HitToDealWith).1.InitialConditions.PenDeceleration
        = (if (c.ObjectsPenetrated.filter
              (fun h => ¬ (HitToDealWith.Actor = h.Actor))).length = 0 then 1
          else c.CurrentPenetrationDeceleration)
    ∧ (ResolveExit M c TRT L r rr Hit HitToDealWith).1.MaterialPropertiesTable
        = c.MaterialPropertiesTable
    ∧ (ResolveExit M c TRT L r rr Hit HitToDealWith).1.PenetrationModifier
        = c.PenetrationModifier := by
  unfold ResolveExit
  simp only [RemoveMatchingEntries_eq_filter, SetInitialConditions_ObjectsPenetrated,
    SetInitialConditions_CurrentPenetrationDeceleration,
    SetInitialConditions_InitialConditions, SetInitialConditions_MaterialPropertiesTable,
    SetInitialConditions_PenetrationModifier]
  generalize ComputeTimeOfFlight M.sqrt
    (ActorMove c (HitToDealWith.Location + HitToDealWith.ImpactNormal) r)
    HitToDealWith.Location = F
  generalize ComputeVelocity M.sqrt
    (ActorMove c (HitToDealWith.Location + HitToDealWith.ImpactNormal) r) F = V
  simp only [SetVelocity_Velocity, Broadcast_Velocity]
  obtain ⟨h1, h2, -, -, h5, h6⟩ := ResetAfterLastExit_regime M
    (SetObjectsPenetrated (Broadcast (Broadcast (SetVelocity
        (ActorMove c (HitToDealWith.Location + HitToDealWith.ImpactNormal) r) V)
        (FProjectileEvent.OnProjectileAnyHit HitToDealWith V))
        (FProjectileEvent.OnPenetrationExit HitToDealWith V))
      (c.ObjectsPenetrated.filter (fun h => ¬ (HitToDealWith.Actor = h.Actor)))) Hit
  simp only [SetObjectsPenetrated_ObjectsPenetrated, Broadcast_ObjectsPenetrated,
    SetVelocity_ObjectsPenetrated, ActorMove_ObjectsPenetrated] at h1 h2 ⊢
  rw [SetObjectsPenetrated_CurrentPenetrationDeceleration,
    Broadcast_CurrentPenetrationDeceleration, Broadcast_CurrentPenetrationDeceleration,
    SetVelocity_CurrentPenetrationDeceleration, ActorMove_CurrentPenetrationDeceleration] at h2
  rw [SetObjectsPenetrated_MaterialPropertiesTable, Broadcast_MaterialPropertiesTable,
    Broadcast_MaterialPropertiesTable, SetVelocity_MaterialPropertiesTable,
    ActorMove_MaterialPropertiesTable] at h5
  rw [SetObjectsPenetrated_PenetrationModifier, Broadcast_PenetrationModifier,
    Broadcast_PenetrationModifier, SetVelocity_PenetrationModifier,
    ActorMove_PenetrationModifier] at h6
  exact ⟨h1, h2, h2, h5, h6⟩

/-- What a penetration entry from free medium makes of the stack, the current deceleration and
the active record's deceleration, and what it keeps of the configuration. -/
theorem ResolvePenetrate_regime (M : FEngineMath ℝ) (c c' : URealisticProjectileComponent ℝ)
    (TRT L T : ℝ) (r rr : FRotator ℝ) (Hit : FHitResult ℝ)
    (h : ResolvePenetrate M c TRT L r rr Hit = some (c', T)) :
    GetNewPenetrationDeceleration (SetObjectsPenetrated c (c.ObjectsPenetrated ++ [Hit])) Hit
        = some c'.CurrentPenetrationDeceleration
    ∧ c'.ObjectsPenetrated = c.ObjectsPenetrated ++ [Hit]
    ∧ c'.InitialConditions.PenDeceleration = c'.CurrentPenetrationDeceleration
    ∧ c'.MaterialPropertiesTable = c.MaterialPropertiesTable
    ∧ c'.PenetrationModifier = c.PenetrationModifier := by
  unfold ResolvePenetrate at h
  simp only [] at h
  generalize ComputeTimeOfFlight M.sqrt (ActorMove c (Hit.Location - Hit.ImpactNormal) r)
    Hit.Location = F at h
  generalize ComputeVelocity M.sqrt (ActorMove c (Hit.Location - Hit.ImpactNormal) r) F = V at h
  simp only [SetVelocity_Velocity, Broadcast_Velocity, Broadcast_ObjectsPenetrated,
    SetVelocity_ObjectsPenetrated, ActorMove_ObjectsPenetrated] at h
  rw [GetNewPenetrationDeceleration_congr
    (SetObjectsPenetrated c (c.ObjectsPenetrated ++ [Hit]))
    (SetObjectsPenetrated (Broadcast (Broadcast (SetVelocity
        (ActorMove c (Hit.Location - Hit.ImpactNormal) r) V)
        (FProjectileEvent.OnProjectileAnyHit Hit V))
        (FProjectileEvent.OnProjectilePenetrate Hit V)) (c.ObjectsPenetrated ++ [Hit]))
    (by simp only [SetObjectsPenetrated_ObjectsPenetrated])
    (by simp only [SetObjectsPenetrated_MaterialPropertiesTable,
      Broadcast_MaterialPropertiesTable, SetVelocity_MaterialPropertiesTable,
      ActorMove_MaterialPropertiesTable])
    (by simp only [SetObjectsPenetrated_PenetrationModifier, Broadcast_PenetrationModifier,
      SetVelocity_PenetrationModifier, ActorMove_PenetrationModifier])] at h
  rcases Option.eq_none_or_eq_some (GetNewPenetrationDeceleration
      (SetObjectsPenetrated c (c.ObjectsPenetrated ++ [Hit])) Hit) with hd | ⟨d, hd⟩
  · rw [hd] at h
    exact absurd h (by simp)
  · rw [hd] at h
    simp only [Option.some.injEq, Prod.mk.injEq] at h
    obtain ⟨hc, -⟩ := h
    subst hc
    refine ⟨?_, ?_, ?_, ?_, ?_⟩
    · rw [SetInitialConditions_CurrentPenetrationDeceleration,
        SetCurrentPenetrationDeceleration_CurrentPenetrationDeceleration]
      exact hd
    · rw [SetInitialConditions_ObjectsPenetrated,
        SetCurrentPenetrationDeceleration_ObjectsPenetrated,
        SetObjectsPenetrated_ObjectsPenetrated]
    · rw [SetInitialConditions_InitialConditions,
        SetInitialConditions_CurrentPenetrationDeceleration]
      rfl
    · rw [SetInitialConditions_MaterialPropertiesTable,
        SetCurrentPenetrationDeceleration_MaterialPropertiesTable,
        SetObjectsPenetrated_MaterialPropertiesTable, Broadcast_MaterialPropertiesTable,
        Broadcast_MaterialPropertiesTable, SetVelocity_MaterialPropertiesTable,
        ActorMove_MaterialPropertiesTable]
    · rw [SetInitialConditions_PenetrationModifier,
        SetCurrentPenetrationDeceleration_PenetrationModifier,
        SetObjectsPenetrated_PenetrationModifier, Broadcast_PenetrationModifier,
        Broadcast_PenetrationModifier, SetVelocity_PenetrationModifier,
        ActorMove_PenetrationModifier]

/-- What an entry while penetrating makes of the stack, the current deceleration and the
active record's deceleration, and what it keeps of the configuration. -/
theorem ResolveEntryWhilePenetrating_regime (M : FEngineMath ℝ)
    (c c' : URealisticProjectileComponent ℝ) (TRT L T : ℝ) (r rr : FRotator ℝ)
    (Hit : FHitResult ℝ)
    (h : ResolveEntryWhilePenetrating M c TRT L r rr Hit = some (c', T)) :
    GetNewPenetrationDeceleration (SetObjectsPenetrated c (c.ObjectsPenetrated ++ [Hit])) Hit
        = some c'.CurrentPenetrationDeceleration
    ∧ c'.ObjectsPenetrated = c.ObjectsPenetrated ++ [Hit]
    ∧ c'.InitialConditions.PenDeceleration = c'.CurrentPenetrationDeceleration
    ∧ c'.MaterialPropertiesTable = c.MaterialPropertiesTable
    ∧ c'.PenetrationModifier = c.PenetrationModifier := by
  unfold ResolveEntryWhilePenetrating at h
  simp only [] at h
  generalize ComputeTimeOfFlight M.sqrt (ActorMove c (Hit.Location - Hit.ImpactNormal) r)
    Hit.Location = F at h
  generalize ComputeVelocity M.sqrt (ActorMove c (Hit.Location - Hit.ImpactNormal) r) F = V at h
  simp only [SetVelocity_Velocity, Broadcast_Velocity, Broadcast_ObjectsPenetrated,
    SetVelocity_ObjectsPenetrated, ActorMove_ObjectsPenetrated] at h
  rw [GetNewPenetrationDeceleration_congr
    (SetObjectsPenetrated c (c.ObjectsPenetrated ++ [Hit]))
    (SetObjectsPenetrated (Broadcast (Broadcast (SetVelocity
        (ActorMove c (Hit.Location - Hit.ImpactNormal) r) V)
        (FProjectileEvent.OnProjectileAnyHit Hit V))
        (FProjectileEvent.OnProjectilePenetrate Hit V)) (c.ObjectsPenetrated ++ [Hit]))
    (by simp only [SetObjectsPenetrated_ObjectsPenetrated])
    (by simp only [SetObjectsPenetrated_MaterialPropertiesTable,
      Broadcast_MaterialPropertiesTable, SetVelocity_MaterialPropertiesTable,
      ActorMove_MaterialPropertiesTable])
    (by simp only [SetObjectsPenetrated_PenetrationModifier, Broadcast_PenetrationModifier,
      SetVelocity_PenetrationModifier, ActorMove_PenetrationModifier])] at h
  rcases Option.eq_none_or_eq_some (GetNewPenetrationDeceleration
      (SetObjectsPenetrated c (c.ObjectsPenetrated ++ [Hit])) Hit) with hd | ⟨d, hd⟩
  · rw [hd] at h
    exact absurd h (by simp)
  · rw [hd] at h
    simp only [Option.some.injEq, Prod.mk.injEq] at h
    obtain ⟨hc, -⟩ := h
    subst hc
    refine ⟨?_, ?_, ?_, ?_, ?_⟩
    · rw [SetInitialConditions_CurrentPenetrationDeceleration,
        SetCurrentPenetrationDeceleration_CurrentPenetrationDeceleration]
      exact hd
    · rw [SetInitialConditions_ObjectsPenetrated,
        SetCurrentPenetrationDeceleration_ObjectsPenetrated,
        SetObjectsPenetrated_ObjectsPenetrated]
    · rw [SetInitialConditions_InitialConditions,
        SetInitialConditions_CurrentPenetrationDeceleration]
      rfl
    · rw [SetInitialConditions_MaterialPropertiesTable,
        SetCurrentPenetrationDeceleration_MaterialPropertiesTable,
        SetObjectsPenetrated_MaterialPropertiesTable, Broadcast_MaterialPropertiesTable,
        Broadcast_MaterialPropertiesTable, SetVelocity_MaterialPropertiesTable,
        ActorMove_MaterialPropertiesTable]
    · rw [SetInitialConditions_PenetrationModifier,
        SetCurrentPenetrationDeceleration_PenetrationModifier,
        SetObjectsPenetrated_PenetrationModifier, Broadcast_PenetrationModifier,
        Broadcast_PenetrationModifier, SetVelocity_PenetrationModifier,
        ActorMove_PenetrationModifier]

/-- What a bounce keeps of the stack, the current deceleration and the configuration; the
record it makes active is a free-medium one. -/
theorem ResolveBounce_regime (M : FEngineMath ℝ) (c : URealisticProjectileComponent ℝ)
    (TRT L : ℝ) (r rr : FRotator ℝ) (Hit : FHitResult ℝ) :
    (ResolveBounce M c TRT L r rr Hit).1.ObjectsPenetrated = c.ObjectsPenetrated
    ∧ (ResolveBounce M c TRT L r rr Hit).1.CurrentPenetrationDeceleration
        = c.CurrentPenetrationDeceleration
    ∧ (ResolveBounce M c TRT L r rr Hit).1.InitialConditions.PenDeceleration = 1
    ∧ (ResolveBounce M c TRT L r rr Hit).1.MaterialPropertiesTable = c.MaterialPropertiesTable
    ∧ (ResolveBounce M c TRT L r rr Hit).1.PenetrationModifier = c.PenetrationModifier := by
  unfold ResolveBounce
  simp only []
  generalize ComputeTimeOfFlight M.sqrt (ActorMove c (Hit.Location + Hit.ImpactNormal) r)
    Hit.Location = F
  generalize ComputeVelocity M.sqrt (ActorMove c (Hit.Location + Hit.ImpactNormal) r) F = V
  refine ⟨?_, ?_, ?_, ?_, ?_⟩
  · split_ifs <;>
      simp only [StopSimulating_ObjectsPenetrated, SetInitialConditions_ObjectsPenetrated,
        SetRandStream_ObjectsPenetrated, SetVelocity_ObjectsPenetrated,
        Broadcast_ObjectsPenetrated, ActorMove_ObjectsPenetrated]
  · split_ifs <;>
      simp only [StopSimulating_CurrentPenetrationDeceleration,
        SetInitialConditions_CurrentPenetrationDeceleration,
        SetRandStream_CurrentPenetrationDeceleration,
        SetVelocity_CurrentPenetrationDeceleration, Broadcast_CurrentPenetrationDeceleration,
        ActorMove_CurrentPenetrationDeceleration]
  · split_ifs <;>
      simp only [StopSimulating_InitialConditions, SetInitialConditions_InitialConditions] <;>
      rfl
  · split_ifs <;>
      simp only [StopSimulating_MaterialPropertiesTable,
        SetInitialConditions_MaterialPropertiesTable, SetRandStream_MaterialPropertiesTable,
        SetVelocity_MaterialPropertiesTable, Broadcast_MaterialPropertiesTable,
        ActorMove_MaterialPropertiesTable]
  · split_ifs <;>
      simp only [StopSimulating_PenetrationModifier, SetInitialConditions_PenetrationModifier,
        SetRandStream_PenetrationModifier, SetVelocity_PenetrationModifier,
        Broadcast_PenetrationModifier, ActorMove_PenetrationModifier]

/-- `TryEmbed` keeps the stack, the current deceleration, the active record, the history and the
configuration. -/
theorem TryEmbed_regime (M : FEngineMath ℝ) (c : URealisticProjectileComponent ℝ)
    (LastHit : FHitResult ℝ) (RestLocation : FVector ℝ) :
    (TryEmbed M c LastHit RestLocation).ObjectsPenetrated = c.ObjectsPenetrated
    ∧ (TryEmbed M c LastHit RestLocation).CurrentPenetrationDeceleration
        = c.CurrentPenetrationDeceleration
    ∧ (TryEmbed M c LastHit RestLocation).InitialConditions = c.InitialConditions
    ∧ (TryEmbed M c LastHit RestLocation).MaterialPropertiesTable = c.MaterialPropertiesTable
    ∧ (TryEmbed M c LastHit RestLocation).PenetrationModifier = c.PenetrationModifier := by
  unfold TryEmbed
  simp only []
  refine ⟨?_, ?_, ?_, ?_, ?_⟩
  · split_ifs <;>
      simp only [Broadcast_ObjectsPenetrated, EmbedBody_ObjectsPenetrated,
        ReleaseToPhysics_ObjectsPenetrated, ActorMove_ObjectsPenetrated,
        SetVelocity_ObjectsPenetrated]
  · split_ifs <;>
      simp only [Broadcast_CurrentPenetrationDeceleration,
        EmbedBody_CurrentPenetrationDeceleration,
        ReleaseToPhysics_CurrentPenetrationDeceleration,
        ActorMove_CurrentPenetrationDeceleration, SetVelocity_CurrentPenetrationDeceleration]
  · split_ifs <;>
      simp only [Broadcast_InitialConditions, EmbedBody_InitialConditions,
        ReleaseToPhysics_InitialConditions, ActorMove_InitialConditions,
        SetVelocity_InitialConditions]
  · split_ifs <;>
      simp only [Broadcast_MaterialPropertiesTable, EmbedBody_MaterialPropertiesTable,
        ReleaseToPhysics_MaterialPropertiesTable, ActorMove_MaterialPropertiesTable,
        SetVelocity_MaterialPropertiesTable]
  · split_ifs <;>
      simp only [Broadcast_PenetrationModifier, EmbedBody_PenetrationModifier,
        ReleaseToPhysics_PenetrationModifier, ActorMove_PenetrationModifier,
        SetVelocity_PenetrationModifier]

/-- With positive toughness and a positive penetration modifier, the deceleration
`GetNewPenetrationDeceleration` returns for a non-empty stack is negative. -/
theorem GetNewPenetrationDeceleration_neg (c : URealisticProjectileComponent ℝ)
    (Hit : FHitResult ℝ) (d : ℝ) (hne : c.ObjectsPenetrated ≠ [])
    (ht : ToughnessPositive c) (h : GetNewPenetrationDeceleration c Hit = some d) : d < 0 := by
  obtain ⟨hPM, hrows⟩ := ht
  have hlen : ¬ c.ObjectsPenetrated.length = 0 := by
    rw [List.length_eq_zero]
    exact hne
  have hdef : (DEFAULT_TOUGHNESS : ℝ) * -1000 / c.PenetrationModifier < 0 := by
    apply div_neg_of_neg_of_pos _ hPM
    unfold DEFAULT_TOUGHNESS
    norm_num
  unfold GetNewPenetrationDeceleration at h
  rw [if_neg hlen] at h
  cases hm : Hit.PhysMaterial with
  | none =>
    simp only [hm] at h
    exact absurd h (by simp)
  | some m =>
    cases hT : c.MaterialPropertiesTable with
    | none =>
      simp only [hm, hT, Option.some.injEq] at h
      rw [← h]
      exact hdef
    | some Table =>
      cases hr : Table m with
      | none =>
        simp only [hm, hT, hr, Option.some.injEq] at h
        rw [← h]
        exact hdef
      | some Row =>
        simp only [hm, hT, hr, Option.some.injEq] at h
        rw [← h]
        apply div_neg_of_neg_of_pos _ hPM
        have := hrows Table hT m Row hr
        linarith

/-- The regime invariant only reads the stack, the active record's deceleration and the
current deceleration. -/
theorem RegimeInvariant_of_same (c c' : URealisticProjectileComponent ℝ)
    (h1 : c'.ObjectsPenetrated = c.ObjectsPenetrated)
    (h2 : c'.CurrentPenetrationDeceleration = c.CurrentPenetrationDeceleration)
    (h3 : c'.InitialConditions.PenDeceleration = c.InitialConditions.PenDeceleration)
    (h : RegimeInvariant c) : RegimeInvariant c' := by
  unfold RegimeInvariant RegimeConsistent at *
  rw [h1, h2, h3]
  exact h

/-- After an entry the regime invariant holds: the stack is not empty and the new record
carries the negative deceleration. -/
theorem RegimeInvariant_of_entry (c c' : URealisticProjectileComponent ℝ) (Hit : FHitResult ℝ)
    (ht : ToughnessPositive c)
    (hd : GetNewPenetrationDeceleration (SetObjectsPenetrated c (c.ObjectsPenetrated ++ [Hit]))
      Hit = some c'.CurrentPenetrationDeceleration)
    (hs : c'.ObjectsPenetrated = c.ObjectsPenetrated ++ [Hit])
    (hp : c'.InitialConditions.PenDeceleration = c'.CurrentPenetrationDeceleration) :
    RegimeInvariant c' := by
  have hneg : c'.CurrentPenetrationDeceleration < 0 :=
    GetNewPenetrationDeceleration_neg (SetObjectsPenetrated c (c.ObjectsPenetrated ++ [Hit]))
      Hit _ (by simp) ht hd
  have hne : c'.ObjectsPenetrated ≠ [] := by
    rw [hs]
    simp
  unfold RegimeInvariant RegimeConsistent
  rw [hp]
  exact ⟨⟨fun h => absurd h hne, fun h => absurd h (not_lt.mpr hneg.le)⟩, fun _ => hneg⟩

/-- The overlap scan keeps the stack, the current deceleration, the active record and the
configuration. -/
theorem ProcessOverlaps_regime (W : UWorld ℝ) (c : URealisticProjectileComponent ℝ) (G L : ℝ)
    (Hits : List (FHitResult ℝ)) :
    (ProcessOverlaps W c G L Hits).1.ObjectsPenetrated = c.ObjectsPenetrated
    ∧ (ProcessOverlaps W c G L Hits).1.CurrentPenetrationDeceleration
        = c.CurrentPenetrationDeceleration
    ∧ (ProcessOverlaps W c G L Hits).1.InitialConditions = c.InitialConditions
    ∧ (ProcessOverlaps W c G L Hits).1.MaterialPropertiesTable = c.MaterialPropertiesTable
    ∧ (ProcessOverlaps W c G L Hits).1.PenetrationModifier = c.PenetrationModifier :=
  ⟨rfl, rfl, rfl, rfl, rfl⟩

/-- The configuration `ToughnessPositive` reads. -/
theorem ToughnessPositive_of_same (c c' : URealisticProjectileComponent ℝ)
    (h1 : c'.MaterialPropertiesTable = c.MaterialPropertiesTable)
    (h2 : c'.PenetrationModifier = c.PenetrationModifier) (h : ToughnessPositive c) :
    ToughnessPositive c' := by
  unfold ToughnessPositive at *
  rw [h1, h2]
  exact h

/-- The last step of a sub-step, `UpdateComponentVelocity`, keeps the regime invariant and the
configuration. -/
theorem UpdateComponentVelocity_regime (c c' : URealisticProjectileComponent ℝ)
    (hinv : RegimeInvariant c') (h4 : c'.MaterialPropertiesTable = c.MaterialPropertiesTable)
    (h5 : c'.PenetrationModifier = c.PenetrationModifier) :
    RegimeInvariant (UpdateComponentVelocity c')
    ∧ (UpdateComponentVelocity c').MaterialPropertiesTable = c.MaterialPropertiesTable
    ∧ (UpdateComponentVelocity c').PenetrationModifier = c.PenetrationModifier :=
  ⟨RegimeInvariant_of_same c' _ rfl rfl rfl hinv, h4, h5⟩

/-- After an exit the regime invariant holds: either the stack is empty and the deceleration is
reset to 1, or the stack and the negative deceleration remain. -/
theorem RegimeInvariant_of_exit (c c' : URealisticProjectileComponent ℝ)
    (Stack : List (FHitResult ℝ)) (hsub : Stack ≠ [] → c.ObjectsPenetrated ≠ [])
    (hinv : RegimeInvariant c) (hs : c'.ObjectsPenetrated = Stack)
    (hd : c'.CurrentPenetrationDeceleration
      = if Stack.length = 0 then 1 else c.CurrentPenetrationDeceleration)
    (hp : c'.InitialConditions.PenDeceleration
      = if Stack.length = 0 then 1 else c.CurrentPenetrationDeceleration) :
    RegimeInvariant c' := by
  unfold RegimeInvariant RegimeConsistent
  rw [hs, hd, hp]
  by_cases hst : Stack = []
  · have hlen : Stack.length = 0 := by rw [hst]; rfl
    rw [if_pos hlen]
    exact ⟨⟨fun _ => one_pos, fun _ => hst⟩, fun h => absurd hst h⟩
  · have hlen : ¬ Stack.length = 0 := by
      rw [List.length_eq_zero]
      exact hst
    have hneg := hinv.2 (hsub hst)
    rw [if_neg hlen]
    exact ⟨⟨fun h => absurd h hst, fun h => absurd h (not_lt.mpr hneg.le)⟩, fun _ => hneg⟩

/-- Every sub-step that completes keeps the regime invariant, the material table and the
penetration modifier. -/
theorem TickSubStep_regime (M : FEngineMath ℝ) (W : UWorld ℝ) (D G : ℝ)
    (s s' : FTickLoopState ℝ) (ht : ToughnessPositive s.Component)
    (hinv : RegimeInvariant s.Component) (h : TickSubStep M W D G s = some s') :
    RegimeInvariant s'.Component
    ∧ s'.Component.MaterialPropertiesTable = s.Component.MaterialPropertiesTable
    ∧ s'.Component.PenetrationModifier = s.Component.PenetrationModifier := by
  unfold TickSubStep at h
  lift_lets at h
  extract_lets c Iterations TimeTick TRT Hit OldVelocity L OrigLocation bPastRest TRT2 L2
    NewLocation NewRelRot NewRot Swept Scanned c1 MoveEntryHits MoveExitHits c2 at h
  obtain ⟨e1, e2, e3, e4, e5⟩ := ProcessOverlaps_regime W c G L2 Swept
  change c1.ObjectsPenetrated = c.ObjectsPenetrated at e1
  change c1.CurrentPenetrationDeceleration = c.CurrentPenetrationDeceleration at e2
  change c1.InitialConditions = c.InitialConditions at e3
  change c1.MaterialPropertiesTable = c.MaterialPropertiesTable at e4
  change c1.PenetrationModifier = c.PenetrationModifier at e5
  have hinv1 : RegimeInvariant c1 := RegimeInvariant_of_same c c1 e1 e2 (by rw [e3]) hinv
  have ht1 : ToughnessPositive c1 := ToughnessPositive_of_same c c1 e4 e5 ht
  have hc2 : c2 = SetVelocity c1 (ComputeVelocity M.sqrt c1 L2) := rfl
  clear_value c1 c2 MoveExitHits MoveEntryHits Scanned Swept NewRot NewRelRot NewLocation
    L2 TRT2 bPastRest OrigLocation L OldVelocity Hit TRT TimeTick Iterations
  simp only [] at h
  split_ifs at h with hL hpen hhits hrest
  · -- the elapsed time is negative: the sub-step returns at once
    rw [← Option.some.inj h]
    exact ⟨hinv, rfl, rfl⟩
  · -- inside a solid, a hit to deal with
    split at h
    · exact absurd h (by simp)
    · rename_i c' T heq
      rw [← Option.some.inj h]
      split at heq
      · exact absurd heq (by simp)
      · rename_i HitToDealWith IsEntryHit hfirst
        split_ifs at heq with hentry
        · obtain ⟨hd, hs, hp, h4, h5⟩ := ResolveEntryWhilePenetrating_regime M c1 c' TRT2 L2 T
            NewRot NewRelRot HitToDealWith heq
          exact UpdateComponentVelocity_regime c c'
            (RegimeInvariant_of_entry c1 c' HitToDealWith ht1 hd hs hp)
            (h4.trans e4) (h5.trans e5)
        · obtain ⟨hs, hd, hp, h4, h5⟩ := ResolveExit_regime M c1 TRT2 L2 NewRot NewRelRot Hit
            HitToDealWith
          have hc' : c' = (ResolveExit M c1 TRT2 L2 NewRot NewRelRot Hit HitToDealWith).1 :=
            (congrArg Prod.fst (Option.some.inj heq)).symm
          rw [← hc'] at hs hd hp h4 h5
          refine UpdateComponentVelocity_regime c c'
            (RegimeInvariant_of_exit c1 c' _ ?_ hinv1 hs hd hp) (h4.trans e4) (h5.trans e5)
          intro hne hnil
          apply hne
          rw [hnil]
          rfl
  · -- inside a solid, at rest
    split at h
    · exact absurd h (by simp)
    · rename_i c' T heq
      rw [← Option.some.inj h]
      split at heq
      · exact absurd heq (by simp)
      · rename_i RestHit hhead
        obtain ⟨hs, hd, hp, h4, h5⟩ := TryEmbed_regime M c1 RestHit NewLocation
        have hc' : c' = StopSimulating (TryEmbed M c1 RestHit NewLocation) RestHit :=
          (congrArg Prod.fst (Option.some.inj heq)).symm
        subst hc'
        exact UpdateComponentVelocity_regime c _
          (RegimeInvariant_of_same c1 _ hs hd (by rw [StopSimulating_InitialConditions, hp])
            hinv1)
          (h4.trans e4) (h5.trans e5)
  · -- inside a solid, no hit
    rw [← Option.some.inj h]
    exact UpdateComponentVelocity_regime c _
      (RegimeInvariant_of_same c1 _ rfl rfl rfl hinv1) e4 e5
  · -- free medium
    split at h
    · exact absurd h (by simp)
    · rename_i c' T heq
      rw [← Option.some.inj h]
      split at heq
      · rename_i FirstHit hhead
        split_ifs at heq with hbounce
        · obtain ⟨hs, hd, hp, h4, h5⟩ := ResolveBounce_regime M
            (SetRandStream c1 (DecideBouncePenetrate M.sqrt M.acos c1 FirstHit).2)
            TRT2 L2 NewRot NewRelRot FirstHit
          have hc' : c' = (ResolveBounce M
              (SetRandStream c1 (DecideBouncePenetrate M.sqrt M.acos c1 FirstHit).2)
              TRT2 L2 NewRot NewRelRot FirstHit).1 :=
            (congrArg Prod.fst (Option.some.inj heq)).symm
          rw [← hc'] at hs hd hp h4 h5
          have hair : c1.ObjectsPenetrated = [] := by
            rw [← List.length_eq_zero]
            exact Nat.eq_zero_of_not_pos hpen
          refine UpdateComponentVelocity_regime c c' ?_ (h4.trans e4) (h5.trans e5)
          unfold RegimeInvariant RegimeConsistent
          rw [hs, hp, SetRandStream_ObjectsPenetrated, hair]
          exact ⟨⟨fun _ => one_pos, fun _ => rfl⟩, fun hne => absurd rfl hne⟩
        · obtain ⟨hd, hs, hp, h4, h5⟩ := ResolvePenetrate_regime M
            (SetRandStream c1 (DecideBouncePenetrate M.sqrt M.acos c1 FirstHit).2) c'
            TRT2 L2 T NewRot NewRelRot FirstHit heq
          exact UpdateComponentVelocity_regime c c'
            (RegimeInvariant_of_entry _ c' FirstHit
              (ToughnessPositive_of_same c1 _ rfl rfl ht1) hd hs hp)
            (h4.trans e4) (h5.trans e5)
      · have hc' : c' = ActorMove c2 NewLocation NewRot :=
          (congrArg Prod.fst (Option.some.inj heq)).symm
        subst hc' hc2
        exact UpdateComponentVelocity_regime c _
          (RegimeInvariant_of_same c1 _ rfl rfl rfl hinv1) e4 e5

/-- The deceleration lookup returns a value when the hit has a physical material. -/
theorem GetNewPenetrationDeceleration_some (c : URealisticProjectileComponent ℝ)
    (Hit : FHitResult ℝ) (m : String) (hm : Hit.PhysMaterial = some m) :
    ∃ d, GetNewPenetrationDeceleration c Hit = some d := by
  unfold GetNewPenetrationDeceleration
  rw [hm]
  split_ifs
  · exact ⟨_, rfl⟩
  · cases c.MaterialPropertiesTable with
    | none => exact ⟨_, rfl⟩
    | some Table =>
      cases hr : Table m with
      | none =>
        simp only [hr]
        exact ⟨_, rfl⟩
      | some Row =>
        simp only [hr]
        exact ⟨_, rfl⟩

/-- The deceleration lookup is not `none` when the hit has a physical material. -/
theorem GetNewPenetrationDeceleration_ne_none (c : URealisticProjectileComponent ℝ)
    (Hit : FHitResult ℝ) (m : String) (hm : Hit.PhysMaterial = some m) :
    GetNewPenetrationDeceleration c Hit ≠ none := by
  obtain ⟨d, hd⟩ := GetNewPenetrationDeceleration_some c Hit m hm
  rw [hd]
  simp

/-- A penetration entry from free medium returns when the hit has a physical material. -/
theorem ResolvePenetrate_some (M : FEngineMath ℝ) (c : URealisticProjectileComponent ℝ)
    (TRT L : ℝ) (r rr : FRotator ℝ) (Hit : FHitResult ℝ) (m : String)
    (hm : Hit.PhysMaterial = some m) :
    ∃ c' T, ResolvePenetrate M c TRT L r rr Hit = some (c', T) := by
  rcases Option.eq_none_or_eq_some (ResolvePenetrate M c TRT L r rr Hit) with h | ⟨⟨c', T⟩, h⟩
  · unfold ResolvePenetrate at h
    simp only [] at h
    split at h
    · rename_i hd
      exact absurd hd (GetNewPenetrationDeceleration_ne_none _ Hit m hm)
    · exact absurd h (by simp)
  · exact ⟨c', T, h⟩

/-- An entry while penetrating returns when the hit has a physical material. -/
theorem ResolveEntryWhilePenetrating_some (M : FEngineMath ℝ) (c : URealisticProjectileComponent ℝ)
    (TRT L : ℝ) (r rr : FRotator ℝ) (Hit : FHitResult ℝ) (m : String)
    (hm : Hit.PhysMaterial = some m) :
    ∃ c' T, ResolveEntryWhilePenetrating M c TRT L r rr Hit = some (c', T) := by
  rcases Option.eq_none_or_eq_some (ResolveEntryWhilePenetrating M c TRT L r rr Hit)
    with h | ⟨⟨c', T⟩, h⟩
  · unfold ResolveEntryWhilePenetrating at h
    simp only [] at h
    split at h
    · rename_i hd
      exact absurd hd (GetNewPenetrationDeceleration_ne_none _ Hit m hm)
    · exact absurd h (by simp)
  · exact ⟨c', T, h⟩

/-- A resolution returns when the hit has a physical material. -/
theorem Resolve_some (M : FEngineMath ℝ) (c : URealisticProjectileComponent ℝ)
    (e : FResolution ℝ) (m : String) (hm : e.HitToDealWith.PhysMaterial = some m) :
    ∃ c', Resolve M c e = some c' := by
  unfold Resolve
  split_ifs
  · obtain ⟨c', T, h⟩ := ResolveEntryWhilePenetrating_some M c e.TickRemainingTime
      e.LaunchDeltaTime e.NewRotation e.NewRelativeRotation e.HitToDealWith m hm
    rw [h]
    exact ⟨c', rfl⟩
  · obtain ⟨c', T, h⟩ := ResolvePenetrate_some M c e.TickRemainingTime
      e.LaunchDeltaTime e.NewRotation e.NewRelativeRotation e.HitToDealWith m hm
    rw [h]
    exact ⟨c', rfl⟩
  · exact ⟨_, rfl⟩

/-- One step of `ResolveAll`. -/
theorem ResolveAll_cons (M : FEngineMath ℝ) (e : FResolution ℝ) (es : List (FResolution ℝ))
    (s : FStackCount ℝ) (c : URealisticProjectileComponent ℝ)
    (h : Resolve M s.Component e = some c) :
    ResolveAll M (e :: es) s
      = ResolveAll M es
          { Component := c
            Pushed := if e.IsEntryHit then s.Pushed + 1 else s.Pushed
            Matched :=
              if !e.IsEntryHit && ExitMatches s.Component e.HitToDealWith then s.Matched + 1
              else s.Matched } := by
  rw [ResolveAll, h]

/-- The hits the overlap scan leaves are the blocking ones. -/
theorem ProcessOverlaps_snd (W : UWorld ℝ) (c : URealisticProjectileComponent ℝ) (G L : ℝ)
    (Hits : List (FHitResult ℝ)) :
    (ProcessOverlaps W c G L Hits).2
      = Hits.filter (fun h => ¬ decide ((W.GetCollisionResponseToComponent h.Component).rank
          < ECollisionResponse.ECR_Block.rank)) := rfl

/-- What the overlap scan keeps of the component. -/
theorem ProcessOverlaps_frame (W : UWorld ℝ) (c : URealisticProjectileComponent ℝ) (G L : ℝ)
    (Hits : List (FHitResult ℝ)) :
    (ProcessOverlaps W c G L Hits).1.InitialConditions = c.InitialConditions
    ∧ (ProcessOverlaps W c G L Hits).1.InitialConditionHistory = c.InitialConditionHistory
    ∧ (ProcessOverlaps W c G L Hits).1.ObjectsPenetrated = c.ObjectsPenetrated
    ∧ (ProcessOverlaps W c G L Hits).1.k = c.k
    ∧ (ProcessOverlaps W c G L Hits).1.Vinf = c.Vinf
    ∧ (ProcessOverlaps W c G L Hits).1.Body = c.Body
    ∧ (ProcessOverlaps W c G L Hits).1.UpdatedComponentIsNull = c.UpdatedComponentIsNull
    ∧ (ProcessOverlaps W c G L Hits).1.TerminalVelocity = c.TerminalVelocity
    ∧ (ProcessOverlaps W c G L Hits).1.CurrentGravity = c.CurrentGravity :=
  ⟨rfl, rfl, rfl, rfl, rfl, rfl, rfl, rfl, rfl⟩

/-- A sub-step in free medium in which no sweep reports a blocking hit that does not start
penetrating: the body is moved to the location, and the velocity set to the value, that the
active record gives at the elapsed time the sub-step computes; the record, the history and the
stack are kept. -/
theorem TickSubStep_unblocked (M : FEngineMath ℝ) (W : UWorld ℝ) (D G : ℝ)
    (s : FTickLoopState ℝ)
    (hL : 0 ≤ LaunchDeltaTimeOf s.Component D G (s.TickRemainingTime - D))
    (hair : s.Component.ObjectsPenetrated = [])
    (hvalid : s.Component.UpdatedComponentIsNull = false)
    (hkill : s.Component.Body.bOwnerPendingKill = false)
    (hsweep : ∀ Start End Rot, ∀ h ∈ W.ComponentSweepMulti Start End Rot,
      (W.GetCollisionResponseToComponent h.Component).rank < ECollisionResponse.ECR_Block.rank
        ∨ h.bStartPenetrating = true) :
    ∃ s', TickSubStep M W D G s = some s'
      ∧ s'.TickRemainingTime = s.TickRemainingTime - D
      ∧ s'.Iterations = s.Iterations + 1
      ∧ s'.bReturned = false
      ∧ s'.Component.InitialConditions = s.Component.InitialConditions
      ∧ s'.Component.InitialConditionHistory = s.Component.InitialConditionHistory
      ∧ s'.Component.ObjectsPenetrated = []
      ∧ s'.Component.UpdatedComponentIsNull = false
      ∧ s'.Component.Body.bOwnerPendingKill = false
      ∧ s'.Component.Body.bSimulatePhysics = s.Component.Body.bSimulatePhysics
      ∧ s'.Component.TerminalVelocity = s.Component.TerminalVelocity
      ∧ s'.Component.CurrentGravity = s.Component.CurrentGravity
      ∧ s'.Component.k = s.Component.k
      ∧ s'.Component.Vinf = s.Component.Vinf
      ∧ s'.Component.Velocity = ComputeVelocity M.sqrt s.Component
          (LaunchDeltaTimeOf s.Component D G (s.TickRemainingTime - D))
      ∧ s'.Component.Body.ComponentVelocity = ComputeVelocity M.sqrt s.Component
          (LaunchDeltaTimeOf s.Component D G (s.TickRemainingTime - D))
      ∧ s'.Component.Body.Location = ComputeNewLocation s.Component
          s.Component.InitialConditions
          (LaunchDeltaTimeOf s.Component D G (s.TickRemainingTime - D)) := by
  obtain ⟨res, hres⟩ : ∃ res, TickSubStep M W D G s = res := ⟨_, rfl⟩
  have hres0 := hres
  unfold TickSubStep at hres
  lift_lets at hres
  extract_lets c Iterations TimeTick TRT Hit OldVelocity L OrigLocation bPastRest TRT2 L2
    NewLocation NewRelRot NewRot Swept Scanned c1 MoveEntryHits MoveExitHits c2 at hres
  have hpast : bPastRest = false := by
    show decide (c.ObjectsPenetrated.length > 0 ∧ L > c.InitialConditions.PenRestDeltaTime)
      = false
    rw [hair]
    simp
  have hTRT2 : TRT2 = TRT := by
    show (if bPastRest = true then _ else TRT) = TRT
    rw [hpast]
    rfl
  have hL2 : L2 = L := by
    show (if bPastRest = true then _ else L) = L
    rw [hpast]
    rfl
  obtain ⟨e1, e2, e3, e4, e5, e6, e7, e8, e9⟩ := ProcessOverlaps_frame W c G L2 Swept
  change c1.InitialConditions = c.InitialConditions at e1
  change c1.InitialConditionHistory = c.InitialConditionHistory at e2
  change c1.ObjectsPenetrated = c.ObjectsPenetrated at e3
  change c1.k = c.k at e4
  change c1.Vinf = c.Vinf at e5
  change c1.Body = c.Body at e6
  change c1.UpdatedComponentIsNull = c.UpdatedComponentIsNull at e7
  change c1.TerminalVelocity = c.TerminalVelocity at e8
  change c1.CurrentGravity = c.CurrentGravity at e9
  have hme : MoveEntryHits = [] := by
    show List.filter _ (ProcessOverlaps W c G L2 Swept).2 = []
    rw [ProcessOverlaps_snd, List.filter_filter, List.filter_eq_nil_iff]
    intro h hh
    have hmem : h ∈ W.ComponentSweepMulti OrigLocation NewLocation NewRot := by
      have : Swept = W.ComponentSweepMulti OrigLocation NewLocation NewRot :=
        DoSweep_keep W c OrigLocation NewLocation NewRot hvalid
      rw [← this]
      exact hh
    rcases hsweep _ _ _ h hmem with h1 | h1
    · simp [h1]
    · simp [h1]
  have hc2 : c2 = SetVelocity c1 (ComputeVelocity M.sqrt c1 L2) := rfl
  have hLdef : L = LaunchDeltaTimeOf s.Component D G (s.TickRemainingTime - D) := rfl
  have hTRTdef : TRT = s.TickRemainingTime - D := rfl
  have hIt : Iterations = s.Iterations + 1 := rfl
  have hNL : NewLocation = ComputeNewLocation c c.InitialConditions L2 := rfl
  have hcdef : c = s.Component := rfl
  clear_value c1 c2 MoveExitHits MoveEntryHits Scanned Swept NewRot NewRelRot NewLocation
    L2 TRT2 bPastRest OrigLocation L OldVelocity Hit TRT TimeTick Iterations c
  subst hcdef hL2 hTRT2 hme
  have hlen : ¬ c1.ObjectsPenetrated.length > 0 := by
    rw [e3, hair]
    simp
  rw [← hLdef] at hL
  simp only [not_lt.mpr hL, if_false, hlen, List.head?_nil] at hres
  subst hc2
  have hV : ComputeVelocity M.sqrt c1 L2 = ComputeVelocity M.sqrt s.Component L2 :=
    ComputeVelocity_air_congr M.sqrt s.Component c1 e1 (e3.trans hair) hair e4 e5 L2
  have hnull : (ActorMove (SetVelocity c1 (ComputeVelocity M.sqrt c1 L2)) NewLocation
      NewRot).UpdatedComponentIsNull = false := by
    rw [ActorMove_UpdatedComponentIsNull, SetVelocity_UpdatedComponentIsNull, e7, hvalid]
  have hbody : (UpdateComponentVelocity (ActorMove (SetVelocity c1
      (ComputeVelocity M.sqrt c1 L2)) NewLocation NewRot)).Body
      = { s.Component.Body with
          Location := NewLocation
          Rotation := NewRot
          ComponentVelocity := ComputeVelocity M.sqrt s.Component L2 } := by
    rw [UpdateComponentVelocity_Body, hnull, ActorMove_Velocity, SetVelocity_Velocity,
      ActorMove_Body, SetVelocity_UpdatedComponentIsNull, SetVelocity_Body, e7, hvalid, e6,
      hkill, hV]
    rfl
  refine ⟨_, hres0.trans hres.symm, hTRTdef, hIt, rfl, ?_, ?_, ?_, ?_, ?_, ?_, ?_, ?_, ?_, ?_,
    ?_, ?_, ?_⟩
  · rw [UpdateComponentVelocity_InitialConditions, ActorMove_InitialConditions,
      SetVelocity_InitialConditions, e1]
  · rw [UpdateComponentVelocity_InitialConditionHistory, ActorMove_InitialConditionHistory,
      SetVelocity_InitialConditionHistory, e2]
  · rw [UpdateComponentVelocity_ObjectsPenetrated, ActorMove_ObjectsPenetrated,
      SetVelocity_ObjectsPenetrated, e3, hair]
  · rw [UpdateComponentVelocity_UpdatedComponentIsNull, hnull]
  · rw [hbody]
    exact hkill
  · rw [hbody]
  · rw [UpdateComponentVelocity_TerminalVelocity, ActorMove_TerminalVelocity,
      SetVelocity_TerminalVelocity, e8]
  · rw [UpdateComponentVelocity_CurrentGravity, ActorMove_CurrentGravity,
      SetVelocity_CurrentGravity, e9]
  · rw [UpdateComponentVelocity_k, ActorMove_k, SetVelocity_k, e4]
  · rw [UpdateComponentVelocity_Vinf, ActorMove_Vinf, SetVelocity_Vinf, e5]
  · rw [UpdateComponentVelocity_Velocity, ActorMove_Velocity, SetVelocity_Velocity, hV, hLdef]
  · rw [hbody, hLdef]
  · rw [hbody, hNL, hLdef]

/-- A tick in free medium in which no sweep reports a blocking hit that does not start
penetrating runs one sub-step, which moves the body to the location, and sets the velocity to
the value, that the active record gives at the elapsed time `G + D - t0`. -/
theorem TickComponent_unblocked (M : FEngineMath ℝ) (W : UWorld ℝ) (D G : ℝ)
    (c : URealisticProjectileComponent ℝ) (hD : 0 < D) (hG : c.InitialConditions.t0 ≤ G)
    (hvalid : c.UpdatedComponentIsNull = false) (hkill : c.Body.bOwnerPendingKill = false)
    (hphys : c.Body.bSimulatePhysics = false) (hair : c.ObjectsPenetrated = [])
    (hsweep : ∀ Start End Rot, ∀ h ∈ W.ComponentSweepMulti Start End Rot,
      (W.GetCollisionResponseToComponent h.Component).rank < ECollisionResponse.ECR_Block.rank
        ∨ h.bStartPenetrating = true) :
    ∃ s, TickComponent M W D G c = some s
      ∧ s.Iterations = 1
      ∧ s.Component.InitialConditions = c.InitialConditions
      ∧ s.Component.InitialConditionHistory = c.InitialConditionHistory
      ∧ s.Component.ObjectsPenetrated = []
      ∧ s.Component.UpdatedComponentIsNull = false
      ∧ s.Component.Body.bOwnerPendingKill = false
      ∧ s.Component.Body.bSimulatePhysics = false
      ∧ s.Component.TerminalVelocity = c.TerminalVelocity
      ∧ s.Component.CurrentGravity = c.CurrentGravity
      ∧ s.Component.Velocity = ComputeVelocity M.sqrt c.SetTickConstants
          (G + D - c.InitialConditions.t0)
      ∧ s.Component.Body.ComponentVelocity = ComputeVelocity M.sqrt c.SetTickConstants
          (G + D - c.InitialConditions.t0)
      ∧ s.Component.Body.Location = ComputeNewLocation c.SetTickConstants c.InitialConditions
          (G + D - c.InitialConditions.t0) := by
  have hL0 : LaunchDeltaTimeOf c.SetTickConstants D G (D - D)
      = G + D - c.InitialConditions.t0 := by
    simp only [LaunchDeltaTimeOf, SetTickConstants_InitialConditions]
    ring
  obtain ⟨s1, hs1, hT, hI, hR, hIC, hH, hst, hnull, hk, hp, hTV, hg, -, -, hV, hCV, hloc⟩ :=
    TickSubStep_unblocked M W D G ⟨c.SetTickConstants, D, 0, false⟩
      (by rw [hL0]; linarith) hair hvalid hkill hsweep
  rw [hL0] at hV hCV hloc
  refine ⟨s1, ?_, hI, hIC, hH, hst, hnull, hk, hp.trans hphys, hTV, hg, hV, hCV, hloc⟩
  unfold TickComponent
  rw [if_neg (by simp [HasStoppedSimulation, hvalid]), if_neg (by simp [hphys]),
    TickLoop_continue M W D G 499 _ s1
      (TickLoopCondition_true _ hD hkill hvalid (by norm_num)) hs1 hR,
    TickLoop_stop M W D G 498 s1 (by rw [hT]; simp)]

/-- A record set with the free-medium value 1 on an empty stack satisfies the regime
invariant (line 116 of `InitializeComponent`). -/
theorem RegimeInvariant_launch (sqrt : ℝ → ℝ) (c : URealisticProjectileComponent ℝ)
    (V Loc : FVector ℝ) (G0 : ℝ) (Rot : FRotator ℝ) (hair : c.ObjectsPenetrated = []) :
    RegimeInvariant (SetInitialConditions sqrt c V Loc G0 Rot 1) := by
  have h1 : (SetInitialConditions sqrt c V Loc G0 Rot 1).ObjectsPenetrated = [] := by
    rw [SetInitialConditions_ObjectsPenetrated, hair]
  have h2 : (SetInitialConditions sqrt c V Loc G0 Rot 1).InitialConditions.PenDeceleration
      = 1 := rfl
  unfold RegimeInvariant RegimeConsistent
  rw [h1, h2]
  exact ⟨⟨fun _ => one_pos, fun _ => rfl⟩, fun h => absurd rfl h⟩

/-- Under the regime invariant the tests of `ComputeNewLocation` (on the record's
deceleration) and of `ComputeVelocity` and `ComputeTimeOfFlight` (on the stack) agree. -/
theorem RegimeInvariant_tests (c : URealisticProjectileComponent ℝ) (h : RegimeInvariant c) :
    (c.ObjectsPenetrated = [] ↔ 0 < c.InitialConditions.PenDeceleration)
    ∧ (c.ObjectsPenetrated.length = 0 ↔ c.InitialConditions.PenDeceleration > 0)
    ∧ (c.ObjectsPenetrated.length > 0 ↔ ¬ c.InitialConditions.PenDeceleration > 0) := by
  have h0 : c.ObjectsPenetrated = [] ↔ 0 < c.InitialConditions.PenDeceleration := h.1
  refine ⟨h0, ?_, ?_⟩
  · rw [List.length_eq_zero]
    exact h0
  · show 0 < c.ObjectsPenetrated.length ↔ ¬ 0 < c.InitialConditions.PenDeceleration
    rw [List.length_pos, ne_eq, h0]

/-- The loop of a tick keeps the regime invariant and the configuration, whatever the number
of sub-steps it runs. -/
theorem TickLoop_regime (M : FEngineMath ℝ) (W : UWorld ℝ) (D G : ℝ) :
    ∀ (n : Nat) (s s' : FTickLoopState ℝ), ToughnessPositive s.Component →
      RegimeInvariant s.Component → TickLoop M W D G n s = some s' →
      RegimeInvariant s'.Component ∧ ToughnessPositive s'.Component := by
  intro n
  induction n with
  | zero =>
    intro s s' ht hinv h
    have hs : s = s' := Option.some.inj h
    rw [← hs]
    exact ⟨hinv, ht⟩
  | succ n ih =>
    intro s s' ht hinv h
    unfold TickLoop at h
    split_ifs at h with hc
    · rcases Option.eq_none_or_eq_some (TickSubStep M W D G s) with hn | ⟨s1, h1⟩
      · rw [hn] at h
        exact absurd h (by simp)
      · rw [h1] at h
        obtain ⟨hinv1, hT1, hP1⟩ := TickSubStep_regime M W D G s s1 ht hinv h1
        have ht1 : ToughnessPositive s1.Component :=
          ToughnessPositive_of_same s.Component s1.Component hT1 hP1 ht
        simp only [] at h
        split_ifs at h with hr
        · have hs : s1 = s' := Option.some.inj h
          rw [← hs]
          exact ⟨hinv1, ht1⟩
        · exact ih s1 s' ht1 hinv1 h
    · have hs : s = s' := Option.some.inj h
      rw [← hs]
      exact ⟨hinv, ht⟩

/-- A tick keeps the regime invariant and the configuration. -/
theorem TickComponent_regime (M : FEngineMath ℝ) (W : UWorld ℝ) (D G : ℝ)
    (c : URealisticProjectileComponent ℝ) (s' : FTickLoopState ℝ) (ht : ToughnessPositive c)
    (hinv : RegimeInvariant c) (h : TickComponent M W D G c = some s') :
    RegimeInvariant s'.Component ∧ ToughnessPositive s'.Component := by
  unfold TickComponent at h
  split_ifs at h with h1 h2
  · have hs : (⟨c, D, 0, true⟩ : FTickLoopState ℝ) = s' := Option.some.inj h
    rw [← hs]
    exact ⟨hinv, ht⟩
  · have hs : (⟨c, D, 0, true⟩ : FTickLoopState ℝ) = s' := Option.some.inj h
    rw [← hs]
    exact ⟨hinv, ht⟩
  · exact TickLoop_regime M W D G 500 ⟨c.SetTickConstants, D, 0, false⟩ s'
      (ToughnessPositive_of_same c c.SetTickConstants rfl rfl ht)
      (RegimeInvariant_of_same c c.SetTickConstants rfl rfl rfl hinv) h

/-- C12: regime consistency invariant. With every toughness of the material table positive and
`PenetrationModifier > 0`: (1) the record `InitializeComponent` sets on the empty stack
satisfies the invariant (stack empty iff the record's `PenDeceleration > 0`, and a non-empty
stack has a negative current deceleration); (2) under the invariant the test of
`ComputeNewLocation` on the record and the tests of `ComputeVelocity` and
`ComputeTimeOfFlight` on the stack select the same regime; (3) every sub-step that returns
keeps the invariant and the configuration, (4) hence so does the state after any number of
sub-steps of the loop of a tick, and (5) the state at the end of a tick. -/
theorem C12_regime_consistency_invariant (M : FEngineMath ℝ) (W : UWorld ℝ) (D G : ℝ) :
    (∀ (c : URealisticProjectileComponent ℝ) (V Loc : FVector ℝ) (G0 : ℝ) (Rot : FRotator ℝ),
      c.ObjectsPenetrated = [] →
        RegimeInvariant (SetInitialConditions M.sqrt c V Loc G0 Rot 1))
    ∧ (∀ c : URealisticProjectileComponent ℝ, RegimeInvariant c →
        (c.ObjectsPenetrated = [] ↔ 0 < c.InitialConditions.PenDeceleration)
        ∧ (c.ObjectsPenetrated.length = 0 ↔ c.InitialConditions.PenDeceleration > 0)
        ∧ (c.ObjectsPenetrated.length > 0 ↔ ¬ c.InitialConditions.PenDeceleration > 0))
    ∧ (∀ s s' : FTickLoopState ℝ, ToughnessPositive s.Component →
        RegimeInvariant s.Component → TickSubStep M W D G s = some s' →
        RegimeInvariant s'.Component ∧ ToughnessPositive s'.Component)
    ∧ (∀ (c : URealisticProjectileComponent ℝ) (n : Nat) (s' : FTickLoopState ℝ),
        ToughnessPositive c → RegimeInvariant c →
        TickLoop M W D G n ⟨c.SetTickConstants, D, 0, false⟩ = some s' →
        RegimeInvariant s'.Component ∧ ToughnessPositive s'.Component)
    ∧ (∀ (c : URealisticProjectileComponent ℝ) (s' : FTickLoopState ℝ),
        ToughnessPositive c → RegimeInvariant c → TickComponent M W D G c = some s' →
        RegimeInvariant s'.Component ∧ ToughnessPositive s'.Component) := by
  refine ⟨fun c V Loc G0 Rot h => RegimeInvariant_launch M.sqrt c V Loc G0 Rot h,
    RegimeInvariant_tests, ?_, ?_,
    fun c s' ht hinv h => TickComponent_regime M W D G c s' ht hinv h⟩
  · intro s s' ht hinv h
    obtain ⟨hinv1, hT1, hP1⟩ := TickSubStep_regime M W D G s s' ht hinv h
    exact ⟨hinv1, ToughnessPositive_of_same s.Component s'.Component hT1 hP1 ht⟩
  · intro c n s' ht hinv h
    exact TickLoop_regime M W D G n ⟨c.SetTickConstants, D, 0, false⟩ s'
      (ToughnessPositive_of_same c c.SetTickConstants rfl rfl ht)
      (RegimeInvariant_of_same c c.SetTickConstants rfl rfl rfl hinv) h

/-- Witness for C12: the horizontal shot with a material table of toughness 5000 satisfies the
hypotheses, its tick in a world without obstacles returns, and the state at the end of the
tick satisfies the invariant. -/
theorem C12_witness :
    ToughnessPositive (TableShot Real.sqrt)
    ∧ RegimeInvariant (TableShot Real.sqrt)
    ∧ ∃ s, TickComponent ⟨Real.sqrt, Real.arccos, fun _ => ⟨0, 0, 0⟩, fun _ v => v⟩ OpenWorld
          (1 / 100) 0 (TableShot Real.sqrt) = some s
        ∧ RegimeInvariant s.Component ∧ ToughnessPositive s.Component := by
  have ht : ToughnessPositive (TableShot Real.sqrt) := by
    refine ⟨?_, ?_⟩
    · show (0 : ℝ) < 1
      norm_num
    · intro Table hT Material Row hRow
      have hT0 : (TableShot Real.sqrt).MaterialPropertiesTable
          = some (fun _ => some ⟨5000⟩) := rfl
      rw [hT0, Option.some.injEq] at hT
      rw [← hT, Option.some.injEq] at hRow
      rw [← hRow]
      show (0 : ℝ) < 5000
      norm_num
  have hC := C12_regime_consistency_invariant
    ⟨Real.sqrt, Real.arccos, fun _ => ⟨0, 0, 0⟩, fun _ v => v⟩ OpenWorld (1 / 100) 0
  have hinv : RegimeInvariant (TableShot Real.sqrt) :=
    hC.1 _ ⟨900, 0, 0⟩ ⟨0, 0, 0⟩ 0 FRotator.ZeroRotator rfl
  obtain ⟨s, hs, -⟩ := TickComponent_unblocked
    ⟨Real.sqrt, Real.arccos, fun _ => ⟨0, 0, 0⟩, fun _ v => v⟩ OpenWorld (1 / 100) 0
    (TableShot Real.sqrt) (by norm_num) (le_refl _) rfl rfl rfl rfl
    (fun _ _ _ h hh => by simp [OpenWorld] at hh)
  exact ⟨ht, hinv, s, hs, hC.2.2.2.2 (TableShot Real.sqrt) s ht hinv hs⟩

/-- Filtering out the entries that match leaves a strictly shorter stack when one matches. -/
theorem length_filter_lt_of_any (E : FHitResult ℝ) (Stack : List (FHitResult ℝ))
    (h : Stack.any (fun h => decide (E.Actor = h.Actor)) = true) :
    (Stack.filter (fun h => ¬ (E.Actor = h.Actor))).length + 1 ≤ Stack.length := by
  induction Stack with
  | nil => simp at h
  | cons a l ih =>
    by_cases ha : E.Actor = a.Actor
    · have hle := List.length_filter_le (fun h => decide ¬ (E.Actor = h.Actor)) l
      rw [List.filter_cons_of_neg (by simp [ha]), List.length_cons]
      omega
    · have h2 : l.any (fun h => decide (E.Actor = h.Actor)) = true := by
        rw [List.any_cons] at h
        simpa [ha] using h
      have := ih h2
      rw [List.filter_cons_of_pos (by simp [ha])]
      simp only [List.length_cons]
      omega

/-- What one resolution makes of the stack: an entry appends the hit, an exit filters out the
entries with the exit hit's actor. -/
theorem Resolve_stack (M : FEngineMath ℝ) (c c' : URealisticProjectileComponent ℝ)
    (e : FResolution ℝ) (h : Resolve M c e = some c') :
    c'.ObjectsPenetrated
      = (if e.IsEntryHit then c.ObjectsPenetrated ++ [e.HitToDealWith]
        else c.ObjectsPenetrated.filter (fun h => ¬ (e.HitToDealWith.Actor = h.Actor))) := by
  unfold Resolve at h
  split_ifs at h with h1 h2
  · rw [Option.map_eq_some'] at h
    obtain ⟨⟨c1, T⟩, hr, hc⟩ := h
    obtain ⟨-, hs, -, -, -⟩ := ResolveEntryWhilePenetrating_regime M c c1 _ _ T _ _ _ hr
    rw [← hc, if_pos h1]
    exact hs
  · rw [Option.map_eq_some'] at h
    obtain ⟨⟨c1, T⟩, hr, hc⟩ := h
    obtain ⟨-, hs, -, -, -⟩ := ResolvePenetrate_regime M c c1 _ _ T _ _ _ hr
    rw [← hc, if_pos h1]
    exact hs
  · have hc := Option.some.inj h
    rw [← hc, if_neg h1]
    exact (ResolveExit_regime M c _ _ _ _ _ _).1

/-- The balance `Num() + Matched ≤ Pushed` is kept by every sequence of resolutions. -/
theorem ResolveAll_balance (M : FEngineMath ℝ) (es : List (FResolution ℝ)) :
    ∀ s s' : FStackCount ℝ,
      s.Component.ObjectsPenetrated.length + s.Matched ≤ s.Pushed →
      ResolveAll M es s = some s' →
      s'.Component.ObjectsPenetrated.length + s'.Matched ≤ s'.Pushed := by
  induction es with
  | nil =>
    intro s s' hb h
    have hs : s = s' := Option.some.inj h
    rw [← hs]
    exact hb
  | cons e es ih =>
    intro s s' hb h
    unfold ResolveAll at h
    rcases Option.eq_none_or_eq_some (Resolve M s.Component e) with hn | ⟨c, hc⟩
    · rw [hn] at h
      exact absurd h (by simp)
    · rw [hc] at h
      refine ih _ s' ?_ h
      have hstack := Resolve_stack M s.Component c e hc
      show c.ObjectsPenetrated.length
          + (if (!e.IsEntryHit && ExitMatches s.Component e.HitToDealWith) = true
              then s.Matched + 1 else s.Matched)
          ≤ (if e.IsEntryHit = true then s.Pushed + 1 else s.Pushed)
      rw [hstack]
      cases he : e.IsEntryHit with
      | true =>
        simp only [if_true, Bool.not_true, Bool.false_and, Bool.false_eq_true, if_false,
          List.length_append, List.length_singleton]
        omega
      | false =>
        simp only [Bool.false_eq_true, if_false, Bool.not_false, Bool.true_and]
        by_cases hm : ExitMatches s.Component e.HitToDealWith = true
        · rw [if_pos hm]
          have := length_filter_lt_of_any e.HitToDealWith s.Component.ObjectsPenetrated hm
          omega
        · rw [if_neg hm]
          have := List.length_filter_le (fun h => decide ¬ (e.HitToDealWith.Actor = h.Actor))
            s.Component.ObjectsPenetrated
          omega

/-- C13: stack balance. For every sequence of entry and exit resolutions that return, started
on an empty stack with both counts at zero (whether or not the struck actors are pairwise
distinct), the number of entries in the stack plus the number of exits that matched an entry
by actor is at most the number of entries pushed; so the stack never holds more than the
entries pushed minus the exits matched. -/
theorem C13_stack_balance (M : FEngineMath ℝ) (es : List (FResolution ℝ))
    (c : URealisticProjectileComponent ℝ) (s : FStackCount ℝ)
    (hempty : c.ObjectsPenetrated = []) (h : ResolveAll M es ⟨c, 0, 0⟩ = some s) :
    s.Component.ObjectsPenetrated.length + s.Matched ≤ s.Pushed
    ∧ s.Component.ObjectsPenetrated.length ≤ s.Pushed - s.Matched := by
  have hb := ResolveAll_balance M es ⟨c, 0, 0⟩ s (by simp [hempty]) h
  exact ⟨hb, by omega⟩

/-- Witness for C13: Scenario A enters actor 1, then actor 2, then leaves actor 1: two entries
pushed, one exit matched, one entry left on the stack. -/
theorem C13_witness :
    ∃ s, ResolveAll ⟨Real.sqrt, Real.arccos, fun _ => ⟨0, 0, 0⟩, fun _ v => v⟩
          [⟨true, HitAt ⟨100, 0, 0⟩ 1, 0, 1 / 10, ⟨0, 0, 0⟩, ⟨0, 0, 0⟩⟩,
            ⟨true, HitAt ⟨101, 0, 0⟩ 2, 0, 1 / 10, ⟨0, 0, 0⟩, ⟨0, 0, 0⟩⟩,
            ⟨false, HitAt ⟨102, 0, 0⟩ 1, 0, 1 / 10, ⟨0, 0, 0⟩, ⟨0, 0, 0⟩⟩]
          ⟨ScenarioA Real.sqrt, 0, 0⟩ = some s
      ∧ s.Pushed = 2 ∧ s.Matched = 1
      ∧ s.Component.ObjectsPenetrated.length + s.Matched ≤ s.Pushed
      ∧ s.Component.ObjectsPenetrated.length ≤ s.Pushed - s.Matched := by
  obtain ⟨c1, h1⟩ := Resolve_some ⟨Real.sqrt, Real.arccos, fun _ => ⟨0, 0, 0⟩, fun _ v => v⟩
    (ScenarioA Real.sqrt) ⟨true, HitAt ⟨100, 0, 0⟩ 1, 0, 1 / 10, ⟨0, 0, 0⟩, ⟨0, 0, 0⟩⟩ _ rfl
  obtain ⟨c2, h2⟩ := Resolve_some ⟨Real.sqrt, Real.arccos, fun _ => ⟨0, 0, 0⟩, fun _ v => v⟩
    c1 ⟨true, HitAt ⟨101, 0, 0⟩ 2, 0, 1 / 10, ⟨0, 0, 0⟩, ⟨0, 0, 0⟩⟩ _ rfl
  obtain ⟨c3, h3⟩ := Resolve_some ⟨Real.sqrt, Real.arccos, fun _ => ⟨0, 0, 0⟩, fun _ v => v⟩
    c2 ⟨false, HitAt ⟨102, 0, 0⟩ 1, 0, 1 / 10, ⟨0, 0, 0⟩, ⟨0, 0, 0⟩⟩ _ rfl
  have s1 := Resolve_stack _ _ _ _ h1
  have s2 := Resolve_stack _ _ _ _ h2
  have s0 : (ScenarioA Real.sqrt).ObjectsPenetrated = [] := rfl
  rw [s0] at s1
  rw [s1] at s2
  simp only [if_true, List.nil_append, List.cons_append] at s2
  have hm : ExitMatches c2 (HitAt ⟨102, 0, 0⟩ 1 : FHitResult ℝ) = true := by
    unfold ExitMatches
    rw [s2]
    simp [HitAt]
  have h : ResolveAll ⟨Real.sqrt, Real.arccos, fun _ => ⟨0, 0, 0⟩, fun _ v => v⟩
      [⟨true, HitAt ⟨100, 0, 0⟩ 1, 0, 1 / 10, ⟨0, 0, 0⟩, ⟨0, 0, 0⟩⟩,
        ⟨true, HitAt ⟨101, 0, 0⟩ 2, 0, 1 / 10, ⟨0, 0, 0⟩, ⟨0, 0, 0⟩⟩,
        ⟨false, HitAt ⟨102, 0, 0⟩ 1, 0, 1 / 10, ⟨0, 0, 0⟩, ⟨0, 0, 0⟩⟩]
      ⟨ScenarioA Real.sqrt, 0, 0⟩ = some ⟨c3, 2, 1⟩ := by
    rw [ResolveAll_cons _ _ _ _ c1 h1, ResolveAll_cons _ _ _ _ c2 h2,
      ResolveAll_cons _ _ _ _ c3 h3]
    simp only [hm]
    rfl
  obtain ⟨b1, b2⟩ := C13_stack_balance _ _ (ScenarioA Real.sqrt) _ rfl h
  exact ⟨_, h, rfl, rfl, b1, b2⟩

/-- C14: exit resolution and Scenario C. The stack after `ResolveExit` holds exactly the
entries whose actor is not the exit hit's, unchanged and in their order (it is the stack
filtered by that test, a sublist of the stack). And when the component is the result of a
penetration entry from free medium (empty stack) and the exit hit has the entry hit's actor,
the stack after the exit is empty, `CurrentPenetrationDeceleration` is 1 and the new active
record has `PenDeceleration = 1 > 0`, the free-medium value. -/
theorem C14_exit_removes_matching_entries (M : FEngineMath ℝ)
    (c : URealisticProjectileComponent ℝ) (TRT L : ℝ) (r rr : FRotator ℝ)
    (Hit HitToDealWith : FHitResult ℝ) :
    (∀ h, h ∈ (ResolveExit M c TRT L r rr Hit HitToDealWith).1.ObjectsPenetrated
        ↔ h ∈ c.ObjectsPenetrated ∧ ¬ (HitToDealWith.Actor = h.Actor))
    ∧ (ResolveExit M c TRT L r rr Hit HitToDealWith).1.ObjectsPenetrated
        = c.ObjectsPenetrated.filter (fun h => ¬ (HitToDealWith.Actor = h.Actor))
    ∧ (ResolveExit M c TRT L r rr Hit HitToDealWith).1.ObjectsPenetrated.Sublist
        c.ObjectsPenetrated
    ∧ (∀ (c0 : URealisticProjectileComponent ℝ) (TRT0 L0 T0 : ℝ) (r0 rr0 : FRotator ℝ)
        (Entry : FHitResult ℝ), c0.ObjectsPenetrated = [] →
        ResolvePenetrate M c0 TRT0 L0 r0 rr0 Entry = some (c, T0) →
        HitToDealWith.Actor = Entry.Actor →
        (ResolveExit M c TRT L r rr Hit HitToDealWith).1.ObjectsPenetrated = []
        ∧ (ResolveExit M c TRT L r rr Hit HitToDealWith).1.CurrentPenetrationDeceleration = 1
        ∧ (ResolveExit M c TRT L r rr Hit HitToDealWith).1.InitialConditions.PenDeceleration
            = 1
        ∧ 0 < (ResolveExit M c TRT L r rr Hit
            HitToDealWith).1.InitialConditions.PenDeceleration) := by
  obtain ⟨hs, hd, hp, -, -⟩ := ResolveExit_regime M c TRT L r rr Hit HitToDealWith
  refine ⟨?_, hs, ?_, ?_⟩
  · intro h
    rw [hs, List.mem_filter]
    simp
  · rw [hs]
    exact List.filter_sublist _
  · intro c0 TRT0 L0 T0 r0 rr0 Entry hempty hentry hactor
    obtain ⟨-, hstack, -, -, -⟩ := ResolvePenetrate_regime M c0 c TRT0 L0 T0 r0 rr0 Entry hentry
    have hf : c.ObjectsPenetrated.filter (fun h => ¬ (HitToDealWith.Actor = h.Actor)) = [] := by
      rw [hstack, hempty]
      simp [hactor]
    rw [hf] at hs hd hp
    rw [hs, hd, hp]
    simp

/-- Witness for C14 (Scenario C): Scenario A enters actor 1 at `(100, 0, 0)` and leaves it at
`(105, 0, 0)`; the entry returns, and after the exit the stack is empty and the deceleration
is 1. -/
theorem C14_witness :
    ∃ c T,
      ResolvePenetrate ⟨Real.sqrt, Real.arccos, fun _ => ⟨0, 0, 0⟩, fun _ v => v⟩
          (ScenarioA Real.sqrt) 0 (1 / 10) ⟨0, 0, 0⟩ ⟨0, 0, 0⟩ (HitAt ⟨100, 0, 0⟩ 1)
        = some (c, T)
      ∧ (ResolveExit ⟨Real.sqrt, Real.arccos, fun _ => ⟨0, 0, 0⟩, fun _ v => v⟩ c T (1 / 10)
          ⟨0, 0, 0⟩ ⟨0, 0, 0⟩ (FHitResult.Init 1) (HitAt ⟨105, 0, 0⟩ 1)).1.ObjectsPenetrated = []
      ∧ (ResolveExit ⟨Real.sqrt, Real.arccos, fun _ => ⟨0, 0, 0⟩, fun _ v => v⟩ c T (1 / 10)
          ⟨0, 0, 0⟩ ⟨0, 0, 0⟩ (FHitResult.Init 1)
          (HitAt ⟨105, 0, 0⟩ 1)).1.CurrentPenetrationDeceleration = 1 := by
  obtain ⟨c, T, h⟩ := ResolvePenetrate_some
    ⟨Real.sqrt, Real.arccos, fun _ => ⟨0, 0, 0⟩, fun _ v => v⟩ (ScenarioA Real.sqrt) 0 (1 / 10)
    ⟨0, 0, 0⟩ ⟨0, 0, 0⟩ (HitAt ⟨100, 0, 0⟩ 1) "DefaultPhysicalMaterial" rfl
  obtain ⟨h1, h2, -, -⟩ := (C14_exit_removes_matching_entries
    ⟨Real.sqrt, Real.arccos, fun _ => ⟨0, 0, 0⟩, fun _ v => v⟩ c T (1 / 10) ⟨0, 0, 0⟩ ⟨0, 0, 0⟩
    (FHitResult.Init 1) (HitAt ⟨105, 0, 0⟩ 1)).2.2.2 (ScenarioA Real.sqrt) 0 (1 / 10) T
    ⟨0, 0, 0⟩ ⟨0, 0, 0⟩ (HitAt ⟨100, 0, 0⟩ 1) rfl h rfl
  exact ⟨c, T, h, h1, h2⟩

/-- C15: embed threshold. For a component with a valid updated body and a current deceleration
`≤ 0`, with `d` the distance between the hit's location and the active record's
`PenRestLocation` and `impactSpeed = 100 * sqrt(2 * |deceleration| * d / 100)`: if
`d > EmbedDepth`, `TryEmbed` broadcasts the embed event with that speed, disables collision,
keeps `Velocity` and does not hand the body to physics; if `d ≤ EmbedDepth`, it sets `Velocity`
to `Bounciness * mirror(impactSpeed * v0direction)` about the impact normal, hands the body to
physics with that velocity, broadcasts the bounce event and leaves collision as it was. -/
theorem C15_embed_threshold (M : FEngineMath ℝ) (c : URealisticProjectileComponent ℝ)
    (LastHit : FHitResult ℝ) (RestLocation : FVector ℝ)
    (hvalid : c.UpdatedComponentIsNull = false)
    (hdec : c.CurrentPenetrationDeceleration ≤ 0) :
    (FVector.Size M.sqrt (LastHit.Location - c.InitialConditions.PenRestLocation)
        > c.EmbedDepth →
      (TryEmbed M c LastHit RestLocation).Events
          = c.Events ++ [FProjectileEvent.OnProjectileEmbed LastHit
              (100 * M.sqrt (2 * |c.CurrentPenetrationDeceleration|
                * FVector.Size M.sqrt (LastHit.Location - c.InitialConditions.PenRestLocation)
                / 100)),
            FProjectileEvent.ApplyImpulse LastHit c.Velocity]
      ∧ (TryEmbed M c LastHit RestLocation).Body.bCollisionEnabled = false
      ∧ (TryEmbed M c LastHit RestLocation).Velocity = c.Velocity
      ∧ (TryEmbed M c LastHit RestLocation).Body.bSimulatePhysics = c.Body.bSimulatePhysics)
    ∧ (FVector.Size M.sqrt (LastHit.Location - c.InitialConditions.PenRestLocation)
        ≤ c.EmbedDepth →
      (TryEmbed M c LastHit RestLocation).Velocity
          = c.Bounciness • FVector.MirrorByVector
              ((100 * M.sqrt (2 * |c.CurrentPenetrationDeceleration|
                * FVector.Size M.sqrt (LastHit.Location - c.InitialConditions.PenRestLocation)
                / 100)) • c.InitialConditions.v0direction) LastHit.ImpactNormal
      ∧ (TryEmbed M c LastHit RestLocation).Body.bSimulatePhysics = true
      ∧ (TryEmbed M c LastHit RestLocation).Body.PhysicsLinearVelocity
          = (TryEmbed M c LastHit RestLocation).Velocity
      ∧ (TryEmbed M c LastHit RestLocation).Body.bCollisionEnabled = c.Body.bCollisionEnabled
      ∧ (TryEmbed M c LastHit RestLocation).Events
          = c.Events ++ [FProjectileEvent.ApplyImpulse LastHit
              (max (1 - c.Bounciness) 1 • (TryEmbed M c LastHit RestLocation).Velocity),
            FProjectileEvent.OnProjectileBounce LastHit
              (TryEmbed M c LastHit RestLocation).Velocity]) := by
  have harg : ∀ d : ℝ, -0.02 * c.CurrentPenetrationDeceleration * d
      = 2 * |c.CurrentPenetrationDeceleration| * d / 100 := by
    intro d
    rw [abs_of_nonpos hdec]
    ring
  unfold TryEmbed
  simp only []
  rw [harg]
  generalize FVector.Size M.sqrt (LastHit.Location - c.InitialConditions.PenRestLocation) = d
  generalize 100 * M.sqrt (2 * |c.CurrentPenetrationDeceleration| * d / 100) = S
  constructor
  · intro hd
    rw [if_pos hd]
    refine ⟨?_, ?_, ?_, ?_⟩
    · simp only [Broadcast_Events, EmbedBody_Events, Broadcast_Velocity, EmbedBody_Velocity,
        List.append_assoc, List.singleton_append]
    · simp [hvalid]
    · simp only [Broadcast_Velocity, EmbedBody_Velocity]
    · simp [hvalid]
  · intro hd
    rw [if_neg (not_lt.mpr hd)]
    refine ⟨?_, ?_, ?_, ?_, ?_⟩
    · simp only [Broadcast_Velocity, ReleaseToPhysics_Velocity, ActorMove_Velocity,
        SetVelocity_Velocity, SetVelocity_Bounciness]
    · simp
    · simp
    · simp [hvalid]
      split_ifs <;> rfl
    · simp only [Broadcast_Events, ReleaseToPhysics_Events, ActorMove_Events,
        SetVelocity_Events, Broadcast_Velocity, ReleaseToPhysics_Velocity, ActorMove_Velocity,
        SetVelocity_Velocity, SetVelocity_Bounciness, List.append_assoc,
        List.singleton_append]

/-- Witness for C15: a projectile inside a solid (entry at 50000 units/s, deceleration
`-5000000`) with the default embed depth `-1` embeds at any distance: collision is disabled and
`Velocity` is kept. -/
theorem C15_witness :
    (TryEmbed ⟨Real.sqrt, Real.arccos, fun _ => ⟨0, 0, 0⟩, fun _ v => v⟩
        (InsideSolid Real.sqrt ⟨50000, 0, 0⟩ ⟨0, 0, 0⟩ 0 (-5000000) (HitAt ⟨0, 0, 0⟩ 1))
        (HitAt ⟨0, 0, 0⟩ 1) ⟨0, 0, 0⟩).Body.bCollisionEnabled = false
    ∧ (TryEmbed ⟨Real.sqrt, Real.arccos, fun _ => ⟨0, 0, 0⟩, fun _ v => v⟩
        (InsideSolid Real.sqrt ⟨50000, 0, 0⟩ ⟨0, 0, 0⟩ 0 (-5000000) (HitAt ⟨0, 0, 0⟩ 1))
        (HitAt ⟨0, 0, 0⟩ 1) ⟨0, 0, 0⟩).Velocity = ⟨50000, 0, 0⟩ := by
  have hdepth : (InsideSolid Real.sqrt ⟨50000, 0, 0⟩ ⟨0, 0, 0⟩ 0 (-5000000)
      (HitAt ⟨0, 0, 0⟩ 1)).EmbedDepth = -1 := rfl
  have hdec : (InsideSolid Real.sqrt ⟨50000, 0, 0⟩ ⟨0, 0, 0⟩ 0 (-5000000)
      (HitAt ⟨0, 0, 0⟩ 1)).CurrentPenetrationDeceleration = -5000000 := rfl
  have h := (C15_embed_threshold ⟨Real.sqrt, Real.arccos, fun _ => ⟨0, 0, 0⟩, fun _ v => v⟩
    (InsideSolid Real.sqrt ⟨50000, 0, 0⟩ ⟨0, 0, 0⟩ 0 (-5000000) (HitAt ⟨0, 0, 0⟩ 1))
    (HitAt ⟨0, 0, 0⟩ 1) ⟨0, 0, 0⟩ rfl (by rw [hdec]; norm_num)).1
    (by
      rw [hdepth]
      exact lt_of_lt_of_le (by norm_num) (Real.sqrt_nonneg _))
  exact ⟨h.2.1, h.2.2.1⟩

end URealisticProjectileComponent

/-! ## Reference velocity, records of a tick, rest, flight times and the loop bound -/

namespace URealisticProjectileComponent

/-- C21: `ComputeVelocity` and the reference velocity. With an empty stack it returns
`(v0 + k*dt*(2 + k*dt)*Vinf) / (1 + k*dt)^2`. With a non-empty stack, a record whose direction
and length are those of its velocity (as the constructor derives them), a launch speed above
`SMALL_NUMBER`, no speed clamp (`MaxSpeed` not positive) and no plane constraint, it returns
`v0direction` scaled by `max(0, 100*a*dt + v0length)`, with `a` the current deceleration. -/
theorem C21_ComputeVelocity_reference_velocity (c : URealisticProjectileComponent ℝ) (dt : ℝ) :
    (c.ObjectsPenetrated = [] →
      ComputeVelocity Real.sqrt c dt
        = (c.InitialConditions.InitialVelocity + (c.k * dt * (2 + c.k * dt)) • c.Vinf)
          / ((1 + c.k * dt) ^ 2))
    ∧ (c.ObjectsPenetrated ≠ [] →
      c.InitialConditions.v0direction
        = (FVector.ToDirectionAndLength Real.sqrt c.InitialConditions.InitialVelocity).1 →
      c.InitialConditions.v0length
        = (FVector.ToDirectionAndLength Real.sqrt c.InitialConditions.InitialVelocity).2 →
      FVector.SMALL_NUMBER < FVector.Size Real.sqrt c.InitialConditions.InitialVelocity →
      ¬ c.MaxSpeed > 0 → c.bConstrainToPlane = false →
      ComputeVelocity Real.sqrt c dt
        = (max 0 (100 * c.CurrentPenetrationDeceleration * dt + c.InitialConditions.v0length))
          • c.InitialConditions.v0direction) := by
  constructor
  · intro hair
    unfold ComputeVelocity
    simp only [hair, List.length_nil, lt_self_iff_false, if_false, gt_iff_lt]
    rw [sq]
  · intro hstack hdir hlen hsmall hmax hplane
    have hpos : 0 < c.ObjectsPenetrated.length := List.length_pos.mpr hstack
    have hS : 0 < FVector.Size Real.sqrt c.InitialConditions.InitialVelocity :=
      lt_trans (by unfold FVector.SMALL_NUMBER; norm_num) hsmall
    have hlen' : c.InitialConditions.v0length
        = FVector.Size Real.sqrt c.InitialConditions.InitialVelocity := by
      rw [hlen]
      unfold FVector.ToDirectionAndLength
      simp only []
      split_ifs <;> rfl
    have hdir' : c.InitialConditions.v0direction
        = ⟨c.InitialConditions.InitialVelocity.X
              * (1 / FVector.Size Real.sqrt c.InitialConditions.InitialVelocity),
            c.InitialConditions.InitialVelocity.Y
              * (1 / FVector.Size Real.sqrt c.InitialConditions.InitialVelocity),
            c.InitialConditions.InitialVelocity.Z
              * (1 / FVector.Size Real.sqrt c.InitialConditions.InitialVelocity)⟩ := by
      rw [hdir]
      unfold FVector.ToDirectionAndLength
      simp only []
      rw [if_pos hsmall]
    unfold ComputeVelocity LimitVelocity ConstrainDirectionToPlane GetMaxSpeed
    simp only [hpos, gt_iff_lt, if_true, hplane, Bool.false_eq_true, if_false]
    rw [if_neg hmax, hdir', hlen']
    generalize FVector.Size Real.sqrt c.InitialConditions.InitialVelocity = S at hS
    have hS0 : S ≠ 0 := ne_of_gt hS
    have hmaxeq : max 0 (100 * c.CurrentPenetrationDeceleration * dt + S)
        = 100 * (if c.CurrentPenetrationDeceleration * dt + S / 100 < 0 then 0
            else c.CurrentPenetrationDeceleration * dt + S / 100) := by
      split_ifs with hneg
      · rw [max_eq_left (by linarith)]
        ring
      · rw [max_eq_right (by linarith)]
        ring
    rw [hmaxeq]
    ext
    · simp only [FVector.smul_X]
      field_simp
    · simp only [FVector.smul_Y]
      field_simp
    · simp only [FVector.smul_Z]
      field_simp

/-- C21 at a concrete input: inside a solid entered at 50000 units/s with deceleration
`-5000000`, the velocity after `1/12500` s is `(10000, 0, 0)`, the unit direction scaled by
`max(0, 100 * (-5000000) / 12500 + 50000)`. -/
theorem C21_witness :
    ComputeVelocity Real.sqrt
        (InsideSolid Real.sqrt ⟨50000, 0, 0⟩ ⟨0, 0, 0⟩ 0 (-5000000) (FHitResult.Init 1))
        (1 / 12500)
      = ⟨10000, 0, 0⟩ := by
  have hI := Init_axis_X 50000 (by norm_num) ⟨0, 0, 0⟩ 0 FRotator.ZeroRotator (-5000000)
  have hIC : (InsideSolid Real.sqrt ⟨50000, 0, 0⟩ ⟨0, 0, 0⟩ 0 (-5000000)
      (FHitResult.Init 1)).InitialConditions
      = FTrajectoryInitialConditions.Init Real.sqrt ⟨50000, 0, 0⟩ ⟨0, 0, 0⟩ 0
          FRotator.ZeroRotator (-5000000) := rfl
  have hS : FVector.Size Real.sqrt (⟨50000, 0, 0⟩ : FVector ℝ) = 50000 :=
    Size_axis_X 50000 (by norm_num)
  have hTD : FVector.ToDirectionAndLength Real.sqrt (⟨50000, 0, 0⟩ : FVector ℝ)
      = (⟨1, 0, 0⟩, 50000) := by
    unfold FVector.ToDirectionAndLength
    simp only [hS]
    rw [if_pos (by unfold FVector.SMALL_NUMBER; norm_num)]
    norm_num
  have h := (C21_ComputeVelocity_reference_velocity
    (InsideSolid Real.sqrt ⟨50000, 0, 0⟩ ⟨0, 0, 0⟩ 0 (-5000000) (FHitResult.Init 1))
    (1 / 12500)).2 (by simp [InsideSolid])
    (by rw [hIC, hI]; simp only []; rw [hTD])
    (by rw [hIC, hI]; simp only []; rw [hTD])
    (by
      rw [hIC, hI]
      simp only []
      rw [hS]
      unfold FVector.SMALL_NUMBER
      norm_num)
    (by
      show ¬ (0 : ℝ) < 0
      norm_num)
    rfl
  rw [h, hIC, hI]
  have hc : (InsideSolid Real.sqrt ⟨50000, 0, 0⟩ ⟨0, 0, 0⟩ 0 (-5000000)
      (FHitResult.Init 1)).CurrentPenetrationDeceleration = -5000000 := rfl
  rw [hc]
  simp only []
  ext
  · simp only [FVector.smul_X]
    norm_num
  · simp only [FVector.smul_Y]
    norm_num
  · simp only [FVector.smul_Z]
    norm_num

/-- C21 fails as stated for a non-zero launch velocity whose length does not exceed
`SMALL_NUMBER`: inside a solid with `v0 = (1e-9, 0, 0)` (no clamp, no plane constraint) the
constructor stores the zero vector as `v0direction`, so the reference velocity is zero, while
`ComputeVelocity` at elapsed time 0 returns `v0`. -/
theorem C21_counterexample :
    (InsideSolid Real.sqrt ⟨1 / 1000000000, 0, 0⟩ ⟨0, 0, 0⟩ 0 (-5000000)
        (FHitResult.Init 1)).ObjectsPenetrated ≠ []
    ∧ (InsideSolid Real.sqrt ⟨1 / 1000000000, 0, 0⟩ ⟨0, 0, 0⟩ 0 (-5000000)
        (FHitResult.Init 1)).InitialConditions.InitialVelocity ≠ FVector.ZeroVector
    ∧ (InsideSolid Real.sqrt ⟨1 / 1000000000, 0, 0⟩ ⟨0, 0, 0⟩ 0 (-5000000)
        (FHitResult.Init 1)).MaxSpeed = 0
    ∧ (InsideSolid Real.sqrt ⟨1 / 1000000000, 0, 0⟩ ⟨0, 0, 0⟩ 0 (-5000000)
        (FHitResult.Init 1)).bConstrainToPlane = false
    ∧ ComputeVelocity Real.sqrt
        (InsideSolid Real.sqrt ⟨1 / 1000000000, 0, 0⟩ ⟨0, 0, 0⟩ 0 (-5000000)
          (FHitResult.Init 1)) 0
      = ⟨1 / 1000000000, 0, 0⟩
    ∧ (max 0 (100 * (InsideSolid Real.sqrt ⟨1 / 1000000000, 0, 0⟩ ⟨0, 0, 0⟩ 0 (-5000000)
          (FHitResult.Init 1)).CurrentPenetrationDeceleration * 0
        + (InsideSolid Real.sqrt ⟨1 / 1000000000, 0, 0⟩ ⟨0, 0, 0⟩ 0 (-5000000)
          (FHitResult.Init 1)).InitialConditions.v0length))
      • (InsideSolid Real.sqrt ⟨1 / 1000000000, 0, 0⟩ ⟨0, 0, 0⟩ 0 (-5000000)
          (FHitResult.Init 1)).InitialConditions.v0direction
      = ⟨0, 0, 0⟩ := by
  have hS : FVector.Size Real.sqrt (⟨1 / 1000000000, 0, 0⟩ : FVector ℝ) = 1 / 1000000000 :=
    Size_axis_X _ (by norm_num)
  have hTD : FVector.ToDirectionAndLength Real.sqrt (⟨1 / 1000000000, 0, 0⟩ : FVector ℝ)
      = (FVector.ZeroVector, 1 / 1000000000) := by
    unfold FVector.ToDirectionAndLength
    simp only [hS]
    rw [if_neg (by unfold FVector.SMALL_NUMBER; norm_num)]
  have hdir : (InsideSolid Real.sqrt ⟨1 / 1000000000, 0, 0⟩ ⟨0, 0, 0⟩ 0 (-5000000)
      (FHitResult.Init 1)).InitialConditions.v0direction = FVector.ZeroVector := by
    show (FVector.ToDirectionAndLength Real.sqrt (⟨1 / 1000000000, 0, 0⟩ : FVector ℝ)).1 = _
    rw [hTD]
  have hlen : (InsideSolid Real.sqrt ⟨1 / 1000000000, 0, 0⟩ ⟨0, 0, 0⟩ 0 (-5000000)
      (FHitResult.Init 1)).InitialConditions.v0length = 1 / 1000000000 := by
    show (FVector.ToDirectionAndLength Real.sqrt (⟨1 / 1000000000, 0, 0⟩ : FVector ℝ)).2 = _
    rw [hTD]
  refine ⟨by simp [InsideSolid], ?_, rfl, rfl, ?_, ?_⟩
  · show (⟨1 / 1000000000, 0, 0⟩ : FVector ℝ) ≠ FVector.ZeroVector
    intro h
    have := congrArg FVector.X h
    simp [FVector.ZeroVector] at this
  · have hpos : 0 < (InsideSolid Real.sqrt ⟨1 / 1000000000, 0, 0⟩ ⟨0, 0, 0⟩ 0 (-5000000)
        (FHitResult.Init 1)).ObjectsPenetrated.length := by simp [InsideSolid]
    have hmax : (InsideSolid Real.sqrt ⟨1 / 1000000000, 0, 0⟩ ⟨0, 0, 0⟩ 0 (-5000000)
        (FHitResult.Init 1)).MaxSpeed = 0 := rfl
    have hplane : (InsideSolid Real.sqrt ⟨1 / 1000000000, 0, 0⟩ ⟨0, 0, 0⟩ 0 (-5000000)
        (FHitResult.Init 1)).bConstrainToPlane = false := rfl
    have hv : (InsideSolid Real.sqrt ⟨1 / 1000000000, 0, 0⟩ ⟨0, 0, 0⟩ 0 (-5000000)
        (FHitResult.Init 1)).InitialConditions.InitialVelocity = ⟨1 / 1000000000, 0, 0⟩ := rfl
    unfold ComputeVelocity LimitVelocity ConstrainDirectionToPlane GetMaxSpeed
    simp only [hpos, gt_iff_lt, if_true, hplane, Bool.false_eq_true, if_false, hmax,
      lt_self_iff_false, hlen, hv, mul_zero, zero_add]
    ext
    · simp only [FVector.smul_X]
      norm_num
    · simp only [FVector.smul_Y]
      norm_num
    · simp only [FVector.smul_Z]
      norm_num
  · rw [hdir]
    ext <;> simp [FVector.ZeroVector, FVector.smul_X, FVector.smul_Y, FVector.smul_Z]

/-- C22: `GetNewPenetrationDeceleration`. With an empty stack it returns 1, whatever the hit.
With a non-empty stack and a hit that carries a physical material it returns
`-1000 * toughness / PenetrationModifier`, where the toughness is the material's table value
when the table has a row for it and the default 5000 when there is no table or no row; so an
unknown material with modifier 1 gives `-5000000`. (With a non-empty stack and a hit without a
physical material the function does not return: the material pointer is dereferenced
unchecked.) -/
theorem C22_GetNewPenetrationDeceleration_values (c : URealisticProjectileComponent ℝ)
    (Hit : FHitResult ℝ) :
    (c.ObjectsPenetrated = [] → GetNewPenetrationDeceleration c Hit = some 1)
    ∧ (c.ObjectsPenetrated ≠ [] → ∀ hitmaterial, Hit.PhysMaterial = some hitmaterial →
        (∀ Table LookupRow, c.MaterialPropertiesTable = some Table →
          Table hitmaterial = some LookupRow →
          GetNewPenetrationDeceleration c Hit
            = some (-1000 * LookupRow.Toughness / c.PenetrationModifier))
        ∧ ((c.MaterialPropertiesTable = none
              ∨ ∃ Table, c.MaterialPropertiesTable = some Table ∧ Table hitmaterial = none) →
            GetNewPenetrationDeceleration c Hit = some (-1000 * 5000 / c.PenetrationModifier)
            ∧ (c.PenetrationModifier = 1 →
              GetNewPenetrationDeceleration c Hit = some (-5000000))))
    ∧ (c.ObjectsPenetrated ≠ [] → Hit.PhysMaterial = none →
        GetNewPenetrationDeceleration c Hit = none) := by
  refine ⟨?_, ?_, ?_⟩
  · intro hair
    unfold GetNewPenetrationDeceleration
    rw [if_pos (by rw [hair]; rfl)]
  · intro hstack m hm
    have hlen : ¬ c.ObjectsPenetrated.length = 0 := by
      rw [List.length_eq_zero]
      exact hstack
    refine ⟨?_, ?_⟩
    · intro Table Row hT hR
      unfold GetNewPenetrationDeceleration
      rw [if_neg hlen]
      simp only [hm, hT, hR, Option.some.injEq]
      ring
    · intro hno
      have hdef : GetNewPenetrationDeceleration c Hit
          = some (-1000 * 5000 / c.PenetrationModifier) := by
        unfold GetNewPenetrationDeceleration
        rw [if_neg hlen]
        rcases hno with hT | ⟨Table, hT, hR⟩
        · simp only [hm, hT, Option.some.injEq]
          unfold DEFAULT_TOUGHNESS
          ring
        · simp only [hm, hT, hR, Option.some.injEq]
          unfold DEFAULT_TOUGHNESS
          ring
      refine ⟨hdef, ?_⟩
      intro hPM
      rw [hdef, hPM]
      norm_num
  · intro hstack hm
    have hlen : ¬ c.ObjectsPenetrated.length = 0 := by
      rw [List.length_eq_zero]
      exact hstack
    unfold GetNewPenetrationDeceleration
    rw [if_neg hlen]
    simp only [hm]

/-- C22 at a concrete input (Scenario B): a projectile inside actor 1, without material table
and with the default modifier 1, that strikes a material without table row gets `-5000000`;
the launched projectile with the empty stack gets 1. -/
theorem C22_witness :
    GetNewPenetrationDeceleration
        (InsideSolid Real.sqrt ⟨50000, 0, 0⟩ ⟨0, 0, 0⟩ 0 (-5000000) (HitAt ⟨0, 0, 0⟩ 1))
        (HitAt ⟨10, 0, 0⟩ 2) = some (-5000000)
    ∧ GetNewPenetrationDeceleration (ScenarioA Real.sqrt) (HitAt ⟨10, 0, 0⟩ 2) = some 1 := by
  have h := ((C22_GetNewPenetrationDeceleration_values
    (InsideSolid Real.sqrt ⟨50000, 0, 0⟩ ⟨0, 0, 0⟩ 0 (-5000000) (HitAt ⟨0, 0, 0⟩ 1))
    (HitAt ⟨10, 0, 0⟩ 2)).2.1 (by simp [InsideSolid]) "DefaultPhysicalMaterial" rfl).2
    (Or.inl rfl)
  exact ⟨h.2 rfl,
    (C22_GetNewPenetrationDeceleration_values (ScenarioA Real.sqrt) (HitAt ⟨10, 0, 0⟩ 2)).1 rfl⟩

/-- A bounce appends the record it makes active to the history, keeps `TrajectoryNumber`, and
the new record starts at the old `t0` plus the flight time to the hit. -/
theorem ResolveBounce_history (M : FEngineMath ℝ) (c : URealisticProjectileComponent ℝ)
    (TRT L : ℝ) (r rr : FRotator ℝ) (Hit : FHitResult ℝ) :
    (ResolveBounce M c TRT L r rr Hit).1.InitialConditionHistory
        = c.InitialConditionHistory ++ [(ResolveBounce M c TRT L r rr Hit).1.InitialConditions]
    ∧ (ResolveBounce M c TRT L r rr Hit).1.TrajectoryNumber = c.TrajectoryNumber
    ∧ (ResolveBounce M c TRT L r rr Hit).1.InitialConditions.t0
        = c.InitialConditions.t0 + ComputeTimeOfFlight M.sqrt c Hit.Location := by
  have hF : ComputeTimeOfFlight M.sqrt (ActorMove c (Hit.Location + Hit.ImpactNormal) r)
      Hit.Location = ComputeTimeOfFlight M.sqrt c Hit.Location :=
    ComputeTimeOfFlight_congr M.sqrt c (ActorMove c (Hit.Location + Hit.ImpactNormal) r)
      rfl rfl rfl rfl rfl rfl Hit.Location
  unfold ResolveBounce
  simp only [hF]
  generalize ComputeTimeOfFlight M.sqrt c Hit.Location = F
  generalize ComputeVelocity M.sqrt (ActorMove c (Hit.Location + Hit.ImpactNormal) r) F = V
  refine ⟨?_, ?_, ?_⟩
  · split_ifs <;>
      simp only [StopSimulating_InitialConditionHistory, StopSimulating_InitialConditions,
        SetInitialConditions_InitialConditionHistory, SetInitialConditions_InitialConditions,
        SetRandStream_InitialConditionHistory, SetVelocity_InitialConditionHistory,
        Broadcast_InitialConditionHistory, ActorMove_InitialConditionHistory]
  · split_ifs <;>
      simp only [StopSimulating_TrajectoryNumber, SetInitialConditions_TrajectoryNumber,
        SetRandStream_TrajectoryNumber, SetVelocity_TrajectoryNumber,
        Broadcast_TrajectoryNumber, ActorMove_TrajectoryNumber]
  · split_ifs <;>
      simp only [StopSimulating_InitialConditions, SetInitialConditions_InitialConditions,
        SetRandStream_InitialConditions, SetVelocity_InitialConditions,
        Broadcast_InitialConditions, ActorMove_InitialConditions] <;>
      rfl

/-- The reset after the last exit keeps `TrajectoryNumber`. -/
theorem ResetAfterLastExit_TrajectoryNumber (M : FEngineMath ℝ)
    (c : URealisticProjectileComponent ℝ) (Hit : FHitResult ℝ) :
    (ResetAfterLastExit M c Hit).TrajectoryNumber = c.TrajectoryNumber := by
  unfold ResetAfterLastExit
  split_ifs <;>
    simp only [SetCurrentPenetrationDeceleration_TrajectoryNumber,
      SetRandStream_TrajectoryNumber, SetVelocity_TrajectoryNumber]

/-- An exit appends the record it makes active to the history, keeps `TrajectoryNumber`, and
the new record starts at the old `t0` plus the flight time to the hit. -/
theorem ResolveExit_history (M : FEngineMath ℝ) (c : URealisticProjectileComponent ℝ)
    (TRT L : ℝ) (r rr : FRotator ℝ) (Hit HitToDealWith : FHitResult ℝ) :
    (ResolveExit M c TRT L r rr Hit HitToDealWith).1.InitialConditionHistory
        = c.InitialConditionHistory
          ++ [(ResolveExit M c TRT L r rr Hit HitToDealWith).1.InitialConditions]
    ∧ (ResolveExit M c TRT L r rr Hit HitToDealWith).1.TrajectoryNumber = c.TrajectoryNumber
    ∧ (ResolveExit M c TRT L r rr Hit HitToDealWith).1.InitialConditions.t0
        = c.InitialConditions.t0 + ComputeTimeOfFlight M.sqrt c HitToDealWith.Location := by
  have hF : ComputeTimeOfFlight M.sqrt
      (ActorMove c (HitToDealWith.Location + HitToDealWith.ImpactNormal) r)
      HitToDealWith.Location = ComputeTimeOfFlight M.sqrt c HitToDealWith.Location :=
    ComputeTimeOfFlight_congr M.sqrt c
      (ActorMove c (HitToDealWith.Location + HitToDealWith.ImpactNormal) r)
      rfl rfl rfl rfl rfl rfl HitToDealWith.Location
  unfold ResolveExit
  simp only [hF]
  generalize ComputeTimeOfFlight M.sqrt c HitToDealWith.Location = F
  generalize ComputeVelocity M.sqrt
    (ActorMove c (HitToDealWith.Location + HitToDealWith.ImpactNormal) r) F = V
  obtain ⟨-, -, h3, h4, -, -⟩ := ResetAfterLastExit_regime M
    (SetObjectsPenetrated (Broadcast (Broadcast (SetVelocity
        (ActorMove c (HitToDealWith.Location + HitToDealWith.ImpactNormal) r) V)
        (FProjectileEvent.OnProjectileAnyHit HitToDealWith V))
        (FProjectileEvent.OnPenetrationExit HitToDealWith V))
      (RemoveMatchingEntries HitToDealWith c.ObjectsPenetrated.length c.ObjectsPenetrated)) Hit
  have h5 : (ResetAfterLastExit M
      (SetObjectsPenetrated (Broadcast (Broadcast (SetVelocity
        (ActorMove c (HitToDealWith.Location + HitToDealWith.ImpactNormal) r) V)
        (FProjectileEvent.OnProjectileAnyHit HitToDealWith V))
        (FProjectileEvent.OnPenetrationExit HitToDealWith V))
      (RemoveMatchingEntries HitToDealWith c.ObjectsPenetrated.length c.ObjectsPenetrated))
      Hit).TrajectoryNumber = c.TrajectoryNumber := by
    rw [ResetAfterLastExit_TrajectoryNumber, SetObjectsPenetrated_TrajectoryNumber,
      Broadcast_TrajectoryNumber, Broadcast_TrajectoryNumber, SetVelocity_TrajectoryNumber,
      ActorMove_TrajectoryNumber]
  rw [SetObjectsPenetrated_InitialConditions, Broadcast_InitialConditions,
    Broadcast_InitialConditions, SetVelocity_InitialConditions,
    ActorMove_InitialConditions] at h3
  rw [SetObjectsPenetrated_InitialConditionHistory, Broadcast_InitialConditionHistory,
    Broadcast_InitialConditionHistory, SetVelocity_InitialConditionHistory,
    ActorMove_InitialConditionHistory] at h4
  simp only [SetVelocity_Velocity, Broadcast_Velocity, Broadcast_ObjectsPenetrated,
    SetVelocity_ObjectsPenetrated, ActorMove_ObjectsPenetrated]
  refine ⟨?_, ?_, ?_⟩
  · rw [SetInitialConditions_InitialConditionHistory, SetInitialConditions_InitialConditions,
      h4]
  · rw [SetInitialConditions_TrajectoryNumber, h5]
  · rw [SetInitialConditions_InitialConditions, h3]
    rfl

/-- A penetration entry from free medium appends the record it makes active to the history,
keeps `TrajectoryNumber`, and the new record starts at the old `t0` plus the flight time to the
hit. -/
theorem ResolvePenetrate_history (M : FEngineMath ℝ) (c c' : URealisticProjectileComponent ℝ)
    (TRT L T : ℝ) (r rr : FRotator ℝ) (Hit : FHitResult ℝ)
    (h : ResolvePenetrate M c TRT L r rr Hit = some (c', T)) :
    c'.InitialConditionHistory = c.InitialConditionHistory ++ [c'.InitialConditions]
    ∧ c'.TrajectoryNumber = c.TrajectoryNumber
    ∧ c'.InitialConditions.t0
        = c.InitialConditions.t0 + ComputeTimeOfFlight M.sqrt c Hit.Location := by
  have hF : ComputeTimeOfFlight M.sqrt (ActorMove c (Hit.Location - Hit.ImpactNormal) r)
      Hit.Location = ComputeTimeOfFlight M.sqrt c Hit.Location :=
    ComputeTimeOfFlight_congr M.sqrt c (ActorMove c (Hit.Location - Hit.ImpactNormal) r)
      rfl rfl rfl rfl rfl rfl Hit.Location
  unfold ResolvePenetrate at h
  simp only [hF] at h
  generalize ComputeTimeOfFlight M.sqrt c Hit.Location = F at h ⊢
  generalize ComputeVelocity M.sqrt (ActorMove c (Hit.Location - Hit.ImpactNormal) r) F = V at h
  split at h
  · exact absurd h (by simp)
  · rename_i d hd
    simp only [Option.some.injEq, Prod.mk.injEq] at h
    obtain ⟨hc, -⟩ := h
    subst hc
    refine ⟨?_, ?_, ?_⟩
    · rw [SetInitialConditions_InitialConditionHistory, SetInitialConditions_InitialConditions,
        SetCurrentPenetrationDeceleration_InitialConditionHistory,
        SetObjectsPenetrated_InitialConditionHistory, Broadcast_InitialConditionHistory,
        Broadcast_InitialConditionHistory, SetVelocity_InitialConditionHistory,
        ActorMove_InitialConditionHistory]
    · rw [SetInitialConditions_TrajectoryNumber,
        SetCurrentPenetrationDeceleration_TrajectoryNumber,
        SetObjectsPenetrated_TrajectoryNumber, Broadcast_TrajectoryNumber,
        Broadcast_TrajectoryNumber, SetVelocity_TrajectoryNumber, ActorMove_TrajectoryNumber]
    · rw [SetInitialConditions_InitialConditions,
        SetCurrentPenetrationDeceleration_InitialConditions,
        SetObjectsPenetrated_InitialConditions, Broadcast_InitialConditions,
        Broadcast_InitialConditions, SetVelocity_InitialConditions,
        ActorMove_InitialConditions]
      rfl

/-- An entry while penetrating appends the record it makes active to the history,
keeps `TrajectoryNumber`, and the new record starts at the old `t0` plus the flight time to the
hit. -/
theorem ResolveEntryWhilePenetrating_history (M : FEngineMath ℝ)
    (c c' : URealisticProjectileComponent ℝ) (TRT L T : ℝ) (r rr : FRotator ℝ)
    (Hit : FHitResult ℝ)
    (h : ResolveEntryWhilePenetrating M c TRT L r rr Hit = some (c', T)) :
    c'.InitialConditionHistory = c.InitialConditionHistory ++ [c'.InitialConditions]
    ∧ c'.TrajectoryNumber = c.TrajectoryNumber
    ∧ c'.InitialConditions.t0
        = c.InitialConditions.t0 + ComputeTimeOfFlight M.sqrt c Hit.Location := by
  have hF : ComputeTimeOfFlight M.sqrt (ActorMove c (Hit.Location - Hit.ImpactNormal) r)
      Hit.Location = ComputeTimeOfFlight M.sqrt c Hit.Location :=
    ComputeTimeOfFlight_congr M.sqrt c (ActorMove c (Hit.Location - Hit.ImpactNormal) r)
      rfl rfl rfl rfl rfl rfl Hit.Location
  unfold ResolveEntryWhilePenetrating at h
  simp only [hF] at h
  generalize ComputeTimeOfFlight M.sqrt c Hit.Location = F at h ⊢
  generalize ComputeVelocity M.sqrt (ActorMove c (Hit.Location - Hit.ImpactNormal) r) F = V at h
  split at h
  · exact absurd h (by simp)
  · rename_i d hd
    simp only [Option.some.injEq, Prod.mk.injEq] at h
    obtain ⟨hc, -⟩ := h
    subst hc
    refine ⟨?_, ?_, ?_⟩
    · rw [SetInitialConditions_InitialConditionHistory, SetInitialConditions_InitialConditions,
        SetCurrentPenetrationDeceleration_InitialConditionHistory,
        SetObjectsPenetrated_InitialConditionHistory, Broadcast_InitialConditionHistory,
        Broadcast_InitialConditionHistory, SetVelocity_InitialConditionHistory,
        ActorMove_InitialConditionHistory]
    · rw [SetInitialConditions_TrajectoryNumber,
        SetCurrentPenetrationDeceleration_TrajectoryNumber,
        SetObjectsPenetrated_TrajectoryNumber, Broadcast_TrajectoryNumber,
        Broadcast_TrajectoryNumber, SetVelocity_TrajectoryNumber, ActorMove_TrajectoryNumber]
    · rw [SetInitialConditions_InitialConditions,
        SetCurrentPenetrationDeceleration_InitialConditions,
        SetObjectsPenetrated_InitialConditions, Broadcast_InitialConditions,
        Broadcast_InitialConditions, SetVelocity_InitialConditions,
        ActorMove_InitialConditions]
      rfl

/-- `TryEmbed` keeps the active record, the history and `TrajectoryNumber`. -/
theorem TryEmbed_history (M : FEngineMath ℝ) (c : URealisticProjectileComponent ℝ)
    (LastHit : FHitResult ℝ) (RestLocation : FVector ℝ) :
    (TryEmbed M c LastHit RestLocation).InitialConditions = c.InitialConditions
    ∧ (TryEmbed M c LastHit RestLocation).InitialConditionHistory = c.InitialConditionHistory
    ∧ (TryEmbed M c LastHit RestLocation).TrajectoryNumber = c.TrajectoryNumber := by
  unfold TryEmbed
  simp only []
  refine ⟨?_, ?_, ?_⟩
  · split_ifs <;>
      simp only [Broadcast_InitialConditions, EmbedBody_InitialConditions,
        ReleaseToPhysics_InitialConditions, ActorMove_InitialConditions,
        SetVelocity_InitialConditions]
  · split_ifs <;>
      simp only [Broadcast_InitialConditionHistory, EmbedBody_InitialConditionHistory,
        ReleaseToPhysics_InitialConditionHistory, ActorMove_InitialConditionHistory,
        SetVelocity_InitialConditionHistory]
  · split_ifs <;>
      simp only [Broadcast_TrajectoryNumber, EmbedBody_TrajectoryNumber,
        ReleaseToPhysics_TrajectoryNumber, ActorMove_TrajectoryNumber,
        SetVelocity_TrajectoryNumber]

/-- The overlap scan and a change of the random stream leave `ComputeTimeOfFlight` as it
is. -/
theorem ComputeTimeOfFlight_scanned (sqrt : ℝ → ℝ) (W : UWorld ℝ)
    (c : URealisticProjectileComponent ℝ) (G L : ℝ) (Hits : List (FHitResult ℝ))
    (loc : FVector ℝ) :
    ComputeTimeOfFlight sqrt (ProcessOverlaps W c G L Hits).1 loc
        = ComputeTimeOfFlight sqrt c loc
    ∧ ∀ Stream, ComputeTimeOfFlight sqrt (SetRandStream (ProcessOverlaps W c G L Hits).1 Stream)
        loc = ComputeTimeOfFlight sqrt c loc := by
  have h1 : ComputeTimeOfFlight sqrt (ProcessOverlaps W c G L Hits).1 loc
      = ComputeTimeOfFlight sqrt c loc :=
    ComputeTimeOfFlight_congr sqrt c (ProcessOverlaps W c G L Hits).1 rfl rfl rfl rfl rfl rfl loc
  refine ⟨h1, fun Stream => ?_⟩
  rw [← h1]
  exact ComputeTimeOfFlight_congr sqrt (ProcessOverlaps W c G L Hits).1
    (SetRandStream (ProcessOverlaps W c G L Hits).1 Stream)
    (SetRandStream_InitialConditions _ _) (SetRandStream_ObjectsPenetrated _ _)
    (SetRandStream_k _ _) (SetRandStream_TerminalVelocity _ _)
    (SetRandStream_CurrentGravity _ _) (SetRandStream_CurrentPenetrationDeceleration _ _) loc

/-- The records of the state a sub-step ends with, from those of the component it passes to
`UpdateComponentVelocity`. -/
theorem records_of_resolved (M : FEngineMath ℝ) (s s' : FTickLoopState ℝ)
    (c' : URealisticProjectileComponent ℝ)
    (hIt : s'.Iterations = s.Iterations + 1)
    (hc : s'.Component = UpdateComponentVelocity c')
    (hTN : c'.TrajectoryNumber = s.Component.TrajectoryNumber)
    (hrec : (c'.InitialConditions = s.Component.InitialConditions
          ∧ c'.InitialConditionHistory = s.Component.InitialConditionHistory)
      ∨ (c'.InitialConditionHistory
            = s.Component.InitialConditionHistory ++ [c'.InitialConditions]
          ∧ ∃ HitLocation, c'.InitialConditions.t0
              = s.Component.InitialConditions.t0
                + ComputeTimeOfFlight M.sqrt s.Component HitLocation)) :
    s'.Iterations = s.Iterations + 1
    ∧ s'.Component.TrajectoryNumber = s.Component.TrajectoryNumber
    ∧ ((s'.Component.InitialConditions = s.Component.InitialConditions
          ∧ s'.Component.InitialConditionHistory = s.Component.InitialConditionHistory)
      ∨ (s'.Component.InitialConditionHistory
            = s.Component.InitialConditionHistory ++ [s'.Component.InitialConditions]
          ∧ ∃ HitLocation, s'.Component.InitialConditions.t0
              = s.Component.InitialConditions.t0
                + ComputeTimeOfFlight M.sqrt s.Component HitLocation)) := by
  rw [hc, UpdateComponentVelocity_TrajectoryNumber, UpdateComponentVelocity_InitialConditions,
    UpdateComponentVelocity_InitialConditionHistory]
  exact ⟨hIt, hTN, hrec⟩

/-- What a sub-step that returns does to the records: it counts one iteration, keeps
`TrajectoryNumber`, and either keeps the active record and the history, or appends one record,
the new active one, whose `t0` is the old `t0` plus the flight time to some hit location. -/
theorem TickSubStep_records (M : FEngineMath ℝ) (W : UWorld ℝ) (D G : ℝ)
    (s s' : FTickLoopState ℝ) (h : TickSubStep M W D G s = some s') :
    s'.Iterations = s.Iterations + 1
    ∧ s'.Component.TrajectoryNumber = s.Component.TrajectoryNumber
    ∧ ((s'.Component.InitialConditions = s.Component.InitialConditions
          ∧ s'.Component.InitialConditionHistory = s.Component.InitialConditionHistory)
      ∨ (s'.Component.InitialConditionHistory
            = s.Component.InitialConditionHistory ++ [s'.Component.InitialConditions]
          ∧ ∃ HitLocation, s'.Component.InitialConditions.t0
              = s.Component.InitialConditions.t0
                + ComputeTimeOfFlight M.sqrt s.Component HitLocation)) := by
  unfold TickSubStep at h
  lift_lets at h
  extract_lets c Iterations TimeTick TRT Hit OldVelocity L OrigLocation bPastRest TRT2 L2
    NewLocation NewRelRot NewRot Swept Scanned c1 MoveEntryHits MoveExitHits c2 at h
  obtain ⟨e1, e2, -⟩ := ProcessOverlaps_frame W c G L2 Swept
  change c1.InitialConditions = c.InitialConditions at e1
  change c1.InitialConditionHistory = c.InitialConditionHistory at e2
  have e3 : c1.TrajectoryNumber = c.TrajectoryNumber := rfl
  have hT1 : ∀ loc, ComputeTimeOfFlight M.sqrt c1 loc = ComputeTimeOfFlight M.sqrt c loc :=
    fun loc => (ComputeTimeOfFlight_scanned M.sqrt W c G L2 Swept loc).1
  have hT2 : ∀ Stream loc, ComputeTimeOfFlight M.sqrt (SetRandStream c1 Stream) loc
      = ComputeTimeOfFlight M.sqrt c loc :=
    fun Stream loc => (ComputeTimeOfFlight_scanned M.sqrt W c G L2 Swept loc).2 Stream
  have hc2 : c2 = SetVelocity c1 (ComputeVelocity M.sqrt c1 L2) := rfl
  have hIt : Iterations = s.Iterations + 1 := rfl
  have hcdef : c = s.Component := rfl
  clear_value c1 c2 MoveExitHits MoveEntryHits Scanned Swept NewRot NewRelRot NewLocation
    L2 TRT2 bPastRest OrigLocation L OldVelocity Hit TRT TimeTick Iterations c
  subst hcdef hIt
  simp only [] at h
  split_ifs at h with hL hpen hhits hrest
  · rw [← Option.some.inj h]
    exact ⟨rfl, rfl, Or.inl ⟨rfl, rfl⟩⟩
  · split at h
    · exact absurd h (by simp)
    · rename_i c' T heq
      rw [← Option.some.inj h]
      split at heq
      · exact absurd heq (by simp)
      · rename_i HitToDealWith IsEntryHit hfirst
        split_ifs at heq with hentry
        · obtain ⟨a1, a2, a3⟩ := ResolveEntryWhilePenetrating_history M c1 c' TRT2 L2 T
            NewRot NewRelRot HitToDealWith heq
          refine records_of_resolved M s _ c' rfl rfl (a2.trans e3) (Or.inr ⟨?_, ?_⟩)
          · rw [a1, e2]
          · exact ⟨HitToDealWith.Location, by rw [a3, e1, hT1]⟩
        · have hc' : c' = (ResolveExit M c1 TRT2 L2 NewRot NewRelRot Hit HitToDealWith).1 :=
            (congrArg Prod.fst (Option.some.inj heq)).symm
          obtain ⟨a1, a2, a3⟩ := ResolveExit_history M c1 TRT2 L2 NewRot NewRelRot Hit
            HitToDealWith
          rw [← hc'] at a1 a2 a3
          refine records_of_resolved M s _ c' rfl rfl (a2.trans e3) (Or.inr ⟨?_, ?_⟩)
          · rw [a1, e2]
          · exact ⟨HitToDealWith.Location, by rw [a3, e1, hT1]⟩
  · split at h
    · exact absurd h (by simp)
    · rename_i c' T heq
      rw [← Option.some.inj h]
      split at heq
      · exact absurd heq (by simp)
      · rename_i RestHit hhead
        obtain ⟨a1, a2, a3⟩ := TryEmbed_history M c1 RestHit NewLocation
        have hc' : c' = StopSimulating (TryEmbed M c1 RestHit NewLocation) RestHit :=
          (congrArg Prod.fst (Option.some.inj heq)).symm
        refine records_of_resolved M s _ c' rfl rfl ?_ (Or.inl ⟨?_, ?_⟩)
        · rw [hc', StopSimulating_TrajectoryNumber, a3]
          exact e3
        · rw [hc', StopSimulating_InitialConditions, a1, e1]
        · rw [hc', StopSimulating_InitialConditionHistory, a2, e2]
  · rw [← Option.some.inj h]
    refine records_of_resolved M s _ (ActorMove c1 NewLocation NewRot) rfl rfl ?_
      (Or.inl ⟨?_, ?_⟩)
    · rw [ActorMove_TrajectoryNumber]
      exact e3
    · rw [ActorMove_InitialConditions, e1]
    · rw [ActorMove_InitialConditionHistory, e2]
  · split at h
    · exact absurd h (by simp)
    · rename_i c' T heq
      rw [← Option.some.inj h]
      split at heq
      · rename_i FirstHit hhead
        split_ifs at heq with hbounce
        · have hc' : c' = (ResolveBounce M
              (SetRandStream c1 (DecideBouncePenetrate M.sqrt M.acos c1 FirstHit).2)
              TRT2 L2 NewRot NewRelRot FirstHit).1 :=
            (congrArg Prod.fst (Option.some.inj heq)).symm
          obtain ⟨a1, a2, a3⟩ := ResolveBounce_history M
            (SetRandStream c1 (DecideBouncePenetrate M.sqrt M.acos c1 FirstHit).2)
            TRT2 L2 NewRot NewRelRot FirstHit
          rw [← hc'] at a1 a2 a3
          rw [SetRandStream_InitialConditionHistory] at a1
          rw [SetRandStream_TrajectoryNumber] at a2
          rw [SetRandStream_InitialConditions, hT2] at a3
          refine records_of_resolved M s _ c' rfl rfl (a2.trans e3) (Or.inr ⟨?_, ?_⟩)
          · rw [a1, e2]
          · exact ⟨FirstHit.Location, by rw [a3, e1]⟩
        · obtain ⟨a1, a2, a3⟩ := ResolvePenetrate_history M
            (SetRandStream c1 (DecideBouncePenetrate M.sqrt M.acos c1 FirstHit).2) c'
            TRT2 L2 T NewRot NewRelRot FirstHit heq
          rw [SetRandStream_InitialConditionHistory] at a1
          rw [SetRandStream_TrajectoryNumber] at a2
          rw [SetRandStream_InitialConditions, hT2] at a3
          refine records_of_resolved M s _ c' rfl rfl (a2.trans e3) (Or.inr ⟨?_, ?_⟩)
          · rw [a1, e2]
          · exact ⟨FirstHit.Location, by rw [a3, e1]⟩
      · have hc' : c' = ActorMove c2 NewLocation NewRot :=
          (congrArg Prod.fst (Option.some.inj heq)).symm
        refine records_of_resolved M s _ c' rfl rfl ?_ (Or.inl ⟨?_, ?_⟩)
        · rw [hc', hc2, ActorMove_TrajectoryNumber, SetVelocity_TrajectoryNumber]
          exact e3
        · rw [hc', hc2, ActorMove_InitialConditions, SetVelocity_InitialConditions, e1]
        · rw [hc', hc2, ActorMove_InitialConditionHistory,
            SetVelocity_InitialConditionHistory, e2]

/-- Appending the active record makes it the last entry of the history. -/
theorem HistoryTracksActive_of_append (c : URealisticProjectileComponent ℝ)
    (Old : List (FTrajectoryInitialConditions ℝ))
    (h : c.InitialConditionHistory = Old ++ [c.InitialConditions]) :
    HistoryTracksActive c := by
  unfold HistoryTracksActive
  rw [h, List.getLast?_append, List.getLast?_singleton]
  rfl

/-- What the loop of a tick does to the records, whatever the number of sub-steps it runs: the
history only grows at its end, by at most one record per iteration, the active record stays
the last entry of the history, `TrajectoryNumber` is kept, and the iteration count does not
decrease and stays within 500. -/
theorem TickLoop_records (M : FEngineMath ℝ) (W : UWorld ℝ) (D G : ℝ) :
    ∀ (n : Nat) (s s' : FTickLoopState ℝ), TickLoop M W D G n s = some s' →
      s.Component.InitialConditionHistory <+: s'.Component.InitialConditionHistory
      ∧ (HistoryTracksActive s.Component → HistoryTracksActive s'.Component)
      ∧ s'.Component.TrajectoryNumber = s.Component.TrajectoryNumber
      ∧ s.Iterations ≤ s'.Iterations
      ∧ (s.Iterations ≤ 500 → s'.Iterations ≤ 500)
      ∧ s'.Component.InitialConditionHistory.length + s.Iterations
          ≤ s.Component.InitialConditionHistory.length + s'.Iterations := by
  intro n
  induction n with
  | zero =>
    intro s s' h
    have hs : s = s' := Option.some.inj h
    rw [← hs]
    exact ⟨List.prefix_refl _, id, rfl, le_refl _, id, le_refl _⟩
  | succ n ih =>
    intro s s' h
    unfold TickLoop at h
    split_ifs at h with hc
    · rcases Option.eq_none_or_eq_some (TickSubStep M W D G s) with hn | ⟨s1, h1⟩
      · rw [hn] at h
        exact absurd h (by simp)
      · rw [h1] at h
        obtain ⟨hIt, hTN, hrec⟩ := TickSubStep_records M W D G s s1 h1
        have hlt : s.Iterations < 500 := by
          unfold TickLoopCondition at hc
          simp only [Bool.and_eq_true, decide_eq_true_eq] at hc
          exact hc.2
        have step : s.Component.InitialConditionHistory
              <+: s1.Component.InitialConditionHistory
            ∧ (HistoryTracksActive s.Component → HistoryTracksActive s1.Component)
            ∧ s1.Component.InitialConditionHistory.length
                ≤ s.Component.InitialConditionHistory.length + 1 := by
          rcases hrec with ⟨a1, a2⟩ | ⟨a1, -⟩
          · refine ⟨by rw [a2], ?_, by rw [a2]; omega⟩
            intro ht
            unfold HistoryTracksActive at ht ⊢
            rw [a1, a2]
            exact ht
          · refine ⟨⟨_, a1.symm⟩, fun _ => HistoryTracksActive_of_append _ _ a1, ?_⟩
            rw [a1, List.length_append, List.length_singleton]
        have hfinal : ∀ s2 : FTickLoopState ℝ,
            (s1.Component.InitialConditionHistory <+: s2.Component.InitialConditionHistory
              ∧ (HistoryTracksActive s1.Component → HistoryTracksActive s2.Component)
              ∧ s2.Component.TrajectoryNumber = s1.Component.TrajectoryNumber
              ∧ s1.Iterations ≤ s2.Iterations
              ∧ (s1.Iterations ≤ 500 → s2.Iterations ≤ 500)
              ∧ s2.Component.InitialConditionHistory.length + s1.Iterations
                  ≤ s1.Component.InitialConditionHistory.length + s2.Iterations) →
            (s.Component.InitialConditionHistory <+: s2.Component.InitialConditionHistory
              ∧ (HistoryTracksActive s.Component → HistoryTracksActive s2.Component)
              ∧ s2.Component.TrajectoryNumber = s.Component.TrajectoryNumber
              ∧ s.Iterations ≤ s2.Iterations
              ∧ (s.Iterations ≤ 500 → s2.Iterations ≤ 500)
              ∧ s2.Component.InitialConditionHistory.length + s.Iterations
                  ≤ s.Component.InitialConditionHistory.length + s2.Iterations) := by
          intro s2 ⟨b1, b2, b3, b4, b5, b6⟩
          refine ⟨step.1.trans b1, fun ht => b2 (step.2.1 ht), b3.trans hTN, by omega,
            fun _ => b5 (by omega), ?_⟩
          have := step.2.2
          omega
        simp only [] at h
        split_ifs at h with hr
        · have hs : s1 = s' := Option.some.inj h
          rw [← hs]
          exact hfinal s1 ⟨List.prefix_refl _, id, rfl, le_refl _, id, le_refl _⟩
        · exact hfinal s' (ih s1 s' h)
    · have hs : s = s' := Option.some.inj h
      rw [← hs]
      exact ⟨List.prefix_refl _, id, rfl, le_refl _, id, le_refl _⟩

/-- The fuel of `TickLoop` does not bind: once the iteration count plus the fuel reaches 500,
more fuel gives the same result. -/
theorem TickLoop_fuel (M : FEngineMath ℝ) (W : UWorld ℝ) (D G : ℝ) (m : Nat) :
    ∀ (n : Nat) (s : FTickLoopState ℝ), 500 ≤ s.Iterations + n →
      TickLoop M W D G (n + m) s = TickLoop M W D G n s := by
  intro n
  induction n with
  | zero =>
    intro s hs
    have hcond : TickLoopCondition s = false := by
      unfold TickLoopCondition
      have : ¬ s.Iterations < 500 := by omega
      simp [this]
    cases m with
    | zero => rfl
    | succ m =>
      rw [Nat.zero_add, TickLoop, TickLoop, hcond]
      rfl
  | succ n ih =>
    intro s hs
    rw [Nat.add_right_comm, TickLoop, TickLoop]
    split_ifs with hc
    · rcases Option.eq_none_or_eq_some (TickSubStep M W D G s) with hn | ⟨s1, h1⟩
      · rw [hn]
      · rw [h1]
        simp only []
        split_ifs with hr
        · rfl
        · obtain ⟨hIt, -, -⟩ := TickSubStep_records M W D G s s1 h1
          exact ih s1 (by omega)
    · rfl

/-- What a tick does to the records (see `TickLoop_records`). -/
theorem TickComponent_records (M : FEngineMath ℝ) (W : UWorld ℝ) (D G : ℝ)
    (c : URealisticProjectileComponent ℝ) (s' : FTickLoopState ℝ)
    (h : TickComponent M W D G c = some s') :
    c.InitialConditionHistory <+: s'.Component.InitialConditionHistory
    ∧ (HistoryTracksActive c → HistoryTracksActive s'.Component)
    ∧ s'.Component.TrajectoryNumber = c.TrajectoryNumber
    ∧ s'.Iterations ≤ 500
    ∧ s'.Component.InitialConditionHistory.length
        ≤ c.InitialConditionHistory.length + s'.Iterations := by
  unfold TickComponent at h
  split_ifs at h with h1 h2
  · rw [← Option.some.inj h]
    exact ⟨List.prefix_refl _, id, rfl, Nat.zero_le _, Nat.le_add_right _ _⟩
  · rw [← Option.some.inj h]
    exact ⟨List.prefix_refl _, id, rfl, Nat.zero_le _, Nat.le_add_right _ _⟩
  · obtain ⟨b1, b2, b3, -, b5, b6⟩ := TickLoop_records M W D G 500
      ⟨c.SetTickConstants, D, 0, false⟩ s' h
    exact ⟨b1, b2, b3, b5 (Nat.zero_le _), b6⟩

/-- C24: the history is append-only and tracks the active record, for every operation that
goes through `SetInitialConditions`. `SetInitialConditions` appends the record it makes active;
so do the initialisation of a component that has a world, a bounce, an exit, and a penetration
entry (from free medium or while penetrating) that returns; a sub-step that returns either
keeps the active record and the history or appends the new active record; and over a tick the
old history is a prefix of the new one and the active record stays the last entry. -/
theorem C24_history_is_append_only (M : FEngineMath ℝ) (W : UWorld ℝ) (D G : ℝ) :
    (∀ (c : URealisticProjectileComponent ℝ) (v0 Loc0 : FVector ℝ) (GameTime : ℝ)
        (Rotation : FRotator ℝ) (a : ℝ),
      (SetInitialConditions M.sqrt c v0 Loc0 GameTime Rotation a).InitialConditionHistory
          = c.InitialConditionHistory
            ++ [(SetInitialConditions M.sqrt c v0 Loc0 GameTime Rotation a).InitialConditions]
      ∧ HistoryTracksActive (SetInitialConditions M.sqrt c v0 Loc0 GameTime Rotation a))
    ∧ (∀ (c : URealisticProjectileComponent ℝ) (OwnerLocation : Option (FVector ℝ))
        (GameTime : ℝ),
      (InitializeTrajectory M.sqrt c OwnerLocation (some GameTime)).InitialConditionHistory
          = c.InitialConditionHistory
            ++ [(InitializeTrajectory M.sqrt c OwnerLocation (some GameTime)).InitialConditions]
      ∧ HistoryTracksActive (InitializeTrajectory M.sqrt c OwnerLocation (some GameTime)))
    ∧ (∀ (c : URealisticProjectileComponent ℝ) (TRT L : ℝ) (r rr : FRotator ℝ)
        (Hit HitToDealWith : FHitResult ℝ),
      (ResolveBounce M c TRT L r rr HitToDealWith).1.InitialConditionHistory
          = c.InitialConditionHistory
            ++ [(ResolveBounce M c TRT L r rr HitToDealWith).1.InitialConditions]
      ∧ (ResolveExit M c TRT L r rr Hit HitToDealWith).1.InitialConditionHistory
          = c.InitialConditionHistory
            ++ [(ResolveExit M c TRT L r rr Hit HitToDealWith).1.InitialConditions]
      ∧ (∀ c' T, ResolvePenetrate M c TRT L r rr HitToDealWith = some (c', T) →
          c'.InitialConditionHistory = c.InitialConditionHistory ++ [c'.InitialConditions])
      ∧ (∀ c' T, ResolveEntryWhilePenetrating M c TRT L r rr HitToDealWith = some (c', T) →
          c'.InitialConditionHistory = c.InitialConditionHistory ++ [c'.InitialConditions]))
    ∧ (∀ s s' : FTickLoopState ℝ, TickSubStep M W D G s = some s' →
        (s'.Component.InitialConditions = s.Component.InitialConditions
          ∧ s'.Component.InitialConditionHistory = s.Component.InitialConditionHistory)
        ∨ s'.Component.InitialConditionHistory
            = s.Component.InitialConditionHistory ++ [s'.Component.InitialConditions])
    ∧ (∀ (c : URealisticProjectileComponent ℝ) (s' : FTickLoopState ℝ),
        TickComponent M W D G c = some s' →
        c.InitialConditionHistory <+: s'.Component.InitialConditionHistory
        ∧ (HistoryTracksActive c → HistoryTracksActive s'.Component)) := by
  refine ⟨?_, ?_, ?_, ?_, ?_⟩
  · intro c v0 Loc0 GameTime Rotation a
    have h : (SetInitialConditions M.sqrt c v0 Loc0 GameTime Rotation a).InitialConditionHistory
        = c.InitialConditionHistory
          ++ [(SetInitialConditions M.sqrt c v0 Loc0 GameTime Rotation a).InitialConditions] :=
      rfl
    exact ⟨h, HistoryTracksActive_of_append _ _ h⟩
  · intro c OwnerLocation GameTime
    have h : (InitializeTrajectory M.sqrt c OwnerLocation
        (some GameTime)).InitialConditionHistory
        = c.InitialConditionHistory
          ++ [(InitializeTrajectory M.sqrt c OwnerLocation
            (some GameTime)).InitialConditions] := rfl
    exact ⟨h, HistoryTracksActive_of_append _ _ h⟩
  · intro c TRT L r rr Hit HitToDealWith
    exact ⟨(ResolveBounce_history M c TRT L r rr HitToDealWith).1,
      (ResolveExit_history M c TRT L r rr Hit HitToDealWith).1,
      fun c' T h => (ResolvePenetrate_history M c c' TRT L T r rr HitToDealWith h).1,
      fun c' T h =>
        (ResolveEntryWhilePenetrating_history M c c' TRT L T r rr HitToDealWith h).1⟩
  · intro s s' h
    rcases (TickSubStep_records M W D G s s' h).2.2 with h1 | ⟨h1, -⟩
    · exact Or.inl h1
    · exact Or.inr h1
  · intro c s' h
    obtain ⟨b1, b2, -⟩ := TickComponent_records M W D G c s' h
    exact ⟨b1, b2⟩

/-- C24 at a concrete input: the horizontal shot, initialised in a world at time 0, has its
active record as the only entry of the history, and after a tick of 1/100 s in a world without
obstacles the active record is still the last entry. -/
theorem C24_witness :
    HistoryTracksActive (WallShot Real.sqrt)
    ∧ ∃ s, TickComponent ⟨Real.sqrt, Real.arccos, fun _ => ⟨0, 0, 0⟩, fun _ v => v⟩ OpenWorld
          (1 / 100) 0 (WallShot Real.sqrt) = some s
        ∧ HistoryTracksActive s.Component := by
  have hC := C24_history_is_append_only
    ⟨Real.sqrt, Real.arccos, fun _ => ⟨0, 0, 0⟩, fun _ v => v⟩ OpenWorld (1 / 100) 0
  have h0 : HistoryTracksActive (WallShot Real.sqrt) :=
    (hC.1 (Construct Real.sqrt ⟨900, 0, 0⟩ ⟨0, 0, 0⟩) ⟨900, 0, 0⟩ ⟨0, 0, 0⟩ 0
      FRotator.ZeroRotator 1).2
  obtain ⟨s, hs, -⟩ := TickComponent_unblocked
    ⟨Real.sqrt, Real.arccos, fun _ => ⟨0, 0, 0⟩, fun _ v => v⟩ OpenWorld (1 / 100) 0
    (WallShot Real.sqrt) (by norm_num) (le_refl _) rfl rfl rfl rfl
    (fun _ _ _ h hh => by simp [OpenWorld] at hh)
  exact ⟨h0, s, hs, (hC.2.2.2.2 (WallShot Real.sqrt) s hs).2 h0⟩

/-- C24 fails as stated for the initialisation of a component without a world: line 115 of
`InitializeComponent` assigns the active record without `SetInitialConditions`, so nothing is
appended: from the constructed component the history stays empty, and the active record is
not its last entry. -/
theorem C24_counterexample :
    (InitializeTrajectory Real.sqrt (Construct Real.sqrt ⟨900, 0, 0⟩ ⟨0, 0, 0⟩)
        (some ⟨0, 0, 0⟩) none).InitialConditionHistory = []
    ∧ (InitializeTrajectory Real.sqrt (Construct Real.sqrt ⟨900, 0, 0⟩ ⟨0, 0, 0⟩)
        (some ⟨0, 0, 0⟩) none).InitialConditions
      = FTrajectoryInitialConditions.Init Real.sqrt ⟨900, 0, 0⟩ ⟨0, 0, 0⟩ 0
          FRotator.ZeroRotator 1
    ∧ ¬ HistoryTracksActive
        (InitializeTrajectory Real.sqrt (Construct Real.sqrt ⟨900, 0, 0⟩ ⟨0, 0, 0⟩)
          (some ⟨0, 0, 0⟩) none) := by
  refine ⟨rfl, rfl, ?_⟩
  unfold HistoryTracksActive
  have h : (InitializeTrajectory Real.sqrt (Construct Real.sqrt ⟨900, 0, 0⟩ ⟨0, 0, 0⟩)
      (some ⟨0, 0, 0⟩) none).InitialConditionHistory = [] := rfl
  rw [h]
  simp

/-- C25: `TrajectoryNumber` is never increased. `SetInitialConditions` appends a record to the
history and leaves `TrajectoryNumber` as it was, so it is not the old value plus 1; the
initialisation, a sub-step that returns and a whole tick leave it as it was too, while the
history grows. -/
theorem C25_TrajectoryNumber_is_never_increased (M : FEngineMath ℝ) (W : UWorld ℝ) (D G : ℝ) :
    (∀ (c : URealisticProjectileComponent ℝ) (v0 Loc0 : FVector ℝ) (GameTime : ℝ)
        (Rotation : FRotator ℝ) (a : ℝ),
      (SetInitialConditions M.sqrt c v0 Loc0 GameTime Rotation a).TrajectoryNumber
          = c.TrajectoryNumber
      ∧ (SetInitialConditions M.sqrt c v0 Loc0 GameTime Rotation a).TrajectoryNumber
          ≠ c.TrajectoryNumber + 1
      ∧ (SetInitialConditions M.sqrt c v0 Loc0 GameTime Rotation a).InitialConditionHistory.length
          = c.InitialConditionHistory.length + 1)
    ∧ (∀ (c : URealisticProjectileComponent ℝ) (OwnerLocation : Option (FVector ℝ))
        (WorldTime : Option ℝ),
      (InitializeTrajectory M.sqrt c OwnerLocation WorldTime).TrajectoryNumber
        = c.TrajectoryNumber)
    ∧ (∀ s s' : FTickLoopState ℝ, TickSubStep M W D G s = some s' →
        s'.Component.TrajectoryNumber = s.Component.TrajectoryNumber)
    ∧ (∀ (c : URealisticProjectileComponent ℝ) (s' : FTickLoopState ℝ),
        TickComponent M W D G c = some s' →
        s'.Component.TrajectoryNumber = c.TrajectoryNumber) := by
  refine ⟨?_, ?_, ?_, ?_⟩
  · intro c v0 Loc0 GameTime Rotation a
    refine ⟨rfl, ?_, ?_⟩
    · rw [SetInitialConditions_TrajectoryNumber]
      omega
    · rw [SetInitialConditions_InitialConditionHistory, List.length_append,
        List.length_singleton]
  · intro c OwnerLocation WorldTime
    cases WorldTime <;> rfl
  · intro s s' h
    exact (TickSubStep_records M W D G s s' h).2.1
  · intro c s' h
    exact (TickComponent_records M W D G c s' h).2.2.1

/-- C25 at a concrete input: the constructed component has `TrajectoryNumber = 0`; after the
initialisation has set the first record, and after a second `SetInitialConditions`, it is still
0, with two records in the history. -/
theorem C25_witness :
    (WallShot Real.sqrt).TrajectoryNumber = 0
    ∧ (WallShot Real.sqrt).InitialConditionHistory.length = 1
    ∧ (SetInitialConditions Real.sqrt (WallShot Real.sqrt) ⟨-480, 0, -40⟩ ⟨44, 0, -1⟩ (1 / 20)
        FRotator.ZeroRotator 1).TrajectoryNumber = 0
    ∧ (SetInitialConditions Real.sqrt (WallShot Real.sqrt) ⟨-480, 0, -40⟩ ⟨44, 0, -1⟩ (1 / 20)
        FRotator.ZeroRotator 1).InitialConditionHistory.length = 2 := by
  have h := (C25_TrajectoryNumber_is_never_increased
    ⟨Real.sqrt, Real.arccos, fun _ => ⟨0, 0, 0⟩, fun _ v => v⟩ OpenWorld (1 / 100) 0).1
    (WallShot Real.sqrt) ⟨-480, 0, -40⟩ ⟨44, 0, -1⟩ (1 / 20) FRotator.ZeroRotator 1
  exact ⟨rfl, rfl, h.1, h.2.2⟩

/-- Inside a solid with a negative current deceleration the flight time to any location is not
negative. -/
theorem ComputeTimeOfFlight_solid_nonneg (c : URealisticProjectileComponent ℝ)
    (HitLocation : FVector ℝ) (hsolid : c.ObjectsPenetrated ≠ [])
    (ha : c.CurrentPenetrationDeceleration < 0) :
    0 ≤ ComputeTimeOfFlight Real.sqrt c HitLocation := by
  rw [ComputeTimeOfFlight_solid Real.sqrt c hsolid]
  have hv : 0 ≤ FVector.Size Real.sqrt c.InitialConditions.InitialVelocity / 100 :=
    div_nonneg (Real.sqrt_nonneg _) (by norm_num)
  have hp : 0 ≤ FVector.Size Real.sqrt (HitLocation - c.InitialConditions.InitialWorldLocation)
      / 100 := div_nonneg (Real.sqrt_nonneg _) (by norm_num)
  generalize FVector.Size Real.sqrt c.InitialConditions.InitialVelocity / 100 = v at hv
  generalize FVector.Size Real.sqrt (HitLocation - c.InitialConditions.InitialWorldLocation)
    / 100 = p at hp
  apply div_nonneg _ (by linarith)
  have hle : v * v ≤ v * v - 2 * -c.CurrentPenetrationDeceleration * -p := by
    have : 0 ≤ -c.CurrentPenetrationDeceleration * p := mul_nonneg (by linarith) hp
    nlinarith
  have h1 : v ≤ Real.sqrt (v * v - 2 * -c.CurrentPenetrationDeceleration * -p) := by
    calc v = Real.sqrt (v * v) := (Real.sqrt_mul_self hv).symm
      _ ≤ _ := Real.sqrt_le_sqrt hle
  linarith

/-- The horizontal branch of `ComputeTimeOfFlight` is not negative at a displacement the
trajectory reaches at a time `t >= 0`. -/
theorem horizontal_time_nonneg (k v t : ℝ) (hk : 0 ≤ k) (ht : 0 ≤ t) :
    0 ≤ v * t / (1 + k * t) / (v - k * (v * t / (1 + k * t))) := by
  have hden : 0 < 1 + k * t := by positivity
  by_cases hp0 : v * t / (1 + k * t) = 0
  · rw [hp0, zero_div]
  · rw [horizontal_inverse k v t hden hp0]
    exact ht

/-- The vertical branch of `ComputeTimeOfFlight` is not negative at a displacement the
trajectory reaches at a time `t >= 0`. -/
theorem VerticalTimeOfFlight_nonneg (k TV g v0 p t : ℝ) (hk : 0 < k) (hTV : 0 < TV)
    (ht : 0 ≤ t) (hp : p * (1 + k * t) = (v0 - k * TV * t) * t) :
    0 ≤ VerticalTimeOfFlight Real.sqrt k TV g p v0 := by
  have hkTV : k * TV ≠ 0 := ne_of_gt (mul_pos hk hTV)
  have hdisc : 0 ≤ (v0 - p * k) * (v0 - p * k) - 2 * (2 * k * -TV) * -p := by
    have h : (v0 - p * k) * (v0 - p * k) - 2 * (2 * k * -TV) * -p
        = (2 * k * -TV * t + (v0 - p * k)) ^ 2 := by
      linear_combination (2 * (2 * k * -TV)) * hp
    rw [h]
    exact sq_nonneg _
  have hroot : k * (-TV) * t ^ 2 + (v0 - k * p) * t - p = 0 := by
    linear_combination (-1 : ℝ) * hp
  have hmem := (vertical_candidates_are_roots k TV p v0 t hkTV hdisc).mp hroot
  rw [VerticalTimeOfFlight_eq_roots]
  generalize VerticalRootPlus Real.sqrt k TV p v0 = t1 at hmem
  generalize VerticalRootMinus Real.sqrt k TV p v0 = t2 at hmem
  split_ifs <;> rcases hmem with h | h <;> linarith

/-- A value between two values of a function continuous on the non-negative reals is taken at
a non-negative argument. -/
theorem exists_time_of_convex (f : ℝ → ℝ) (hf : ContinuousOn f (Set.Ici 0)) (t1 t2 w : ℝ)
    (h1 : 0 ≤ t1) (h2 : 0 ≤ t2) (hw0 : 0 ≤ w) (hw1 : w ≤ 1) :
    ∃ t, 0 ≤ t ∧ f t = f t1 + w * (f t2 - f t1) := by
  have hsub : Set.uIcc t1 t2 ⊆ Set.Ici 0 := by
    intro x hx
    rcases Set.mem_uIcc.mp hx with ⟨ha, -⟩ | ⟨ha, -⟩
    · exact le_trans h1 ha
    · exact le_trans h2 ha
  have hmem : f t1 + w * (f t2 - f t1) ∈ Set.uIcc (f t1) (f t2) := by
    rw [Set.mem_uIcc]
    rcases le_total (f t1) (f t2) with hle | hle
    · left
      constructor <;> nlinarith
    · right
      constructor <;> nlinarith
  obtain ⟨t, htm, hft⟩ := intermediate_value_uIcc (hf.mono hsub) hmem
  exact ⟨t, hsub htm, hft⟩

/-- The free-medium displacement along one axis, `(v - a t) t / (1 + k t)`, is continuous for
`t >= 0` when `k >= 0`. -/
theorem continuousOn_displacement (k v a : ℝ) (hk : 0 ≤ k) :
    ContinuousOn (fun t : ℝ => (v - a * t) * t / (1 + k * t)) (Set.Ici 0) := by
  apply ContinuousOn.div
  · fun_prop
  · fun_prop
  · intro t ht
    have ht0 : 0 ≤ t := ht
    have : 0 < 1 + k * t := by positivity
    exact ne_of_gt this

/-- In free medium, with `k > 0` and a positive terminal velocity, the flight time to a point of
the segment between two points of the active trajectory is not negative. -/
theorem ComputeTimeOfFlight_air_nonneg (c : URealisticProjectileComponent ℝ)
    (hair : c.ObjectsPenetrated = []) (hk : 0 < c.k) (hTV : 0 < c.TerminalVelocity)
    (hVinf : c.Vinf = ⟨0, 0, -c.TerminalVelocity⟩)
    (hpen : 0 < c.InitialConditions.PenDeceleration)
    (t1 t2 w : ℝ) (h1 : 0 ≤ t1) (h2 : 0 ≤ t2) (hw0 : 0 ≤ w) (hw1 : w ≤ 1) :
    0 ≤ ComputeTimeOfFlight Real.sqrt c
      (ComputeNewLocation c c.InitialConditions t1
        + w • (ComputeNewLocation c c.InitialConditions t2
          - ComputeNewLocation c c.InitialConditions t1)) := by
  have hd1 := deltaLoc_air c c.InitialConditions t1 hpen hVinf
  have hd2 := deltaLoc_air c c.InitialConditions t2 hpen hVinf
  have hX1 := congrArg FVector.X hd1
  have hY1 := congrArg FVector.Y hd1
  have hZ1 := congrArg FVector.Z hd1
  have hX2 := congrArg FVector.X hd2
  have hY2 := congrArg FVector.Y hd2
  have hZ2 := congrArg FVector.Z hd2
  simp only [FVector.sub_X, FVector.sub_Y, FVector.sub_Z] at hX1 hY1 hZ1 hX2 hY2 hZ2
  generalize ComputeNewLocation c c.InitialConditions t1 = P1 at hX1 hY1 hZ1 ⊢
  generalize ComputeNewLocation c c.InitialConditions t2 = P2 at hX2 hY2 hZ2 ⊢
  obtain ⟨sx, hsx0, hsx⟩ := exists_time_of_convex
    (fun t => (c.InitialConditions.InitialVelocity.X - 0 * t) * t / (1 + c.k * t))
    (continuousOn_displacement c.k _ 0 hk.le) t1 t2 w h1 h2 hw0 hw1
  obtain ⟨sy, hsy0, hsy⟩ := exists_time_of_convex
    (fun t => (c.InitialConditions.InitialVelocity.Y - 0 * t) * t / (1 + c.k * t))
    (continuousOn_displacement c.k _ 0 hk.le) t1 t2 w h1 h2 hw0 hw1
  obtain ⟨sz, hsz0, hsz⟩ := exists_time_of_convex
    (fun t => (c.InitialConditions.InitialVelocity.Z - c.k * c.TerminalVelocity * t) * t
      / (1 + c.k * t))
    (continuousOn_displacement c.k _ _ hk.le) t1 t2 w h1 h2 hw0 hw1
  simp only [zero_mul, sub_zero] at hsx hsy
  have hdX : (P1 + w • (P2 - P1) - c.InitialConditions.InitialWorldLocation).X
      = c.InitialConditions.InitialVelocity.X * sx / (1 + c.k * sx) := by
    simp only [FVector.sub_X, FVector.add_X, FVector.smul_X]
    rw [hsx, ← hX1, ← hX2]
    ring
  have hdY : (P1 + w • (P2 - P1) - c.InitialConditions.InitialWorldLocation).Y
      = c.InitialConditions.InitialVelocity.Y * sy / (1 + c.k * sy) := by
    simp only [FVector.sub_Y, FVector.add_Y, FVector.smul_Y]
    rw [hsy, ← hY1, ← hY2]
    ring
  have hdZ : (P1 + w • (P2 - P1) - c.InitialConditions.InitialWorldLocation).Z
      = (c.InitialConditions.InitialVelocity.Z - c.k * c.TerminalVelocity * sz) * sz
        / (1 + c.k * sz) := by
    simp only [FVector.sub_Z, FVector.add_Z, FVector.smul_Z]
    rw [hsz, ← hZ1, ← hZ2]
    ring
  rw [ComputeTimeOfFlight_air Real.sqrt c hair]
  split_ifs
  · rw [hdX]
    exact horizontal_time_nonneg c.k _ sx hk.le hsx0
  · rw [hdY]
    exact horizontal_time_nonneg c.k _ sy hk.le hsy0
  · apply VerticalTimeOfFlight_nonneg c.k c.TerminalVelocity c.GetGravityZ _ _ sz hk hTV hsz0
    rw [hdZ]
    have hden : 1 + c.k * sz ≠ 0 := by
      have : 0 < 1 + c.k * sz := by positivity
      exact ne_of_gt this
    field_simp

/-- Off the swept segment the flight time can be negative: in Scenario A (launch along `+X` from
the origin) the flight time to the point `(-100, 0, 0)` behind the launch point is
`-200000 / 10010900`. -/
theorem ComputeTimeOfFlight_behind_launch :
    ComputeTimeOfFlight Real.sqrt (ScenarioA Real.sqrt) ⟨-100, 0, 0⟩ = -(200000 / 10010900)
    ∧ ComputeTimeOfFlight Real.sqrt (ScenarioA Real.sqrt) ⟨-100, 0, 0⟩ < 0 := by
  obtain ⟨f1, -, f3, -, -, -, f7, f8⟩ := Launched_tick_facts ⟨5000, 0, 0⟩
  have h : ComputeTimeOfFlight Real.sqrt (ScenarioA Real.sqrt) ⟨-100, 0, 0⟩
      = -(200000 / 10010900) := by
    unfold ScenarioA
    rw [ComputeTimeOfFlight_air Real.sqrt _ f1, f8, f7, f3]
    simp only [FVector.sub_X, FVector.sub_Y, FVector.sub_Z, sub_zero, abs_neg, abs_zero]
    rw [if_pos (by norm_num)]
    norm_num
  rw [h]
  exact ⟨rfl, by norm_num⟩

/-- The start time of the record a sub-step that returns ends with: the old `t0`, or, inside a
solid, the old `t0` plus the flight time to some location, or, in free medium, the old `t0`
plus the flight time to the location of a hit that the sweep from the body's location to the
new location reports. -/
theorem TickSubStep_record_times (M : FEngineMath ℝ) (W : UWorld ℝ) (D G : ℝ)
    (s s' : FTickLoopState ℝ) (h : TickSubStep M W D G s = some s') :
    s'.Component.InitialConditions.t0 = s.Component.InitialConditions.t0
    ∨ (s.Component.ObjectsPenetrated ≠ []
        ∧ ∃ HitLocation, s'.Component.InitialConditions.t0
            = s.Component.InitialConditions.t0
              + ComputeTimeOfFlight M.sqrt s.Component HitLocation)
    ∨ (s.Component.ObjectsPenetrated = []
        ∧ 0 ≤ LaunchDeltaTimeOf s.Component D G (s.TickRemainingTime - D)
        ∧ ∃ Hit Rot,
            Hit ∈ W.ComponentSweepMulti s.Component.Body.Location
              (ComputeNewLocation s.Component s.Component.InitialConditions
                (LaunchDeltaTimeOf s.Component D G (s.TickRemainingTime - D))) Rot
            ∧ s'.Component.InitialConditions.t0
              = s.Component.InitialConditions.t0
                + ComputeTimeOfFlight M.sqrt s.Component Hit.Location) := by
  unfold TickSubStep at h
  lift_lets at h
  extract_lets c Iterations TimeTick TRT Hit OldVelocity L OrigLocation bPastRest TRT2 L2
    NewLocation NewRelRot NewRot Swept Scanned c1 MoveEntryHits MoveExitHits c2 at h
  obtain ⟨e1, -, e3, -⟩ := ProcessOverlaps_frame W c G L2 Swept
  change c1.InitialConditions = c.InitialConditions at e1
  change c1.ObjectsPenetrated = c.ObjectsPenetrated at e3
  have hT1 : ∀ loc, ComputeTimeOfFlight M.sqrt c1 loc = ComputeTimeOfFlight M.sqrt c loc :=
    fun loc => (ComputeTimeOfFlight_scanned M.sqrt W c G L2 Swept loc).1
  have hT2 : ∀ Stream loc, ComputeTimeOfFlight M.sqrt (SetRandStream c1 Stream) loc
      = ComputeTimeOfFlight M.sqrt c loc :=
    fun Stream loc => (ComputeTimeOfFlight_scanned M.sqrt W c G L2 Swept loc).2 Stream
  have hmem : ∀ x ∈ MoveEntryHits, x ∈ W.ComponentSweepMulti c.Body.Location
      (ComputeNewLocation c c.InitialConditions L2) NewRot := by
    intro x hx
    have hx1 : x ∈ (ProcessOverlaps W c G L2 Swept).2 := (List.mem_filter.mp hx).1
    rw [ProcessOverlaps_snd] at hx1
    have hx2 : x ∈ DoSweep W c OrigLocation NewLocation NewRot true :=
      (List.mem_filter.mp hx1).1
    unfold DoSweep at hx2
    by_cases hn : c.UpdatedComponentIsNull = true
    · rw [if_pos hn] at hx2
      simp at hx2
    · rw [if_neg hn] at hx2
      simp only [↓reduceIte] at hx2
      exact hx2
  have hL2 : c.ObjectsPenetrated = [] → L2 = L := by
    intro hair
    show (if bPastRest = true then c.InitialConditions.PenRestDeltaTime else L) = L
    have hb : bPastRest = false := by
      show decide (c.ObjectsPenetrated.length > 0 ∧ L > c.InitialConditions.PenRestDeltaTime)
        = false
      rw [hair]
      simp
    rw [hb]
    rfl
  have hc2 : c2 = SetVelocity c1 (ComputeVelocity M.sqrt c1 L2) := rfl
  have hLdef : L = LaunchDeltaTimeOf s.Component D G (s.TickRemainingTime - D) := rfl
  have hcdef : c = s.Component := rfl
  clear_value c1 c2 MoveExitHits MoveEntryHits Scanned Swept NewRot NewRelRot NewLocation
    L2 TRT2 bPastRest OrigLocation L OldVelocity Hit TRT TimeTick Iterations c
  subst hcdef
  simp only [] at h
  split_ifs at h with hL hpen hhits hrest
  · rw [← Option.some.inj h]
    exact Or.inl rfl
  · have hsolid : s.Component.ObjectsPenetrated ≠ [] := by
      rw [← e3]
      exact List.length_pos.mp hpen
    split at h
    · exact absurd h (by simp)
    · rename_i c' T heq
      rw [← Option.some.inj h]
      split at heq
      · exact absurd heq (by simp)
      · rename_i HitToDealWith IsEntryHit hfirst
        split_ifs at heq with hentry
        · obtain ⟨-, -, a3⟩ := ResolveEntryWhilePenetrating_history M c1 c' TRT2 L2 T
            NewRot NewRelRot HitToDealWith heq
          refine Or.inr (Or.inl ⟨hsolid, HitToDealWith.Location, ?_⟩)
          show (UpdateComponentVelocity c').InitialConditions.t0 = _
          rw [UpdateComponentVelocity_InitialConditions, a3, e1, hT1]
        · have hc' : c' = (ResolveExit M c1 TRT2 L2 NewRot NewRelRot Hit HitToDealWith).1 :=
            (congrArg Prod.fst (Option.some.inj heq)).symm
          obtain ⟨-, -, a3⟩ := ResolveExit_history M c1 TRT2 L2 NewRot NewRelRot Hit
            HitToDealWith
          rw [← hc'] at a3
          refine Or.inr (Or.inl ⟨hsolid, HitToDealWith.Location, ?_⟩)
          show (UpdateComponentVelocity c').InitialConditions.t0 = _
          rw [UpdateComponentVelocity_InitialConditions, a3, e1, hT1]
  · split at h
    · exact absurd h (by simp)
    · rename_i c' T heq
      rw [← Option.some.inj h]
      split at heq
      · exact absurd heq (by simp)
      · rename_i RestHit hhead
        have hc' : c' = StopSimulating (TryEmbed M c1 RestHit NewLocation) RestHit :=
          (congrArg Prod.fst (Option.some.inj heq)).symm
        left
        show (UpdateComponentVelocity c').InitialConditions.t0 = _
        rw [UpdateComponentVelocity_InitialConditions, hc', StopSimulating_InitialConditions,
          (TryEmbed_history M c1 RestHit NewLocation).1, e1]
  · rw [← Option.some.inj h]
    left
    show (UpdateComponentVelocity (ActorMove c1 NewLocation NewRot)).InitialConditions.t0 = _
    rw [UpdateComponentVelocity_InitialConditions, ActorMove_InitialConditions, e1]
  · have hair : s.Component.ObjectsPenetrated = [] := by
      rw [← e3, ← List.length_eq_zero]
      exact Nat.eq_zero_of_not_pos hpen
    have hL2' := hL2 hair
    subst hL2'
    split at h
    · exact absurd h (by simp)
    · rename_i c' T heq
      rw [← Option.some.inj h]
      split at heq
      · rename_i FirstHit hhead
        have hin := hmem FirstHit (List.mem_of_mem_head? hhead)
        split_ifs at heq with hbounce
        · have hc' : c' = (ResolveBounce M
              (SetRandStream c1 (DecideBouncePenetrate M.sqrt M.acos c1 FirstHit).2)
              TRT2 L2 NewRot NewRelRot FirstHit).1 :=
            (congrArg Prod.fst (Option.some.inj heq)).symm
          obtain ⟨-, -, a3⟩ := ResolveBounce_history M
            (SetRandStream c1 (DecideBouncePenetrate M.sqrt M.acos c1 FirstHit).2)
            TRT2 L2 NewRot NewRelRot FirstHit
          rw [← hc'] at a3
          rw [SetRandStream_InitialConditions, hT2] at a3
          refine Or.inr (Or.inr ⟨hair, ?_, FirstHit, NewRot, ?_, ?_⟩)
          · rw [← hLdef]
            exact not_lt.mp hL
          · rw [← hLdef]
            exact hin
          · show (UpdateComponentVelocity c').InitialConditions.t0 = _
            rw [UpdateComponentVelocity_InitialConditions, a3, e1]
        · obtain ⟨-, -, a3⟩ := ResolvePenetrate_history M
            (SetRandStream c1 (DecideBouncePenetrate M.sqrt M.acos c1 FirstHit).2) c'
            TRT2 L2 T NewRot NewRelRot FirstHit heq
          rw [SetRandStream_InitialConditions, hT2] at a3
          refine Or.inr (Or.inr ⟨hair, ?_, FirstHit, NewRot, ?_, ?_⟩)
          · rw [← hLdef]
            exact not_lt.mp hL
          · rw [← hLdef]
            exact hin
          · show (UpdateComponentVelocity c').InitialConditions.t0 = _
            rw [UpdateComponentVelocity_InitialConditions, a3, e1]
      · have hc' : c' = ActorMove c2 NewLocation NewRot :=
          (congrArg Prod.fst (Option.some.inj heq)).symm
        left
        show (UpdateComponentVelocity c').InitialConditions.t0 = _
        rw [UpdateComponentVelocity_InitialConditions, hc', hc2, ActorMove_InitialConditions,
          SetVelocity_InitialConditions, e1]

/-- The world without obstacles and the world with one plane wall keep the contract
`SweepOnSegment`. -/
theorem SweepOnSegment_examples (WallX : ℝ) :
    SweepOnSegment (OpenWorld : UWorld ℝ) ∧ SweepOnSegment (PlaneWorld WallX) := by
  constructor
  · intro Start End Rot h hh
    simp [OpenWorld] at hh
  · intro Start End Rot h hh
    unfold PlaneWorld at hh
    simp only [] at hh
    split_ifs at hh with hx
    · rw [List.mem_singleton] at hh
      have hpos : 0 < End.X - Start.X := by linarith [hx.1, hx.2]
      refine ⟨(WallX - Start.X) / (End.X - Start.X), ?_, ?_, ?_⟩
      · exact div_nonneg (by linarith [hx.1]) hpos.le
      · rw [div_le_one hpos]
        linarith [hx.2]
      · rw [hh]
        rfl
    · simp at hh

/-- A sub-step that returns never moves `t0` back: in a world whose sweeps report hits on the
swept segment, for a component that keeps the regime invariant, has `k > 0` and a positive
terminal velocity, and whose body stands on the active trajectory, the record the sub-step ends
with starts no earlier than the record it began with. -/
theorem TickSubStep_t0_nondecreasing (M : FEngineMath ℝ) (hM : M.sqrt = Real.sqrt)
    (W : UWorld ℝ) (D G : ℝ) (s s' : FTickLoopState ℝ)
    (hW : SweepOnSegment W) (hreg : RegimeInvariant s.Component)
    (hk : 0 < s.Component.k) (hTV : 0 < s.Component.TerminalVelocity)
    (hVinf : s.Component.Vinf = ⟨0, 0, -s.Component.TerminalVelocity⟩)
    (hbody : ∃ t1 : ℝ, 0 ≤ t1 ∧ s.Component.Body.Location
      = ComputeNewLocation s.Component s.Component.InitialConditions t1)
    (h : TickSubStep M W D G s = some s') :
    s.Component.InitialConditions.t0 ≤ s'.Component.InitialConditions.t0 := by
  rcases TickSubStep_record_times M W D G s s' h with h0 | ⟨hsolid, loc, ht⟩
    | ⟨hair, hL, Hit, Rot, hin, ht⟩
  · rw [h0]
  · rw [ht, hM]
    have := ComputeTimeOfFlight_solid_nonneg s.Component loc hsolid (hreg.2 hsolid)
    linarith
  · obtain ⟨t1, h1, hb⟩ := hbody
    obtain ⟨w, hw0, hw1, hloc⟩ := hW _ _ _ Hit hin
    rw [ht, hM, hloc, hb]
    have := ComputeTimeOfFlight_air_nonneg s.Component hair hk hTV hVinf (hreg.1.mp hair)
      t1 _ w h1 hL hw0 hw1
    linarith

/-- At elapsed time zero the trajectory is at the record's start location, in both regimes. -/
theorem ComputeNewLocation_zero (c : URealisticProjectileComponent ℝ)
    (TIC : FTrajectoryInitialConditions ℝ) :
    ComputeNewLocation c TIC 0 = TIC.InitialWorldLocation := by
  unfold ComputeNewLocation
  split_ifs
  · ext <;> simp
  · ext <;> simp

/-- `ActorMove` puts a valid body at the new location. -/
theorem ActorMove_Location (c : URealisticProjectileComponent ℝ) (NewLocation : FVector ℝ)
    (NewRotation : FRotator ℝ) (hnull : c.UpdatedComponentIsNull = false)
    (hkill : c.Body.bOwnerPendingKill = false) :
    (ActorMove c NewLocation NewRotation).Body.Location = NewLocation := by
  rw [ActorMove_Body, hnull, hkill]
  rfl

/-- `UpdateComponentVelocity` leaves the body where it is. -/
theorem UpdateComponentVelocity_Location (c : URealisticProjectileComponent ℝ) :
    (UpdateComponentVelocity c).Body.Location = c.Body.Location := by
  rw [UpdateComponentVelocity_Body]
  split_ifs <;> rfl

/-- A bounce keeps the drag constants and leaves a valid body at the start location of the
record it makes active. -/
theorem ResolveBounce_body (M : FEngineMath ℝ) (c : URealisticProjectileComponent ℝ)
    (TRT L : ℝ) (r rr : FRotator ℝ) (Hit : FHitResult ℝ)
    (hnull : c.UpdatedComponentIsNull = false) (hkill : c.Body.bOwnerPendingKill = false) :
    (ResolveBounce M c TRT L r rr Hit).1.k = c.k
    ∧ (ResolveBounce M c TRT L r rr Hit).1.TerminalVelocity = c.TerminalVelocity
    ∧ (ResolveBounce M c TRT L r rr Hit).1.Vinf = c.Vinf
    ∧ (ResolveBounce M c TRT L r rr Hit).1.Body.Location
        = (ResolveBounce M c TRT L r rr Hit).1.InitialConditions.InitialWorldLocation := by
  have hloc := ActorMove_Location c (Hit.Location + Hit.ImpactNormal) r hnull hkill
  unfold ResolveBounce
  simp only []
  generalize ComputeTimeOfFlight M.sqrt (ActorMove c (Hit.Location + Hit.ImpactNormal) r)
    Hit.Location = F
  generalize ComputeVelocity M.sqrt (ActorMove c (Hit.Location + Hit.ImpactNormal) r) F = V
  refine ⟨?_, ?_, ?_, ?_⟩
  · split_ifs <;>
      simp only [StopSimulating_k, SetInitialConditions_k, SetRandStream_k, SetVelocity_k,
        Broadcast_k, ActorMove_k]
  · split_ifs <;>
      simp only [StopSimulating_TerminalVelocity, SetInitialConditions_TerminalVelocity,
        SetRandStream_TerminalVelocity, SetVelocity_TerminalVelocity,
        Broadcast_TerminalVelocity, ActorMove_TerminalVelocity]
  · split_ifs <;>
      simp only [StopSimulating_Vinf, SetInitialConditions_Vinf, SetRandStream_Vinf,
        SetVelocity_Vinf, Broadcast_Vinf, ActorMove_Vinf]
  · split_ifs <;>
      simp only [StopSimulating_Body, StopSimulating_InitialConditions,
        SetInitialConditions_Body, SetInitialConditions_InitialConditions,
        SetRandStream_Body, SetVelocity_Body, Broadcast_Body, hloc] <;>
      rfl

/-- The reset after the last exit keeps the drag constants and the body. -/
theorem ResetAfterLastExit_body (M : FEngineMath ℝ) (c : URealisticProjectileComponent ℝ)
    (Hit : FHitResult ℝ) :
    (ResetAfterLastExit M c Hit).k = c.k
    ∧ (ResetAfterLastExit M c Hit).TerminalVelocity = c.TerminalVelocity
    ∧ (ResetAfterLastExit M c Hit).Vinf = c.Vinf
    ∧ (ResetAfterLastExit M c Hit).Body = c.Body := by
  unfold ResetAfterLastExit
  refine ⟨?_, ?_, ?_, ?_⟩
  · split_ifs <;>
      simp only [SetCurrentPenetrationDeceleration_k, SetRandStream_k, SetVelocity_k]
  · split_ifs <;>
      simp only [SetCurrentPenetrationDeceleration_TerminalVelocity,
        SetRandStream_TerminalVelocity, SetVelocity_TerminalVelocity]
  · split_ifs <;>
      simp only [SetCurrentPenetrationDeceleration_Vinf, SetRandStream_Vinf, SetVelocity_Vinf]
  · split_ifs <;>
      simp only [SetCurrentPenetrationDeceleration_Body, SetRandStream_Body, SetVelocity_Body]

/-- An exit keeps the drag constants and leaves a valid body at the start location of the
record it makes active. -/
theorem ResolveExit_body (M : FEngineMath ℝ) (c : URealisticProjectileComponent ℝ)
    (TRT L : ℝ) (r rr : FRotator ℝ) (Hit HitToDealWith : FHitResult ℝ)
    (hnull : c.UpdatedComponentIsNull = false) (hkill : c.Body.bOwnerPendingKill = false) :
    (ResolveExit M c TRT L r rr Hit HitToDealWith).1.k = c.k
    ∧ (ResolveExit M c TRT L r rr Hit HitToDealWith).1.TerminalVelocity = c.TerminalVelocity
    ∧ (ResolveExit M c TRT L r rr Hit HitToDealWith).1.Vinf = c.Vinf
    ∧ (ResolveExit M c TRT L r rr Hit HitToDealWith).1.Body.Location
        = (ResolveExit M c TRT L r rr Hit HitToDealWith).1.InitialConditions.InitialWorldLocation
    := by
  have hloc := ActorMove_Location c (HitToDealWith.Location + HitToDealWith.ImpactNormal) r
    hnull hkill
  unfold ResolveExit
  simp only []
  generalize ComputeTimeOfFlight M.sqrt
    (ActorMove c (HitToDealWith.Location + HitToDealWith.ImpactNormal) r)
    HitToDealWith.Location = F
  generalize ComputeVelocity M.sqrt
    (ActorMove c (HitToDealWith.Location + HitToDealWith.ImpactNormal) r) F = V
  simp only [SetVelocity_Velocity, Broadcast_Velocity, Broadcast_ObjectsPenetrated,
    SetVelocity_ObjectsPenetrated, ActorMove_ObjectsPenetrated]
  obtain ⟨h1, h2, h3, h4⟩ := ResetAfterLastExit_body M
    (SetObjectsPenetrated (Broadcast (Broadcast (SetVelocity
        (ActorMove c (HitToDealWith.Location + HitToDealWith.ImpactNormal) r) V)
        (FProjectileEvent.OnProjectileAnyHit HitToDealWith V))
        (FProjectileEvent.OnPenetrationExit HitToDealWith V))
      (RemoveMatchingEntries HitToDealWith c.ObjectsPenetrated.length c.ObjectsPenetrated)) Hit
  refine ⟨?_, ?_, ?_, ?_⟩
  · rw [SetInitialConditions_k, h1, SetObjectsPenetrated_k, Broadcast_k, Broadcast_k,
      SetVelocity_k, ActorMove_k]
  · rw [SetInitialConditions_TerminalVelocity, h2, SetObjectsPenetrated_TerminalVelocity,
      Broadcast_TerminalVelocity, Broadcast_TerminalVelocity, SetVelocity_TerminalVelocity,
      ActorMove_TerminalVelocity]
  · rw [SetInitialConditions_Vinf, h3, SetObjectsPenetrated_Vinf, Broadcast_Vinf,
      Broadcast_Vinf, SetVelocity_Vinf, ActorMove_Vinf]
  · rw [SetInitialConditions_Body, SetInitialConditions_InitialConditions, h4,
      SetObjectsPenetrated_Body, Broadcast_Body, Broadcast_Body, SetVelocity_Body, hloc]
    rfl

/-- A penetration entry from free medium that returns keeps the drag constants and leaves a
valid body at the start location of the record it makes active. -/
theorem ResolvePenetrate_body (M : FEngineMath ℝ) (c c' : URealisticProjectileComponent ℝ)
    (TRT L T : ℝ) (r rr : FRotator ℝ) (Hit : FHitResult ℝ)
    (hnull : c.UpdatedComponentIsNull = false) (hkill : c.Body.bOwnerPendingKill = false)
    (h : ResolvePenetrate M c TRT L r rr Hit = some (c', T)) :
    c'.k = c.k ∧ c'.TerminalVelocity = c.TerminalVelocity ∧ c'.Vinf = c.Vinf
    ∧ c'.UpdatedComponentIsNull = c.UpdatedComponentIsNull
    ∧ c'.Body.Location = c'.InitialConditions.InitialWorldLocation := by
  have hloc := ActorMove_Location c (Hit.Location - Hit.ImpactNormal) r hnull hkill
  unfold ResolvePenetrate at h
  simp only [] at h
  generalize ComputeTimeOfFlight M.sqrt (ActorMove c (Hit.Location - Hit.ImpactNormal) r)
    Hit.Location = F at h
  generalize ComputeVelocity M.sqrt (ActorMove c (Hit.Location - Hit.ImpactNormal) r) F = V at h
  split at h
  · exact absurd h (by simp)
  · rename_i d hd
    simp only [Option.some.injEq, Prod.mk.injEq] at h
    obtain ⟨hc, -⟩ := h
    subst hc
    refine ⟨?_, ?_, ?_, ?_, ?_⟩
    · rw [SetInitialConditions_k, SetCurrentPenetrationDeceleration_k, SetObjectsPenetrated_k,
        Broadcast_k, Broadcast_k, SetVelocity_k, ActorMove_k]
    · rw [SetInitialConditions_TerminalVelocity,
        SetCurrentPenetrationDeceleration_TerminalVelocity,
        SetObjectsPenetrated_TerminalVelocity, Broadcast_TerminalVelocity,
        Broadcast_TerminalVelocity, SetVelocity_TerminalVelocity, ActorMove_TerminalVelocity]
    · rw [SetInitialConditions_Vinf, SetCurrentPenetrationDeceleration_Vinf,
        SetObjectsPenetrated_Vinf, Broadcast_Vinf, Broadcast_Vinf, SetVelocity_Vinf,
        ActorMove_Vinf]
    · rw [SetInitialConditions_UpdatedComponentIsNull,
        SetCurrentPenetrationDeceleration_UpdatedComponentIsNull,
        SetObjectsPenetrated_UpdatedComponentIsNull, Broadcast_UpdatedComponentIsNull,
        Broadcast_UpdatedComponentIsNull, SetVelocity_UpdatedComponentIsNull,
        ActorMove_UpdatedComponentIsNull]
    · rw [SetInitialConditions_Body, SetInitialConditions_InitialConditions,
        SetCurrentPenetrationDeceleration_Body, SetObjectsPenetrated_Body, Broadcast_Body,
        Broadcast_Body, SetVelocity_Body, hloc]
      rfl

/-- An entry while penetrating that returns keeps the drag constants and leaves a valid body
at the start location of the record it makes active. -/
theorem ResolveEntryWhilePenetrating_body (M : FEngineMath ℝ)
    (c c' : URealisticProjectileComponent ℝ) (TRT L T : ℝ) (r rr : FRotator ℝ)
    (Hit : FHitResult ℝ)
    (hnull : c.UpdatedComponentIsNull = false) (hkill : c.Body.bOwnerPendingKill = false)
    (h : ResolveEntryWhilePenetrating M c TRT L r rr Hit = some (c', T)) :
    c'.k = c.k ∧ c'.TerminalVelocity = c.TerminalVelocity ∧ c'.Vinf = c.Vinf
    ∧ c'.UpdatedComponentIsNull = c.UpdatedComponentIsNull
    ∧ c'.Body.Location = c'.InitialConditions.InitialWorldLocation := by
  have hloc := ActorMove_Location c (Hit.Location - Hit.ImpactNormal) r hnull hkill
  unfold ResolveEntryWhilePenetrating at h
  simp only [] at h
  generalize ComputeTimeOfFlight M.sqrt (ActorMove c (Hit.Location - Hit.ImpactNormal) r)
    Hit.Location = F at h
  generalize ComputeVelocity M.sqrt (ActorMove c (Hit.Location - Hit.ImpactNormal) r) F = V at h
  split at h
  · exact absurd h (by simp)
  · rename_i d hd
    simp only [Option.some.injEq, Prod.mk.injEq] at h
    obtain ⟨hc, -⟩ := h
    subst hc
    refine ⟨?_, ?_, ?_, ?_, ?_⟩
    · rw [SetInitialConditions_k, SetCurrentPenetrationDeceleration_k, SetObjectsPenetrated_k,
        Broadcast_k, Broadcast_k, SetVelocity_k, ActorMove_k]
    · rw [SetInitialConditions_TerminalVelocity,
        SetCurrentPenetrationDeceleration_TerminalVelocity,
        SetObjectsPenetrated_TerminalVelocity, Broadcast_TerminalVelocity,
        Broadcast_TerminalVelocity, SetVelocity_TerminalVelocity, ActorMove_TerminalVelocity]
    · rw [SetInitialConditions_Vinf, SetCurrentPenetrationDeceleration_Vinf,
        SetObjectsPenetrated_Vinf, Broadcast_Vinf, Broadcast_Vinf, SetVelocity_Vinf,
        ActorMove_Vinf]
    · rw [SetInitialConditions_UpdatedComponentIsNull,
        SetCurrentPenetrationDeceleration_UpdatedComponentIsNull,
        SetObjectsPenetrated_UpdatedComponentIsNull, Broadcast_UpdatedComponentIsNull,
        Broadcast_UpdatedComponentIsNull, SetVelocity_UpdatedComponentIsNull,
        ActorMove_UpdatedComponentIsNull]
    · rw [SetInitialConditions_Body, SetInitialConditions_InitialConditions,
        SetCurrentPenetrationDeceleration_Body, SetObjectsPenetrated_Body, Broadcast_Body,
        Broadcast_Body, SetVelocity_Body, hloc]
      rfl

/-- `TryEmbed` keeps the drag constants. -/
theorem TryEmbed_body (M : FEngineMath ℝ) (c : URealisticProjectileComponent ℝ)
    (LastHit : FHitResult ℝ) (RestLocation : FVector ℝ) :
    (TryEmbed M c LastHit RestLocation).k = c.k
    ∧ (TryEmbed M c LastHit RestLocation).TerminalVelocity = c.TerminalVelocity
    ∧ (TryEmbed M c LastHit RestLocation).Vinf = c.Vinf := by
  unfold TryEmbed
  simp only []
  refine ⟨?_, ?_, ?_⟩
  · split_ifs <;>
      simp only [Broadcast_k, EmbedBody_k, ReleaseToPhysics_k, ActorMove_k, SetVelocity_k]
  · split_ifs <;>
      simp only [Broadcast_TerminalVelocity, EmbedBody_TerminalVelocity,
        ReleaseToPhysics_TerminalVelocity, ActorMove_TerminalVelocity,
        SetVelocity_TerminalVelocity]
  · split_ifs <;>
      simp only [Broadcast_Vinf, EmbedBody_Vinf, ReleaseToPhysics_Vinf, ActorMove_Vinf,
        SetVelocity_Vinf]

/-- The drag constants and the place of the body in the state a sub-step ends with, from those
of the component it passes to `UpdateComponentVelocity`. -/
theorem trajectory_of_resolved (c c' : URealisticProjectileComponent ℝ)
    (s' : FTickLoopState ℝ) (hc : s'.Component = UpdateComponentVelocity c')
    (hk : c'.k = c.k) (hTV : c'.TerminalVelocity = c.TerminalVelocity)
    (hV : c'.Vinf = c.Vinf)
    (hloc : c'.UpdatedComponentIsNull = false →
      ∃ t : ℝ, 0 ≤ t ∧ c'.Body.Location = ComputeNewLocation c c'.InitialConditions t) :
    s'.Component.k = c.k
    ∧ s'.Component.TerminalVelocity = c.TerminalVelocity
    ∧ s'.Component.Vinf = c.Vinf
    ∧ (s'.Component.UpdatedComponentIsNull = false →
        ∃ t : ℝ, 0 ≤ t ∧ s'.Component.Body.Location
          = ComputeNewLocation s'.Component s'.Component.InitialConditions t) := by
  have hk1 : (UpdateComponentVelocity c').k = c.k := by
    rw [UpdateComponentVelocity_k, hk]
  have hV1 : (UpdateComponentVelocity c').Vinf = c.Vinf := by
    rw [UpdateComponentVelocity_Vinf, hV]
  rw [hc]
  refine ⟨hk1, ?_, hV1, ?_⟩
  · rw [UpdateComponentVelocity_TerminalVelocity, hTV]
  · intro hn
    rw [UpdateComponentVelocity_UpdatedComponentIsNull] at hn
    obtain ⟨t, ht, hl⟩ := hloc hn
    refine ⟨t, ht, ?_⟩
    rw [UpdateComponentVelocity_Location, UpdateComponentVelocity_InitialConditions,
      ComputeNewLocation_congr c (UpdateComponentVelocity c') hk1 hV1]
    exact hl

/-- A sub-step that returns keeps the drag constants, and when it starts with a valid body it
ends with a body that is either released or on the trajectory of the active record: at the
record's start after a resolution, at the elapsed time after a flight. -/
theorem TickSubStep_trajectory (M : FEngineMath ℝ) (W : UWorld ℝ) (D G : ℝ)
    (s s' : FTickLoopState ℝ)
    (hnull : s.Component.UpdatedComponentIsNull = false)
    (hkill : s.Component.Body.bOwnerPendingKill = false)
    (hbody : ∃ t : ℝ, 0 ≤ t ∧ s.Component.Body.Location
      = ComputeNewLocation s.Component s.Component.InitialConditions t)
    (h : TickSubStep M W D G s = some s') :
    s'.Component.k = s.Component.k
    ∧ s'.Component.TerminalVelocity = s.Component.TerminalVelocity
    ∧ s'.Component.Vinf = s.Component.Vinf
    ∧ (s'.Component.UpdatedComponentIsNull = false →
        ∃ t : ℝ, 0 ≤ t ∧ s'.Component.Body.Location
          = ComputeNewLocation s'.Component s'.Component.InitialConditions t) := by
  unfold TickSubStep at h
  lift_lets at h
  extract_lets c Iterations TimeTick TRT Hit OldVelocity L OrigLocation bPastRest TRT2 L2
    NewLocation NewRelRot NewRot Swept Scanned c1 MoveEntryHits MoveExitHits c2 at h
  obtain ⟨e1, -, e3, e4, e5, e6, e7, e8, -⟩ := ProcessOverlaps_frame W c G L2 Swept
  change c1.InitialConditions = c.InitialConditions at e1
  change c1.ObjectsPenetrated = c.ObjectsPenetrated at e3
  change c1.k = c.k at e4
  change c1.Vinf = c.Vinf at e5
  change c1.Body = c.Body at e6
  change c1.UpdatedComponentIsNull = c.UpdatedComponentIsNull at e7
  change c1.TerminalVelocity = c.TerminalVelocity at e8
  have hL2 : L2 = c.InitialConditions.PenRestDeltaTime ∨ L2 = L := by
    show (if bPastRest = true then c.InitialConditions.PenRestDeltaTime else L)
        = c.InitialConditions.PenRestDeltaTime
      ∨ (if bPastRest = true then c.InitialConditions.PenRestDeltaTime else L) = L
    by_cases hb : bPastRest = true
    · rw [if_pos hb]
      exact Or.inl rfl
    · rw [if_neg hb]
      exact Or.inr rfl
  have hL2air : c.ObjectsPenetrated = [] → L2 = L := by
    intro hair
    show (if bPastRest = true then c.InitialConditions.PenRestDeltaTime else L) = L
    have hb : bPastRest = false := by
      show decide (c.ObjectsPenetrated.length > 0 ∧ L > c.InitialConditions.PenRestDeltaTime)
        = false
      rw [hair]
      simp
    rw [hb]
    rfl
  have hNL : NewLocation = ComputeNewLocation c c.InitialConditions L2 := rfl
  have hc2 : c2 = SetVelocity c1 (ComputeVelocity M.sqrt c1 L2) := rfl
  have hcdef : c = s.Component := rfl
  clear_value c1 c2 MoveExitHits MoveEntryHits Scanned Swept NewRot NewRelRot NewLocation
    L2 TRT2 bPastRest OrigLocation L OldVelocity Hit TRT TimeTick Iterations c
  subst hcdef
  have hnull1 : c1.UpdatedComponentIsNull = false := e7.trans hnull
  have hkill1 : c1.Body.bOwnerPendingKill = false := by
    rw [e6]
    exact hkill
  simp only [] at h
  split_ifs at h with hL hpen hhits hrest
  · rw [← Option.some.inj h]
    exact ⟨rfl, rfl, rfl, fun _ => hbody⟩
  · split at h
    · exact absurd h (by simp)
    · rename_i c' T heq
      rw [← Option.some.inj h]
      split at heq
      · exact absurd heq (by simp)
      · rename_i HitToDealWith IsEntryHit hfirst
        split_ifs at heq with hentry
        · obtain ⟨a1, a2, a3, -, a5⟩ := ResolveEntryWhilePenetrating_body M c1 c' TRT2 L2 T
            NewRot NewRelRot HitToDealWith hnull1 hkill1 heq
          refine trajectory_of_resolved s.Component c' _ rfl (a1.trans e4) (a2.trans e8)
            (a3.trans e5) (fun _ => ⟨0, le_refl _, ?_⟩)
          rw [ComputeNewLocation_zero]
          exact a5
        · have hc' : c' = (ResolveExit M c1 TRT2 L2 NewRot NewRelRot Hit HitToDealWith).1 :=
            (congrArg Prod.fst (Option.some.inj heq)).symm
          obtain ⟨a1, a2, a3, a5⟩ := ResolveExit_body M c1 TRT2 L2 NewRot NewRelRot Hit
            HitToDealWith hnull1 hkill1
          rw [← hc'] at a1 a2 a3 a5
          refine trajectory_of_resolved s.Component c' _ rfl (a1.trans e4) (a2.trans e8)
            (a3.trans e5) (fun _ => ⟨0, le_refl _, ?_⟩)
          rw [ComputeNewLocation_zero]
          exact a5
  · split at h
    · exact absurd h (by simp)
    · rename_i c' T heq
      rw [← Option.some.inj h]
      split at heq
      · exact absurd heq (by simp)
      · rename_i RestHit hhead
        obtain ⟨a1, a2, a3⟩ := TryEmbed_body M c1 RestHit NewLocation
        have hc' : c' = StopSimulating (TryEmbed M c1 RestHit NewLocation) RestHit :=
          (congrArg Prod.fst (Option.some.inj heq)).symm
        refine trajectory_of_resolved s.Component c' _ rfl ?_ ?_ ?_ ?_
        · rw [hc', StopSimulating_k, a1, e4]
        · rw [hc', StopSimulating_TerminalVelocity, a2, e8]
        · rw [hc', StopSimulating_Vinf, a3, e5]
        · intro hn
          rw [hc', StopSimulating_UpdatedComponentIsNull] at hn
          exact absurd hn (by simp)
  · rw [← Option.some.inj h]
    have hL2L : 0 ≤ L2 := by
      rcases hL2 with hp | hp
      · exfalso
        apply hrest
        rw [e1, hp, sub_self, abs_zero]
        norm_num
      · rw [hp]
        exact not_lt.mp hL
    refine trajectory_of_resolved s.Component (ActorMove c1 NewLocation NewRot) _ rfl ?_ ?_ ?_
      (fun _ => ⟨L2, hL2L, ?_⟩)
    · rw [ActorMove_k, e4]
    · rw [ActorMove_TerminalVelocity, e8]
    · rw [ActorMove_Vinf, e5]
    · rw [ActorMove_Location c1 NewLocation NewRot hnull1 hkill1, ActorMove_InitialConditions,
        e1, hNL]
  · have hair : s.Component.ObjectsPenetrated = [] := by
      rw [← e3, ← List.length_eq_zero]
      exact Nat.eq_zero_of_not_pos hpen
    have hL2L : 0 ≤ L2 := by
      rw [hL2air hair]
      exact not_lt.mp hL
    split at h
    · exact absurd h (by simp)
    · rename_i c' T heq
      rw [← Option.some.inj h]
      split at heq
      · rename_i FirstHit hhead
        split_ifs at heq with hbounce
        · have hc' : c' = (ResolveBounce M
              (SetRandStream c1 (DecideBouncePenetrate M.sqrt M.acos c1 FirstHit).2)
              TRT2 L2 NewRot NewRelRot FirstHit).1 :=
            (congrArg Prod.fst (Option.some.inj heq)).symm
          obtain ⟨a1, a2, a3, a5⟩ := ResolveBounce_body M
            (SetRandStream c1 (DecideBouncePenetrate M.sqrt M.acos c1 FirstHit).2)
            TRT2 L2 NewRot NewRelRot FirstHit
            (by rw [SetRandStream_UpdatedComponentIsNull]; exact hnull1)
            (by rw [SetRandStream_Body]; exact hkill1)
          rw [← hc'] at a1 a2 a3 a5
          rw [SetRandStream_k] at a1
          rw [SetRandStream_TerminalVelocity] at a2
          rw [SetRandStream_Vinf] at a3
          refine trajectory_of_resolved s.Component c' _ rfl (a1.trans e4) (a2.trans e8)
            (a3.trans e5) (fun _ => ⟨0, le_refl _, ?_⟩)
          rw [ComputeNewLocation_zero]
          exact a5
        · obtain ⟨a1, a2, a3, -, a5⟩ := ResolvePenetrate_body M
            (SetRandStream c1 (DecideBouncePenetrate M.sqrt M.acos c1 FirstHit).2) c'
            TRT2 L2 T NewRot NewRelRot FirstHit
            (by rw [SetRandStream_UpdatedComponentIsNull]; exact hnull1)
            (by rw [SetRandStream_Body]; exact hkill1) heq
          rw [SetRandStream_k] at a1
          rw [SetRandStream_TerminalVelocity] at a2
          rw [SetRandStream_Vinf] at a3
          refine trajectory_of_resolved s.Component c' _ rfl (a1.trans e4) (a2.trans e8)
            (a3.trans e5) (fun _ => ⟨0, le_refl _, ?_⟩)
          rw [ComputeNewLocation_zero]
          exact a5
      · have hc' : c' = ActorMove c2 NewLocation NewRot :=
          (congrArg Prod.fst (Option.some.inj heq)).symm
        refine trajectory_of_resolved s.Component c' _ rfl ?_ ?_ ?_
          (fun _ => ⟨L2, hL2L, ?_⟩)
        · rw [hc', hc2, ActorMove_k, SetVelocity_k, e4]
        · rw [hc', hc2, ActorMove_TerminalVelocity, SetVelocity_TerminalVelocity, e8]
        · rw [hc', hc2, ActorMove_Vinf, SetVelocity_Vinf, e5]
        · rw [hc', ActorMove_Location c2 NewLocation NewRot
              (by rw [hc2, SetVelocity_UpdatedComponentIsNull]; exact hnull1)
              (by rw [hc2, SetVelocity_Body]; exact hkill1),
            ActorMove_InitialConditions, hc2, SetVelocity_InitialConditions, e1, hNL]

/-- The loop of a tick never moves `t0` back: in a world whose sweeps report hits on the swept
segment, from a state that keeps the regime invariant, has positive toughness, `k > 0`, a
positive terminal velocity and a valid body on the active trajectory, the state the loop ends
with has a record that starts no earlier, and, when the active record is the last entry of a
history in time order, the history it ends with is in time order too. -/
theorem TickLoop_t0 (M : FEngineMath ℝ) (hM : M.sqrt = Real.sqrt) (W : UWorld ℝ)
    (hW : SweepOnSegment W) (D G : ℝ) :
    ∀ (n : Nat) (s s' : FTickLoopState ℝ), ToughnessPositive s.Component →
      RegimeInvariant s.Component → 0 < s.Component.k → 0 < s.Component.TerminalVelocity →
      s.Component.Vinf = ⟨0, 0, -s.Component.TerminalVelocity⟩ →
      (s.Component.UpdatedComponentIsNull = false →
        ∃ t : ℝ, 0 ≤ t ∧ s.Component.Body.Location
          = ComputeNewLocation s.Component s.Component.InitialConditions t) →
      TickLoop M W D G n s = some s' →
      s.Component.InitialConditions.t0 ≤ s'.Component.InitialConditions.t0
      ∧ (HistoryTracksActive s.Component → RecordsInTimeOrder s.Component →
          RecordsInTimeOrder s'.Component) := by
  intro n
  induction n with
  | zero =>
    intro s s' _ _ _ _ _ _ h
    have hs : s = s' := Option.some.inj h
    rw [← hs]
    exact ⟨le_refl _, fun _ ho => ho⟩
  | succ n ih =>
    intro s s' ht hinv hk hTV hV hbody h
    unfold TickLoop at h
    split_ifs at h with hc
    · rcases Option.eq_none_or_eq_some (TickSubStep M W D G s) with hn | ⟨s1, h1⟩
      · rw [hn] at h
        exact absurd h (by simp)
      · rw [h1] at h
        simp only [TickLoopCondition, HasStoppedSimulation, Bool.and_eq_true,
          decide_eq_true_eq, Bool.not_eq_true'] at hc
        obtain ⟨⟨⟨-, hkill⟩, hnull⟩, -⟩ := hc
        obtain ⟨hinv1, hT1, hP1⟩ := TickSubStep_regime M W D G s s1 ht hinv h1
        have ht1 : ToughnessPositive s1.Component :=
          ToughnessPositive_of_same s.Component s1.Component hT1 hP1 ht
        obtain ⟨b1, b2, b3, b4⟩ := TickSubStep_trajectory M W D G s s1 hnull hkill
          (hbody hnull) h1
        have hstep : s.Component.InitialConditions.t0 ≤ s1.Component.InitialConditions.t0 :=
          TickSubStep_t0_nondecreasing M hM W D G s s1 hW hinv hk hTV hV (hbody hnull) h1
        have hord : HistoryTracksActive s.Component → RecordsInTimeOrder s.Component →
            HistoryTracksActive s1.Component ∧ RecordsInTimeOrder s1.Component := by
          intro hta ho
          obtain ⟨-, -, hrec⟩ := TickSubStep_records M W D G s s1 h1
          rcases hrec with ⟨a1, a2⟩ | ⟨a1, -⟩
          · unfold HistoryTracksActive RecordsInTimeOrder at *
            rw [a1, a2]
            exact ⟨hta, ho⟩
          · refine ⟨HistoryTracksActive_of_append _ _ a1, ?_⟩
            unfold HistoryTracksActive at hta
            unfold RecordsInTimeOrder at ho ⊢
            rw [a1]
            refine List.Chain'.append ho (List.chain'_singleton _) ?_
            intro x hx y hy
            rw [hta] at hx
            have hx1 : s.Component.InitialConditions = x := Option.some.inj hx
            have hy1 : s1.Component.InitialConditions = y := by
              simpa using hy
            rw [← hx1, ← hy1]
            exact hstep
        have hk1 : 0 < s1.Component.k := by
          rw [b1]
          exact hk
        have hTV1 : 0 < s1.Component.TerminalVelocity := by
          rw [b2]
          exact hTV
        have hV1 : s1.Component.Vinf = ⟨0, 0, -s1.Component.TerminalVelocity⟩ := by
          rw [b3, b2]
          exact hV
        simp only [] at h
        split_ifs at h with hr
        · have hs : s1 = s' := Option.some.inj h
          rw [← hs]
          exact ⟨hstep, fun hta ho => (hord hta ho).2⟩
        · obtain ⟨c1, c2⟩ := ih s1 s' ht1 hinv1 hk1 hTV1 hV1 b4 h
          exact ⟨le_trans hstep c1, fun hta ho => c2 (hord hta ho).1 (hord hta ho).2⟩
    · have hs : s = s' := Option.some.inj h
      rw [← hs]
      exact ⟨le_refl _, fun _ ho => ho⟩

/-- A tick never moves `t0` back: in a world whose sweeps report hits on the swept segment, with
gravity pointing down, a positive terminal velocity and positive toughness, for a component
that keeps the regime invariant and whose body is on the active trajectory, the record the tick
ends with starts no earlier than the record it began with, and a history in time order whose
last entry is the active record stays in time order. -/
theorem TickComponent_t0 (M : FEngineMath ℝ) (hM : M.sqrt = Real.sqrt) (W : UWorld ℝ)
    (hW : SweepOnSegment W) (D G : ℝ) (c : URealisticProjectileComponent ℝ)
    (s' : FTickLoopState ℝ) (ht : ToughnessPositive c) (hinv : RegimeInvariant c)
    (hg : c.GetGravityZ < 0) (hTV : 0 < c.TerminalVelocity)
    (hbody : ∃ t : ℝ, 0 ≤ t ∧ c.Body.Location
      = ComputeNewLocation c.SetTickConstants c.InitialConditions t)
    (h : TickComponent M W D G c = some s') :
    c.InitialConditions.t0 ≤ s'.Component.InitialConditions.t0
    ∧ (HistoryTracksActive c → RecordsInTimeOrder c → RecordsInTimeOrder s'.Component) := by
  unfold TickComponent at h
  split_ifs at h with h1 h2
  · rw [← Option.some.inj h]
    exact ⟨le_refl _, fun _ ho => ho⟩
  · rw [← Option.some.inj h]
    exact ⟨le_refl _, fun _ ho => ho⟩
  · have hk : 0 < c.SetTickConstants.k := by
      rw [SetTickConstants_k]
      exact div_pos (mul_pos (by norm_num) (neg_pos.mpr hg)) hTV
    exact TickLoop_t0 M hM W hW D G 500 ⟨c.SetTickConstants, D, 0, false⟩ s'
      (ToughnessPositive_of_same c c.SetTickConstants rfl rfl ht)
      (RegimeInvariant_of_same c c.SetTickConstants rfl rfl rfl hinv) hk hTV rfl
      (fun _ => hbody) h

/-- C26 (amended): `t0` is non-decreasing. Every record a resolution makes active starts at the
old `t0` plus `ComputeTimeOfFlight` of the hit location, and that flight time is not negative
(a) in
free medium, with `k > 0`, a positive terminal velocity and a free-medium record, for a hit
location on the segment between two points of the active trajectory (what a sweep from the
body's location to the new location reports), and (b) inside a solid with a negative current
deceleration, for every hit location. In both cases the `t0` of the record made active by a
bounce, an exit, or an entry that returns is at least the `t0` of the record it replaces.
For a whole tick: in a world whose sweeps report their hits on the swept segment, with gravity
pointing down, a positive terminal velocity, positive toughness, the regime invariant and the
body on the active trajectory, the record the tick ends with starts no earlier than the record
it began with, and a history in time order whose last entry is the active record stays in time
order. -/
theorem C26_t0_is_non_decreasing (M : FEngineMath ℝ) (hM : M.sqrt = Real.sqrt)
    (c : URealisticProjectileComponent ℝ) (TRT L : ℝ) (r rr : FRotator ℝ)
    (Hit HitToDealWith : FHitResult ℝ)
    (hflight :
      (c.ObjectsPenetrated = [] ∧ 0 < c.k ∧ 0 < c.TerminalVelocity
        ∧ c.Vinf = ⟨0, 0, -c.TerminalVelocity⟩ ∧ 0 < c.InitialConditions.PenDeceleration
        ∧ ∃ t1 t2 w : ℝ, 0 ≤ t1 ∧ 0 ≤ t2 ∧ 0 ≤ w ∧ w ≤ 1
          ∧ HitToDealWith.Location
            = ComputeNewLocation c c.InitialConditions t1
              + w • (ComputeNewLocation c c.InitialConditions t2
                - ComputeNewLocation c c.InitialConditions t1))
      ∨ (c.ObjectsPenetrated ≠ [] ∧ c.CurrentPenetrationDeceleration < 0)) :
    0 ≤ ComputeTimeOfFlight M.sqrt c HitToDealWith.Location
    ∧ (ResolveBounce M c TRT L r rr HitToDealWith).1.InitialConditions.t0
        = c.InitialConditions.t0 + ComputeTimeOfFlight M.sqrt c HitToDealWith.Location
    ∧ c.InitialConditions.t0
        ≤ (ResolveBounce M c TRT L r rr HitToDealWith).1.InitialConditions.t0
    ∧ c.InitialConditions.t0
        ≤ (ResolveExit M c TRT L r rr Hit HitToDealWith).1.InitialConditions.t0
    ∧ (∀ c' T, ResolvePenetrate M c TRT L r rr HitToDealWith = some (c', T) →
        c.InitialConditions.t0 ≤ c'.InitialConditions.t0)
    ∧ (∀ c' T, ResolveEntryWhilePenetrating M c TRT L r rr HitToDealWith = some (c', T) →
        c.InitialConditions.t0 ≤ c'.InitialConditions.t0)
    ∧ (∀ (W : UWorld ℝ) (D G : ℝ) (c0 : URealisticProjectileComponent ℝ)
        (s' : FTickLoopState ℝ),
        SweepOnSegment W → ToughnessPositive c0 → RegimeInvariant c0 →
        c0.GetGravityZ < 0 → 0 < c0.TerminalVelocity →
        (∃ t : ℝ, 0 ≤ t ∧ c0.Body.Location
          = ComputeNewLocation c0.SetTickConstants c0.InitialConditions t) →
        TickComponent M W D G c0 = some s' →
        c0.InitialConditions.t0 ≤ s'.Component.InitialConditions.t0
        ∧ (HistoryTracksActive c0 → RecordsInTimeOrder c0 →
            RecordsInTimeOrder s'.Component)) := by
  have hT : 0 ≤ ComputeTimeOfFlight M.sqrt c HitToDealWith.Location := by
    rw [hM]
    rcases hflight with ⟨hair, hk, hTV, hVinf, hpen, t1, t2, w, h1, h2, hw0, hw1, hloc⟩
      | ⟨hsolid, ha⟩
    · rw [hloc]
      exact ComputeTimeOfFlight_air_nonneg c hair hk hTV hVinf hpen t1 t2 w h1 h2 hw0 hw1
    · exact ComputeTimeOfFlight_solid_nonneg c HitToDealWith.Location hsolid ha
  have hB := (ResolveBounce_history M c TRT L r rr HitToDealWith).2.2
  have hE := (ResolveExit_history M c TRT L r rr Hit HitToDealWith).2.2
  refine ⟨hT, hB, ?_, ?_, ?_, ?_, ?_⟩
  · rw [hB]
    linarith
  · rw [hE]
    linarith
  · intro c' T h
    rw [(ResolvePenetrate_history M c c' TRT L T r rr HitToDealWith h).2.2]
    linarith
  · intro c' T h
    rw [(ResolveEntryWhilePenetrating_history M c c' TRT L T r rr HitToDealWith h).2.2]
    linarith
  · intro W D G c0 s' hW ht hinv hg hTV hbody h
    exact TickComponent_t0 M hM W hW D G c0 s' ht hinv hg hTV hbody h

/-- C26 at a concrete input: Scenario A bounces off a hit at the middle of the segment from the
launch point to the point the trajectory reaches after 1/10 s; the new record does not start
before the old one. -/
theorem C26_witness :
    (ScenarioA Real.sqrt).InitialConditions.t0
      ≤ (ResolveBounce ⟨Real.sqrt, Real.arccos, fun _ => ⟨0, 0, 0⟩, fun _ v => v⟩
          (ScenarioA Real.sqrt) 0 (1 / 10) ⟨0, 0, 0⟩ ⟨0, 0, 0⟩
          (HitAt (ComputeNewLocation (ScenarioA Real.sqrt)
              (ScenarioA Real.sqrt).InitialConditions 0
            + (1 / 2 : ℝ) • (ComputeNewLocation (ScenarioA Real.sqrt)
                (ScenarioA Real.sqrt).InitialConditions (1 / 10)
              - ComputeNewLocation (ScenarioA Real.sqrt)
                (ScenarioA Real.sqrt).InitialConditions 0)) 1)).1.InitialConditions.t0 := by
  obtain ⟨f1, f2, f3, f4, -, f6, -, -⟩ := Launched_tick_facts ⟨5000, 0, 0⟩
  exact (C26_t0_is_non_decreasing ⟨Real.sqrt, Real.arccos, fun _ => ⟨0, 0, 0⟩, fun _ v => v⟩
    rfl (ScenarioA Real.sqrt) 0 (1 / 10) ⟨0, 0, 0⟩ ⟨0, 0, 0⟩ (FHitResult.Init 1)
    (HitAt _ 1)
    (Or.inl ⟨f1, by
        show 0 < ((Launched Real.sqrt ⟨5000, 0, 0⟩ ⟨0, 0, 0⟩ 0).SetTickConstants).k
        rw [f3]
        norm_num,
      by
        show 0 < ((Launched Real.sqrt ⟨5000, 0, 0⟩ ⟨0, 0, 0⟩ 0).SetTickConstants).TerminalVelocity
        rw [f4]
        norm_num,
      by
        show ((Launched Real.sqrt ⟨5000, 0, 0⟩ ⟨0, 0, 0⟩ 0).SetTickConstants).Vinf
          = ⟨0, 0, -((Launched Real.sqrt ⟨5000, 0, 0⟩ ⟨0, 0, 0⟩
              0).SetTickConstants).TerminalVelocity⟩
        rw [f6, f4],
      by
        show 0 < ((Launched Real.sqrt ⟨5000, 0, 0⟩ ⟨0, 0, 0⟩
          0).SetTickConstants).InitialConditions.PenDeceleration
        rw [f2]
        norm_num,
      0, 1 / 10, 1 / 2, le_refl _, by norm_num, by norm_num, by norm_num, rfl⟩)).2.2.1

/-- A sub-step whose elapsed time is negative returns at once with the component as it was. -/
theorem TickSubStep_negative (M : FEngineMath ℝ) (W : UWorld ℝ) (D G : ℝ)
    (s : FTickLoopState ℝ)
    (hneg : LaunchDeltaTimeOf s.Component D G (s.TickRemainingTime - D) < 0) :
    TickSubStep M W D G s
      = some ⟨s.Component, s.TickRemainingTime - D, s.Iterations + 1, true⟩ := by
  unfold TickSubStep
  simp only []
  rw [if_pos hneg]

/-- C27: negative elapsed time aborts the tick. If the elapsed time a sub-step computes,
`(GameTime + DeltaTime - TickRemainingTime) - t0`, is negative, the sub-step returns at once with
the component exactly as it was (so `Velocity`, the active record, the history, the stack, the
overlap set, the body and the events are unchanged), the loop returns that state without
another sub-step, and a tick whose first sub-step is in that case returns the component with
only the two tick constants set. -/
theorem C27_negative_elapsed_time_aborts (M : FEngineMath ℝ) (W : UWorld ℝ) (D G : ℝ)
    (s : FTickLoopState ℝ)
    (hneg : LaunchDeltaTimeOf s.Component D G (s.TickRemainingTime - D) < 0) :
    (∃ s', TickSubStep M W D G s = some s'
      ∧ s'.bReturned = true
      ∧ s'.Component = s.Component
      ∧ s'.Component.Velocity = s.Component.Velocity
      ∧ s'.Component.InitialConditions = s.Component.InitialConditions
      ∧ s'.Component.InitialConditionHistory = s.Component.InitialConditionHistory
      ∧ s'.Component.ObjectsPenetrated = s.Component.ObjectsPenetrated
      ∧ s'.Component.OverlappedComponents = s.Component.OverlappedComponents
      ∧ s'.Component.Body = s.Component.Body
      ∧ s'.Component.Events = s.Component.Events
      ∧ (TickLoopCondition s = true →
          ∀ Fuel, TickLoop M W D G (Fuel + 1) s = some s'))
    ∧ (∀ c : URealisticProjectileComponent ℝ, s = ⟨c.SetTickConstants, D, 0, false⟩ →
        c.UpdatedComponentIsNull = false → c.Body.bSimulatePhysics = false →
        c.Body.bOwnerPendingKill = false → 0 < D →
        TickComponent M W D G c = some ⟨c.SetTickConstants, D - D, 1, true⟩) := by
  have hstep := TickSubStep_negative M W D G s hneg
  have hloop : TickLoopCondition s = true → ∀ Fuel, TickLoop M W D G (Fuel + 1) s
      = some ⟨s.Component, s.TickRemainingTime - D, s.Iterations + 1, true⟩ := by
    intro hc Fuel
    rw [TickLoop, if_pos hc, hstep]
    rfl
  refine ⟨⟨_, hstep, rfl, rfl, rfl, rfl, rfl, rfl, rfl, rfl, rfl, hloop⟩, ?_⟩
  intro c hs hvalid hphys hkill hD
  have hcond : TickLoopCondition s = true := by
    rw [hs]
    exact TickLoopCondition_true _ hD hkill hvalid (by norm_num)
  unfold TickComponent
  rw [if_neg (by simp [HasStoppedSimulation, hvalid]), if_neg (by simp [hphys]), ← hs,
    hloop hcond 499, hs]

/-- C27 at a concrete input: a projectile whose record starts at game time 10 is ticked at
game time 0 with a frame time of 1/10 s; the elapsed time `0 + 1/10 - 0 - 10` is negative and
the tick returns after one iteration with the component unchanged but for the tick
constants. -/
theorem C27_witness :
    TickComponent ⟨Real.sqrt, Real.arccos, fun _ => ⟨0, 0, 0⟩, fun _ v => v⟩ OpenWorld (1 / 10) 0
        (Launched Real.sqrt ⟨900, 0, 0⟩ ⟨0, 0, 0⟩ 10)
      = some ⟨(Launched Real.sqrt ⟨900, 0, 0⟩ ⟨0, 0, 0⟩ 10).SetTickConstants,
          1 / 10 - 1 / 10, 1, true⟩ :=
  (C27_negative_elapsed_time_aborts
    ⟨Real.sqrt, Real.arccos, fun _ => ⟨0, 0, 0⟩, fun _ v => v⟩ OpenWorld (1 / 10) 0
    ⟨(Launched Real.sqrt ⟨900, 0, 0⟩ ⟨0, 0, 0⟩ 10).SetTickConstants, 1 / 10, 0, false⟩
    (by
      show (0 + 1 / 10 - (1 / 10 - 1 / 10)) - (10 : ℝ) < 0
      norm_num)).2
    (Launched Real.sqrt ⟨900, 0, 0⟩ ⟨0, 0, 0⟩ 10) rfl rfl rfl rfl (by norm_num)

/-- C28: iteration cap. Every sub-step that returns counts one iteration and appends at most
one record (it resolves at most one hit); a tick that returns ends with at most 500
iterations, and with at most one new record per iteration; and the 500 units of fuel the model
gives the loop do not bind: with any amount of extra fuel the loop, started as `TickComponent`
starts it, gives the same result, so the loop never runs a 501st sub-step, whatever the sweeps
report and whatever time the resolutions add back. -/
theorem C28_iteration_cap (M : FEngineMath ℝ) (W : UWorld ℝ) (D G : ℝ) :
    (∀ s s' : FTickLoopState ℝ, TickSubStep M W D G s = some s' →
      s'.Iterations = s.Iterations + 1
      ∧ s'.Component.InitialConditionHistory.length
          ≤ s.Component.InitialConditionHistory.length + 1)
    ∧ (∀ (c : URealisticProjectileComponent ℝ) (s' : FTickLoopState ℝ),
        TickComponent M W D G c = some s' →
        s'.Iterations ≤ 500
        ∧ s'.Component.InitialConditionHistory.length
            ≤ c.InitialConditionHistory.length + s'.Iterations)
    ∧ (∀ (c : URealisticProjectileComponent ℝ) (Extra : Nat),
        TickLoop M W D G (500 + Extra) ⟨c.SetTickConstants, D, 0, false⟩
          = TickLoop M W D G 500 ⟨c.SetTickConstants, D, 0, false⟩)
    ∧ (∀ s : FTickLoopState ℝ, 500 ≤ s.Iterations → ∀ Fuel, TickLoop M W D G Fuel s = some s)
    := by
  refine ⟨?_, ?_, ?_, ?_⟩
  · intro s s' h
    obtain ⟨hIt, -, hrec⟩ := TickSubStep_records M W D G s s' h
    refine ⟨hIt, ?_⟩
    rcases hrec with ⟨-, a2⟩ | ⟨a1, -⟩
    · rw [a2]
      omega
    · rw [a1, List.length_append, List.length_singleton]
  · intro c s' h
    obtain ⟨-, -, -, b4, b5⟩ := TickComponent_records M W D G c s' h
    exact ⟨b4, b5⟩
  · intro c Extra
    exact TickLoop_fuel M W D G Extra 500 ⟨c.SetTickConstants, D, 0, false⟩ (by simp)
  · intro s hs Fuel
    have h := TickLoop_fuel M W D G Fuel 0 s (by omega)
    rw [Nat.zero_add] at h
    rw [h]
    rfl

/-- C28 at a concrete input: the tick of the horizontal shot in a world without obstacles
returns after one iteration, within the cap. -/
theorem C28_witness :
    ∃ s, TickComponent ⟨Real.sqrt, Real.arccos, fun _ => ⟨0, 0, 0⟩, fun _ v => v⟩ OpenWorld
          (1 / 100) 0 (WallShot Real.sqrt) = some s
      ∧ s.Iterations = 1 ∧ s.Iterations ≤ 500 := by
  obtain ⟨s, hs, hI, -⟩ := TickComponent_unblocked
    ⟨Real.sqrt, Real.arccos, fun _ => ⟨0, 0, 0⟩, fun _ v => v⟩ OpenWorld (1 / 100) 0
    (WallShot Real.sqrt) (by norm_num) (le_refl _) rfl rfl rfl rfl
    (fun _ _ _ h hh => by simp [OpenWorld] at hh)
  exact ⟨s, hs, hI, ((C28_iteration_cap
    ⟨Real.sqrt, Real.arccos, fun _ => ⟨0, 0, 0⟩, fun _ v => v⟩ OpenWorld (1 / 100) 0).2.1
    (WallShot Real.sqrt) s hs).1⟩

/-- C29: the time slice of a sub-step is the frame time, not floored. `GetSimulationTimeStep`
returns `max(MIN_TICK_TIME, RemainingTime)`, which is at least `MIN_TICK_TIME`, but the
sub-step does not call it: a sub-step in free medium that meets no blocking hit takes exactly
`DeltaTime` off the remaining time and moves the body to the location at the elapsed time
`GameTime + DeltaTime - TickRemainingTime - t0`, so with `DeltaTime < MIN_TICK_TIME` the slice
is below the minimum. -/
theorem C29_time_slice_is_frame_time_not_floored (M : FEngineMath ℝ) (W : UWorld ℝ) (D G : ℝ)
    (s : FTickLoopState ℝ)
    (hL : 0 ≤ LaunchDeltaTimeOf s.Component D G (s.TickRemainingTime - D))
    (hair : s.Component.ObjectsPenetrated = [])
    (hvalid : s.Component.UpdatedComponentIsNull = false)
    (hkill : s.Component.Body.bOwnerPendingKill = false)
    (hsweep : ∀ Start End Rot, ∀ h ∈ W.ComponentSweepMulti Start End Rot,
      (W.GetCollisionResponseToComponent h.Component).rank < ECollisionResponse.ECR_Block.rank
        ∨ h.bStartPenetrating = true) :
    (∀ (RemainingTime : ℝ) (Iterations : Nat),
      GetSimulationTimeStep RemainingTime Iterations = max MIN_TICK_TIME RemainingTime
      ∧ MIN_TICK_TIME ≤ GetSimulationTimeStep RemainingTime Iterations)
    ∧ ∃ s', TickSubStep M W D G s = some s'
      ∧ s.TickRemainingTime - s'.TickRemainingTime = D
      ∧ (D < MIN_TICK_TIME → s.TickRemainingTime - s'.TickRemainingTime < MIN_TICK_TIME)
      ∧ s'.Component.Body.Location = ComputeNewLocation s.Component
          s.Component.InitialConditions
          ((G + D - (s.TickRemainingTime - D)) - s.Component.InitialConditions.t0) := by
  refine ⟨fun r i => ⟨rfl, le_max_left _ _⟩, ?_⟩
  obtain ⟨s', hs', hT, -, -, -, -, -, -, -, -, -, -, -, -, -, -, hloc⟩ :=
    TickSubStep_unblocked M W D G s hL hair hvalid hkill hsweep
  refine ⟨s', hs', ?_, ?_, hloc⟩
  · rw [hT]
    ring
  · intro hD
    rw [hT]
    linarith

/-- C29 at a concrete input: the horizontal shot ticked with a frame time of 1/10000 s in a
world without obstacles: the sub-step uses a slice of 0.0001 s, half of `MIN_TICK_TIME`. -/
theorem C29_witness :
    ∃ s', TickSubStep ⟨Real.sqrt, Real.arccos, fun _ => ⟨0, 0, 0⟩, fun _ v => v⟩ OpenWorld
          (1 / 10000) 0 ⟨(WallShot Real.sqrt).SetTickConstants, 1 / 10000, 0, false⟩ = some s'
      ∧ 1 / 10000 - s'.TickRemainingTime = 1 / 10000
      ∧ 1 / 10000 - s'.TickRemainingTime < (MIN_TICK_TIME : ℝ)
      ∧ (GetSimulationTimeStep (1 / 10000) 0 : ℝ) = 1 / 5000 := by
  obtain ⟨-, s', hs', h1, h2, -⟩ := C29_time_slice_is_frame_time_not_floored
    ⟨Real.sqrt, Real.arccos, fun _ => ⟨0, 0, 0⟩, fun _ v => v⟩ OpenWorld (1 / 10000) 0
    ⟨(WallShot Real.sqrt).SetTickConstants, 1 / 10000, 0, false⟩
    (by
      show (0 : ℝ) ≤ (0 + 1 / 10000 - (1 / 10000 - 1 / 10000)) - 0
      norm_num)
    rfl rfl rfl (fun _ _ _ h hh => by simp [OpenWorld] at hh)
  refine ⟨s', hs', h1, h2 (by unfold MIN_TICK_TIME; norm_num), ?_⟩
  unfold GetSimulationTimeStep MIN_TICK_TIME
  norm_num

/-- C30: bounce response. On a bounce in free medium off a hit with unit impact normal `n`,
with `v` the impact velocity `ComputeVelocity(FlightTime)`: the velocity `ResolveBounce` ends
with is `AdjustDirection` (the random perturbation) applied to `BounceResponse Bounciness v n`;
the tangential component of that velocity is `v - (v.n) n`, unchanged, and its normal component
is `-Bounciness * (v.n) n`; and the result does not depend on `Friction`. -/
theorem C30_bounce_response (M : FEngineMath ℝ) (c : URealisticProjectileComponent ℝ)
    (TRT L : ℝ) (r rr : FRotator ℝ) (Hit : FHitResult ℝ)
    (hair : c.ObjectsPenetrated = [])
    (hunit : FVector.DotProduct Hit.ImpactNormal Hit.ImpactNormal = 1) :
    (ResolveBounce M c TRT L r rr Hit).1.Velocity
        = (AdjustDirection M
            (SetVelocity c (BounceResponse c.Bounciness
              (ComputeVelocity M.sqrt c (ComputeTimeOfFlight M.sqrt c Hit.Location))
              Hit.ImpactNormal))
            (BounceResponse c.Bounciness
              (ComputeVelocity M.sqrt c (ComputeTimeOfFlight M.sqrt c Hit.Location))
              Hit.ImpactNormal)
            Hit.ImpactNormal).1
    ∧ (∀ v : FVector ℝ,
        BounceResponse c.Bounciness v Hit.ImpactNormal
            - (FVector.DotProduct (BounceResponse c.Bounciness v Hit.ImpactNormal)
                Hit.ImpactNormal) • Hit.ImpactNormal
          = v - (FVector.DotProduct v Hit.ImpactNormal) • Hit.ImpactNormal)
    ∧ (∀ v : FVector ℝ,
        (FVector.DotProduct (BounceResponse c.Bounciness v Hit.ImpactNormal)
            Hit.ImpactNormal) • Hit.ImpactNormal
          = (-c.Bounciness * FVector.DotProduct v Hit.ImpactNormal) • Hit.ImpactNormal)
    ∧ (∀ f : ℝ,
        (ResolveBounce M { c with Friction := f } TRT L r rr Hit).1.Velocity
          = (ResolveBounce M c TRT L r rr Hit).1.Velocity) := by
  have hdot : ∀ v : FVector ℝ,
      FVector.DotProduct (BounceResponse c.Bounciness v Hit.ImpactNormal) Hit.ImpactNormal
        = -c.Bounciness * FVector.DotProduct v Hit.ImpactNormal := by
    intro v
    have h1 : Hit.ImpactNormal.X * Hit.ImpactNormal.X + Hit.ImpactNormal.Y * Hit.ImpactNormal.Y
        + Hit.ImpactNormal.Z * Hit.ImpactNormal.Z = 1 := hunit
    unfold BounceResponse FVector.DotProduct
    simp only [FVector.sub_X, FVector.sub_Y, FVector.sub_Z, FVector.smul_X, FVector.smul_Y,
      FVector.smul_Z]
    linear_combination
      (-(c.Bounciness * (v.X * Hit.ImpactNormal.X + v.Y * Hit.ImpactNormal.Y
          + v.Z * Hit.ImpactNormal.Z))
        - (v.X * Hit.ImpactNormal.X + v.Y * Hit.ImpactNormal.Y
          + v.Z * Hit.ImpactNormal.Z)) * h1
  refine ⟨?_, ?_, ?_, ?_⟩
  · rw [ResolveBounce_Velocity M c TRT L r rr Hit hair]
    rfl
  · intro v
    rw [hdot]
    unfold BounceResponse
    ext
    · simp only [FVector.sub_X, FVector.smul_X]
      ring
    · simp only [FVector.sub_Y, FVector.smul_Y]
      ring
    · simp only [FVector.sub_Z, FVector.smul_Z]
      ring
  · intro v
    rw [hdot]
  · intro f
    have hair' : ({ c with Friction := f } : URealisticProjectileComponent ℝ).ObjectsPenetrated
        = [] := hair
    rw [ResolveBounce_Velocity M c TRT L r rr Hit hair,
      ResolveBounce_Velocity M { c with Friction := f } TRT L r rr Hit hair']
    have hF : ComputeTimeOfFlight M.sqrt { c with Friction := f } Hit.Location
        = ComputeTimeOfFlight M.sqrt c Hit.Location :=
      ComputeTimeOfFlight_congr M.sqrt c { c with Friction := f } rfl rfl rfl rfl rfl rfl
        Hit.Location
    have hV : ∀ t, ComputeVelocity M.sqrt { c with Friction := f } t
        = ComputeVelocity M.sqrt c t :=
      fun t => ComputeVelocity_air_congr M.sqrt c { c with Friction := f } rfl hair hair
        rfl rfl t
    unfold BounceVelocity
    simp only [hF, hV]
    generalize ComputeVelocity M.sqrt c (ComputeTimeOfFlight M.sqrt c Hit.Location) = V
    have hB : ({ c with Friction := f } : URealisticProjectileComponent ℝ).Bounciness
        = c.Bounciness := rfl
    rw [hB]
    refine congrArg Prod.fst (AdjustDirection_congr M _ _ ?_ ?_ _ _)
    · simp only [SetVelocity_Velocity]
    · simp only [SetVelocity_RandStream]

/-- C30 at a concrete input: the horizontal shot bounces off the wall with normal
`(-1, 0, 0)`; for the impact velocity `(800, 0, -40)` the response `(-480, 0, -40)` keeps the
tangential part `(0, 0, -40)` and reverses the normal part scaled by the bounciness 0.6. -/
theorem C30_witness :
    BounceResponse (WallShot Real.sqrt).Bounciness ⟨800, 0, -40⟩
        (HitAt WallLocation 1 : FHitResult ℝ).ImpactNormal
      - (FVector.DotProduct (BounceResponse (WallShot Real.sqrt).Bounciness ⟨800, 0, -40⟩
          (HitAt WallLocation 1 : FHitResult ℝ).ImpactNormal)
          (HitAt WallLocation 1 : FHitResult ℝ).ImpactNormal)
        • (HitAt WallLocation 1 : FHitResult ℝ).ImpactNormal
      = ⟨0, 0, -40⟩
    ∧ BounceResponse (WallShot Real.sqrt).Bounciness ⟨800, 0, -40⟩
        (HitAt WallLocation 1 : FHitResult ℝ).ImpactNormal = ⟨-480, 0, -40⟩ := by
  have h := (C30_bounce_response ⟨Real.sqrt, Real.arccos, fun _ => ⟨0, 0, 0⟩, fun _ v => v⟩
    (WallShot Real.sqrt) 0 (1 / 10) ⟨0, 0, 0⟩ ⟨0, 0, 0⟩ (HitAt WallLocation 1) rfl
    (by simp [HitAt, FVector.DotProduct])).2.1 ⟨800, 0, -40⟩
  refine ⟨?_, ?_⟩
  · rw [h]
    ext <;> simp [HitAt, FVector.DotProduct, FVector.sub_X, FVector.sub_Y, FVector.sub_Z,
      FVector.smul_X, FVector.smul_Y, FVector.smul_Z]
  · have hB : (WallShot Real.sqrt).Bounciness = 0.6 := rfl
    rw [hB]
    unfold BounceResponse
    ext <;> norm_num [HitAt, FVector.DotProduct, FVector.sub_X, FVector.sub_Y, FVector.sub_Z,
      FVector.smul_X, FVector.smul_Y, FVector.smul_Z]

end URealisticProjectileComponent

/-! ## Penetration chance, entry records, horizontal round trip, direction adjustment and the velocity as a derivative -/

namespace URealisticProjectileComponent

section Probability

variable {α : Type} [LinearOrderedField α]

/-- `FMath::Clamp(X, 0, 1)` lies between 0 and 1. -/
theorem Clamp_unit (X : α) : 0 ≤ FMath.Clamp X 0 1 ∧ FMath.Clamp X 0 1 ≤ 1 := by
  unfold FMath.Clamp
  split_ifs with h1 h2
  · exact ⟨le_refl _, zero_le_one⟩
  · exact ⟨not_lt.mp h1, h2.le⟩
  · exact ⟨zero_le_one, le_refl _⟩

/-- A sample of `FRand` lies in `[0, 1)`. -/
theorem FRand_range (s : FRandomStream) :
    0 ≤ (s.FRand : α × FRandomStream).1 ∧ (s.FRand : α × FRandomStream).1 < 1 := by
  unfold FRandomStream.FRand
  simp only []
  have h8 : (0 : α) < 8388608 := by norm_num
  constructor
  · exact div_nonneg (Nat.cast_nonneg _) h8.le
  · rw [div_lt_one h8]
    have h : s.MutateSeed.Seed % 8388608 < 8388608 := Nat.mod_lt _ (by norm_num)
    exact_mod_cast h

/-- The penetration probability is the product of the angle multiplier and the velocity
multiplier, the latter mapped from speed over `HitToughness`. -/
theorem ChanceOfPenetration_eq (sqrt acos : α → α) (c : URealisticProjectileComponent α)
    (Hit : FHitResult α) :
    ChanceOfPenetration sqrt acos c Hit
      = FMath.GetMappedRangeValueClamped 0.3 1.27 1.0 0
          (acos (FVector.DotProduct (FVector.GetSafeNormal sqrt c.Velocity)
            ((-1 : α) • Hit.ImpactNormal)))
        * FMath.GetMappedRangeValueClamped 0.1 1.0 0.0 1
            (FVector.Size sqrt c.Velocity / HitToughness c Hit) := rfl

/-- C31: low speed-to-toughness ratio gives no chance of penetration. In bounce-and-penetrate
mode with toughness `> 0`, whatever `acosf` returns for the impact angle: the penetration
probability lies in `[0, 1]`; the sample drawn lies in `[0, 1)`; and whenever
speed / toughness `<= 0.1` (which holds when speed `<= 0.1 * toughness`) the probability is 0
and `DecideBouncePenetrate` returns bounce (`true`), with the stream advanced by the one
sample. -/
theorem C31_low_ratio_gives_no_chance_of_penetration (sqrt acos : α → α)
    (c : URealisticProjectileComponent α) (Hit : FHitResult α)
    (hmode : c.ProjectileBehavior = EProjectileBehavior.PB_Bounce_And_Penetrate)
    (htough : 0 < HitToughness c Hit) :
    0 ≤ ChanceOfPenetration sqrt acos c Hit
    ∧ ChanceOfPenetration sqrt acos c Hit ≤ 1
    ∧ 0 ≤ (c.RandStream.FRand : α × FRandomStream).1
    ∧ (c.RandStream.FRand : α × FRandomStream).1 < 1
    ∧ (FVector.Size sqrt c.Velocity ≤ 0.1 * HitToughness c Hit →
        FVector.Size sqrt c.Velocity / HitToughness c Hit ≤ 0.1)
    ∧ (FVector.Size sqrt c.Velocity / HitToughness c Hit ≤ 0.1 →
        ChanceOfPenetration sqrt acos c Hit = 0
        ∧ DecideBouncePenetrate sqrt acos c Hit
            = (true, (c.RandStream.FRand : α × FRandomStream).2)) := by
  have hs : 0 ≤ (c.RandStream.FRand : α × FRandomStream).1
      ∧ (c.RandStream.FRand : α × FRandomStream).1 < 1 := FRand_range c.RandStream
  obtain ⟨hs0, hs1⟩ := hs
  have hA : ∀ x : α, 0 ≤ FMath.GetMappedRangeValueClamped 0.3 1.27 1.0 0 x
      ∧ FMath.GetMappedRangeValueClamped 0.3 1.27 1.0 0 x ≤ 1 := by
    intro x
    unfold FMath.GetMappedRangeValueClamped
    obtain ⟨h0, h1⟩ := Clamp_unit ((x - 0.3) / (1.27 - 0.3))
    simp only []
    generalize FMath.Clamp ((x - 0.3) / (1.27 - 0.3)) 0 1 = q at h0 h1
    constructor <;> norm_num <;> linarith
  have hV : ∀ x : α, 0 ≤ FMath.GetMappedRangeValueClamped 0.1 1.0 0.0 1 x
      ∧ FMath.GetMappedRangeValueClamped 0.1 1.0 0.0 1 x ≤ 1 := by
    intro x
    unfold FMath.GetMappedRangeValueClamped
    obtain ⟨h0, h1⟩ := Clamp_unit ((x - 0.1) / (1.0 - 0.1))
    simp only []
    generalize FMath.Clamp ((x - 0.1) / (1.0 - 0.1)) 0 1 = q at h0 h1
    constructor <;> norm_num <;> linarith
  have hV0 : ∀ x : α, x ≤ 0.1 → FMath.GetMappedRangeValueClamped 0.1 1.0 0.0 1 x = 0 := by
    intro x hx
    unfold FMath.GetMappedRangeValueClamped FMath.Clamp
    have hq : (x - 0.1) / (1.0 - 0.1) ≤ 0 :=
      div_nonpos_of_nonpos_of_nonneg (by linarith) (by norm_num)
    simp only []
    split_ifs with h1 h2
    · norm_num
    · have h0 : (x - 0.1) / (1.0 - 0.1) = 0 := le_antisymm hq (not_lt.mp h1)
      rw [h0]
      norm_num
    · exact absurd (lt_of_le_of_lt hq zero_lt_one) h2
  rw [ChanceOfPenetration_eq]
  refine ⟨mul_nonneg (hA _).1 (hV _).1, ?_, hs0, hs1, ?_, ?_⟩
  · calc _ ≤ (1 : α) * 1 := mul_le_mul (hA _).2 (hV _).2 (hV _).1 zero_le_one
      _ = 1 := mul_one 1
  · intro hle
    rw [div_le_iff₀ htough]
    exact hle
  · intro hr
    have hz : FMath.GetMappedRangeValueClamped 0.3 1.27 1.0 0
          (acos (FVector.DotProduct (FVector.GetSafeNormal sqrt c.Velocity)
            ((-1 : α) • Hit.ImpactNormal)))
        * FMath.GetMappedRangeValueClamped 0.1 1.0 0.0 1
            (FVector.Size sqrt c.Velocity / HitToughness c Hit) = 0 := by
      rw [hV0 _ hr, mul_zero]
    refine ⟨hz, ?_⟩
    rw [DecideBouncePenetrate_both sqrt acos c Hit hmode, ChanceOfPenetration_eq, hz]
    simp only [ge_iff_le, hs0, decide_True]

end Probability

/-- C31 at a concrete input: the default projectile in bounce-and-penetrate mode has speed 1 and
toughness 2000; the probability is 0 and the decision is bounce. -/
theorem C31_witness :
    (0 : ℝ) < HitToughness (BounceAndPenetrate Real.sqrt) (HitAt ⟨100, 0, 0⟩ 7)
    ∧ FVector.Size Real.sqrt (BounceAndPenetrate Real.sqrt).Velocity
        / HitToughness (BounceAndPenetrate Real.sqrt) (HitAt ⟨100, 0, 0⟩ 7) ≤ 0.1
    ∧ ChanceOfPenetration Real.sqrt Real.arccos (BounceAndPenetrate Real.sqrt)
        (HitAt ⟨100, 0, 0⟩ 7) = 0
    ∧ (DecideBouncePenetrate Real.sqrt Real.arccos (BounceAndPenetrate Real.sqrt)
        (HitAt ⟨100, 0, 0⟩ 7)).1 = true := by
  have ht : HitToughness (BounceAndPenetrate Real.sqrt) (HitAt (⟨100, 0, 0⟩ : FVector ℝ) 7)
      = 2000 := rfl
  have hv : (BounceAndPenetrate Real.sqrt).Velocity = ⟨1, 0, 0⟩ := rfl
  have hr : FVector.Size Real.sqrt (BounceAndPenetrate Real.sqrt).Velocity
      / HitToughness (BounceAndPenetrate Real.sqrt) (HitAt ⟨100, 0, 0⟩ 7) ≤ 0.1 := by
    rw [ht, hv, Size_axis_X 1 zero_le_one]
    norm_num
  have h := (C31_low_ratio_gives_no_chance_of_penetration Real.sqrt Real.arccos
    (BounceAndPenetrate Real.sqrt) (HitAt ⟨100, 0, 0⟩ 7) rfl (by rw [ht]; norm_num)).2.2.2.2.2 hr
  exact ⟨by rw [ht]; norm_num, hr, h.1, by rw [h.2]⟩

/-- `ActorMove` does not change what `ComputeVelocity` returns. -/
theorem ComputeVelocity_ActorMove (sqrt : ℝ → ℝ) (c : URealisticProjectileComponent ℝ)
    (NewLocation : FVector ℝ) (NewRotation : FRotator ℝ) (dt : ℝ) :
    ComputeVelocity sqrt (ActorMove c NewLocation NewRotation) dt = ComputeVelocity sqrt c dt :=
  rfl

/-- The state a penetration entry from free medium leaves when it returns. -/
theorem ResolvePenetrate_entry (M : FEngineMath ℝ) (c c' : URealisticProjectileComponent ℝ)
    (TRT L T : ℝ) (r rr : FRotator ℝ) (Hit : FHitResult ℝ)
    (h : ResolvePenetrate M c TRT L r rr Hit = some (c', T)) :
    ∃ d, GetNewPenetrationDeceleration
          (SetObjectsPenetrated c (c.ObjectsPenetrated ++ [Hit])) Hit = some d
      ∧ c'.ObjectsPenetrated = c.ObjectsPenetrated ++ [Hit]
      ∧ c'.InitialConditions = FTrajectoryInitialConditions.Init M.sqrt
          (ComputeVelocity M.sqrt c (ComputeTimeOfFlight M.sqrt c Hit.Location))
          (Hit.Location - Hit.ImpactNormal)
          (c.InitialConditions.t0 + ComputeTimeOfFlight M.sqrt c Hit.Location) rr d
      ∧ c'.CurrentPenetrationDeceleration = d
      ∧ c'.Velocity = ComputeVelocity M.sqrt c (ComputeTimeOfFlight M.sqrt c Hit.Location) := by
  have hF : ComputeTimeOfFlight M.sqrt (ActorMove c (Hit.Location - Hit.ImpactNormal) r)
      Hit.Location = ComputeTimeOfFlight M.sqrt c Hit.Location :=
    ComputeTimeOfFlight_congr M.sqrt c (ActorMove c (Hit.Location - Hit.ImpactNormal) r)
      rfl rfl rfl rfl rfl rfl Hit.Location
  unfold ResolvePenetrate at h
  simp only [hF, ComputeVelocity_ActorMove] at h
  generalize ComputeTimeOfFlight M.sqrt c Hit.Location = F at h ⊢
  generalize ComputeVelocity M.sqrt c F = V at h ⊢
  have hG : GetNewPenetrationDeceleration
      (SetObjectsPenetrated (Broadcast (Broadcast (SetVelocity
        (ActorMove c (Hit.Location - Hit.ImpactNormal) r) V)
        (FProjectileEvent.OnProjectileAnyHit Hit V))
        (FProjectileEvent.OnProjectilePenetrate Hit V))
        (c.ObjectsPenetrated ++ [Hit])) Hit
      = GetNewPenetrationDeceleration
          (SetObjectsPenetrated c (c.ObjectsPenetrated ++ [Hit])) Hit :=
    GetNewPenetrationDeceleration_congr
      (SetObjectsPenetrated c (c.ObjectsPenetrated ++ [Hit]))
      (SetObjectsPenetrated (Broadcast (Broadcast (SetVelocity
        (ActorMove c (Hit.Location - Hit.ImpactNormal) r) V)
        (FProjectileEvent.OnProjectileAnyHit Hit V))
        (FProjectileEvent.OnProjectilePenetrate Hit V))
        (c.ObjectsPenetrated ++ [Hit]))
      (by rw [SetObjectsPenetrated_ObjectsPenetrated, SetObjectsPenetrated_ObjectsPenetrated])
      (by rw [SetObjectsPenetrated_MaterialPropertiesTable,
        SetObjectsPenetrated_MaterialPropertiesTable, Broadcast_MaterialPropertiesTable,
        Broadcast_MaterialPropertiesTable, SetVelocity_MaterialPropertiesTable,
        ActorMove_MaterialPropertiesTable])
      (by rw [SetObjectsPenetrated_PenetrationModifier,
        SetObjectsPenetrated_PenetrationModifier, Broadcast_PenetrationModifier,
        Broadcast_PenetrationModifier, SetVelocity_PenetrationModifier,
        ActorMove_PenetrationModifier]) Hit
  simp only [SetVelocity_Velocity, Broadcast_Velocity, Broadcast_ObjectsPenetrated,
    SetVelocity_ObjectsPenetrated, ActorMove_ObjectsPenetrated, hG] at h
  split at h
  · exact absurd h (by simp)
  · rename_i d hd
    simp only [Option.some.injEq, Prod.mk.injEq] at h
    obtain ⟨hc, -⟩ := h
    subst hc
    refine ⟨d, hd, ?_, ?_, ?_, ?_⟩
    · rw [SetInitialConditions_ObjectsPenetrated,
        SetCurrentPenetrationDeceleration_ObjectsPenetrated,
        SetObjectsPenetrated_ObjectsPenetrated]
    · rw [SetInitialConditions_InitialConditions]
      rfl
    · rw [SetInitialConditions_CurrentPenetrationDeceleration,
        SetCurrentPenetrationDeceleration_CurrentPenetrationDeceleration]
    · rw [SetInitialConditions_Velocity, SetCurrentPenetrationDeceleration_Velocity,
        SetObjectsPenetrated_Velocity, Broadcast_Velocity, Broadcast_Velocity,
        SetVelocity_Velocity]


/-- The state an entry while penetrating leaves when it returns. -/
theorem ResolveEntryWhilePenetrating_entry (M : FEngineMath ℝ) (c c' : URealisticProjectileComponent ℝ)
    (TRT L T : ℝ) (r rr : FRotator ℝ) (Hit : FHitResult ℝ)
    (h : ResolveEntryWhilePenetrating M c TRT L r rr Hit = some (c', T)) :
    ∃ d, GetNewPenetrationDeceleration
          (SetObjectsPenetrated c (c.ObjectsPenetrated ++ [Hit])) Hit = some d
      ∧ c'.ObjectsPenetrated = c.ObjectsPenetrated ++ [Hit]
      ∧ c'.InitialConditions = FTrajectoryInitialConditions.Init M.sqrt
          (ComputeVelocity M.sqrt c (ComputeTimeOfFlight M.sqrt c Hit.Location))
          (Hit.Location - Hit.ImpactNormal)
          (c.InitialConditions.t0 + ComputeTimeOfFlight M.sqrt c Hit.Location) rr d
      ∧ c'.CurrentPenetrationDeceleration = d
      ∧ c'.Velocity = ComputeVelocity M.sqrt c (ComputeTimeOfFlight M.sqrt c Hit.Location) := by
  have hF : ComputeTimeOfFlight M.sqrt (ActorMove c (Hit.Location - Hit.ImpactNormal) r)
      Hit.Location = ComputeTimeOfFlight M.sqrt c Hit.Location :=
    ComputeTimeOfFlight_congr M.sqrt c (ActorMove c (Hit.Location - Hit.ImpactNormal) r)
      rfl rfl rfl rfl rfl rfl Hit.Location
  unfold ResolveEntryWhilePenetrating at h
  simp only [hF, ComputeVelocity_ActorMove] at h
  generalize ComputeTimeOfFlight M.sqrt c Hit.Location = F at h ⊢
  generalize ComputeVelocity M.sqrt c F = V at h ⊢
  have hG : GetNewPenetrationDeceleration
      (SetObjectsPenetrated (Broadcast (Broadcast (SetVelocity
        (ActorMove c (Hit.Location - Hit.ImpactNormal) r) V)
        (FProjectileEvent.OnProjectileAnyHit Hit V))
        (FProjectileEvent.OnProjectilePenetrate Hit V))
        (c.ObjectsPenetrated ++ [Hit])) Hit
      = GetNewPenetrationDeceleration
          (SetObjectsPenetrated c (c.ObjectsPenetrated ++ [Hit])) Hit :=
    GetNewPenetrationDeceleration_congr
      (SetObjectsPenetrated c (c.ObjectsPenetrated ++ [Hit]))
      (SetObjectsPenetrated (Broadcast (Broadcast (SetVelocity
        (ActorMove c (Hit.Location - Hit.ImpactNormal) r) V)
        (FProjectileEvent.OnProjectileAnyHit Hit V))
        (FProjectileEvent.OnProjectilePenetrate Hit V))
        (c.ObjectsPenetrated ++ [Hit]))
      (by rw [SetObjectsPenetrated_ObjectsPenetrated, SetObjectsPenetrated_ObjectsPenetrated])
      (by rw [SetObjectsPenetrated_MaterialPropertiesTable,
        SetObjectsPenetrated_MaterialPropertiesTable, Broadcast_MaterialPropertiesTable,
        Broadcast_MaterialPropertiesTable, SetVelocity_MaterialPropertiesTable,
        ActorMove_MaterialPropertiesTable])
      (by rw [SetObjectsPenetrated_PenetrationModifier,
        SetObjectsPenetrated_PenetrationModifier, Broadcast_PenetrationModifier,
        Broadcast_PenetrationModifier, SetVelocity_PenetrationModifier,
        ActorMove_PenetrationModifier]) Hit
  simp only [SetVelocity_Velocity, Broadcast_Velocity, Broadcast_ObjectsPenetrated,
    SetVelocity_ObjectsPenetrated, ActorMove_ObjectsPenetrated, hG] at h
  split at h
  · exact absurd h (by simp)
  · rename_i d hd
    simp only [Option.some.injEq, Prod.mk.injEq] at h
    obtain ⟨hc, -⟩ := h
    subst hc
    refine ⟨d, hd, ?_, ?_, ?_, ?_⟩
    · rw [SetInitialConditions_ObjectsPenetrated,
        SetCurrentPenetrationDeceleration_ObjectsPenetrated,
        SetObjectsPenetrated_ObjectsPenetrated]
    · rw [SetInitialConditions_InitialConditions]
      rfl
    · rw [SetInitialConditions_CurrentPenetrationDeceleration,
        SetCurrentPenetrationDeceleration_CurrentPenetrationDeceleration]
    · rw [SetInitialConditions_Velocity, SetCurrentPenetrationDeceleration_Velocity,
        SetObjectsPenetrated_Velocity, Broadcast_Velocity, Broadcast_Velocity,
        SetVelocity_Velocity]


/-- C32: penetration entry record. For a hit that carries a physical material, the entry from
free medium and the entry while penetrating both return, and leave: the hit appended to the
stack; the active record built from the velocity `ComputeVelocity(F)` of the component before
the push, the location hit location minus impact normal, `t0` = previous `t0` + `F`, and the
deceleration `GetNewPenetrationDeceleration(hit)` (read after the push), where
`F = ComputeTimeOfFlight(hit location)`, the flight time to the hit location itself. -/
theorem C32_penetration_entry_record (M : FEngineMath ℝ) (c : URealisticProjectileComponent ℝ)
    (TRT L : ℝ) (r rr : FRotator ℝ) (Hit : FHitResult ℝ) (m : String)
    (hm : Hit.PhysMaterial = some m) :
    ∃ d, GetNewPenetrationDeceleration
          (SetObjectsPenetrated c (c.ObjectsPenetrated ++ [Hit])) Hit = some d
      ∧ (∃ c' T, ResolvePenetrate M c TRT L r rr Hit = some (c', T)
          ∧ c'.ObjectsPenetrated = c.ObjectsPenetrated ++ [Hit]
          ∧ c'.InitialConditions.InitialWorldLocation = Hit.Location - Hit.ImpactNormal
          ∧ c'.InitialConditions.InitialVelocity
              = ComputeVelocity M.sqrt c (ComputeTimeOfFlight M.sqrt c Hit.Location)
          ∧ c'.InitialConditions.t0
              = c.InitialConditions.t0 + ComputeTimeOfFlight M.sqrt c Hit.Location
          ∧ c'.InitialConditions.PenDeceleration = d
          ∧ c'.InitialConditions = FTrajectoryInitialConditions.Init M.sqrt
              (ComputeVelocity M.sqrt c (ComputeTimeOfFlight M.sqrt c Hit.Location))
              (Hit.Location - Hit.ImpactNormal)
              (c.InitialConditions.t0 + ComputeTimeOfFlight M.sqrt c Hit.Location) rr d
          ∧ c'.CurrentPenetrationDeceleration = d)
      ∧ (∃ c' T, ResolveEntryWhilePenetrating M c TRT L r rr Hit = some (c', T)
          ∧ c'.ObjectsPenetrated = c.ObjectsPenetrated ++ [Hit]
          ∧ c'.InitialConditions.InitialWorldLocation = Hit.Location - Hit.ImpactNormal
          ∧ c'.InitialConditions.InitialVelocity
              = ComputeVelocity M.sqrt c (ComputeTimeOfFlight M.sqrt c Hit.Location)
          ∧ c'.InitialConditions.t0
              = c.InitialConditions.t0 + ComputeTimeOfFlight M.sqrt c Hit.Location
          ∧ c'.InitialConditions.PenDeceleration = d
          ∧ c'.InitialConditions = FTrajectoryInitialConditions.Init M.sqrt
              (ComputeVelocity M.sqrt c (ComputeTimeOfFlight M.sqrt c Hit.Location))
              (Hit.Location - Hit.ImpactNormal)
              (c.InitialConditions.t0 + ComputeTimeOfFlight M.sqrt c Hit.Location) rr d
          ∧ c'.CurrentPenetrationDeceleration = d) := by
  obtain ⟨c1, T1, h1⟩ := ResolvePenetrate_some M c TRT L r rr Hit m hm
  obtain ⟨c2, T2, h2⟩ := ResolveEntryWhilePenetrating_some M c TRT L r rr Hit m hm
  obtain ⟨d, hd, a1, a2, a3, -⟩ := ResolvePenetrate_entry M c c1 TRT L T1 r rr Hit h1
  obtain ⟨d2, hd2, b1, b2, b3, -⟩ :=
    ResolveEntryWhilePenetrating_entry M c c2 TRT L T2 r rr Hit h2
  have hdd : d2 = d := Option.some.inj (hd2.symm.trans hd)
  subst hdd
  refine ⟨d2, hd, ⟨c1, T1, h1, a1, ?_, ?_, ?_, ?_, a2, a3⟩,
    ⟨c2, T2, h2, b1, ?_, ?_, ?_, ?_, b2, b3⟩⟩
  · rw [a2]
    rfl
  · rw [a2]
    rfl
  · rw [a2]
    rfl
  · rw [a2]
    rfl
  · rw [b2]
    rfl
  · rw [b2]
    rfl
  · rw [b2]
    rfl
  · rw [b2]
    rfl

/-- C32 at a concrete input: Scenario A enters actor 1 at `(100, 0, 0)` (impact normal
`(-1, 0, 0)`); the entry returns, the stack holds the hit and the new record starts at
`(101, 0, 0)`. -/
theorem C32_witness :
    (HitAt (⟨100, 0, 0⟩ : FVector ℝ) 1).PhysMaterial = some "DefaultPhysicalMaterial"
    ∧ ∃ c' T,
        ResolvePenetrate ⟨Real.sqrt, Real.arccos, fun _ => ⟨0, 0, 0⟩, fun _ v => v⟩
            (ScenarioA Real.sqrt) 0 (1 / 10) ⟨0, 0, 0⟩ ⟨0, 0, 0⟩ (HitAt ⟨100, 0, 0⟩ 1)
          = some (c', T)
        ∧ c'.ObjectsPenetrated = [HitAt ⟨100, 0, 0⟩ 1]
        ∧ c'.InitialConditions.InitialWorldLocation = ⟨101, 0, 0⟩ := by
  obtain ⟨d, -, ⟨c', T, h, a1, a2, -⟩, -⟩ := C32_penetration_entry_record
    ⟨Real.sqrt, Real.arccos, fun _ => ⟨0, 0, 0⟩, fun _ v => v⟩ (ScenarioA Real.sqrt) 0 (1 / 10)
    ⟨0, 0, 0⟩ ⟨0, 0, 0⟩ (HitAt ⟨100, 0, 0⟩ 1) "DefaultPhysicalMaterial" rfl
  refine ⟨rfl, c', T, h, ?_, ?_⟩
  · rw [a1]
    rfl
  · rw [a2]
    ext <;> norm_num [HitAt]

/-- The horizontal displacements `ComputeNewLocation` produces in free medium when `Vinf` has
no horizontal component. -/
theorem deltaLoc_horizontal (c : URealisticProjectileComponent ℝ)
    (TIC : FTrajectoryInitialConditions ℝ) (dt : ℝ) (hpen : 0 < TIC.PenDeceleration) :
    (c.Vinf.X = 0 → (ComputeNewLocation c TIC dt - TIC.InitialWorldLocation).X
        = TIC.InitialVelocity.X * dt / (1 + c.k * dt))
    ∧ (c.Vinf.Y = 0 → (ComputeNewLocation c TIC dt - TIC.InitialWorldLocation).Y
        = TIC.InitialVelocity.Y * dt / (1 + c.k * dt)) := by
  unfold ComputeNewLocation
  simp only [gt_iff_lt, hpen, if_true]
  constructor
  · intro hV
    simp only [FVector.sub_X, FVector.add_X, FVector.div_X, FVector.smul_X, hV]
    ring
  · intro hV
    simp only [FVector.sub_Y, FVector.add_Y, FVector.div_Y, FVector.smul_Y, hV]
    ring

/-- The divisor of the horizontal branch at a location of the trajectory. -/
theorem horizontal_divisor (k v dt : ℝ) (hden : 0 < 1 + k * dt)
    (hp0 : v * dt / (1 + k * dt) ≠ 0) :
    v - k * (v * dt / (1 + k * dt)) ≠ 0 := by
  have hv : v ≠ 0 := by
    rintro rfl
    simp at hp0
  have hd : v - k * (v * dt / (1 + k * dt)) = v / (1 + k * dt) := by
    field_simp
    ring
  rw [hd]
  exact div_ne_zero hv hden.ne'

/-- C33: horizontal-axis round trip. In free medium (empty stack, free-medium record), with
`k >= 0` and a `Vinf` without horizontal component (the tick and the header set
`Vinf = (0, 0, -TerminalVelocity)`), for every elapsed time `dt > 0` for which the axis that
`ComputeTimeOfFlight` selects for the location `ComputeNewLocation(InitialConditions, dt)` is
X or Y: `ComputeTimeOfFlight` returns exactly `dt`, which is `p / (v0 - k * p)` for the
displacement `p` and the launch velocity `v0` along that axis, and the divisor `v0 - k * p` is
not zero. -/
theorem C33_horizontal_axis_round_trip (sqrt : ℝ → ℝ) (c : URealisticProjectileComponent ℝ)
    (dt : ℝ) (hair : c.ObjectsPenetrated = [])
    (hpen : 0 < c.InitialConditions.PenDeceleration)
    (hVx : c.Vinf.X = 0) (hVy : c.Vinf.Y = 0) (hk : 0 ≤ c.k) (hdt : 0 < dt)
    (haxis : AxisToUse (ComputeNewLocation c c.InitialConditions dt
          - c.InitialConditions.InitialWorldLocation) = ⟨1, 0, 0⟩
      ∨ AxisToUse (ComputeNewLocation c c.InitialConditions dt
          - c.InitialConditions.InitialWorldLocation) = ⟨0, 1, 0⟩) :
    ComputeTimeOfFlight sqrt c (ComputeNewLocation c c.InitialConditions dt) = dt
    ∧ (AxisToUse (ComputeNewLocation c c.InitialConditions dt
          - c.InitialConditions.InitialWorldLocation) = ⟨1, 0, 0⟩ →
        c.InitialConditions.InitialVelocity.X
            - c.k * (ComputeNewLocation c c.InitialConditions dt
              - c.InitialConditions.InitialWorldLocation).X ≠ 0
        ∧ (ComputeNewLocation c c.InitialConditions dt
              - c.InitialConditions.InitialWorldLocation).X
            / (c.InitialConditions.InitialVelocity.X
              - c.k * (ComputeNewLocation c c.InitialConditions dt
                - c.InitialConditions.InitialWorldLocation).X) = dt)
    ∧ (AxisToUse (ComputeNewLocation c c.InitialConditions dt
          - c.InitialConditions.InitialWorldLocation) = ⟨0, 1, 0⟩ →
        c.InitialConditions.InitialVelocity.Y
            - c.k * (ComputeNewLocation c c.InitialConditions dt
              - c.InitialConditions.InitialWorldLocation).Y ≠ 0
        ∧ (ComputeNewLocation c c.InitialConditions dt
              - c.InitialConditions.InitialWorldLocation).Y
            / (c.InitialConditions.InitialVelocity.Y
              - c.k * (ComputeNewLocation c c.InitialConditions dt
                - c.InitialConditions.InitialWorldLocation).Y) = dt) := by
  have hden : 0 < 1 + c.k * dt := by positivity
  obtain ⟨hX, hY⟩ := deltaLoc_horizontal c c.InitialConditions dt hpen
  have hdX := hX hVx
  have hdY := hY hVy
  obtain ⟨tX, tY, -⟩ := ComputeTimeOfFlight_on_axis sqrt c hair
    (ComputeNewLocation c c.InitialConditions dt)
  have hA := AxisToUse_eq (ComputeNewLocation c c.InitialConditions dt
    - c.InitialConditions.InitialWorldLocation)
  revert hdX hdY tX tY hA haxis
  generalize ComputeNewLocation c c.InitialConditions dt
    - c.InitialConditions.InitialWorldLocation = d
  intro haxis hdX hdY tX tY hA
  have caseX : AxisToUse d = ⟨1, 0, 0⟩ →
      c.InitialConditions.InitialVelocity.X - c.k * d.X ≠ 0
      ∧ d.X / (c.InitialConditions.InitialVelocity.X - c.k * d.X) = dt := by
    intro hax
    have hne : d.X ≠ 0 := by
      intro h0
      rw [hax] at hA
      by_cases h1 : |d.X| > |d.Y| ∧ |d.X| > |d.Z|
      · rw [h0, abs_zero] at h1
        exact absurd h1.1 (not_lt.mpr (abs_nonneg _))
      · rw [if_neg h1] at hA
        split_ifs at hA
        · have hc := congrArg FVector.X hA
          norm_num at hc
        · have hc := congrArg FVector.X hA
          norm_num at hc
    rw [hdX] at hne ⊢
    exact ⟨horizontal_divisor _ _ _ hden hne, horizontal_inverse _ _ _ hden hne⟩
  have caseY : AxisToUse d = ⟨0, 1, 0⟩ →
      c.InitialConditions.InitialVelocity.Y - c.k * d.Y ≠ 0
      ∧ d.Y / (c.InitialConditions.InitialVelocity.Y - c.k * d.Y) = dt := by
    intro hax
    have hne : d.Y ≠ 0 := by
      intro h0
      rw [hax] at hA
      by_cases h1 : |d.X| > |d.Y| ∧ |d.X| > |d.Z|
      · rw [if_pos h1] at hA
        have hc := congrArg FVector.X hA
        norm_num at hc
      · rw [if_neg h1] at hA
        by_cases h2 : |d.Y| > |d.Z|
        · rw [h0, abs_zero] at h2
          exact absurd h2 (not_lt.mpr (abs_nonneg _))
        · rw [if_neg h2] at hA
          have hc := congrArg FVector.Y hA
          norm_num at hc
    rw [hdY] at hne ⊢
    exact ⟨horizontal_divisor _ _ _ hden hne, horizontal_inverse _ _ _ hden hne⟩
  refine ⟨?_, caseX, caseY⟩
  rcases haxis with hax | hax
  · rw [tX hax]
    exact (caseX hax).2
  · rw [tY hax]
    exact (caseY hax).2

/-- C33 at a concrete input: in Scenario A (horizontal launch at 5000 units/s along X) the axis
selected for the location at `dt = 1` is X, and the round trip returns `1`. -/
theorem C33_witness :
    (ScenarioA Real.sqrt).ObjectsPenetrated = []
    ∧ 0 < (ScenarioA Real.sqrt).InitialConditions.PenDeceleration
    ∧ (ScenarioA Real.sqrt).Vinf.X = 0 ∧ (ScenarioA Real.sqrt).Vinf.Y = 0
    ∧ 0 ≤ (ScenarioA Real.sqrt).k
    ∧ AxisToUse (ComputeNewLocation (ScenarioA Real.sqrt)
          (ScenarioA Real.sqrt).InitialConditions 1
        - (ScenarioA Real.sqrt).InitialConditions.InitialWorldLocation) = ⟨1, 0, 0⟩
    ∧ ComputeTimeOfFlight Real.sqrt (ScenarioA Real.sqrt)
        (ComputeNewLocation (ScenarioA Real.sqrt) (ScenarioA Real.sqrt).InitialConditions 1)
      = 1 := by
  obtain ⟨f1, f2, f3, f4, f5, f6, f7, f8⟩ := Launched_tick_facts ⟨5000, 0, 0⟩
  have hpen : 0 < (ScenarioA Real.sqrt).InitialConditions.PenDeceleration := by
    unfold ScenarioA
    rw [f2]
    norm_num
  have hk : 0 ≤ (ScenarioA Real.sqrt).k := by
    unfold ScenarioA
    rw [f3]
    norm_num
  have hVinf : (ScenarioA Real.sqrt).Vinf = ⟨0, 0, -(ScenarioA Real.sqrt).TerminalVelocity⟩ := rfl
  have hax : AxisToUse (ComputeNewLocation (ScenarioA Real.sqrt)
        (ScenarioA Real.sqrt).InitialConditions 1
      - (ScenarioA Real.sqrt).InitialConditions.InitialWorldLocation) = ⟨1, 0, 0⟩ := by
    rw [AxisToUse_eq, deltaLoc_air _ _ _ hpen hVinf]
    unfold ScenarioA
    rw [f3, f4, f7]
    norm_num [abs_of_pos, abs_of_neg]
  exact ⟨rfl, hpen, rfl, rfl, hk, hax,
    (C33_horizontal_axis_round_trip Real.sqrt (ScenarioA Real.sqrt) 1 rfl hpen rfl rfl hk
      (by norm_num) (Or.inl hax)).1⟩

section Outward

variable {α : Type} [LinearOrderedField α]

/-- Mirroring by a unit normal flips the sign of the component along the normal. -/
theorem DotProduct_MirrorByVector (P N : FVector α) (hunit : FVector.DotProduct N N = 1) :
    FVector.DotProduct (FVector.MirrorByVector P N) N = -FVector.DotProduct P N := by
  unfold FVector.MirrorByVector
  unfold FVector.DotProduct at hunit ⊢
  simp only [FVector.sub_X, FVector.sub_Y, FVector.sub_Z, FVector.smul_X, FVector.smul_Y,
    FVector.smul_Z]
  linear_combination (-2 * (P.X * N.X + P.Y * N.Y + P.Z * N.Z)) * hunit

/-- `AdjustDirection` with a unit impact normal returns a vector whose dot product with the
normal is not negative. -/
theorem AdjustDirection_outward (M : FEngineMath α) (c : URealisticProjectileComponent α)
    (inVelocity ImpactNormal : FVector α)
    (hunit : FVector.DotProduct ImpactNormal ImpactNormal = 1) :
    0 ≤ FVector.DotProduct (AdjustDirection M c inVelocity ImpactNormal).1 ImpactNormal := by
  unfold AdjustDirection
  simp only []
  generalize M.RotateVector _ inVelocity = P
  have hneg : FVector.DotProduct P (-ImpactNormal) = -FVector.DotProduct P ImpactNormal := by
    show P.X * -ImpactNormal.X + P.Y * -ImpactNormal.Y + P.Z * -ImpactNormal.Z
      = -(P.X * ImpactNormal.X + P.Y * ImpactNormal.Y + P.Z * ImpactNormal.Z)
    ring
  split_ifs with h
  · rw [DotProduct_MirrorByVector P ImpactNormal hunit, ← hneg]
    exact h
  · rw [hneg] at h
    have h' : 0 < FVector.DotProduct P ImpactNormal := by
      by_contra hn
      exact h (neg_nonneg.mpr (not_lt.mp hn))
    exact h'.le

end Outward

/-- The velocity a bounce stores in the component and in the record it makes active is a result
of `AdjustDirection` with the hit's impact normal. -/
theorem ResolveBounce_adjusted (M : FEngineMath ℝ) (c : URealisticProjectileComponent ℝ)
    (TRT L : ℝ) (r rr : FRotator ℝ) (Hit : FHitResult ℝ) :
    ∃ (X : URealisticProjectileComponent ℝ) (v : FVector ℝ),
      (ResolveBounce M c TRT L r rr Hit).1.Velocity
          = (AdjustDirection M X v Hit.ImpactNormal).1
      ∧ (ResolveBounce M c TRT L r rr Hit).1.InitialConditions.InitialVelocity
          = (AdjustDirection M X v Hit.ImpactNormal).1 := by
  unfold ResolveBounce
  simp only []
  generalize ComputeTimeOfFlight M.sqrt (ActorMove c (Hit.Location + Hit.ImpactNormal) r)
    Hit.Location = F
  generalize ComputeVelocity M.sqrt (ActorMove c (Hit.Location + Hit.ImpactNormal) r) F = V
  simp only [apply_ite URealisticProjectileComponent.Velocity,
    apply_ite URealisticProjectileComponent.InitialConditions,
    StopSimulating_Velocity, StopSimulating_InitialConditions, ite_self,
    SetInitialConditions_Velocity, SetInitialConditions_InitialConditions,
    SetRandStream_Velocity, SetVelocity_Velocity]
  exact ⟨_, _, rfl, rfl⟩

/-- C34: `AdjustDirection` never returns a velocity that goes into the surface. For every
component state (hence every three samples drawn), every `RotateVector`, every input velocity
and every unit impact normal, the returned vector has a non-negative dot product with the
impact normal; so has the velocity a bounce off a hit with that normal stores in the component
and in the record it makes active. -/
theorem C34_AdjustDirection_never_goes_into_the_surface (M : FEngineMath ℝ)
    (c : URealisticProjectileComponent ℝ) (inVelocity ImpactNormal : FVector ℝ)
    (hunit : FVector.DotProduct ImpactNormal ImpactNormal = 1) :
    0 ≤ FVector.DotProduct (AdjustDirection M c inVelocity ImpactNormal).1 ImpactNormal
    ∧ (∀ (TRT L : ℝ) (r rr : FRotator ℝ) (Hit : FHitResult ℝ),
        Hit.ImpactNormal = ImpactNormal →
        0 ≤ FVector.DotProduct (ResolveBounce M c TRT L r rr Hit).1.Velocity ImpactNormal
        ∧ 0 ≤ FVector.DotProduct
            (ResolveBounce M c TRT L r rr Hit).1.InitialConditions.InitialVelocity
            ImpactNormal) := by
  refine ⟨AdjustDirection_outward M c inVelocity ImpactNormal hunit, ?_⟩
  intro TRT L r rr Hit hN
  obtain ⟨X, v, h1, h2⟩ := ResolveBounce_adjusted M c TRT L r rr Hit
  rw [h1, h2, hN]
  exact ⟨AdjustDirection_outward M X v ImpactNormal hunit,
    AdjustDirection_outward M X v ImpactNormal hunit⟩

/-- C34 at a concrete input: Scenario A, the input velocity `(5000, 0, 0)` and the unit normal
`(-1, 0, 0)` of a wall facing the launch point. -/
theorem C34_witness :
    FVector.DotProduct (⟨-1, 0, 0⟩ : FVector ℝ) ⟨-1, 0, 0⟩ = 1
    ∧ 0 ≤ FVector.DotProduct
        (AdjustDirection ⟨Real.sqrt, Real.arccos, fun _ => ⟨0, 0, 0⟩, fun _ v => v⟩
          (ScenarioA Real.sqrt) ⟨5000, 0, 0⟩ ⟨-1, 0, 0⟩).1 ⟨-1, 0, 0⟩ :=
  ⟨by norm_num [FVector.DotProduct],
    (C34_AdjustDirection_never_goes_into_the_surface
      ⟨Real.sqrt, Real.arccos, fun _ => ⟨0, 0, 0⟩, fun _ v => v⟩ (ScenarioA Real.sqrt)
      ⟨5000, 0, 0⟩ ⟨-1, 0, 0⟩ (by norm_num [FVector.DotProduct])).1⟩

/-- The derivative of one coordinate of the free-medium position. -/
theorem hasDerivAt_drag_position (v w k x0 dt : ℝ) (hden : 1 + k * dt ≠ 0) :
    HasDerivAt (fun t : ℝ => (v + w * (k * t)) * t * (1 / (1 + k * t)) + x0)
      ((v + w * (k * dt * (2 + k * dt))) * (1 / ((1 + k * dt) * (1 + k * dt)))) dt := by
  have ha : HasDerivAt (fun t : ℝ => v + w * (k * t)) (w * (k * 1)) dt :=
    (((hasDerivAt_id dt).const_mul k).const_mul w).const_add v
  have hn : HasDerivAt (fun t : ℝ => (v + w * (k * t)) * t)
      (w * (k * 1) * dt + (v + w * (k * dt)) * 1) dt := ha.mul (hasDerivAt_id dt)
  have hd : HasDerivAt (fun t : ℝ => 1 + k * t) (k * 1) dt :=
    ((hasDerivAt_id dt).const_mul k).const_add 1
  have hq := (hn.div hd hden).add_const x0
  have hfun : (fun t : ℝ => (v + w * (k * t)) * t * (1 / (1 + k * t)) + x0)
      = fun t : ℝ => (v + w * (k * t)) * t / (1 + k * t) + x0 := by
    funext t
    rw [mul_one_div]
  rw [hfun]
  convert hq using 1
  field_simp
  ring

/-- The coordinates of the free-medium position. -/
theorem ComputeNewLocation_air (c : URealisticProjectileComponent ℝ)
    (TIC : FTrajectoryInitialConditions ℝ) (hpen : 0 < TIC.PenDeceleration) (t : ℝ) :
    ComputeNewLocation c TIC t
      = ⟨(TIC.InitialVelocity.X + c.Vinf.X * (c.k * t)) * t * (1 / (1 + c.k * t))
          + TIC.InitialWorldLocation.X,
        (TIC.InitialVelocity.Y + c.Vinf.Y * (c.k * t)) * t * (1 / (1 + c.k * t))
          + TIC.InitialWorldLocation.Y,
        (TIC.InitialVelocity.Z + c.Vinf.Z * (c.k * t)) * t * (1 / (1 + c.k * t))
          + TIC.InitialWorldLocation.Z⟩ := by
  unfold ComputeNewLocation
  simp only [gt_iff_lt, hpen, if_true]
  rfl

/-- C36: the free-medium velocity is the time derivative of the free-medium position. For a
free-medium component (empty stack, record with `PenDeceleration > 0`), every `k >= 0` and
every `dt >= 0`, each coordinate of `ComputeNewLocation(InitialConditions, t)` has at `t = dt`
the derivative given by the same coordinate of `ComputeVelocity(dt)`; at `dt = 0` the position
is the initial location and the velocity is the initial velocity. -/
theorem C36_velocity_is_derivative_of_position (sqrt : ℝ → ℝ)
    (c : URealisticProjectileComponent ℝ) (dt : ℝ) (hair : c.ObjectsPenetrated = [])
    (hpen : 0 < c.InitialConditions.PenDeceleration) (hk : 0 ≤ c.k) (hdt : 0 ≤ dt) :
    HasDerivAt (fun t => (ComputeNewLocation c c.InitialConditions t).X)
      (ComputeVelocity sqrt c dt).X dt
    ∧ HasDerivAt (fun t => (ComputeNewLocation c c.InitialConditions t).Y)
      (ComputeVelocity sqrt c dt).Y dt
    ∧ HasDerivAt (fun t => (ComputeNewLocation c c.InitialConditions t).Z)
      (ComputeVelocity sqrt c dt).Z dt
    ∧ ComputeNewLocation c c.InitialConditions 0 = c.InitialConditions.InitialWorldLocation
    ∧ ComputeVelocity sqrt c 0 = c.InitialConditions.InitialVelocity := by
  have hden : 1 + c.k * dt ≠ 0 := by positivity
  have hfun : (fun t => ComputeNewLocation c c.InitialConditions t)
      = fun t => (⟨(c.InitialConditions.InitialVelocity.X + c.Vinf.X * (c.k * t)) * t
            * (1 / (1 + c.k * t)) + c.InitialConditions.InitialWorldLocation.X,
          (c.InitialConditions.InitialVelocity.Y + c.Vinf.Y * (c.k * t)) * t
            * (1 / (1 + c.k * t)) + c.InitialConditions.InitialWorldLocation.Y,
          (c.InitialConditions.InitialVelocity.Z + c.Vinf.Z * (c.k * t)) * t
            * (1 / (1 + c.k * t)) + c.InitialConditions.InitialWorldLocation.Z⟩ : FVector ℝ) :=
    funext (fun t => ComputeNewLocation_air c c.InitialConditions hpen t)
  have hX : (fun t => (ComputeNewLocation c c.InitialConditions t).X)
      = fun t => (c.InitialConditions.InitialVelocity.X + c.Vinf.X * (c.k * t)) * t
            * (1 / (1 + c.k * t)) + c.InitialConditions.InitialWorldLocation.X :=
    funext (fun t => congrArg FVector.X (congrFun hfun t))
  have hY : (fun t => (ComputeNewLocation c c.InitialConditions t).Y)
      = fun t => (c.InitialConditions.InitialVelocity.Y + c.Vinf.Y * (c.k * t)) * t
            * (1 / (1 + c.k * t)) + c.InitialConditions.InitialWorldLocation.Y :=
    funext (fun t => congrArg FVector.Y (congrFun hfun t))
  have hZ : (fun t => (ComputeNewLocation c c.InitialConditions t).Z)
      = fun t => (c.InitialConditions.InitialVelocity.Z + c.Vinf.Z * (c.k * t)) * t
            * (1 / (1 + c.k * t)) + c.InitialConditions.InitialWorldLocation.Z :=
    funext (fun t => congrArg FVector.Z (congrFun hfun t))
  rw [hX, hY, hZ, ComputeVelocity_air sqrt c hair dt, ComputeVelocity_air sqrt c hair 0]
  refine ⟨hasDerivAt_drag_position _ _ _ _ dt hden, hasDerivAt_drag_position _ _ _ _ dt hden,
    hasDerivAt_drag_position _ _ _ _ dt hden, ComputeNewLocation_zero c c.InitialConditions, ?_⟩
  ext <;> simp

/-- C36 at a concrete input: Scenario A at `dt = 1`; the X coordinate of the position has the X
coordinate of the velocity as derivative. -/
theorem C36_witness :
    (ScenarioA Real.sqrt).ObjectsPenetrated = []
    ∧ 0 < (ScenarioA Real.sqrt).InitialConditions.PenDeceleration
    ∧ 0 ≤ (ScenarioA Real.sqrt).k
    ∧ HasDerivAt
        (fun t => (ComputeNewLocation (ScenarioA Real.sqrt)
          (ScenarioA Real.sqrt).InitialConditions t).X)
        (ComputeVelocity Real.sqrt (ScenarioA Real.sqrt) 1).X 1 := by
  obtain ⟨f1, f2, f3, -⟩ := Launched_tick_facts ⟨5000, 0, 0⟩
  have hpen : 0 < (ScenarioA Real.sqrt).InitialConditions.PenDeceleration := by
    unfold ScenarioA
    rw [f2]
    norm_num
  have hk : 0 ≤ (ScenarioA Real.sqrt).k := by
    unfold ScenarioA
    rw [f3]
    norm_num
  exact ⟨rfl, hpen, hk, (C36_velocity_is_derivative_of_position Real.sqrt (ScenarioA Real.sqrt)
    1 rfl hpen hk (by norm_num)).1⟩

end URealisticProjectileComponent

/-! ## Nearest hit in sweep order, and a tick that moves the start time back -/

namespace URealisticProjectileComponent

section Nearest

variable {α : Type} [LinearOrderedField α]

/-- C8: nearest-hit selection. For candidate lists in the order the sweeps report them (entry
candidates from the forward sweep, nearest to the origin first; exit candidates from the
backward sweep, nearest to the origin last), whenever at least one of the two lists has a hit,
`GetFirstHit` returns a hit whose squared distance to the sub-step origin is minimal among
all hits of both lists, and `OutIsEntryHit` tells which list it came from. -/
theorem C8_nearest_hit_selection (MoveEntryHits MoveExitHits : List (FHitResult α))
    (OrigLocation : FVector α)
    (hentry : ForwardSweepOrder OrigLocation MoveEntryHits)
    (hexit : BackwardSweepOrder OrigLocation MoveExitHits)
    (hsome : MoveEntryHits ≠ [] ∨ MoveExitHits ≠ []) :
    ∃ h b, GetFirstHit MoveEntryHits MoveExitHits OrigLocation = some (h, b)
      ∧ (∀ y ∈ MoveEntryHits ++ MoveExitHits,
          HitDistSquared OrigLocation h ≤ HitDistSquared OrigLocation y)
      ∧ (b = true → h ∈ MoveEntryHits) ∧ (b = false → h ∈ MoveExitHits) := by
  obtain ⟨hboth, honlyE, honlyX⟩ := GetFirstHit_cases MoveEntryHits MoveExitHits OrigLocation
  by_cases hX : MoveExitHits = []
  · have hE : MoveEntryHits ≠ [] := hsome.resolve_right (fun h => h hX)
    obtain ⟨e, es, hes⟩ := List.exists_cons_of_ne_nil hE
    refine ⟨e, true, honlyE e es hes hX, ?_, ?_, ?_⟩
    · intro y hy
      rw [hX, List.append_nil, hes] at hy
      unfold ForwardSweepOrder at hentry
      rw [hes, List.pairwise_cons] at hentry
      rcases List.mem_cons.mp hy with rfl | hy
      · exact le_refl _
      · exact hentry.1 y hy
    · intro _
      rw [hes]
      exact List.mem_cons_self _ _
    · intro hb
      exact absurd hb (by simp)
  · by_cases hE : MoveEntryHits = []
    · refine ⟨MoveExitHits.getLast hX, false, honlyX hX hE, ?_, ?_, ?_⟩
      · intro y hy
        rw [hE, List.nil_append] at hy
        unfold BackwardSweepOrder at hexit
        rw [← List.dropLast_append_getLast hX, List.pairwise_append] at hexit
        rw [← List.dropLast_append_getLast hX] at hy
        rcases List.mem_append.mp hy with hy | hy
        · exact hexit.2.2 y hy _ (List.mem_singleton_self _)
        · rw [List.mem_singleton] at hy
          rw [hy]
      · intro hb
        exact absurd hb (by simp)
      · intro _
        exact List.getLast_mem hX
    · exact hboth hE hX

end Nearest

/-- C8 at a concrete input: entry hits at distances 100 and 200 in forward sweep order, one
exit hit at distance 150; the hit returned is nearest among the three. -/
theorem C8_witness :
    ForwardSweepOrder (⟨0, 0, 0⟩ : FVector ℝ) [HitAt ⟨100, 0, 0⟩ 1, HitAt ⟨200, 0, 0⟩ 2]
    ∧ BackwardSweepOrder (⟨0, 0, 0⟩ : FVector ℝ) [HitAt ⟨150, 0, 0⟩ 3]
    ∧ ∃ h b, GetFirstHit [HitAt ⟨100, 0, 0⟩ 1, HitAt ⟨200, 0, 0⟩ 2] [HitAt ⟨150, 0, 0⟩ 3]
        (⟨0, 0, 0⟩ : FVector ℝ) = some (h, b)
      ∧ (∀ y ∈ [HitAt ⟨100, 0, 0⟩ 1, HitAt ⟨200, 0, 0⟩ 2] ++ [HitAt ⟨150, 0, 0⟩ 3],
          HitDistSquared ⟨0, 0, 0⟩ h ≤ HitDistSquared (⟨0, 0, 0⟩ : FVector ℝ) y)
      ∧ (b = true → h ∈ [HitAt ⟨100, 0, 0⟩ 1, HitAt ⟨200, 0, 0⟩ 2])
      ∧ (b = false → h ∈ [HitAt (⟨150, 0, 0⟩ : FVector ℝ) 3]) := by
  have h1 : ForwardSweepOrder (⟨0, 0, 0⟩ : FVector ℝ)
      [HitAt ⟨100, 0, 0⟩ 1, HitAt ⟨200, 0, 0⟩ 2] := by
    unfold ForwardSweepOrder
    simp only [List.pairwise_cons, List.mem_singleton, forall_eq, List.not_mem_nil,
      false_implies, implies_true, List.Pairwise.nil, and_true, HitDistSquared_HitAt]
    norm_num
  have h2 : BackwardSweepOrder (⟨0, 0, 0⟩ : FVector ℝ) [HitAt ⟨150, 0, 0⟩ 3] := by
    unfold BackwardSweepOrder
    exact List.pairwise_singleton _ _
  exact ⟨h1, h2, C8_nearest_hit_selection [HitAt ⟨100, 0, 0⟩ 1, HitAt ⟨200, 0, 0⟩ 2]
    [HitAt ⟨150, 0, 0⟩ 3] (⟨0, 0, 0⟩ : FVector ℝ) h1 h2 (Or.inl (by simp))⟩

/-- A bounce that leaves the projectile slower than 500 stops the simulation. -/
theorem ResolveBounce_slow (M : FEngineMath ℝ) (c : URealisticProjectileComponent ℝ)
    (TRT L : ℝ) (r rr : FRotator ℝ) (Hit : FHitResult ℝ) (hair : c.ObjectsPenetrated = [])
    (hslow : FVector.Size M.sqrt
      (BounceVelocity M c Hit (ComputeTimeOfFlight M.sqrt c Hit.Location)).1 < 500) :
    (ResolveBounce M c TRT L r rr Hit).1.UpdatedComponentIsNull = true := by
  have hslow' := hslow
  rw [← ResolveBounce_Velocity M c TRT L r rr Hit hair] at hslow'
  unfold ResolveBounce at hslow' ⊢
  simp only [] at hslow' ⊢
  generalize ComputeTimeOfFlight M.sqrt (ActorMove c (Hit.Location + Hit.ImpactNormal) r)
    Hit.Location = F at hslow' ⊢
  simp only [apply_ite Prod.fst, apply_ite URealisticProjectileComponent.Velocity,
    StopSimulating_Velocity, ite_self] at hslow'
  simp only [if_pos hslow']
  rw [StopSimulating_UpdatedComponentIsNull]

/-- The loop runs no sub-step on a component that has stopped simulating. -/
theorem TickLoop_stopped (M : FEngineMath ℝ) (W : UWorld ℝ) (D G : ℝ) (Fuel : Nat)
    (s : FTickLoopState ℝ) (hnull : s.Component.UpdatedComponentIsNull = true) :
    TickLoop M W D G Fuel s = some s := by
  cases Fuel with
  | zero => rfl
  | succ n =>
    rw [TickLoop, if_neg]
    simp [TickLoopCondition, HasStoppedSimulation, hnull]

/-- A sub-step in free medium of a bounce-only projectile whose forward sweep reports one
blocking hit, when the bounce leaves the projectile slower than 500: the new record starts at
the old `t0` plus the flight time to the hit, and the projectile stops simulating. -/
theorem TickSubStep_slow_bounce (M : FEngineMath ℝ) (W : UWorld ℝ) (D G : ℝ)
    (s : FTickLoopState ℝ) (Hit : FHitResult ℝ)
    (hL : 0 ≤ LaunchDeltaTimeOf s.Component D G (s.TickRemainingTime - D))
    (hair : s.Component.ObjectsPenetrated = [])
    (hmode : s.Component.ProjectileBehavior = EProjectileBehavior.PB_Bounce_Only)
    (hblock : W.GetCollisionResponseToComponent Hit.Component = ECollisionResponse.ECR_Block)
    (hstart : Hit.bStartPenetrating = false)
    (hsweep : DoSweep W s.Component s.Component.Body.Location
      (ComputeNewLocation s.Component s.Component.InitialConditions
        (LaunchDeltaTimeOf s.Component D G (s.TickRemainingTime - D)))
      (if s.Component.bRotationFollowsVelocity
          ∧ ¬ (FVector.IsNearlyZero s.Component.Velocity 0.01) then
        M.Rotation s.Component.Velocity + (s.Component.InitialConditions.InitialRotation
          + LaunchDeltaTimeOf s.Component D G (s.TickRemainingTime - D)
            • s.Component.AngularVelocity)
      else s.Component.Body.Rotation) true = [Hit])
    (hslow : FVector.Size M.sqrt (BounceVelocity M s.Component Hit
      (ComputeTimeOfFlight M.sqrt s.Component Hit.Location)).1 < 500) :
    ∃ s', TickSubStep M W D G s = some s'
      ∧ s'.bReturned = false
      ∧ s'.Component.UpdatedComponentIsNull = true
      ∧ s'.Component.InitialConditions.t0
          = s.Component.InitialConditions.t0
            + ComputeTimeOfFlight M.sqrt s.Component Hit.Location
      ∧ s'.Component.InitialConditionHistory
          = s.Component.InitialConditionHistory ++ [s'.Component.InitialConditions] := by
  have hF : ComputeTimeOfFlight M.sqrt
      (SetRandStream (SetOverlaps s.Component [] []) s.Component.RandStream) Hit.Location
      = ComputeTimeOfFlight M.sqrt s.Component Hit.Location :=
    ComputeTimeOfFlight_congr M.sqrt s.Component
      (SetRandStream (SetOverlaps s.Component [] []) s.Component.RandStream)
      rfl rfl rfl rfl rfl rfl Hit.Location
  have hB : BounceVelocity M
      (SetRandStream (SetOverlaps s.Component [] []) s.Component.RandStream) Hit
        (ComputeTimeOfFlight M.sqrt s.Component Hit.Location)
      = BounceVelocity M s.Component Hit
        (ComputeTimeOfFlight M.sqrt s.Component Hit.Location) := by
    unfold BounceVelocity
    rw [ComputeVelocity_air_congr M.sqrt s.Component
      (SetRandStream (SetOverlaps s.Component [] []) s.Component.RandStream) rfl hair hair
      rfl rfl]
    exact AdjustDirection_congr M _ _ rfl rfl _ _
  have hslow' : FVector.Size M.sqrt (BounceVelocity M
      (SetRandStream (SetOverlaps s.Component [] []) s.Component.RandStream) Hit
      (ComputeTimeOfFlight M.sqrt
        (SetRandStream (SetOverlaps s.Component [] []) s.Component.RandStream)
        Hit.Location)).1 < 500 := by
    rw [hF, hB]
    exact hslow
  refine ⟨_, TickSubStep_air_bounce M W D G s Hit hL hair hmode hblock hstart hsweep, rfl,
    ?_, ?_, ?_⟩
  · show (UpdateComponentVelocity _).UpdatedComponentIsNull = true
    rw [UpdateComponentVelocity_UpdatedComponentIsNull]
    exact ResolveBounce_slow M _ _ _ _ _ Hit hair hslow'
  · show (UpdateComponentVelocity _).InitialConditions.t0 = _
    rw [UpdateComponentVelocity_InitialConditions,
      (ResolveBounce_history M _ _ _ _ _ Hit).2.2, hF]
    rfl
  · show (UpdateComponentVelocity _).InitialConditionHistory
      = _ ++ [(UpdateComponentVelocity _).InitialConditions]
    rw [UpdateComponentVelocity_InitialConditionHistory,
      UpdateComponentVelocity_InitialConditions, (ResolveBounce_history M _ _ _ _ _ Hit).1]
    rfl

/-- The state of `UpwardGravityShot` inside a tick. -/
theorem UpwardGravityShot_facts :
    (UpwardGravityShot Real.sqrt).SetTickConstants.ObjectsPenetrated = []
    ∧ (UpwardGravityShot Real.sqrt).SetTickConstants.InitialConditions.PenDeceleration = 1
    ∧ (UpwardGravityShot Real.sqrt).SetTickConstants.k = -1
    ∧ (UpwardGravityShot Real.sqrt).SetTickConstants.Vinf = ⟨0, 0, -100⟩
    ∧ (UpwardGravityShot Real.sqrt).SetTickConstants.InitialConditions.InitialVelocity
        = ⟨1000, 0, 0⟩
    ∧ (UpwardGravityShot Real.sqrt).SetTickConstants.InitialConditions.InitialWorldLocation
        = ⟨0, 0, 0⟩
    ∧ (UpwardGravityShot Real.sqrt).SetTickConstants.InitialConditions.t0 = 0
    ∧ (UpwardGravityShot Real.sqrt).SetTickConstants.Body.Location = ⟨0, 0, 0⟩
    ∧ (UpwardGravityShot Real.sqrt).SetTickConstants.Bounciness = 3 / 5 := by
  refine ⟨rfl, rfl, ?_, rfl, rfl, rfl, rfl, rfl, ?_⟩
  · show (0.5 * -(200 : ℝ) / 100) = -1
    norm_num
  · show (0.6 : ℝ) = 3 / 5
    norm_num

/-- Every `SegmentWorld` with a fraction between 0 and 1 keeps the contract `SweepOnSegment`. -/
theorem SweepOnSegment_SegmentWorld (Fraction : ℝ) (h0 : 0 ≤ Fraction) (h1 : Fraction ≤ 1) :
    SweepOnSegment (SegmentWorld Fraction) := by
  intro Start End Rot h hh
  have hh' : h ∈ [HitAt (Start + Fraction • (End - Start)) 1] := hh
  rw [List.mem_singleton] at hh'
  exact ⟨Fraction, h0, h1, by rw [hh']; rfl⟩

/-- C26 fails as stated when gravity points up. With `CurrentGravity = 200` and
`TerminalVelocity = 100` the tick sets `k = -1`. The projectile is launched at the origin at
game time 0 with velocity `(1000, 0, 0)`; a tick of 3.5 s sweeps from the origin to
`ComputeNewLocation(InitialConditions, 3.5) = (-1400, 0, -490)`, and the sweep reports a
blocking hit on that segment, at `(-500, 0, -175)`. The flight time to the hit is
`-500 / (1000 - (-1) * (-500)) = -1`, the bounce makes active a record that starts at
`t0 = -1`, before the launch record it replaces, and the tick ends with that record. -/
theorem C26_counterexample :
    SweepOnSegment (SegmentWorld (5 / 14 : ℝ))
    ∧ (UpwardGravityShot Real.sqrt).InitialConditions.t0 = 0
    ∧ (UpwardGravityShot Real.sqrt).Body.Location
        = ComputeNewLocation (UpwardGravityShot Real.sqrt).SetTickConstants
            (UpwardGravityShot Real.sqrt).InitialConditions 0
    ∧ (UpwardGravityShot Real.sqrt).Body.Location
          + (5 / 14 : ℝ) • (ComputeNewLocation (UpwardGravityShot Real.sqrt).SetTickConstants
              (UpwardGravityShot Real.sqrt).InitialConditions (7 / 2)
            - (UpwardGravityShot Real.sqrt).Body.Location) = ⟨-500, 0, -175⟩
    ∧ ComputeTimeOfFlight Real.sqrt (UpwardGravityShot Real.sqrt).SetTickConstants
        ⟨-500, 0, -175⟩ = -1
    ∧ ∃ s', TickComponent ⟨Real.sqrt, Real.arccos, fun _ => ⟨0, 0, 0⟩, fun _ v => v⟩
          (SegmentWorld (5 / 14)) (7 / 2) 0 (UpwardGravityShot Real.sqrt) = some s'
        ∧ s'.Component.InitialConditions.t0 = -1
        ∧ s'.Component.InitialConditions.t0 < (UpwardGravityShot Real.sqrt).InitialConditions.t0
        ∧ s'.Component.InitialConditionHistory
            = (UpwardGravityShot Real.sqrt).InitialConditionHistory
              ++ [s'.Component.InitialConditions] := by
  obtain ⟨f1, f2, f3, f4, f5, f6, f7, f8, f9⟩ := UpwardGravityShot_facts
  have hNL : ComputeNewLocation (UpwardGravityShot Real.sqrt).SetTickConstants
      (UpwardGravityShot Real.sqrt).SetTickConstants.InitialConditions (7 / 2)
      = ⟨-1400, 0, -490⟩ := by
    rw [ComputeNewLocation_air _ _ (by rw [f2]; norm_num), f3, f4, f5, f6]
    norm_num
  have hloc : (UpwardGravityShot Real.sqrt).SetTickConstants.Body.Location
      + (5 / 14 : ℝ) • (ComputeNewLocation (UpwardGravityShot Real.sqrt).SetTickConstants
          (UpwardGravityShot Real.sqrt).SetTickConstants.InitialConditions (7 / 2)
        - (UpwardGravityShot Real.sqrt).SetTickConstants.Body.Location)
      = ⟨-500, 0, -175⟩ := by
    rw [hNL, f8]
    ext <;> norm_num
  have hF : ComputeTimeOfFlight Real.sqrt (UpwardGravityShot Real.sqrt).SetTickConstants
      ⟨-500, 0, -175⟩ = -1 := by
    rw [ComputeTimeOfFlight_air _ _ f1, f3, f5, f6]
    norm_num [abs_of_pos, abs_of_neg]
  have hV : ComputeVelocity Real.sqrt (UpwardGravityShot Real.sqrt).SetTickConstants (-1)
      = ⟨250, 0, -75⟩ := by
    rw [ComputeVelocity_air _ _ f1, f3, f4, f5]
    norm_num
  have hL : LaunchDeltaTimeOf (UpwardGravityShot Real.sqrt).SetTickConstants (7 / 2) 0
      (7 / 2 - 7 / 2) = 7 / 2 := by
    unfold LaunchDeltaTimeOf
    rw [f7]
    norm_num
  have hBV : (BounceVelocity ⟨Real.sqrt, Real.arccos, fun _ => ⟨0, 0, 0⟩, fun _ v => v⟩
      (UpwardGravityShot Real.sqrt).SetTickConstants (HitAt ⟨-500, 0, -175⟩ 1) (-1)).1
      = ⟨-150, 0, -75⟩ := by
    unfold BounceVelocity
    simp only [hV, f9]
    rw [AdjustDirection_slow _ (fun _ => rfl)]
    · simp only [HitAt, FVector.DotProduct]
      ext <;> norm_num
    · simp only [SetVelocity_Velocity, FVector.Size, HitAt, FVector.DotProduct, FVector.sub_X,
        FVector.sub_Y, FVector.sub_Z, FVector.smul_X, FVector.smul_Y, FVector.smul_Z]
      rw [Real.sqrt_le_iff]
      norm_num
    · simp only [HitAt, FVector.DotProduct, FVector.neg_X, FVector.neg_Y, FVector.neg_Z,
        FVector.sub_X, FVector.sub_Y, FVector.sub_Z, FVector.smul_X, FVector.smul_Y,
        FVector.smul_Z]
      norm_num
  have hslow : FVector.Size Real.sqrt
      (BounceVelocity ⟨Real.sqrt, Real.arccos, fun _ => ⟨0, 0, 0⟩, fun _ v => v⟩
        (UpwardGravityShot Real.sqrt).SetTickConstants (HitAt ⟨-500, 0, -175⟩ 1)
        (ComputeTimeOfFlight Real.sqrt (UpwardGravityShot Real.sqrt).SetTickConstants
          (HitAt (⟨-500, 0, -175⟩ : FVector ℝ) 1).Location)).1 < 500 := by
    have hl : (HitAt (⟨-500, 0, -175⟩ : FVector ℝ) 1).Location = ⟨-500, 0, -175⟩ := rfl
    rw [hl, hF, hBV]
    unfold FVector.Size
    rw [Real.sqrt_lt' (by norm_num)]
    norm_num
  have hsweep : DoSweep (SegmentWorld (5 / 14 : ℝ))
      (UpwardGravityShot Real.sqrt).SetTickConstants
      (UpwardGravityShot Real.sqrt).SetTickConstants.Body.Location
      (ComputeNewLocation (UpwardGravityShot Real.sqrt).SetTickConstants
        (UpwardGravityShot Real.sqrt).SetTickConstants.InitialConditions
        (LaunchDeltaTimeOf (UpwardGravityShot Real.sqrt).SetTickConstants (7 / 2) 0
          (7 / 2 - 7 / 2)))
      (if (UpwardGravityShot Real.sqrt).SetTickConstants.bRotationFollowsVelocity
          ∧ ¬ (FVector.IsNearlyZero (UpwardGravityShot Real.sqrt).SetTickConstants.Velocity
            0.01) then
        (⟨Real.sqrt, Real.arccos, fun _ => ⟨0, 0, 0⟩, fun _ v => v⟩ : FEngineMath ℝ).Rotation
            (UpwardGravityShot Real.sqrt).SetTickConstants.Velocity
          + ((UpwardGravityShot Real.sqrt).SetTickConstants.InitialConditions.InitialRotation
          + LaunchDeltaTimeOf (UpwardGravityShot Real.sqrt).SetTickConstants (7 / 2) 0
              (7 / 2 - 7 / 2)
            • (UpwardGravityShot Real.sqrt).SetTickConstants.AngularVelocity)
      else (UpwardGravityShot Real.sqrt).SetTickConstants.Body.Rotation) true
      = [HitAt ⟨-500, 0, -175⟩ 1] := by
    rw [hL, DoSweep_keep _ _ _ _ _ rfl]
    show [HitAt _ 1] = [HitAt ⟨-500, 0, -175⟩ 1]
    rw [hloc]
  obtain ⟨s1, hs1, hret, hnull, ht0, hhist⟩ := TickSubStep_slow_bounce
    ⟨Real.sqrt, Real.arccos, fun _ => ⟨0, 0, 0⟩, fun _ v => v⟩ (SegmentWorld (5 / 14))
    (7 / 2) 0 ⟨(UpwardGravityShot Real.sqrt).SetTickConstants, 7 / 2, 0, false⟩
    (HitAt ⟨-500, 0, -175⟩ 1) (by rw [hL]; norm_num) f1 rfl rfl rfl hsweep hslow
  have hl : (HitAt (⟨-500, 0, -175⟩ : FVector ℝ) 1).Location = ⟨-500, 0, -175⟩ := rfl
  have ht0' : s1.Component.InitialConditions.t0 = -1 := by
    rw [ht0, hl]
    show (UpwardGravityShot Real.sqrt).SetTickConstants.InitialConditions.t0
      + ComputeTimeOfFlight Real.sqrt (UpwardGravityShot Real.sqrt).SetTickConstants
        ⟨-500, 0, -175⟩ = -1
    rw [f7, hF]
    norm_num
  have htick : TickComponent ⟨Real.sqrt, Real.arccos, fun _ => ⟨0, 0, 0⟩, fun _ v => v⟩
      (SegmentWorld (5 / 14)) (7 / 2) 0 (UpwardGravityShot Real.sqrt) = some s1 := by
    unfold TickComponent
    rw [if_neg (by simp [HasStoppedSimulation, UpwardGravityShot, Launched, Construct]),
      if_neg (by simp [UpwardGravityShot, Launched, Construct]),
      TickLoop_continue _ _ _ _ 499 _ s1
        (TickLoopCondition_true _ (by norm_num) rfl rfl (by norm_num)) hs1 hret,
      TickLoop_stopped _ _ _ _ 499 s1 hnull]
  refine ⟨SweepOnSegment_SegmentWorld _ (by norm_num) (by norm_num), rfl, ?_, hloc, hF,
    s1, htick, ht0', ?_, hhist⟩
  · rw [ComputeNewLocation_zero]
    rfl
  · rw [ht0']
    show (-1 : ℝ) < 0
    norm_num

end URealisticProjectileComponent
